import Mathlib

/-!
# ReqCorder: the content-addressed record store and its history listing

A shallow embedding of `internal/record/record.go`, `internal/history/history.go`
and `pkg/utils/utils.go`, with the parts of the Go runtime they call
(`crypto/md5`, `encoding/hex`, `os`, `time`, `sort`) modelled next to them.

* byte slices are lists of byte values, strings are `String`;
* the filesystem is a tree of directories and regular files with owner
  permission bits; a path is the list of its components, and
  `filepath.Join(dir, name)` is `dir ++ [name]` (names are single components);
* Go errors are trees of sentinels so that `errors.Is` can be evaluated;
* the wall clock and the process-wide counter are explicit arguments.
-/

namespace ReqCorder

/-! ## Bytes and the content hasher (`pkg/utils/utils.go`, `crypto/md5`) -/

/-- A Go `[]byte`: every element is a byte value (below 256). -/
abbrev Bytes := List Nat

/-- The bytes of an ASCII string literal. -/
def asciiBytes (s : String) : Bytes := s.data.map Char.toNat

/-- Per-round left-rotation amounts of MD5 (RFC 1321). -/
def md5ShiftTable : List Nat :=
  [7, 12, 17, 22, 7, 12, 17, 22, 7, 12, 17, 22, 7, 12, 17, 22,
   5, 9, 14, 20, 5, 9, 14, 20, 5, 9, 14, 20, 5, 9, 14, 20,
   4, 11, 16, 23, 4, 11, 16, 23, 4, 11, 16, 23, 4, 11, 16, 23,
   6, 10, 15, 21, 6, 10, 15, 21, 6, 10, 15, 21, 6, 10, 15, 21]

/-- The sine-derived constants of MD5 (RFC 1321). -/
def md5SineTable : List Nat :=
  [0xd76aa478, 0xe8c7b756, 0x242070db, 0xc1bdceee, 0xf57c0faf, 0x4787c62a, 0xa8304613, 0xfd469501,
   0x698098d8, 0x8b44f7af, 0xffff5bb1, 0x895cd7be, 0x6b901122, 0xfd987193, 0xa679438e, 0x49b40821,
   0xf61e2562, 0xc040b340, 0x265e5a51, 0xe9b6c7aa, 0xd62f105d, 0x02441453, 0xd8a1e681, 0xe7d3fbc8,
   0x21e1cde6, 0xc33707d6, 0xf4d50d87, 0x455a14ed, 0xa9e3e905, 0xfcefa3f8, 0x676f02d9, 0x8d2a4c8a,
   0xfffa3942, 0x8771f681, 0x6d9d6122, 0xfde5380c, 0xa4beea44, 0x4bdecfa9, 0xf6bb4b60, 0xbebfbc70,
   0x289b7ec6, 0xeaa127fa, 0xd4ef3085, 0x04881d05, 0xd9d4d039, 0xe6db99e5, 0x1fa27cf8, 0xc4ac5665,
   0xf4292244, 0x432aff97, 0xab9423a7, 0xfc93a039, 0x655b59c3, 0x8f0ccc92, 0xffeff47d, 0x85845dd1,
   0x6fa87e4f, 0xfe2ce6e0, 0xa3014314, 0x4e0811a1, 0xf7537e82, 0xbd3af235, 0x2ad7d2bb, 0xeb86d391]

/-- Truncation to a 32-bit word. -/
def w32 (n : Nat) : Nat := n % 4294967296

/-- Bitwise complement of a 32-bit word. -/
def not32 (n : Nat) : Nat := 4294967295 - w32 n

/-- Left rotation of a 32-bit word by `k` bits. -/
def rotl32 (x k : Nat) : Nat :=
  w32 ((w32 x) * 2 ^ k) ||| (w32 x) / 2 ^ (32 - k)

/-- The four chaining words of MD5. -/
structure Md5State where
  a : Nat
  b : Nat
  c : Nat
  d : Nat
deriving Repr, DecidableEq

/-- Initial chaining value of MD5. -/
def md5Init : Md5State := ⟨0x67452301, 0xefcdab89, 0x98badcfe, 0x10325476⟩

/-- One of the 64 operations of the MD5 compression function on message words `m`. -/
def md5Step (m : List Nat) (st : Md5State) (i : Nat) : Md5State :=
  let f :=
    if i < 16 then (st.b &&& st.c) ||| (not32 st.b &&& st.d)
    else if i < 32 then (st.d &&& st.b) ||| (not32 st.d &&& st.c)
    else if i < 48 then st.b ^^^ st.c ^^^ st.d
    else st.c ^^^ (st.b ||| not32 st.d)
  let g :=
    if i < 16 then i
    else if i < 32 then (5 * i + 1) % 16
    else if i < 48 then (3 * i + 5) % 16
    else (7 * i) % 16
  let f2 := w32 (f + st.a + md5SineTable.getD i 0 + m.getD g 0)
  ⟨st.d, w32 (st.b + rotl32 f2 (md5ShiftTable.getD i 0)), st.b, st.c⟩

/-- Little-endian value of a run of bytes. -/
def leWord (bs : List Nat) : Nat :=
  bs.foldr (fun b acc => b % 256 + 256 * acc) 0

/-- The first `n` little-endian 32-bit words of a block. -/
def chunkWords : Nat → Bytes → List Nat
  | 0, _ => []
  | n + 1, bs => leWord (bs.take 4) :: chunkWords n (bs.drop 4)

/-- The MD5 compression function on one 64-byte block. -/
def md5Block (st : Md5State) (block : Bytes) : Md5State :=
  let m := chunkWords 16 block
  let r := (List.range 64).foldl (md5Step m) st
  ⟨w32 (st.a + r.a), w32 (st.b + r.b), w32 (st.c + r.c), w32 (st.d + r.d)⟩

/-- The `n` low-order bytes of `x`, least significant first. -/
def leBytes : Nat → Nat → Bytes
  | 0, _ => []
  | n + 1, x => x % 256 :: leBytes n (x / 256)

/-- MD5 padding: a `0x80` byte, zeros up to 56 mod 64, then the bit length on 64 bits. -/
def md5Pad (msg : Bytes) : Bytes :=
  let len := msg.length
  let zeros := (55 + 64 - len % 64) % 64
  msg ++ [128] ++ List.replicate zeros 0 ++ leBytes 8 ((8 * len) % 18446744073709551616)

/-- Fold of the compression function over `n` consecutive blocks. -/
def md5Blocks : Nat → Md5State → Bytes → Md5State
  | 0, st, _ => st
  | n + 1, st, bs => md5Blocks n (md5Block st (bs.take 64)) (bs.drop 64)

/-- Go's `md5.Sum`: the 16-byte MD5 digest. -/
def md5Sum (msg : Bytes) : Bytes :=
  let p := md5Pad msg
  let st := md5Blocks (p.length / 64) md5Init p
  leBytes 4 st.a ++ leBytes 4 st.b ++ leBytes 4 st.c ++ leBytes 4 st.d

/-- One lower-case hexadecimal digit. -/
def hexDigit (n : Nat) : Char := "0123456789abcdef".data.getD n '0'

/-- Go's `hex.EncodeToString`. -/
def hexEncodeToString (bs : Bytes) : String :=
  String.mk (bs.flatMap (fun b => [hexDigit (b / 16 % 16), hexDigit (b % 16)]))

/-- `utils.CalculateMD5Hash`: hex of the MD5 digest of `content`. -/
def CalculateMD5Hash (content : Bytes) : String :=
  hexEncodeToString (md5Sum content)

/-! ## Errors (the `errors.go` of `record`, `utils`, `request`, `initiator`, `diff`, `history`, `main`) -/

/-- The error numbers the filesystem model can report. -/
inductive Errno where
  | ENOENT
  | EACCES
  | ENOTDIR
  | EISDIR
  | EEXIST
deriving DecidableEq, Repr

/-- The package-level sentinel errors of the repository. -/
inductive Sentinel where
  | ErrorFailedToConvertRequest
  | ErrorFailedToConvertResponse
  | ErrorFailedToRecord
  | ErrorFailedToStatPath
  | ErrorPathIsNotDirectory
  | ErrorFailedToReadDirectory
  | ErrorFailedToGetRequest
  | ErrorFailedToGetResponse
  | ErrorFailedToGetTemplate
  | ErrorFailedToReadFile
  | ErrorFailedToUnmarshalYAML
  | ErrorFailedToMarshalJSON
  | ErrorFailedToMarshalYAML
  | ErrorFailedToCreateDirectory
  | ErrorFailedToParseTimestamp
  | ErrorInvalidURL
  | ErrorInvalidMethod
  | ErrorUnsupportedType
  | ErrorFailedToConvertBodyVar
  | ErrorFailedToCreateCookieJar
  | ErrorFailedToBuildRequest
  | ErrorFailedToReadCert
  | ErrorRequestFailed
  | ErrorFailedToReadResponse
  | ErrorFailedToRenderDiff
  | ErrorInvalidDiffType
  | ErrorInvalidUsage
  | ErrorFailedToReadHomeDirectory
  | ErrorInvalidShowType
  | ErrorInvalidListType
  | ErrorFailedToOpenLogFile
deriving DecidableEq, Repr

/-- A Go error value, kept as the tree that `errors.Is` walks.
`wrapf w shown` is `fmt.Errorf` with one `%w` operand `w`; an error printed
with `%v` (`shown`) contributes text only. `join a b` is `errors.Join(a, b)`. -/
inductive GoError where
  | sentinel (s : Sentinel)
  | pathError (e : Errno)
  | library (msg : String)
  | wrapf (w : GoError) (shown : Option GoError)
  | join (a b : GoError)
deriving Repr

/-- Go's `errors.Is(err, target)` for a sentinel target. -/
def GoError.Is : GoError → Sentinel → Bool
  | .sentinel s, t => decide (s = t)
  | .pathError _, _ => false
  | .library _, _ => false
  | .wrapf w _, t => w.Is t
  | .join a b, t => a.Is t || b.Is t

/-- The result of a Go call that may return a value, return an error, or panic. -/
inductive Outcome (α : Type) where
  | ok (v : α)
  | error (e : GoError)
  | panicked (msg : String)
deriving Repr

/-! ## Filesystem (`os.Stat`, `os.ReadDir`, `os.ReadFile`, `os.WriteFile`, `os.MkdirAll`) -/

/-- Owner permission bits of a filesystem node. -/
structure Perm where
  r : Bool
  w : Bool
  x : Bool
deriving DecidableEq, Repr

/-- A filesystem node: a regular file with its modification time and content,
or a directory with its entries. Directory modification times are not kept:
the repository never reads them. -/
inductive Node where
  | file (perm : Perm) (modTime : Nat) (content : Bytes)
  | dir (perm : Perm) (entries : List (String × Node))
deriving Repr

/-- A path, as the list of its components below the filesystem root. -/
abbrev Path := List String

/-- The entries of a directory. -/
abbrev Entries := List (String × Node)

/-- Whether a node is a directory. -/
def Node.isDir : Node → Bool
  | .file _ _ _ => false
  | .dir _ _ => true

/-- The entry called `name`, if any. -/
def lookupEntry (name : String) : Entries → Option Node
  | [] => none
  | (k, v) :: rest => if k = name then some v else lookupEntry name rest

/-- Replace the node of the entry called `name`. -/
def replaceEntry (name : String) (n : Node) : Entries → Entries
  | [] => []
  | (k, v) :: rest =>
    if k = name then (k, n) :: rest else (k, v) :: replaceEntry name n rest

/-- Byte-wise order on names (the order in which `os.ReadDir` lists a directory). -/
def nameLt (a b : String) : Bool := decide (a.data < b.data)

/-- Add a new entry at its place in name order. -/
def insertEntry (name : String) (n : Node) : Entries → Entries
  | [] => [(name, n)]
  | (k, v) :: rest =>
    if nameLt name k then (name, n) :: (k, v) :: rest
    else (k, v) :: insertEntry name n rest

/-- The node at a path, permissions aside. -/
def Node.find : Node → Path → Option Node
  | n, [] => some n
  | .file _ _ _, _ :: _ => none
  | .dir _ es, name :: rest =>
    match lookupEntry name es with
    | some c => c.find rest
    | none => none

/-- Path resolution as the kernel does it: every directory walked through
must be searchable. -/
def resolve : Node → Path → Except Errno Node
  | n, [] => .ok n
  | .file _ _ _, _ :: _ => .error .ENOTDIR
  | .dir perm es, name :: rest =>
    if perm.x then
      match lookupEntry name es with
      | some c => resolve c rest
      | none => .error .ENOENT
    else .error .EACCES

/-- What the repository reads from an `os.FileInfo`. -/
structure StatInfo where
  IsDir : Bool
  ModTime : Nat
deriving DecidableEq, Repr

/-- The `os.FileInfo` of a node. -/
def Node.info : Node → StatInfo
  | .file _ t _ => ⟨false, t⟩
  | .dir _ _ => ⟨true, 0⟩

/-- Go's `os.Stat`. -/
def Stat (fs : Node) (p : Path) : Except Errno StatInfo :=
  match resolve fs p with
  | .ok n => .ok n.info
  | .error e => .error e

/-- What the repository reads from an `os.DirEntry`. -/
structure DirEntry where
  Name : String
  IsDir : Bool
deriving DecidableEq, Repr

/-- Go's `os.ReadDir`: the entries of a readable directory. -/
def ReadDir (fs : Node) (p : Path) : Except Errno (List DirEntry) :=
  match resolve fs p with
  | .ok (.dir perm es) =>
    if perm.r then .ok (es.map (fun e => ⟨e.1, e.2.isDir⟩)) else .error .EACCES
  | .ok (.file _ _ _) => .error .ENOTDIR
  | .error e => .error e

/-- Go's `os.ReadFile`: the content of a readable regular file. -/
def osReadFile (fs : Node) (p : Path) : Except Errno Bytes :=
  match resolve fs p with
  | .ok (.file perm _ content) => if perm.r then .ok content else .error .EACCES
  | .ok (.dir _ _) => .error .EISDIR
  | .error e => .error e

/-- Rewrite the entries of the directory at `p` with `f`, which may refuse. -/
def updateDir (f : Perm → Entries → Except Errno Entries) : Node → Path → Except Errno Node
  | .file _ _ _, _ => .error .ENOTDIR
  | .dir perm es, [] =>
    match f perm es with
    | .ok es' => .ok (.dir perm es')
    | .error e => .error e
  | .dir perm es, name :: rest =>
    if perm.x then
      match lookupEntry name es with
      | some c =>
        match updateDir f c rest with
        | .ok c' => .ok (.dir perm (replaceEntry name c' es))
        | .error e => .error e
      | none => .error .ENOENT
    else .error .EACCES

/-- Permission bits of a directory made with mode `0755`. -/
def dirPerm : Perm := ⟨true, true, true⟩

/-- Permission bits of a file made with mode `0644`. -/
def filePerm : Perm := ⟨true, true, false⟩

/-- The entry rewrite of `mkdir(2)` for a new directory `name`. -/
def mkdirEntry (name : String) (perm : Perm) (es : Entries) : Except Errno Entries :=
  if perm.x then
    match lookupEntry name es with
    | some _ => .error .EEXIST
    | none => if perm.w then .ok (insertEntry name (.dir dirPerm []) es) else .error .EACCES
  else .error .EACCES

/-- Go's `os.Mkdir(filepath.Join(parent, name), 0755)`. -/
def Mkdir (fs : Node) (parent : Path) (name : String) : Except Errno Node :=
  updateDir (mkdirEntry name) fs parent

/-- Go's `os.MkdirAll` on the path whose components, last first, are given:
stat the path; when that fails make the parent, then the directory itself.
Returns the error, if any, and the filesystem it leaves. -/
def MkdirAllRev (fs : Node) : List String → Option Errno × Node
  | [] => if fs.isDir then (none, fs) else (some .ENOTDIR, fs)
  | name :: parentRev =>
    match Stat fs (parentRev.reverse ++ [name]) with
    | .ok info => if info.IsDir then (none, fs) else (some .ENOTDIR, fs)
    | .error _ =>
      match MkdirAllRev fs parentRev with
      | (some e, fs1) => (some e, fs1)
      | (none, fs1) =>
        match Mkdir fs1 parentRev.reverse name with
        | .ok fs2 => (none, fs2)
        | .error e =>
          match Stat fs1 (parentRev.reverse ++ [name]) with
          | .ok info => if info.IsDir then (none, fs1) else (some e, fs1)
          | .error _ => (some e, fs1)

/-- Go's `os.MkdirAll(path, 0755)`. -/
def MkdirAll (fs : Node) (p : Path) : Option Errno × Node :=
  MkdirAllRev fs p.reverse

/-- The entry rewrite of `open(O_WRONLY|O_CREATE|O_TRUNC)` followed by the write:
an existing writable file is overwritten, a missing one is created. -/
def writeEntry (name : String) (data : Bytes) (now : Nat) (perm : Perm) (es : Entries) :
    Except Errno Entries :=
  if perm.x then
    match lookupEntry name es with
    | some (.file fperm _ _) =>
      if fperm.w then .ok (replaceEntry name (.file fperm now data) es) else .error .EACCES
    | some (.dir _ _) => .error .EISDIR
    | none =>
      if perm.w then .ok (insertEntry name (.file filePerm now data) es) else .error .EACCES
  else .error .EACCES

/-- Go's `os.WriteFile(filepath.Join(parent, name), data, 0644)` at clock reading `now`. -/
def WriteFile (fs : Node) (parent : Path) (name : String) (data : Bytes) (now : Nat) :
    Except Errno Node :=
  updateDir (writeEntry name data now) fs parent

/-- `utils.EnsureDir`: the error, if any, and the filesystem left behind. -/
def EnsureDir (fs : Node) (p : Path) : Option GoError × Node :=
  match MkdirAll fs p with
  | (none, fs') => (none, fs')
  | (some e, fs') =>
    (some (.wrapf (.sentinel .ErrorFailedToCreateDirectory) (some (.pathError e))), fs')

/-- `utils.ReadFile`. -/
def ReadFile (fs : Node) (p : Path) : Except GoError Bytes :=
  match osReadFile fs p with
  | .ok content => .ok content
  | .error e => .error (.wrapf (.sentinel .ErrorFailedToReadFile) (some (.pathError e)))

/-! ## Strings (`strings.HasSuffix`, `strings.TrimSuffix`) -/

/-- Go's `strings.HasSuffix`. -/
def HasSuffix (s suffix : String) : Bool := suffix.data.isSuffixOf s.data

/-- Go's `strings.TrimSuffix`. -/
def TrimSuffix (s suffix : String) : String :=
  if HasSuffix s suffix then ⟨s.data.take (s.data.length - suffix.data.length)⟩ else s

/-! ## Paths (`filepath.Join`, `filepath.Clean`) -/

/-- The segments of a slash-separated path, the empty ones included. -/
def splitSlash : List Char → List (List Char)
  | [] => [[]]
  | c :: cs =>
    match splitSlash cs with
    | [] => [[c]]
    | seg :: rest => if c = '/' then [] :: seg :: rest else (c :: seg) :: rest

/-- The lexical processing of Go's `filepath.Clean`, component by component:
`acc` holds the components kept so far, last first. An empty component and
`.` are dropped, `..` removes the component before it; at the root of the
model, which has no parent, `..` is dropped. -/
def cleanRev : List String → List String → List String
  | acc, [] => acc
  | acc, c :: cs =>
    if c = "" ∨ c = "." then cleanRev acc cs
    else if c = ".." then cleanRev acc.tail cs
    else cleanRev (c :: acc) cs

/-- Go's `filepath.Join(dir, elems...)` for a directory `dir` that is already
a clean path: the elements are joined with slashes, so a slash inside an
element separates components, and the result is cleaned. -/
def filepath.Join (dir : Path) (elems : List String) : Path :=
  (cleanRev dir.reverse
    (elems.flatMap (fun elem => (splitSlash elem.data).map String.mk))).reverse

/-! ## Time (`time.Time.Format`, `time.Parse`) -/

/-- A UTC clock reading, as the calendar fields `Time.Date`, `Time.Clock` and
`Time.Nanosecond` return them. -/
structure Instant where
  year : Nat
  month : Nat
  day : Nat
  hour : Nat
  minute : Nat
  second : Nat
  nanosecond : Nat
deriving DecidableEq, Repr

/-- The decimal digit character of `d % 10`. -/
def digitChar (d : Nat) : Char := Char.ofNat (48 + d % 10)

/-- The `width` low-order decimal digits of `x`, most significant first. -/
def padDigits : Nat → Nat → List Char
  | 0, _ => []
  | w + 1, x => padDigits w (x / 10) ++ [digitChar x]

/-- Go's `appendInt` of package `time` for a non-negative number: decimal,
zero-padded to at least `width` digits. -/
def appendInt (x width : Nat) : List Char :=
  if 0 < width ∧ x < 10 ^ width then padDigits width x else Nat.toDigits 10 x

/-- The layout elements `nextStdChunk` tells apart. The month-name,
weekday-name, AM/PM and zone elements are left out: no layout of the
repository holds one (they start with `J`, `M`, `P`, `p`, `Z` or `-07`). -/
inductive StdChunk where
  | stdLongYear
  | stdYear
  | stdZeroMonth
  | stdNumMonth
  | stdZeroDay
  | stdDay
  | stdUnderDay
  | stdHour
  | stdHour12
  | stdZeroHour12
  | stdMinute
  | stdZeroMinute
  | stdSecond
  | stdZeroSecond
  | stdZeroYearDay
  | stdUnderYearDay
  | stdFracSecond0 (sep : Char) (n : Nat)
  | stdFracSecond9 (sep : Char) (n : Nat)
deriving DecidableEq, Repr

/-- Whether a character is a decimal digit. -/
def isDigitChar (c : Char) : Bool := decide ('0' ≤ c) && decide (c ≤ '9')

/-- The table `std0x` of `time/format.go`: the element named by `0` and a digit `1`..`6`. -/
def std0x (d : Char) : StdChunk :=
  if d = '1' then .stdZeroMonth
  else if d = '2' then .stdZeroDay
  else if d = '3' then .stdZeroHour12
  else if d = '4' then .stdZeroMinute
  else if d = '5' then .stdZeroSecond
  else .stdYear

/-- The layout element that starts at the head of the layout, if one does:
the literal text it carries along, the element, and the layout after it.
These are the cases of the `switch` in `nextStdChunk`. -/
def stdChunkAt (l : List Char) : Option (List Char × StdChunk × List Char) :=
  match l with
  | [] => none
  | c :: r =>
    if c = '0' then
      match r with
      | [] => none
      | d :: r2 =>
        if decide ('1' ≤ d) && decide (d ≤ '6') then some ([], std0x d, r2)
        else
          match r2 with
          | [] => none
          | e :: r3 => if d = '0' ∧ e = '2' then some ([], .stdZeroYearDay, r3) else none
    else if c = '1' then
      match r with
      | d :: r2 => if d = '5' then some ([], .stdHour, r2) else some ([], .stdNumMonth, r)
      | [] => some ([], .stdNumMonth, r)
    else if c = '2' then
      if r.take 3 = ['0', '0', '6'] then some ([], .stdLongYear, r.drop 3)
      else some ([], .stdDay, r)
    else if c = '_' then
      match r with
      | [] => none
      | d :: r2 =>
        if d = '2' then
          if r2.take 3 = ['0', '0', '6'] then some (['_'], .stdLongYear, r2.drop 3)
          else some ([], .stdUnderDay, r2)
        else if d = '_' then
          match r2 with
          | e :: r3 => if e = '2' then some ([], .stdUnderYearDay, r3) else none
          | [] => none
        else none
    else if c = '3' then some ([], .stdHour12, r)
    else if c = '4' then some ([], .stdMinute, r)
    else if c = '5' then some ([], .stdSecond, r)
    else if c = '.' ∨ c = ',' then
      match r with
      | [] => none
      | d :: _ =>
        if d = '0' ∨ d = '9' then
          let run := r.takeWhile (fun e => decide (e = d))
          let rest := r.dropWhile (fun e => decide (e = d))
          match rest with
          | e :: _ =>
            if isDigitChar e then none
            else some ([], if d = '0' then .stdFracSecond0 c run.length
                           else .stdFracSecond9 c run.length, rest)
          | [] => some ([], if d = '0' then .stdFracSecond0 c run.length
                            else .stdFracSecond9 c run.length, rest)
        else none
    else none

/-- Go's `nextStdChunk`: the literal text before the first layout element,
that element (none when the layout holds no further element), and the rest. -/
def nextStdChunk : List Char → List Char × Option StdChunk × List Char
  | [] => ([], none, [])
  | c :: r =>
    match stdChunkAt (c :: r) with
    | some (lit, std, rest) => (lit, some std, rest)
    | none =>
      match nextStdChunk r with
      | (p, std, rest) => (c :: p, std, rest)

/-- Leap years of the Gregorian calendar. -/
def isLeap (y : Nat) : Bool := y % 4 == 0 && (y % 100 != 0 || y % 400 == 0)

/-- Days of a non-leap year before the first of the month. -/
def daysBefore (month : Nat) : Nat :=
  [0, 31, 59, 90, 120, 151, 181, 212, 243, 273, 304, 334, 365].getD (month - 1) 0

/-- Go's `daysIn`. -/
def daysIn (month year : Nat) : Nat :=
  if month = 2 ∧ isLeap year = true then 29 else daysBefore (month + 1) - daysBefore month

/-- Day of the year, counted from 1. -/
def Instant.yearDay (t : Instant) : Nat :=
  daysBefore t.month + t.day + (if isLeap t.year = true ∧ 2 < t.month then 1 else 0)

/-- Go's `appendNano`: the fractional-second element with `n` digits. -/
def appendNano (nanosec : Nat) (sep : Char) (n : Nat) (trim : Bool) : List Char :=
  let ds := (padDigits 9 nanosec).take n
  if trim then
    if n = 0 ∨ nanosec = 0 then []
    else
      let kept := (ds.reverse.dropWhile (fun c => decide (c = '0'))).reverse
      if kept = [] then [] else sep :: kept
  else sep :: ds

/-- What `Time.AppendFormat` writes for one layout element. -/
def formatChunk (t : Instant) : StdChunk → List Char
  | .stdLongYear => appendInt t.year 4
  | .stdYear => appendInt (t.year % 100) 2
  | .stdZeroMonth => appendInt t.month 2
  | .stdNumMonth => appendInt t.month 0
  | .stdZeroDay => appendInt t.day 2
  | .stdDay => appendInt t.day 0
  | .stdUnderDay => (if t.day < 10 then [' '] else []) ++ appendInt t.day 0
  | .stdHour => appendInt t.hour 2
  | .stdHour12 => appendInt (if t.hour % 12 = 0 then 12 else t.hour % 12) 0
  | .stdZeroHour12 => appendInt (if t.hour % 12 = 0 then 12 else t.hour % 12) 2
  | .stdMinute => appendInt t.minute 0
  | .stdZeroMinute => appendInt t.minute 2
  | .stdSecond => appendInt t.second 0
  | .stdZeroSecond => appendInt t.second 2
  | .stdZeroYearDay => appendInt t.yearDay 3
  | .stdUnderYearDay =>
    (if t.yearDay < 100 then [' '] else []) ++ (if t.yearDay < 10 then [' '] else [])
      ++ appendInt t.yearDay 0
  | .stdFracSecond0 sep n => appendNano t.nanosecond sep n false
  | .stdFracSecond9 sep n => appendNano t.nanosecond sep n true

/-- The loop of `Time.AppendFormat`: literal text is copied, elements are rendered. -/
def formatAux (t : Instant) : Nat → List Char → List Char
  | 0, _ => []
  | fuel + 1, layout =>
    match nextStdChunk layout with
    | (lit, none, _) => lit
    | (lit, some std, rest) => lit ++ formatChunk t std ++ formatAux t fuel rest

/-- Go's `Time.Format` on a UTC time. Every round of the loop consumes part of
the layout, so its length bounds the number of rounds. -/
def Format (t : Instant) (layout : String) : String :=
  ⟨formatAux t (layout.data.length + 1) layout.data⟩

/-- Go's `getnum`: one or two decimal digits, exactly two when `fixed`. -/
def getnum (s : List Char) (fixed : Bool) : Option (Nat × List Char) :=
  match s with
  | [] => none
  | a :: rest =>
    if isDigitChar a then
      match rest with
      | [] => if fixed then none else some (a.toNat - 48, [])
      | b :: rest2 =>
        if isDigitChar b then some ((a.toNat - 48) * 10 + (b.toNat - 48), rest2)
        else if fixed then none else some (a.toNat - 48, rest)
    else none

/-- The value of a run of decimal digits. -/
def digitsValue (ds : List Char) : Nat :=
  ds.foldl (fun acc c => acc * 10 + (c.toNat - 48)) 0

/-- Go's `skip`: the literal text of the layout must stand at the head of the
value; a run of spaces in the layout matches any run of spaces. -/
def skipAux : Nat → List Char → List Char → Option (List Char)
  | 0, _, _ => none
  | _ + 1, value, [] => some value
  | fuel + 1, value, c :: lit =>
    if c = ' ' then
      match value with
      | v :: _ =>
        if v = ' ' then
          skipAux fuel (value.dropWhile (fun e => decide (e = ' ')))
            (lit.dropWhile (fun e => decide (e = ' ')))
        else none
      | [] => skipAux fuel [] (lit.dropWhile (fun e => decide (e = ' ')))
    else
      match value with
      | v :: rest => if v = c then skipAux fuel rest lit else none
      | [] => none

/-- Go's `skip`. -/
def skip (value lit : List Char) : Option (List Char) :=
  skipAux (lit.length + 1) value lit

/-- The fields `time.Parse` fills while it walks the layout. -/
structure ParseFields where
  year : Nat
  month : Option Nat
  day : Option Nat
  hour : Nat
  minute : Nat
  second : Nat
  nanosecond : Nat
deriving DecidableEq, Repr

/-- What `time.Parse` does with one layout element: the fields and the value
left, or none when the value is malformed or out of range. Only the elements
of the repository's parse layout are read; any other element is refused. -/
def parseChunk (std : StdChunk) (layoutRest : List Char) (f : ParseFields)
    (value : List Char) : Option (ParseFields × List Char) :=
  match std with
  | .stdLongYear =>
    if 4 ≤ value.length ∧ (value.take 4).all isDigitChar = true then
      some ({ f with year := digitsValue (value.take 4) }, value.drop 4)
    else none
  | .stdZeroMonth =>
    match getnum value true with
    | some (m, rest) => if m = 0 ∨ 12 < m then none else some ({ f with month := some m }, rest)
    | none => none
  | .stdZeroDay =>
    match getnum value true with
    | some (d, rest) => some ({ f with day := some d }, rest)
    | none => none
  | .stdHour =>
    match getnum value false with
    | some (h, rest) => if 24 ≤ h then none else some ({ f with hour := h }, rest)
    | none => none
  | .stdZeroMinute =>
    match getnum value true with
    | some (m, rest) => if 60 ≤ m then none else some ({ f with minute := m }, rest)
    | none => none
  | .stdZeroSecond =>
    match getnum value true with
    | some (sec, rest) =>
      if 60 ≤ sec then none
      else
        match rest with
        | c :: d :: _ =>
          if (c = '.' ∨ c = ',') ∧ isDigitChar d = true then
            match (nextStdChunk layoutRest).2.1 with
            | some (.stdFracSecond0 _ _) => some ({ f with second := sec }, rest)
            | some (.stdFracSecond9 _ _) => some ({ f with second := sec }, rest)
            | _ =>
              let ds := (rest.tail.takeWhile isDigitChar).take 9
              some ({ f with second := sec, nanosecond := digitsValue ds * 10 ^ (9 - ds.length) },
                rest.tail.dropWhile isDigitChar)
          else some ({ f with second := sec }, rest)
        | _ => some ({ f with second := sec }, rest)
    | none => none
  | _ => none

/-- The loop of `time.Parse`: skip the literal text, read the element, go on
with the rest of the layout; at the end of the layout no text may be left. -/
def parseAux : Nat → List Char → ParseFields → List Char → Option ParseFields
  | 0, _, _, _ => none
  | fuel + 1, layout, f, value =>
    match nextStdChunk layout with
    | (lit, none, _) =>
      match skip value lit with
      | some [] => some f
      | _ => none
    | (lit, some std, rest) =>
      match skip value lit with
      | some v =>
        match parseChunk std rest f v with
        | some (f2, v2) => parseAux fuel rest f2 v2
        | none => none
      | none => none

/-- Go's `time.Parse` (location UTC): the parsed time, or none for the
`*time.ParseError` it returns. -/
def Parse (layout value : String) : Option Instant :=
  match parseAux (layout.data.length + 1) layout.data ⟨0, none, none, 0, 0, 0, 0⟩ value.data with
  | some f =>
    let month := f.month.getD 1
    let day := f.day.getD 1
    if day < 1 ∨ daysIn month f.year < day then none
    else some ⟨f.year, month, day, f.hour, f.minute, f.second, f.nanosecond⟩
  | none => none

/-- The layout of the repository for the timestamp of a response ID. -/
def responseIDLayout : String := "20060102_150405_000"

/-! ## Artifacts (`internal/request/types.go`, `internal/response/types.go`) -/

/-- `request.RequestObject`. A `map[string]string` is kept as its list of
pairs, the `float64` timeout as a rational; the cookie jar, a handle of
`net/http/cookiejar` that is never serialized, is left out. -/
structure RequestObject where
  TemplateHash : String := ""
  URL : String := ""
  Method : String := ""
  Headers : List (String × String) := []
  Cookies : List (String × String) := []
  Auth : String := ""
  AuthType : String := ""
  AuthHeaderName : String := ""
  UserAgent : String := ""
  Body : String := ""
  Timeout : Int := 0
  TimeoutSeconds : ℚ := 0
  BodyVars : List (String × String) := []
  SSLVerify : Option Bool := none
  CACertPath : String := ""
deriving DecidableEq, Repr

/-- `response.ResponseTimes`: clock readings and durations in nanoseconds. -/
structure ResponseTimes where
  DNSStart : Nat := 0
  DNSDone : Nat := 0
  ConnectStart : Nat := 0
  ConnectDone : Nat := 0
  TLSHandshakeStart : Nat := 0
  TLSHandshakeDone : Nat := 0
  GotFirstResponseByte : Nat := 0
  DNSLookup : Int := 0
  TCPConnect : Int := 0
  TLSHandshake : Int := 0
  FirstByte : Int := 0
  Total : Int := 0
deriving DecidableEq, Repr

/-- `response.ResponseObject`; a cookie is kept as its name and value. -/
structure ResponseObject where
  RequestHash : String := ""
  TemplateHash : String := ""
  StatusCode : Int := 0
  Headers : List (String × String) := []
  Body : String := ""
  Size : Int := 0
  Timing : ResponseTimes := {}
  Cookies : List (String × String) := []
deriving DecidableEq, Repr

/-- The YAML library (`github.com/goccy/go-yaml`) as the repository uses it:
`yaml.Marshal` and `yaml.Unmarshal` at the two artifact types. -/
structure YamlLib where
  marshalRequest : RequestObject → Except GoError Bytes
  marshalResponse : ResponseObject → Except GoError Bytes
  unmarshalRequest : Bytes → Except GoError RequestObject
  unmarshalResponse : Bytes → Except GoError ResponseObject

/-- `utils.ConvertToYAML`, given `yaml.Marshal` at the type of the argument. -/
def ConvertToYAML {α : Type} (marshal : α → Except GoError Bytes) (r : α) :
    Except GoError Bytes :=
  match marshal r with
  | .ok obj => .ok obj
  | .error e => .error (.wrapf (.sentinel .ErrorFailedToMarshalYAML) (some e))

/-- `utils.ReadYAMLFile`, given `yaml.Unmarshal` at the type of the target. -/
def ReadYAMLFile {α : Type} (unmarshal : Bytes → Except GoError α) (fs : Node) (file : Path) :
    Except GoError α :=
  match osReadFile fs file with
  | .error e => .error (.wrapf (.sentinel .ErrorFailedToReadFile) (some (.pathError e)))
  | .ok yamlFile =>
    match unmarshal yamlFile with
    | .ok v => .ok v
    | .error e => .error (.wrapf (.sentinel .ErrorFailedToUnmarshalYAML) (some e))

/-! ## The record store: write path (`internal/record/record.go`) -/

/-- `record.RecordStore`; a nil `Request` or `Response` pointer is `none`. -/
structure RecordStore where
  RecordStorePath : Path := []
  TemplateYaml : Bytes := []
  RequestYaml : Bytes := []
  ResponseYaml : Bytes := []
  Request : Option RequestObject := none
  Response : Option ResponseObject := none
  TemplateHash : String := ""
  RequestHash : String := ""
  ResponseID : String := ""
deriving DecidableEq, Repr

/-- `record.FileInfo`. -/
structure FileInfo where
  ResponseID : String := ""
  RequestHash : String := ""
  TemplateHash : String := ""
  FilePath : Path := []
  ModTime : Nat := 0
deriving DecidableEq, Repr

/-- What a process shares between calls: the filesystem and the package
variable `globalExecutionCounter`. -/
structure World where
  fs : Node
  globalExecutionCounter : Nat

/-- `RecordStore.generateResponseID` at clock reading `now`: the counter is an
`atomic.Uint64`, `Add(1)` returns the new value. Gives the ID and the counter. -/
def generateResponseID (now : Instant) (counterBefore : Nat) : String × Nat :=
  let counter := (counterBefore + 1) % 18446744073709551616
  (Format now responseIDLayout ++ "_" ++ String.mk (appendInt (counter % 10000) 4), counter)

/-- Path of the template file of a store. -/
def RecordStore.templatePath (r : RecordStore) : Path :=
  r.RecordStorePath ++ ["templates"] ++ [r.TemplateHash ++ ".yaml"]

/-- Path of the request file of a store. -/
def RecordStore.requestPath (r : RecordStore) : Path :=
  r.RecordStorePath ++ ["requests", r.TemplateHash] ++ [r.RequestHash ++ ".yaml"]

/-- Path of the response file of a store. -/
def RecordStore.responsePath (r : RecordStore) : Path :=
  r.RecordStorePath ++ ["responses", r.RequestHash] ++ [r.ResponseID ++ ".yaml"]

/-- `RecordStore.recordTemplate`, the write stamped `now`: the returned
error (none for nil) and the filesystem left behind. -/
def RecordStore.recordTemplate (r : RecordStore) (now : Nat) (fs : Node) :
    Option GoError × Node :=
  let templateDir := r.RecordStorePath ++ ["templates"]
  match EnsureDir fs templateDir with
  | (some err, fs1) => (some (.join (.sentinel .ErrorFailedToRecord) err), fs1)
  | (none, fs1) =>
    match WriteFile fs1 templateDir (r.TemplateHash ++ ".yaml") r.TemplateYaml now with
    | .error e => (some (.wrapf (.sentinel .ErrorFailedToRecord) (some (.pathError e))), fs1)
    | .ok fs2 => (none, fs2)

/-- `RecordStore.recordRequest`, the write stamped `now`. -/
def RecordStore.recordRequest (r : RecordStore) (now : Nat) (fs : Node) :
    Option GoError × Node :=
  let requestDir := r.RecordStorePath ++ ["requests", r.TemplateHash]
  match EnsureDir fs requestDir with
  | (some err, fs1) => (some (.join (.sentinel .ErrorFailedToRecord) err), fs1)
  | (none, fs1) =>
    match WriteFile fs1 requestDir (r.RequestHash ++ ".yaml") r.RequestYaml now with
    | .error e => (some (.wrapf (.sentinel .ErrorFailedToRecord) (some (.pathError e))), fs1)
    | .ok fs2 => (none, fs2)

/-- `RecordStore.recordResponse`: the ID is generated from the clock reading
`clock` once the directory is there; the write is stamped `now`. -/
def RecordStore.recordResponse (r : RecordStore) (clock : Instant) (now : Nat) (w : World) :
    Option GoError × RecordStore × World :=
  let responseDir := r.RecordStorePath ++ ["responses", r.RequestHash]
  match EnsureDir w.fs responseDir with
  | (some err, fs1) =>
    (some (.join (.sentinel .ErrorFailedToRecord) err), r, { w with fs := fs1 })
  | (none, fs1) =>
    let gen := generateResponseID clock w.globalExecutionCounter
    let r1 := { r with ResponseID := gen.1 }
    match WriteFile fs1 responseDir (gen.1 ++ ".yaml") r.ResponseYaml now with
    | .error e =>
      (some (.wrapf (.sentinel .ErrorFailedToRecord) (some (.pathError e))), r1,
        { fs := fs1, globalExecutionCounter := gen.2 })
    | .ok fs2 => (none, r1, { fs := fs2, globalExecutionCounter := gen.2 })

/-- The three write tasks `Record` starts. -/
inductive Task where
  | template
  | request
  | response
deriving DecidableEq, Repr

/-- The order in which the three tasks of `Record` run to completion. They
write below three different directories of the store, so an interleaving of
their system calls leaves what one of these six orders leaves. -/
inductive Schedule where
  | templateRequestResponse
  | templateResponseRequest
  | requestTemplateResponse
  | requestResponseTemplate
  | responseTemplateRequest
  | responseRequestTemplate
deriving DecidableEq, Repr

/-- The tasks of a schedule, first to last. -/
def Schedule.order : Schedule → List Task
  | .templateRequestResponse => [.template, .request, .response]
  | .templateResponseRequest => [.template, .response, .request]
  | .requestTemplateResponse => [.request, .template, .response]
  | .requestResponseTemplate => [.request, .response, .template]
  | .responseTemplateRequest => [.response, .template, .request]
  | .responseRequestTemplate => [.response, .request, .template]

/-- The clock readings one `Record` call takes: the wall clock read by
`generateResponseID` and the modification times stamped on the three files. -/
structure RecordClock where
  idClock : Instant
  templateTime : Nat
  requestTime : Nat
  responseTime : Nat

/-- What the tasks of `Record` share: the errors sent on `errChan` so far
(oldest first), the store value and the world. -/
structure TaskState where
  errChan : List GoError
  store : RecordStore
  world : World

/-- One task of `Record` run to completion: its error, if any, goes on `errChan`. -/
def runTask (clk : RecordClock) (st : TaskState) : Task → TaskState
  | .template =>
    match st.store.recordTemplate clk.templateTime st.world.fs with
    | (some err, fs1) => { st with errChan := st.errChan ++ [err], world := { st.world with fs := fs1 } }
    | (none, fs1) => { st with world := { st.world with fs := fs1 } }
  | .request =>
    match st.store.recordRequest clk.requestTime st.world.fs with
    | (some err, fs1) => { st with errChan := st.errChan ++ [err], world := { st.world with fs := fs1 } }
    | (none, fs1) => { st with world := { st.world with fs := fs1 } }
  | .response =>
    match st.store.recordResponse clk.idClock clk.responseTime st.world with
    | (some err, r1, w1) => { errChan := st.errChan ++ [err], store := r1, world := w1 }
    | (none, r1, w1) => { errChan := st.errChan, store := r1, world := w1 }

/-- `RecordStore.Record`: what the call returns (`ok ()` for nil), the store
value and the world it leaves. A nil `Request` or `Response` is dereferenced
and panics. -/
def RecordStore.Record (Y : YamlLib) (sched : Schedule) (clk : RecordClock)
    (r : RecordStore) (w : World) : Outcome Unit × RecordStore × World :=
  let r1 := { r with TemplateHash := CalculateMD5Hash r.TemplateYaml }
  match r1.Request with
  | none => (.panicked "nil pointer dereference", r1, w)
  | some req =>
    let req1 := { req with TemplateHash := r1.TemplateHash }
    let r2 := { r1 with Request := some req1 }
    match ConvertToYAML Y.marshalRequest req1 with
    | .error err => (.error (.join (.sentinel .ErrorFailedToConvertRequest) err), r2, w)
    | .ok requestYaml =>
      let r3 := { r2 with RequestYaml := requestYaml,
                          RequestHash := CalculateMD5Hash requestYaml }
      match r3.Response with
      | none => (.panicked "nil pointer dereference", r3, w)
      | some res =>
        let res1 := { res with TemplateHash := r3.TemplateHash, RequestHash := r3.RequestHash }
        let r4 := { r3 with Response := some res1 }
        match ConvertToYAML Y.marshalResponse res1 with
        | .error err =>
          (.error (.join (.sentinel .ErrorFailedToConvertResponse) err),
            { r4 with ResponseYaml := [] }, w)
        | .ok responseYaml =>
          let r5 := { r4 with ResponseYaml := responseYaml }
          let st := sched.order.foldl (runTask clk) ⟨[], r5, w⟩
          match st.errChan with
          | err :: _ => (.error err, st.store, st.world)
          | [] => (.ok (), st.store, st.world)

/-! ## The record store: read path and enumeration -/

/-- The insertion step of Go's `insertionSortLessFunc` on the sorted part of
the slice, kept last element first: the new element moves towards the front
while it is `less` than its left neighbour. -/
def sortInsert {α : Type} (less : α → α → Bool) (x : α) : List α → List α
  | [] => [x]
  | y :: ys => if less x y then y :: sortInsert less x ys else x :: y :: ys

/-- Go's `sort.Slice(xs, less)`: sorts by `less`, with no promise on the
order of elements neither of which is less than the other. Modelled by the
insertion sort that Go's implementation runs on slices of at most 12
elements; on a longer slice Go may leave such elements in another order than
the model does, and the statements below use the order of elements with
different keys only. -/
def sortSlice {α : Type} (less : α → α → Bool) (xs : List α) : List α :=
  (xs.foldl (fun acc x => sortInsert less x acc) []).reverse

/-- The comparison of `sortFilesByTimeInPlace`: `files[i].ModTime.After(files[j].ModTime)`. -/
def modTimeAfter (a b : FileInfo) : Bool := decide (b.ModTime < a.ModTime)

/-- `sortFilesByTimeInPlace`. -/
def sortFilesByTimeInPlace (files : List FileInfo) : List FileInfo :=
  sortSlice modTimeAfter files

/-- The inner loop of the enumerations: every entry of `dir` that is not a
directory and is named `*.yaml` is stat-ed and appended, built by `mk` from
its trimmed name, its path and its modification time. -/
def collectYaml (fs : Node) (dir : Path) (mk : String → Path → Nat → FileInfo) :
    List DirEntry → Except GoError (List FileInfo)
  | [] => .ok []
  | f :: rest =>
    if (!f.IsDir && HasSuffix f.Name ".yaml") = true then
      match Stat fs (dir ++ [f.Name]) with
      | .error e => .error (.wrapf (.sentinel .ErrorFailedToStatPath) (some (.pathError e)))
      | .ok info =>
        match collectYaml fs dir mk rest with
        | .ok more => .ok (mk (TrimSuffix f.Name ".yaml") (dir ++ [f.Name]) info.ModTime :: more)
        | .error e => .error e
    else collectYaml fs dir mk rest

/-- `RecordStore.GetResponse`. -/
def RecordStore.GetResponse (Y : YamlLib) (r : RecordStore) (fs : Node) :
    Option GoError × RecordStore :=
  let responsesDir := r.RecordStorePath ++ ["responses", r.RequestHash]
  match ReadYAMLFile Y.unmarshalResponse fs (responsesDir ++ [r.ResponseID ++ ".yaml"]) with
  | .error err => (some (.wrapf (.join (.sentinel .ErrorFailedToGetResponse) err) none), r)
  | .ok res => (none, { r with Response := some res })

/-- `RecordStore.GetSortedResponsesByRequestHash`. -/
def RecordStore.GetSortedResponsesByRequestHash (r : RecordStore) (fs : Node) :
    Except GoError (List FileInfo) :=
  let responsesDir := r.RecordStorePath ++ ["responses", r.RequestHash]
  match Stat fs responsesDir with
  | .error e => .error (.wrapf (.sentinel .ErrorFailedToStatPath) (some (.pathError e)))
  | .ok info =>
    if info.IsDir then
      match ReadDir fs responsesDir with
      | .error e => .error (.wrapf (.sentinel .ErrorFailedToReadDirectory) (some (.pathError e)))
      | .ok files =>
        match collectYaml fs responsesDir
            (fun id path t => { RequestHash := r.RequestHash, ResponseID := id,
                                FilePath := path, ModTime := t }) files with
        | .error e => .error e
        | .ok allFiles => .ok (sortFilesByTimeInPlace allFiles)
    else .error (.wrapf (.sentinel .ErrorPathIsNotDirectory) none)

/-- The outer loop of `GetSortedResponsesByTemplateHash` over the entries of
`requests/<TemplateHash>`. -/
def collectByTemplate (fs : Node) (r : RecordStore) :
    List DirEntry → Except GoError (List FileInfo)
  | [] => .ok []
  | request :: rest =>
    if (!request.IsDir && HasSuffix request.Name ".yaml") = true then
      let requestHash := TrimSuffix request.Name ".yaml"
      let responsesDir := r.RecordStorePath ++ ["responses", requestHash]
      match Stat fs responsesDir with
      | .error e => .error (.wrapf (.sentinel .ErrorFailedToStatPath) (some (.pathError e)))
      | .ok info =>
        if info.IsDir then
          match ReadDir fs responsesDir with
          | .error e =>
            .error (.wrapf (.sentinel .ErrorFailedToReadDirectory) (some (.pathError e)))
          | .ok files =>
            match collectYaml fs responsesDir
                (fun id path t => { RequestHash := requestHash, TemplateHash := r.TemplateHash,
                                    ResponseID := id, FilePath := path, ModTime := t }) files with
            | .error e => .error e
            | .ok here =>
              match collectByTemplate fs r rest with
              | .ok more => .ok (here ++ more)
              | .error e => .error e
        else .error (.wrapf (.sentinel .ErrorPathIsNotDirectory) none)
    else collectByTemplate fs r rest

/-- `RecordStore.GetSortedResponsesByTemplateHash`. -/
def RecordStore.GetSortedResponsesByTemplateHash (r : RecordStore) (fs : Node) :
    Except GoError (List FileInfo) :=
  let requestsDir := r.RecordStorePath ++ ["requests", r.TemplateHash]
  match Stat fs requestsDir with
  | .error e => .error (.wrapf (.sentinel .ErrorFailedToStatPath) (some (.pathError e)))
  | .ok info =>
    if info.IsDir then
      match ReadDir fs requestsDir with
      | .error e => .error (.wrapf (.sentinel .ErrorFailedToReadDirectory) (some (.pathError e)))
      | .ok requests =>
        match collectByTemplate fs r requests with
        | .error e => .error e
        | .ok allFiles => .ok (sortFilesByTimeInPlace allFiles)
    else .error (.wrapf (.sentinel .ErrorPathIsNotDirectory) none)

/-- The search loop of `GetResponseByID` over the entries of `responses/`;
the path of the file is `filepath.Join(responsesRootDir, requestDir.Name(),
r.ResponseID+".yaml")`. -/
def findResponseByID (Y : YamlLib) (fs : Node) (root : Path) (r : RecordStore) :
    List DirEntry → Option GoError × RecordStore
  | [] => (some (.wrapf (.sentinel .ErrorFailedToGetResponse) none), r)
  | requestDir :: rest =>
    if requestDir.IsDir then
      let responsePath := filepath.Join root [requestDir.Name, r.ResponseID ++ ".yaml"]
      match Stat fs responsePath with
      | .ok _ =>
        match ReadYAMLFile Y.unmarshalResponse fs responsePath with
        | .error err => (some (.wrapf (.join (.sentinel .ErrorFailedToGetResponse) err) none), r)
        | .ok res =>
          (none, { r with Response := some res, RequestHash := res.RequestHash,
                          TemplateHash := res.TemplateHash,
                          ResponseYaml :=
                            match ConvertToYAML Y.marshalResponse res with
                            | .ok b => b
                            | .error _ => [] })
      | .error _ => findResponseByID Y fs root r rest
    else findResponseByID Y fs root r rest

/-- `RecordStore.GetResponseByID`. -/
def RecordStore.GetResponseByID (Y : YamlLib) (r : RecordStore) (fs : Node) :
    Option GoError × RecordStore :=
  let responsesRootDir := r.RecordStorePath ++ ["responses"]
  match Stat fs responsesRootDir with
  | .error e => (some (.wrapf (.sentinel .ErrorFailedToStatPath) (some (.pathError e))), r)
  | .ok info =>
    if info.IsDir then
      match ReadDir fs responsesRootDir with
      | .error e =>
        (some (.wrapf (.sentinel .ErrorFailedToReadDirectory) (some (.pathError e))), r)
      | .ok requestDirs => findResponseByID Y fs responsesRootDir r requestDirs
    else (some (.wrapf (.sentinel .ErrorPathIsNotDirectory) none), r)

/-- The search loop of `GetRequestByHash` over the entries of `requests/`;
the path of the file is `filepath.Join(requestsRootDir, templateDir.Name(),
r.RequestHash+".yaml")`. -/
def findRequestByHash (Y : YamlLib) (fs : Node) (root : Path) (r : RecordStore) :
    List DirEntry → Option GoError × RecordStore
  | [] => (some (.wrapf (.sentinel .ErrorFailedToGetRequest) none), r)
  | templateDir :: rest =>
    if templateDir.IsDir then
      let requestPath := filepath.Join root [templateDir.Name, r.RequestHash ++ ".yaml"]
      match Stat fs requestPath with
      | .ok _ =>
        match ReadYAMLFile Y.unmarshalRequest fs requestPath with
        | .error err => (some (.wrapf (.join (.sentinel .ErrorFailedToGetRequest) err) none), r)
        | .ok req =>
          (none, { r with Request := some req, TemplateHash := req.TemplateHash,
                          RequestYaml :=
                            match ConvertToYAML Y.marshalRequest req with
                            | .ok b => b
                            | .error _ => [] })
      | .error _ => findRequestByHash Y fs root r rest
    else findRequestByHash Y fs root r rest

/-- `RecordStore.GetRequestByHash`. -/
def RecordStore.GetRequestByHash (Y : YamlLib) (r : RecordStore) (fs : Node) :
    Option GoError × RecordStore :=
  let requestsRootDir := r.RecordStorePath ++ ["requests"]
  match Stat fs requestsRootDir with
  | .error e => (some (.wrapf (.sentinel .ErrorFailedToStatPath) (some (.pathError e))), r)
  | .ok info =>
    if info.IsDir then
      match ReadDir fs requestsRootDir with
      | .error e =>
        (some (.wrapf (.sentinel .ErrorFailedToReadDirectory) (some (.pathError e))), r)
      | .ok templateDirs => findRequestByHash Y fs requestsRootDir r templateDirs
    else (some (.wrapf (.sentinel .ErrorPathIsNotDirectory) none), r)

/-- `RecordStore.GetTemplateByHash`. -/
def RecordStore.GetTemplateByHash (r : RecordStore) (fs : Node) : Option GoError × RecordStore :=
  let templatesRootDir := r.RecordStorePath ++ ["templates"]
  match Stat fs templatesRootDir with
  | .error e => (some (.wrapf (.sentinel .ErrorFailedToStatPath) (some (.pathError e))), r)
  | .ok info =>
    if info.IsDir then
      let templatePath := templatesRootDir ++ [r.TemplateHash ++ ".yaml"]
      match Stat fs templatePath with
      | .ok _ =>
        match ReadFile fs templatePath with
        | .error err => (some (.wrapf (.join (.sentinel .ErrorFailedToGetTemplate) err) none), r)
        | .ok templateYaml => (none, { r with TemplateYaml := templateYaml })
      | .error _ => (some (.wrapf (.sentinel .ErrorFailedToGetTemplate) none), r)
    else (some (.wrapf (.sentinel .ErrorPathIsNotDirectory) none), r)

/-- The outer loop of `GetSortedResponses` (with `mk` building a response
entry) and of `GetSortedRequests` (a request entry) over the sub-directories
of the root directory. -/
def collectSubdirs (fs : Node) (root : Path) (mk : String → String → Path → Nat → FileInfo) :
    List DirEntry → Except GoError (List FileInfo)
  | [] => .ok []
  | d :: rest =>
    if d.IsDir then
      match ReadDir fs (root ++ [d.Name]) with
      | .error e => .error (.wrapf (.sentinel .ErrorFailedToReadDirectory) (some (.pathError e)))
      | .ok files =>
        match collectYaml fs (root ++ [d.Name]) (mk d.Name) files with
        | .error e => .error e
        | .ok here =>
          match collectSubdirs fs root mk rest with
          | .ok more => .ok (here ++ more)
          | .error e => .error e
    else collectSubdirs fs root mk rest

/-- `RecordStore.GetSortedResponses`. -/
def RecordStore.GetSortedResponses (r : RecordStore) (fs : Node) :
    Except GoError (List FileInfo) :=
  let responsesRootDir := r.RecordStorePath ++ ["responses"]
  match ReadDir fs responsesRootDir with
  | .error e => .error (.wrapf (.sentinel .ErrorFailedToReadDirectory) (some (.pathError e)))
  | .ok requestDirs =>
    match collectSubdirs fs responsesRootDir
        (fun dirName id path t => { ResponseID := id, RequestHash := dirName,
                                    FilePath := path, ModTime := t }) requestDirs with
    | .error e => .error e
    | .ok allFiles => .ok (sortFilesByTimeInPlace allFiles)

/-- `RecordStore.GetSortedRequests`. -/
def RecordStore.GetSortedRequests (r : RecordStore) (fs : Node) :
    Except GoError (List FileInfo) :=
  let requestsRootDir := r.RecordStorePath ++ ["requests"]
  match ReadDir fs requestsRootDir with
  | .error e => .error (.wrapf (.sentinel .ErrorFailedToReadDirectory) (some (.pathError e)))
  | .ok templateDirs =>
    match collectSubdirs fs requestsRootDir
        (fun dirName hash path t => { RequestHash := hash, TemplateHash := dirName,
                                      FilePath := path, ModTime := t }) templateDirs with
    | .error e => .error e
    | .ok allFiles => .ok (sortFilesByTimeInPlace allFiles)

/-- `RecordStore.GetSortedTemplates`. -/
def RecordStore.GetSortedTemplates (r : RecordStore) (fs : Node) :
    Except GoError (List FileInfo) :=
  let templatesRootDir := r.RecordStorePath ++ ["templates"]
  match ReadDir fs templatesRootDir with
  | .error e => .error (.wrapf (.sentinel .ErrorFailedToReadDirectory) (some (.pathError e)))
  | .ok templateItems =>
    match collectYaml fs templatesRootDir
        (fun hash path t => { TemplateHash := hash, FilePath := path, ModTime := t })
        templateItems with
    | .error e => .error e
    | .ok allFiles => .ok (sortFilesByTimeInPlace allFiles)

/-! ## The history listing (`internal/history/history.go`) -/

/-- Go's conversion `int(limit)` of a `uint64` on a 64-bit platform: the same
64 bits read as a two's-complement number. -/
def intOfUint64 (limit : Nat) : Int :=
  if limit % 18446744073709551616 < 9223372036854775808 then
    ((limit % 18446744073709551616 : Nat) : Int)
  else ((limit % 18446744073709551616 : Nat) : Int) - 18446744073709551616

/-- The truncation every listing applies:
`if limit > 0 { xs = xs[:min(len(xs), int(limit))] }`. The slice expression
panics on a negative bound; none stands for that panic. -/
def applyLimit {α : Type} (xs : List α) (limit : Nat) : Option (List α) :=
  if 0 < limit then
    let high := min (xs.length : Int) (intOfUint64 limit)
    if high < 0 then none else some (xs.take high.toNat)
  else some xs

/-- Go's `strconv.Itoa`. -/
def Itoa (n : Int) : String := toString n

/-- The status column: the code and a glyph chosen by `StatusCode >= 400`. -/
def statusColumn (statusCode : Int) : String :=
  Itoa statusCode ++ (if 400 ≤ statusCode then " ❌" else " ✅")

/-- How a listing renders the parsed timestamp of a response. -/
inductive TimestampStyle where
  | formatUTC
  | timeString
deriving DecidableEq, Repr

/-- The timestamp column: `Format("2006-01-02 15:04:05 +0000 UTC")` in
`GetAllResponsesSorted`, `Time.String()` (of a UTC time) in the other two. -/
def timestampColumn (style : TimestampStyle) (t : Instant) : String :=
  match style with
  | .formatUTC => Format t "2006-01-02 15:04:05 +0000 UTC"
  | .timeString => Format t "2006-01-02 15:04:05.999999999" ++ " +0000 UTC"

/-- A row of a response listing. The duration column is kept as the number
of nanoseconds that `Duration.String()` renders. -/
structure ResponseRow where
  ResponseID : String
  Status : String
  Total : Int
  Timestamp : String
deriving DecidableEq, Repr

/-- A row of the request listing; the third column is kept as the
modification time that `ModTime.UTC().String()` renders. -/
structure RequestRow where
  RequestHash : String
  TemplateHash : String
  ModTime : Nat
deriving DecidableEq, Repr

/-- A row of the template listing. -/
structure TemplateRow where
  TemplateHash : String
  ModTime : Nat
deriving DecidableEq, Repr

/-- `history.HistoryStore`. -/
structure HistoryStore where
  RecordStorePath : Path := []
deriving DecidableEq, Repr

/-- The row loop of the three response listings: read the response, pick the
glyph, slice the first 19 bytes off the ID (a panic on a shorter ID) and
parse them. -/
def responseRows (Y : YamlLib) (fs : Node) (style : TimestampStyle) (recordStore : RecordStore) :
    List FileInfo → Outcome (List ResponseRow)
  | [] => .ok []
  | fileInfo :: rest =>
    let rs := { recordStore with RequestHash := fileInfo.RequestHash,
                                 ResponseID := fileInfo.ResponseID }
    match rs.GetResponse Y fs with
    | (some err, _) => .error err
    | (none, rs1) =>
      match rs1.Response with
      | none => .panicked "nil pointer dereference"
      | some res =>
        if rs1.ResponseID.utf8ByteSize < 19 then .panicked "slice bounds out of range"
        else
          match Parse responseIDLayout ⟨rs1.ResponseID.data.take 19⟩ with
          | none => .error (.wrapf (.sentinel .ErrorFailedToParseTimestamp) none)
          | some parsedTimestamp =>
            match responseRows Y fs style rs1 rest with
            | .ok more =>
              .ok (⟨rs1.ResponseID, statusColumn res.StatusCode, res.Timing.Total,
                    timestampColumn style parsedTimestamp⟩ :: more)
            | .error e => .error e
            | .panicked m => .panicked m

/-- `HistoryStore.GetSortedResponsesByTemplateHash`. -/
def HistoryStore.GetSortedResponsesByTemplateHash (Y : YamlLib) (h : HistoryStore) (fs : Node)
    (templateHash : String) (limit : Nat) : Outcome (List ResponseRow) :=
  let recordStore : RecordStore :=
    { RecordStorePath := h.RecordStorePath, TemplateHash := templateHash }
  match recordStore.GetSortedResponsesByTemplateHash fs with
  | .error err => .error err
  | .ok responses =>
    match applyLimit responses limit with
    | none => .panicked "slice bounds out of range"
    | some limited => responseRows Y fs .timeString recordStore limited

/-- `HistoryStore.GetSortedResponsesByRequestHash`. -/
def HistoryStore.GetSortedResponsesByRequestHash (Y : YamlLib) (h : HistoryStore) (fs : Node)
    (requestHash : String) (limit : Nat) : Outcome (List ResponseRow) :=
  let recordStore : RecordStore :=
    { RecordStorePath := h.RecordStorePath, RequestHash := requestHash }
  match recordStore.GetSortedResponsesByRequestHash fs with
  | .error err => .error err
  | .ok responses =>
    match applyLimit responses limit with
    | none => .panicked "slice bounds out of range"
    | some limited => responseRows Y fs .timeString recordStore limited

/-- `HistoryStore.GetAllResponsesSorted`. -/
def HistoryStore.GetAllResponsesSorted (Y : YamlLib) (h : HistoryStore) (fs : Node)
    (limit : Nat) : Outcome (List ResponseRow) :=
  let recordStore : RecordStore := { RecordStorePath := h.RecordStorePath }
  match recordStore.GetSortedResponses fs with
  | .error err => .error err
  | .ok allFiles =>
    match applyLimit allFiles limit with
    | none => .panicked "slice bounds out of range"
    | some limited => responseRows Y fs .formatUTC recordStore limited

/-- The row loop of `GetAllRequestsSorted`: every listed request is looked
up again by its hash. -/
def requestRows (Y : YamlLib) (fs : Node) (recordStore : RecordStore) :
    List FileInfo → Outcome (List RequestRow)
  | [] => .ok []
  | fileInfo :: rest =>
    let rs := { recordStore with RequestHash := fileInfo.RequestHash }
    match rs.GetRequestByHash Y fs with
    | (some err, _) => .error err
    | (none, rs1) =>
      match requestRows Y fs rs1 rest with
      | .ok more => .ok (⟨rs1.RequestHash, fileInfo.TemplateHash, fileInfo.ModTime⟩ :: more)
      | .error e => .error e
      | .panicked m => .panicked m

/-- `HistoryStore.GetAllRequestsSorted`: a failed enumeration is logged and
the listing goes on with the nil slice. -/
def HistoryStore.GetAllRequestsSorted (Y : YamlLib) (h : HistoryStore) (fs : Node)
    (limit : Nat) : Outcome (List RequestRow) :=
  let recordStore : RecordStore := { RecordStorePath := h.RecordStorePath }
  let allFiles :=
    match recordStore.GetSortedRequests fs with
    | .error _ => []
    | .ok files => files
  match applyLimit allFiles limit with
  | none => .panicked "slice bounds out of range"
  | some limited => requestRows Y fs recordStore limited

/-- `HistoryStore.GetAllTemplatesSorted`: a failed enumeration is logged and
the listing goes on with the nil slice. -/
def HistoryStore.GetAllTemplatesSorted (h : HistoryStore) (fs : Node) (limit : Nat) :
    Outcome (List TemplateRow) :=
  let recordStore : RecordStore := { RecordStorePath := h.RecordStorePath }
  let allFiles :=
    match recordStore.GetSortedTemplates fs with
    | .error _ => []
    | .ok files => files
  match applyLimit allFiles limit with
  | none => .panicked "slice bounds out of range"
  | some limited => .ok (limited.map (fun fileInfo => ⟨fileInfo.TemplateHash, fileInfo.ModTime⟩))

/-! ## A small YAML library for worked examples

The theorems below hold for every `YamlLib`. Worked examples need one to run:
this one writes an artifact as `key: value` lines, the way the real library
writes plain scalar fields under their `yaml` tags, and refuses artifacts
that use fields it does not write. -/

/-- A `key: value` line. -/
def yamlLine (key value : String) : Bytes := asciiBytes (key ++ ": " ++ value ++ "\n")

/-- A `key: value` line for a field tagged `omitempty`. -/
def yamlLineOmitEmpty (key value : String) : Bytes :=
  if value = "" then [] else yamlLine key value

/-- Writes the string fields of a request under their tags. -/
def plainMarshalRequest (r : RequestObject) : Except GoError Bytes :=
  if r.Headers = [] ∧ r.Cookies = [] ∧ r.BodyVars = [] ∧ r.TimeoutSeconds = 0
      ∧ r.SSLVerify = none then
    .ok (yamlLine "template_hash" r.TemplateHash ++ yamlLine "url" r.URL
      ++ yamlLine "method" r.Method
      ++ yamlLineOmitEmpty "auth" r.Auth ++ yamlLineOmitEmpty "auth_type" r.AuthType
      ++ yamlLineOmitEmpty "auth_header_name" r.AuthHeaderName
      ++ yamlLineOmitEmpty "user_agent" r.UserAgent ++ yamlLineOmitEmpty "body" r.Body
      ++ yamlLineOmitEmpty "ca_cert_path" r.CACertPath)
  else .error (.library "field outside the fragment")

/-- Writes the hashes, the status code and the body of a response. -/
def plainMarshalResponse (r : ResponseObject) : Except GoError Bytes :=
  if r.Headers = [] ∧ r.Cookies = [] ∧ r.Timing = {} ∧ r.Size = 0 ∧ 0 ≤ r.StatusCode then
    .ok (yamlLine "request_hash" r.RequestHash ++ yamlLine "template_hash" r.TemplateHash
      ++ yamlLine "status_code" (Itoa r.StatusCode) ++ yamlLine "body" r.Body)
  else .error (.library "field outside the fragment")

/-- The lines of a byte sequence. -/
def splitLines (bs : Bytes) : List Bytes :=
  bs.foldr (fun b acc =>
    if b = 10 then [] :: acc
    else
      match acc with
      | [] => [[b]]
      | l :: ls => (b :: l) :: ls) [[]]

/-- The key and the value of a `key: value` line. -/
def splitKeyValue (line : Bytes) : Option (String × String) :=
  let key := line.takeWhile (fun b => decide (b ≠ 58))
  match line.dropWhile (fun b => decide (b ≠ 58)) with
  | 58 :: 32 :: value => some (⟨key.map Char.ofNat⟩, ⟨value.map Char.ofNat⟩)
  | _ => none

/-- The `key: value` pairs of a document, none when a line is not of that shape. -/
def parseLines : List Bytes → Option (List (String × String))
  | [] => some []
  | line :: rest =>
    if line = [] then parseLines rest
    else
      match splitKeyValue line, parseLines rest with
      | some kv, some more => some (kv :: more)
      | _, _ => none

/-- The value written under `key`, the empty string when there is none. -/
def fieldOf (kvs : List (String × String)) (key : String) : String :=
  match kvs.find? (fun kv => decide (kv.1 = key)) with
  | some kv => kv.2
  | none => ""

/-- Reads back what `plainMarshalRequest` writes. -/
def plainUnmarshalRequest (bs : Bytes) : Except GoError RequestObject :=
  match parseLines (splitLines bs) with
  | none => .error (.library "malformed document")
  | some kvs =>
    .ok { TemplateHash := fieldOf kvs "template_hash", URL := fieldOf kvs "url",
          Method := fieldOf kvs "method", Auth := fieldOf kvs "auth",
          AuthType := fieldOf kvs "auth_type",
          AuthHeaderName := fieldOf kvs "auth_header_name",
          UserAgent := fieldOf kvs "user_agent", Body := fieldOf kvs "body",
          CACertPath := fieldOf kvs "ca_cert_path" }

/-- Reads back what `plainMarshalResponse` writes. -/
def plainUnmarshalResponse (bs : Bytes) : Except GoError ResponseObject :=
  match parseLines (splitLines bs) with
  | none => .error (.library "malformed document")
  | some kvs =>
    if (fieldOf kvs "status_code").data.all isDigitChar = true then
      .ok { RequestHash := fieldOf kvs "request_hash",
            TemplateHash := fieldOf kvs "template_hash",
            StatusCode := (digitsValue (fieldOf kvs "status_code").data : Nat),
            Body := fieldOf kvs "body" }
    else .error (.library "malformed status code")

/-- The YAML library of the worked examples. -/
def plainYaml : YamlLib :=
  ⟨plainMarshalRequest, plainMarshalResponse, plainUnmarshalRequest, plainUnmarshalResponse⟩

/-- A filesystem holding nothing but a writable root directory. -/
def emptyDisk : Node := .dir dirPerm []

/-- The world of a fresh process on an empty disk. -/
def freshWorld : World := ⟨emptyDisk, 0⟩

/-! ## Predicates on the filesystem and on the tasks of `Record` -/

/-- A regular file stands at path `q`. -/
def FileAt (fs : Node) (q : Path) (perm : Perm) (t : Nat) (content : Bytes) : Prop :=
  fs.find q = some (.file perm t content)

/-- An entry rewrite for `name` touches no other entry. -/
def LocalTo (name : String) (f : Perm → Entries → Except Errno Entries) : Prop :=
  ∀ perm es es', f perm es = .ok es' → ∀ k, k ≠ name → lookupEntry k es' = lookupEntry k es

/-- An entry rewrite for `name` goes through only when no directory stands there. -/
def NoDirBefore (name : String) (f : Perm → Entries → Except Errno Entries) : Prop :=
  ∀ perm es es', f perm es = .ok es' → ∀ pd ents, lookupEntry name es ≠ some (.dir pd ents)

/-- After an entry rewrite for `name` nothing stands below `name`. -/
def NoDirAfter (name : String) (f : Perm → Entries → Except Errno Entries) : Prop :=
  ∀ perm es es', f perm es = .ok es' →
    ∀ c q, lookupEntry name es' = some c → q ≠ [] → c.find q = none

/-- The file a task of `Record` writes. -/
def taskPath (r : RecordStore) : Task → Path
  | .template => r.templatePath
  | .request => r.requestPath
  | .response => r.responsePath

/-- The modification time a task of `Record` stamps. -/
def taskTime (clk : RecordClock) : Task → Nat
  | .template => clk.templateTime
  | .request => clk.requestTime
  | .response => clk.responseTime

/-- The bytes a task of `Record` writes. -/
def taskBytes (r : RecordStore) : Task → Bytes
  | .template => r.TemplateYaml
  | .request => r.RequestYaml
  | .response => r.ResponseYaml

/-- The store value that `Record` hands to its three tasks. -/
def stampedStore (r : RecordStore) (req : RequestObject) (res : ResponseObject)
    (requestYaml responseYaml : Bytes) : RecordStore :=
  { r with
    TemplateHash := CalculateMD5Hash r.TemplateYaml
    Request := some { req with TemplateHash := CalculateMD5Hash r.TemplateYaml }
    RequestYaml := requestYaml
    RequestHash := CalculateMD5Hash requestYaml
    Response := some { res with TemplateHash := CalculateMD5Hash r.TemplateYaml,
                                RequestHash := CalculateMD5Hash requestYaml }
    ResponseYaml := responseYaml }

/-! ## Worked examples and the notions the statements use -/

/-- Whether a call returned normally. -/
def Outcome.isOk {α : Type} : Outcome α → Bool
  | .ok _ => true
  | _ => false

/-- The store of the worked examples: template `key: value`, a GET request
and a response with status 200, to be recorded below `store/`. -/
def exampleStore : RecordStore :=
  { RecordStorePath := ["store"]
    TemplateYaml := asciiBytes "key: value"
    Request := some { URL := "https://example1.com", Method := "GET" }
    Response := some { StatusCode := 200 } }

/-- The clock of the worked examples: 2024-01-15 10:30:45.123 UTC. -/
def exampleClock : RecordClock := ⟨⟨2024, 1, 15, 10, 30, 45, 123000000⟩, 100, 101, 102⟩

/-- The first `Record` of the worked examples, on an empty disk. -/
def exampleRun : Outcome Unit × RecordStore × World :=
  exampleStore.Record plainYaml .templateRequestResponse exampleClock freshWorld

/-- A later clock: 2024-01-15 10:30:47.500 UTC. -/
def laterClock : RecordClock := ⟨⟨2024, 1, 15, 10, 30, 47, 500000000⟩, 200, 201, 202⟩

/-- The same store recorded a second time, on the disk the first run left,
with the tasks finishing in another order. -/
def exampleRerun : Outcome Unit × RecordStore × World :=
  exampleStore.Record plainYaml .responseRequestTemplate laterClock exampleRun.2.2

/-- The store of the worked examples with another template, `key: other`. -/
def otherTemplateStore : RecordStore :=
  { exampleStore with TemplateYaml := asciiBytes "key: other" }

/-- The store with the other template, recorded on an empty disk. -/
def otherTemplateRun : Outcome Unit × RecordStore × World :=
  otherTemplateStore.Record plainYaml .templateRequestResponse exampleClock freshWorld

/-- The store of the worked examples whose request still carries a stale
template hash from an earlier use. -/
def staleHashStore : RecordStore :=
  { exampleStore with
    Request := some { URL := "https://example1.com", Method := "GET", TemplateHash := "stale" } }

/-- The store with the stale hash, recorded on an empty disk. -/
def staleHashRun : Outcome Unit × RecordStore × World :=
  staleHashStore.Record plainYaml .requestTemplateResponse laterClock freshWorld

/-- The IDs that consecutive calls of `generateResponseID` produce, the
calls made at the given clock readings, the counter starting at `c`. -/
def responseIDs : List Instant → Nat → List String
  | [], _ => []
  | t :: ts, c => (generateResponseID t c).1 :: responseIDs ts (generateResponseID t c).2

/-- The calendar fields of a clock reading are in range and the year has at
most four digits. -/
def Instant.valid (t : Instant) : Prop :=
  t.year ≤ 9999 ∧ 1 ≤ t.month ∧ t.month ≤ 12 ∧ 1 ≤ t.day ∧ t.day ≤ 31 ∧ t.hour ≤ 23
    ∧ t.minute ≤ 59 ∧ t.second ≤ 59 ∧ t.nanosecond ≤ 999999999

/-- The position of a clock reading in time: readings with fields in range
are in chronological order exactly when these mixed-radix numbers are. -/
def Instant.ordinal (t : Instant) : Nat :=
  ((((((t.year * 13 + t.month) * 32 + t.day) * 24 + t.hour) * 60 + t.minute) * 60
    + t.second) * 1000000000) + t.nanosecond

/-- The files the first listing of the worked examples returns: all
responses after the two runs. -/
def exampleResponses : List FileInfo :=
  (exampleStore.GetSortedResponses exampleRerun.2.2.fs).toOption.getD []

/-- Whether a call panicked. -/
def Outcome.hasPanicked {α : Type} : Outcome α → Bool
  | .panicked _ => true
  | _ => false

/-- The rows a call returned, none when it returned an error or panicked. -/
def Outcome.value? {α : Type} : Outcome α → Option α
  | .ok v => some v
  | _ => none

/-- The history store of the worked examples. -/
def exampleHistory : HistoryStore := { RecordStorePath := ["store"] }

/-- Every directory of the filesystem lists each name once. -/
def Node.WF (fs : Node) : Prop :=
  ∀ (d : Path) (perm : Perm) (es : Entries),
    fs.find d = some (.dir perm es) → (es.map Prod.fst).Nodup

/-- An entry rewrite keeps directories duplicate-free. -/
def KeepsWF (f : Perm → Entries → Except Errno Entries) : Prop :=
  ∀ perm es es', f perm es = .ok es' → (Node.dir perm es).WF → (Node.dir perm es').WF

/-- The error a call returned, none when it returned a value or panicked. -/
def Outcome.error? {α : Type} : Outcome α → Option GoError
  | .error e => some e
  | _ => none

/-- Whether an enumeration failed with an error that `errors.Is` the sentinel. -/
def failsWith {α : Type} (x : Except GoError α) (s : Sentinel) : Bool :=
  match x with
  | .error e => e.Is s
  | .ok _ => false

/-- A store root that exists and is empty: none of `templates/`, `requests/`
and `responses/` has been created. -/
def freshStoreDisk : Node := .dir dirPerm [("store", .dir dirPerm [])]

/-- A store whose `templates/` directory holds one template but has lost its
read permission (mode `0311`). -/
def unreadableTemplatesDisk : Node :=
  .dir dirPerm [("store", .dir dirPerm
    [("templates", .dir ⟨false, true, true⟩
      [("abc.yaml", .file filePerm 100 (asciiBytes "key: value"))])])]

/-- A store whose `templates/` directory can be listed but not searched
(mode `0644`), so that its entries cannot be stat-ed. -/
def unsearchableTemplatesDisk : Node :=
  .dir dirPerm [("store", .dir dirPerm
    [("templates", .dir ⟨true, true, false⟩
      [("abc.yaml", .file filePerm 100 (asciiBytes "key: value"))])])]

/-- A store whose `requests/` directory is readable and holds one template
sub-directory that has lost its read permission. -/
def unreadableRequestSubdirDisk : Node :=
  .dir dirPerm [("store", .dir dirPerm
    [("requests", .dir dirPerm
      [("abc", .dir ⟨false, true, true⟩
        [("def.yaml", .file filePerm 100 (asciiBytes "url: https://example1.com"))])])])]

/-- A store in which a regular file stands where `templates/` should be. -/
def templatesIsFileDisk : Node :=
  .dir dirPerm [("store", .dir dirPerm [("templates", .file filePerm 100 (asciiBytes "x"))])]

/-- A freshly initialised store: the three roots exist and are empty. -/
def initialisedStoreDisk : Node :=
  .dir dirPerm [("store", .dir dirPerm
    [("requests", .dir dirPerm []), ("responses", .dir dirPerm []),
     ("templates", .dir dirPerm [])])]

/-- A store in which two template sub-directories of `requests/` hold an
entry `h1.yaml` and two request sub-directories of `responses/` hold an entry
`id1.yaml`: the first listed one is not a YAML document, the second one is
well-formed. -/
def shadowedLookupDisk : Node :=
  .dir dirPerm [("store", .dir dirPerm
    [("requests", .dir dirPerm
      [("aaa", .dir dirPerm [("h1.yaml", .file filePerm 100 (asciiBytes "garbage"))]),
       ("bbb", .dir dirPerm [("h1.yaml", .file filePerm 101
          (asciiBytes "template_hash: bbb\nurl: https://example1.com\nmethod: GET\n"))])]),
     ("responses", .dir dirPerm
      [("h0", .dir dirPerm [("id1.yaml", .file filePerm 102 (asciiBytes "garbage"))]),
       ("h1", .dir dirPerm [("id1.yaml", .file filePerm 103
          (asciiBytes "request_hash: h1\ntemplate_hash: bbb\nstatus_code: 200\nbody: \n"))])])])]

/-- A store in which the only `h1.yaml` under `requests/` and the only
`id1.yaml` under `responses/` stand in the sub-directory listed last. -/
def lastSubdirLookupDisk : Node :=
  .dir dirPerm [("store", .dir dirPerm
    [("requests", .dir dirPerm
      [("aaa", .dir dirPerm [("h0.yaml", .file filePerm 100 (asciiBytes "garbage"))]),
       ("bbb", .dir dirPerm [("h1.yaml", .file filePerm 101
          (asciiBytes "template_hash: bbb\nurl: https://example1.com\nmethod: GET\n"))])]),
     ("responses", .dir dirPerm
      [("h0", .dir dirPerm [("id0.yaml", .file filePerm 102 (asciiBytes "garbage"))]),
       ("h1", .dir dirPerm [("id1.yaml", .file filePerm 103
          (asciiBytes "request_hash: h1\ntemplate_hash: bbb\nstatus_code: 200\nbody: \n"))])])])]

/-- The request that `plainYaml` reads from `requests/bbb/h1.yaml` of the two disks. -/
def lookedUpRequest : RequestObject :=
  { TemplateHash := "bbb", URL := "https://example1.com", Method := "GET" }

/-- The response that `plainYaml` reads from `responses/h1/id1.yaml` of the two disks. -/
def lookedUpResponse : ResponseObject :=
  { RequestHash := "h1", TemplateHash := "bbb", StatusCode := 200 }

/-- Every regular file of the filesystem is readable by its owner. -/
def AllReadable (fs : Node) : Prop :=
  ∀ q perm t c, FileAt fs q perm t c → perm.r = true

/-- The YAML library round-trips the response `x`: what it writes for `x` it
reads back as an object for which it writes the same bytes. -/
def RoundTripsResponse (Y : YamlLib) (x : ResponseObject) : Prop :=
  ∀ b, Y.marshalResponse x = .ok b →
    ∃ y, Y.unmarshalResponse b = .ok y ∧ Y.marshalResponse y = .ok b

/-- The response object that the first worked example records. -/
def exampleRecordedResponse : ResponseObject :=
  { RequestHash := exampleRun.2.1.RequestHash
    TemplateHash := exampleRun.2.1.TemplateHash
    StatusCode := 200 }

/-- What the write of a task returns (nil is none) when it runs in state `st`. -/
def taskError (clk : RecordClock) (st : TaskState) : Task → Option GoError
  | .template => (st.store.recordTemplate clk.templateTime st.world.fs).1
  | .request => (st.store.recordRequest clk.requestTime st.world.fs).1
  | .response => (st.store.recordResponse clk.idClock clk.responseTime st.world).1

/-- The tasks in the order they run, each with what its write returned. -/
def taskOutcomes (clk : RecordClock) : List Task → TaskState → List (Task × Option GoError)
  | [], _ => []
  | t :: ts, st => (t, taskError clk st t) :: taskOutcomes clk ts (runTask clk st t)

/-- A store root whose `templates/` directory has lost its write permission
(mode `0555`). -/
def readOnlyTemplatesDisk : Node :=
  .dir dirPerm [("store", .dir dirPerm [("templates", .dir ⟨true, false, true⟩ [])])]

/-- The store of the worked examples recorded on a disk whose `templates/`
directory is read-only. -/
def readOnlyTemplatesRun : Outcome Unit × RecordStore × World :=
  exampleStore.Record plainYaml .templateRequestResponse exampleClock ⟨readOnlyTemplatesDisk, 0⟩

/-- A YAML library that reads documents as `plainYaml` does and refuses to
write any object. -/
def refusingYaml : YamlLib :=
  { plainYaml with
    marshalRequest := fun _ => .error (.library "unsupported field type")
    marshalResponse := fun _ => .error (.library "unsupported field type") }

/-- The directory `responses/<R>` cannot serve a listing: it cannot be
stat-ed (it is missing, for one), it is not a directory, or it cannot be read. -/
def ResponsesDirFails (fs : Node) (root : Path) (R : String) : Prop :=
  (∃ e, Stat fs (root ++ ["responses", R]) = .error e)
  ∨ (∃ info, Stat fs (root ++ ["responses", R]) = .ok info ∧ info.IsDir = false)
  ∨ (∃ e, ReadDir fs (root ++ ["responses", R]) = .error e)

/-- A store with two requests of the template `tpl`: the responses of `h1`
are there, the directory `responses/h2` is missing. -/
def missingResponsesDirDisk : Node :=
  .dir dirPerm [("store", .dir dirPerm
    [("requests", .dir dirPerm
      [("tpl", .dir dirPerm
        [("h1.yaml", .file filePerm 100 (asciiBytes "url: https://example1.com\n")),
         ("h2.yaml", .file filePerm 101 (asciiBytes "url: https://example2.com\n"))])]),
     ("responses", .dir dirPerm
      [("h1", .dir dirPerm
        [("20240115_103045_000_0001.yaml", .file filePerm 102
          (asciiBytes "request_hash: h1\ntemplate_hash: tpl\nstatus_code: 200\nbody: \n"))])])])]

/-- The same store once `responses/h2` exists and holds a response with status 404. -/
def twoRequestsDisk : Node :=
  .dir dirPerm [("store", .dir dirPerm
    [("requests", .dir dirPerm
      [("tpl", .dir dirPerm
        [("h1.yaml", .file filePerm 100 (asciiBytes "url: https://example1.com\n")),
         ("h2.yaml", .file filePerm 101 (asciiBytes "url: https://example2.com\n"))])]),
     ("responses", .dir dirPerm
      [("h1", .dir dirPerm
        [("20240115_103045_000_0001.yaml", .file filePerm 102
          (asciiBytes "request_hash: h1\ntemplate_hash: tpl\nstatus_code: 200\nbody: \n"))]),
       ("h2", .dir dirPerm
        [("20240115_103047_000_0002.yaml", .file filePerm 103
          (asciiBytes "request_hash: h2\ntemplate_hash: tpl\nstatus_code: 404\nbody: \n"))])])])]

/-- The path of the response file a listing entry stands for. -/
def FileInfo.responseFile (root : Path) (f : FileInfo) : Path :=
  root ++ ["responses", f.RequestHash] ++ [f.ResponseID ++ ".yaml"]

/-- The row of a listing entry: its response can be read, its ID has at least
19 bytes and the first 19 characters parse as a timestamp. -/
def RowOf (Y : YamlLib) (fs : Node) (style : TimestampStyle) (root : Path) (f : FileInfo)
    (row : ResponseRow) : Prop :=
  ∃ res t, ReadYAMLFile Y.unmarshalResponse fs (f.responseFile root) = .ok res
    ∧ 19 ≤ f.ResponseID.utf8ByteSize
    ∧ Parse responseIDLayout ⟨f.ResponseID.data.take 19⟩ = some t
    ∧ row = ⟨f.ResponseID, statusColumn res.StatusCode, res.Timing.Total,
              timestampColumn style t⟩

/-- A store with one request `h1` of the template `tpl` and one response of
it, stored under the given ID. -/
def oneResponseDisk (id : String) : Node :=
  .dir dirPerm [("store", .dir dirPerm
    [("requests", .dir dirPerm
      [("tpl", .dir dirPerm
        [("h1.yaml", .file filePerm 100 (asciiBytes "url: https://example1.com\n"))])]),
     ("responses", .dir dirPerm
      [("h1", .dir dirPerm
        [(id ++ ".yaml", .file filePerm 102
          (asciiBytes "request_hash: h1\ntemplate_hash: tpl\nstatus_code: 200\nbody: \n"))])])])]

/-- The rows of the listing of template `tpl` on the store with two requests. -/
def twoRequestsRows : List ResponseRow :=
  [⟨"20240115_103047_000_0002", "404 ❌", 0, "2024-01-15 10:30:47 +0000 UTC"⟩,
   ⟨"20240115_103045_000_0001", "200 ✅", 0, "2024-01-15 10:30:45 +0000 UTC"⟩]

/-! ## Preparing a request (`internal/request/request.go`) -/

/-- What `internal/request` takes from Go's standard library and from the
process environment: `url.ParseRequestURI` (kept as the host of the parsed
URL, or the error), `unicode.ToUpper`, `unicode.ToLower` and `os.Getenv`. -/
structure GoLib where
  ParseRequestURI : String → Except GoError String
  ToUpper : Char → Char
  ToLower : Char → Char
  Getenv : String → String

/-- Go's `strings.ToUpper`. -/
def ToUpper (L : GoLib) (s : String) : String := ⟨s.data.map L.ToUpper⟩

/-- Go's `strings.ToLower`. -/
def ToLower (L : GoLib) (s : String) : String := ⟨s.data.map L.ToLower⟩

/-- Go's `unicode.IsSpace`: the code points with the White_Space property. -/
def IsSpace (c : Char) : Bool :=
  decide (c.toNat ∈ [9, 10, 11, 12, 13, 32, 133, 160, 5760, 8232, 8233, 8239, 8287, 12288])
    || (decide (8192 ≤ c.toNat) && decide (c.toNat ≤ 8202))

/-- Go's `strings.TrimSpace`. -/
def TrimSpace (s : String) : String :=
  ⟨((s.data.dropWhile IsSpace).reverse.dropWhile IsSpace).reverse⟩

/-- Go's `strings.HasPrefix`. -/
def HasPrefix (s pre : String) : Bool := pre.data.isPrefixOf s.data

/-- The scan of `strings.ReplaceAll` for a non-empty `old`: `skip` counts the
characters of the current match still to be passed over. -/
def replaceAux (old new : List Char) : Nat → List Char → List Char
  | _, [] => []
  | skip + 1, _ :: rest => replaceAux old new skip rest
  | 0, c :: rest =>
    if old.isPrefixOf (c :: rest) then new ++ replaceAux old new (old.length - 1) rest
    else c :: replaceAux old new 0 rest

/-- Go's `strings.ReplaceAll(s, old, new)`: the non-overlapping instances of
`old`, found from the left; an empty `old` matches before every character and
at the end. -/
def ReplaceAll (s old new : String) : String :=
  if old.data = [] then ⟨new.data ++ s.data.flatMap (fun c => c :: new.data)⟩
  else ⟨replaceAux old.data new.data 0 s.data⟩

/-- The methods `processBasics` accepts (the keys of `validMethods`). -/
def validMethods : List String := ["GET", "POST", "PUT", "DELETE", "PATCH", "HEAD", "OPTIONS"]

/-- An `int64` computed in wrap-around arithmetic. -/
def wrapInt64 (n : Int) : Int :=
  (n + 9223372036854775808) % 18446744073709551616 - 9223372036854775808

/-- Go's conversion of a `float64` to an `int64`-based type: the fraction is
discarded (truncation towards zero). For a value outside the `int64` range
the result depends on the platform; this is the one of amd64. -/
def int64OfFloat (x : ℚ) : Int :=
  let t := if 0 ≤ x then Rat.floor x else -Rat.floor (-x)
  if -9223372036854775808 ≤ t ∧ t < 9223372036854775808 then t else -9223372036854775808

/-- `time.Second`, in nanoseconds. -/
def Second : Int := 1000000000

/-- `RequestObject.processBasics`: the error it returns (nil is none) and the
request it leaves. `fmt.Errorf` with two `%w` operands wraps both, as
`errors.Join` does. -/
def RequestObject.processBasics (L : GoLib) (r : RequestObject) :
    Option GoError × RequestObject :=
  match L.ParseRequestURI r.URL with
  | .error err => (some (.join (.sentinel .ErrorInvalidURL) err), r)
  | .ok _ =>
    let cleanedMethod := TrimSpace (ToUpper L r.Method)
    if cleanedMethod ∈ validMethods then
      let r1 := { r with Method := cleanedMethod }
      let r2 :=
        if (0 : ℚ) < r1.TimeoutSeconds then
          { r1 with Timeout := wrapInt64 (int64OfFloat r1.TimeoutSeconds * Second) }
        else { r1 with TimeoutSeconds := 30, Timeout := wrapInt64 (30 * Second) }
      let r3 := if r2.UserAgent = "" then { r2 with UserAgent := "ReqCorder" } else r2
      let r4 := if r3.SSLVerify = none then { r3 with SSLVerify := some true } else r3
      (none, r4)
    else (some (.wrapf (.sentinel .ErrorInvalidMethod) none), r)

/-- `RequestObject.processBodyVars`, the entries of the map `BodyVars` visited
in the order `visit` (Go leaves the iteration order of a map unspecified). -/
def RequestObject.processBodyVars (visit : List (String × String)) (r : RequestObject) :
    RequestObject :=
  if r.Body = "" then r
  else
    { r with Body := (visit.foldl
        (fun body kv => ReplaceAll body ("\x7b\x7b" ++ kv.1 ++ "\x7d\x7d") kv.2) r.Body) }

/-- A character of the class `[A-Z_]`. -/
def isEnvNameStart (c : Char) : Bool := (decide ('A' ≤ c) && decide (c ≤ 'Z')) || c == '_'

/-- A character of the class `[A-Z0-9_]`. -/
def isEnvNameChar (c : Char) : Bool :=
  isEnvNameStart c || (decide ('0' ≤ c) && decide (c ≤ '9'))

/-- A match of `\{\{env:([A-Z_][A-Z0-9_]+)\}\}` at the head of the input: the
captured name and the length of the match. The name takes every character of
its class, none of which could start the closing braces. -/
def matchEnvAt (s : List Char) : Option (List Char × Nat) :=
  if "\x7b\x7benv:".data.isPrefixOf s then
    match s.drop 6 with
    | c0 :: rest =>
      let run := rest.takeWhile isEnvNameChar
      if isEnvNameStart c0 ∧ 1 ≤ run.length ∧ "\x7d\x7d".data.isPrefixOf (rest.drop run.length) then
        some (c0 :: run, 6 + 1 + run.length + 2)
      else none
    | [] => none
  else none

/-- `envRegex.ReplaceAllStringFunc`: every match, found from the left, is
replaced by the value of the environment variable it names. -/
def replaceEnvAux (getenv : String → String) : Nat → List Char → List Char
  | _, [] => []
  | skip + 1, _ :: rest => replaceEnvAux getenv skip rest
  | 0, c :: rest =>
    match matchEnvAt (c :: rest) with
    | some (name, len) => (getenv ⟨name⟩).data ++ replaceEnvAux getenv (len - 1) rest
    | none => c :: replaceEnvAux getenv 0 rest

/-- `RequestObject.processEnvVars`; without a match the replacement leaves the
body as it is, as the early return does. -/
def RequestObject.processEnvVars (L : GoLib) (r : RequestObject) : RequestObject :=
  { r with Body := ⟨replaceEnvAux L.Getenv 0 r.Body.data⟩ }

/-- `RequestObject.processAuth`. -/
def RequestObject.processAuth (L : GoLib) (r : RequestObject) : RequestObject :=
  if r.Auth = "" then r
  else
    let r1 :=
      if ToLower L r.AuthType = "bearer" ∧ HasPrefix r.Auth "bearer" = false
          ∧ HasPrefix r.Auth "Bearer" = false then
        { r with Auth := "Bearer " ++ r.Auth }
      else r
    if ToLower L r1.AuthType = "basic" ∧ HasPrefix r1.Auth "basic" = false
        ∧ HasPrefix r1.Auth "Basic" = false then
      { r1 with Auth := "Basic " ++ r1.Auth }
    else r1

/-- `RequestObject.processCookies`: the cookie jar it fills is not part of
the model, its error is. -/
def RequestObject.processCookies (L : GoLib) (r : RequestObject) :
    Option GoError × RequestObject :=
  if r.Cookies = [] then (none, r)
  else
    match L.ParseRequestURI r.URL with
    | .error err => (some (.wrapf (.sentinel .ErrorInvalidURL) (some err)), r)
    | .ok _ => (none, r)

/-- `RequestObject.Validate`: the error of `processCookies` is dropped. -/
def RequestObject.Validate (L : GoLib) (visit : List (String × String)) (r : RequestObject) :
    Option GoError × RequestObject :=
  match r.processBasics L with
  | (some err, r1) => (some err, r1)
  | (none, r1) =>
    (none, ((((r1.processBodyVars visit).processEnvVars L).processAuth L).processCookies L).2)

/-- The host of an absolute `http` or `https` URL, none for other strings. -/
def hostOfURL (url : String) : Option String :=
  if "https://".data.isPrefixOf url.data then
    some ⟨(url.data.drop 8).takeWhile (fun c => c != '/')⟩
  else if "http://".data.isPrefixOf url.data then
    some ⟨(url.data.drop 7).takeWhile (fun c => c != '/')⟩
  else none

/-- A library for worked examples: it accepts the absolute `http(s)` URLs
with a host and the absolute paths, maps the ASCII letters and has an empty
environment but for `HOME`. -/
def asciiLib : GoLib where
  ParseRequestURI := fun url =>
    match hostOfURL url with
    | some host =>
      if host = "" then .error (.library "invalid URI for request") else .ok host
    | none =>
      if "/".data.isPrefixOf url.data then .ok ""
      else .error (.library "invalid URI for request")
  ToUpper := Char.toUpper
  ToLower := Char.toLower
  Getenv := fun name => if name = "HOME" then "/home/user" else ""

/-- A GET request for `https://example.com` with the given timeout in seconds. -/
def requestWithTimeout (seconds : ℚ) : RequestObject :=
  { URL := "https://example.com", Method := "GET", TimeoutSeconds := seconds }

/-- The request of the order example: the body is the placeholder of `a`,
whose value is the placeholder of `b`. -/
def nestedVarsRequest : RequestObject :=
  { Body := "\x7b\x7ba\x7d\x7d", BodyVars := [("a", "\x7b\x7bb\x7d\x7d"), ("b", "x")] }

/-! ## The initiator and the commands (`internal/initiator/initiator.go`, `cmd/reqcorder`) -/

/-- The path a file name given as a string stands for; the working directory
is the root of the filesystem. -/
def pathOf (file : String) : Path :=
  ((splitSlash file.data).filter (fun seg => !seg.isEmpty)).map String.mk

/-- The `http.Client` that `InitiateRequest` configures: the timeout, the
certificate added to the root pool (none for the default pool) and
`InsecureSkipVerify`. -/
structure Client where
  Timeout : Int
  RootCAs : Option Bytes
  InsecureSkipVerify : Bool
deriving DecidableEq, Repr

/-- The `http.Request` that `constructHTTPRequest` builds; a nil body reader
is none. -/
structure HttpRequest where
  Method : String
  URL : String
  Body : Option String
  Header : List (String × String) := []
deriving DecidableEq, Repr

/-- The `http.Response` that `client.Do` returns: `Body` is what `io.ReadAll`
gives for it, the body or the text of the error. -/
structure HttpReply where
  StatusCode : Int
  Header : List (String × List String) := []
  Body : Except String String
  Cookies : List (String × String) := []

/-- What `InitiateRequest` takes from `crypto/x509` and `net/http`. A library
error is kept as its text: the code prints it with `%v`. `Do` also gives the
timings that the trace and the clock collect for the call. -/
structure HttpLib where
  AppendCertsFromPEM : Bytes → Bool
  NewRequest : String → String → Option String → Except String HttpRequest
  CanonicalHeaderKey : String → String
  Do : Client → HttpRequest → ResponseTimes × Except String HttpReply

/-- `http.Header.Set`: the value under the canonical form of the key is replaced. -/
def headerSet (H : HttpLib) (header : List (String × String)) (key value : String) :
    List (String × String) :=
  if header.any (fun kv => decide (kv.1 = H.CanonicalHeaderKey key)) then
    header.map (fun kv => if kv.1 = H.CanonicalHeaderKey key then (kv.1, value) else kv)
  else header ++ [(H.CanonicalHeaderKey key, value)]

/-- Go's `strings.Join`. -/
def Join (parts : List String) (sep : String) : String := sep.intercalate parts

/-- `initiator.flattenHeaders`. -/
def flattenHeaders (headers : List (String × List String)) : List (String × String) :=
  headers.map (fun kv => (kv.1, Join kv.2 ", "))

/-- `initiator.constructHTTPRequest`. -/
def constructHTTPRequest (H : HttpLib) (r : RequestObject) : Except GoError HttpRequest :=
  let bodyReader := if r.Body = "" then none else some r.Body
  match H.NewRequest r.Method r.URL bodyReader with
  | .error msg => .error (.wrapf (.sentinel .ErrorFailedToBuildRequest) (some (.library msg)))
  | .ok req =>
    let req1 := { req with
      Header := r.Headers.foldl (fun h kv => headerSet H h kv.1 kv.2) req.Header }
    let req2 :=
      if r.Auth = "" then req1
      else
        let headerName := if r.AuthHeaderName = "" then "Authorization" else r.AuthHeaderName
        { req1 with Header := headerSet H req1.Header headerName r.Auth }
    let req3 :=
      if r.UserAgent = "" then req2
      else { req2 with Header := headerSet H req2.Header "User-Agent" r.UserAgent }
    .ok req3

/-- The first part of `InitiateRequest`: the client for a request whose
`SSLVerify` points to `verify`. -/
def configureClient (H : HttpLib) (fs : Node) (r : RequestObject) (verify : Bool) :
    Except GoError Client :=
  if verify = true ∧ r.CACertPath ≠ "" then
    match osReadFile fs (pathOf r.CACertPath) with
    | .error _ => .error (.sentinel .ErrorFailedToReadCert)
    | .ok pem =>
      if H.AppendCertsFromPEM pem then
        .ok { Timeout := r.Timeout, RootCAs := some pem, InsecureSkipVerify := false }
      else .error (.wrapf (.sentinel .ErrorFailedToReadCert) none)
  else .ok { Timeout := r.Timeout, RootCAs := none, InsecureSkipVerify := !verify }

/-- `initiator.InitiateRequest`: the two values it returns, the response
pointer (nil is none) and the error (nil is none). A nil `SSLVerify` is
dereferenced and panics. -/
def InitiateRequest (H : HttpLib) (fs : Node) (r : RequestObject) :
    Outcome (Option ResponseObject × Option GoError) :=
  match r.SSLVerify with
  | none => .panicked "nil pointer dereference"
  | some verify =>
    match configureClient H fs r verify with
    | .error err => .ok (none, some err)
    | .ok client =>
      match constructHTTPRequest H r with
      | .error err => .ok (none, some err)
      | .ok req =>
        match H.Do client req with
        | (timing, .error msg) =>
          .ok (some { StatusCode := 1000
                      Body := "This request failed: " ++ msg
                        ++ "\n Refer to the logs for more details"
                      Timing := timing },
               some (.wrapf (.sentinel .ErrorRequestFailed) (some (.library msg))))
        | (timing, .ok res) =>
          match res.Body with
          | .error msg =>
            .ok (none, some (.wrapf (.sentinel .ErrorFailedToReadResponse) (some (.library msg))))
          | .ok body =>
            .ok (some { StatusCode := res.StatusCode
                        Headers := flattenHeaders res.Header
                        Body := body
                        Size := (body.utf8ByteSize : Int)
                        Timing := timing
                        Cookies := res.Cookies },
                 none)

/-- The entries of the map `errorCodes` of `cmd/reqcorder/error_codes.go`. -/
def errorCodes : List (Sentinel × Nat) :=
  [(.ErrorFailedToReadHomeDirectory, 1), (.ErrorFailedToOpenLogFile, 1),
   (.ErrorFailedToCreateDirectory, 1), (.ErrorFailedToStatPath, 1),
   (.ErrorFailedToReadDirectory, 1), (.ErrorPathIsNotDirectory, 1),
   (.ErrorInvalidUsage, 2), (.ErrorInvalidDiffType, 2), (.ErrorInvalidShowType, 2),
   (.ErrorInvalidListType, 2), (.ErrorInvalidURL, 2), (.ErrorInvalidMethod, 2),
   (.ErrorFailedToMarshalJSON, 3), (.ErrorFailedToParseTimestamp, 3),
   (.ErrorFailedToUnmarshalYAML, 3), (.ErrorFailedToConvertBodyVar, 3),
   (.ErrorFailedToCreateCookieJar, 3), (.ErrorFailedToReadCert, 3),
   (.ErrorFailedToBuildRequest, 3), (.ErrorRequestFailed, 3),
   (.ErrorFailedToReadResponse, 3),
   (.ErrorFailedToGetRequest, 4), (.ErrorFailedToGetTemplate, 4),
   (.ErrorFailedToGetResponse, 4),
   (.ErrorFailedToRenderDiff, 5)]

/-- The entries of the map `errorMessages` of `cmd/reqcorder/error_messages.go`. -/
def errorMessages : List (Sentinel × String) :=
  [(.ErrorFailedToCreateDirectory, "failed to create directory"),
   (.ErrorFailedToMarshalJSON, "failed to format output"),
   (.ErrorFailedToUnmarshalYAML, "failed to read file contents"),
   (.ErrorFailedToStatPath, "failed to read required path"),
   (.ErrorFailedToReadDirectory, "failed to read required directory"),
   (.ErrorPathIsNotDirectory, "expected directory"),
   (.ErrorFailedToGetRequest, "failed to get request details"),
   (.ErrorFailedToGetResponse, "failed to get response details"),
   (.ErrorFailedToGetTemplate, "failed to get template details"),
   (.ErrorInvalidDiffType, "invalid usage, invalid diff type"),
   (.ErrorFailedToRenderDiff, "failed to render diff"),
   (.ErrorFailedToParseTimestamp, "failed to format timestamp"),
   (.ErrorInvalidURL, "invalid URL passed"),
   (.ErrorInvalidMethod, "invalid HTTP method passed"),
   (.ErrorFailedToConvertBodyVar, "failed to process body var(s)"),
   (.ErrorFailedToCreateCookieJar, "failed to process request cookie(s)"),
   (.ErrorFailedToReadCert, "failed to read certificate path"),
   (.ErrorFailedToBuildRequest, "failed to process request"),
   (.ErrorRequestFailed, "failed to process request"),
   (.ErrorFailedToReadResponse, "failed to read response")]

/-- The loop `for key, v := range m { if errors.Is(err, key) { ... } }` over a
map whose entries are visited in the order `visit`: the value of the first
key visited that `err` matches. -/
def firstMatch {α : Type} (visit : List (Sentinel × α)) (err : GoError) : Option α :=
  (visit.find? (fun kv => err.Is kv.1)).map (fun kv => kv.2)

/-- `formatErrorMessage(err)` of `main.go`, called without further arguments,
the map `errorMessages` visited in the order `messages`: `errors.New` of the
message of the first matching key, `err` itself when no key matches. -/
def formatErrorMessage (messages : List (Sentinel × String)) (err : GoError) : GoError :=
  match firstMatch messages err with
  | some message => .library message
  | none => err

/-- `printErrorAndExit` of `main.go`, the map `errorCodes` visited in the
order `codes`: the status the process exits with. What it prints is
`formatErrorMessage` of the error. -/
def printErrorAndExit (codes : List (Sentinel × Nat)) (err : GoError) : Nat :=
  match firstMatch codes err with
  | some code => code
  | none => 125

/-- How a command of `main.go` ends. -/
inductive ProcessEnd where
  | returned
  | exited (code : Nat)
  | panicked (msg : String)
deriving DecidableEq, Repr

/-- What a run of a command leaves: how it ended, the record store value and
the world. -/
structure ExecRun where
  status : ProcessEnd
  store : RecordStore
  world : World

/-- `runExec` of `main.go` once the flags are parsed and a template path is
given; the writes to the two streams are left out. `utils.Prettify` of the
response body, a string, has no error. With `quiet` unset a nil response
without an error would be dereferenced for the output. -/
def runExec (Y : YamlLib) (L : GoLib) (H : HttpLib) (visit : List (String × String))
    (codes : List (Sentinel × Nat)) (sched : Schedule) (clk : RecordClock) (quiet : Bool)
    (templatePath : String) (recordStorePath : Path) (w : World) : ExecRun :=
  match ReadYAMLFile Y.unmarshalRequest w.fs (pathOf templatePath) with
  | .error err => ⟨.exited (printErrorAndExit codes err), {}, w⟩
  | .ok req0 =>
    match ReadFile w.fs (pathOf templatePath) with
    | .error err => ⟨.exited (printErrorAndExit codes err), {}, w⟩
    | .ok templateYaml =>
      match req0.Validate L visit with
      | (some err, _) => ⟨.exited (printErrorAndExit codes err), {}, w⟩
      | (none, req) =>
        let recordStore : RecordStore :=
          { RecordStorePath := recordStorePath, TemplateYaml := templateYaml,
            Request := some req }
        match InitiateRequest H w.fs req with
        | .panicked msg => ⟨.panicked msg, recordStore, w⟩
        | .error err => ⟨.exited (printErrorAndExit codes err), recordStore, w⟩
        | .ok (res, some err) =>
          match ({ recordStore with Response := res }).Record Y sched clk w with
          | (.panicked msg, r1, w1) => ⟨.panicked msg, r1, w1⟩
          | (_, r1, w1) => ⟨.exited (printErrorAndExit codes err), r1, w1⟩
        | .ok (res, none) =>
          if quiet = false ∧ res = none then
            ⟨.panicked "nil pointer dereference", recordStore, w⟩
          else
            match ({ recordStore with Response := res }).Record Y sched clk w with
            | (.panicked msg, r1, w1) => ⟨.panicked msg, r1, w1⟩
            | (.error err, r1, w1) => ⟨.exited (printErrorAndExit codes err), r1, w1⟩
            | (.ok _, r1, w1) => ⟨.returned, r1, w1⟩

/-- The text of an error made by `errors.New`. -/
def GoError.newText? : GoError → Option String
  | .library msg => some msg
  | _ => none

/-- A network for worked examples: every non-empty PEM file is accepted, a
request is built unless its URL holds a blank, the host `down.example` refuses
the connection, the body of `cut.example` breaks off, and every other host
answers 200 with the body `ok`. -/
def exampleHttp : HttpLib where
  AppendCertsFromPEM := fun pem => !pem.isEmpty
  NewRequest := fun method url body =>
    if url.data.any (fun c => c == ' ') then .error "invalid character in URL"
    else .ok { Method := method, URL := url, Body := body }
  CanonicalHeaderKey := fun key => key
  Do := fun _ req =>
    if hostOfURL req.URL = some "down.example" then
      ({ Total := 5 }, .error "dial tcp: connection refused")
    else if hostOfURL req.URL = some "cut.example" then
      ({ Total := 7 }, .ok { StatusCode := 200, Body := .error "unexpected EOF" })
    else ({ Total := 9 }, .ok { StatusCode := 200, Body := .ok "ok" })

/-- A YAML library for the worked examples of `runExec`: it reads as
`plainYaml` does and writes the URL, the method and the certificate path of
every request, the status code and the body of every response. -/
def execYaml : YamlLib :=
  { plainYaml with
    marshalRequest := fun r =>
      .ok (yamlLine "url" r.URL ++ yamlLine "method" r.Method
        ++ yamlLineOmitEmpty "ca_cert_path" r.CACertPath)
    marshalResponse := fun r =>
      .ok (yamlLine "status_code" (Itoa r.StatusCode) ++ yamlLine "body" r.Body) }

/-- A disk with two templates at the root: `cert.yaml` names a certificate
file that does not exist, `down.yaml` a host that refuses the connection. -/
def execDisk : Node :=
  .dir dirPerm
    [("cert.yaml", .file filePerm 1
        (asciiBytes "url: https://example.com\nmethod: GET\nca_cert_path: /missing.pem\n")),
     ("down.yaml", .file filePerm 2
        (asciiBytes "url: https://down.example\nmethod: GET\n"))]

/-- `reqcorder exec cert.yaml` on `execDisk`. -/
def missingCertRun : ExecRun :=
  runExec execYaml asciiLib exampleHttp [] errorCodes .templateRequestResponse exampleClock
    false "cert.yaml" ["store"] ⟨execDisk, 0⟩

/-- `reqcorder exec down.yaml` on `execDisk`. -/
def refusedConnectionRun : ExecRun :=
  runExec execYaml asciiLib exampleHttp [] errorCodes .templateRequestResponse exampleClock
    false "down.yaml" ["store"] ⟨execDisk, 0⟩

/-- The lookup of request `h1` in the store of `shadowedLookupDisk`, whose
first `h1.yaml` is not a YAML document: the error it returns. -/
def malformedRequestLookup : Option GoError :=
  (RecordStore.GetRequestByHash plainYaml
    { RecordStorePath := ["store"], RequestHash := "h1" } shadowedLookupDisk).1

/-- A name that `filepath.Join` takes as one component and keeps: it is not
empty, not `.`, not `..`, and holds no slash. -/
def PlainName (s : String) : Prop :=
  s ≠ "" ∧ s ≠ "." ∧ s ≠ ".." ∧ '/' ∉ s.data

/-- A store with one template `tpl`, an empty template sub-directory `aaa` of
`requests/`, and one response `id1` under `responses/h1`, after the empty
request sub-directory `h0`. -/
def traversalDisk : Node :=
  .dir dirPerm [("store", .dir dirPerm
    [("requests", .dir dirPerm [("aaa", .dir dirPerm [])]),
     ("responses", .dir dirPerm
      [("h0", .dir dirPerm []),
       ("h1", .dir dirPerm [("id1.yaml", .file filePerm 103
          (asciiBytes "request_hash: h1\ntemplate_hash: bbb\nstatus_code: 200\nbody: \n"))])]),
     ("templates", .dir dirPerm [("tpl.yaml", .file filePerm 100
        (asciiBytes "url: https://example1.com\nmethod: GET\n"))])])]

/-- The template `tpl` of `traversalDisk`, read as a request. -/
def templateReadAsRequest : RequestObject :=
  { URL := "https://example1.com", Method := "GET" }

/-- A store whose `templates/` directory can be written and searched but not
listed (mode `0300`). -/
def unlistableTemplatesDisk : Node :=
  .dir dirPerm [("store", .dir dirPerm [("templates", .dir ⟨false, true, true⟩ [])])]

/-- The template of the worked examples written twice below
`unlistableTemplatesDisk`, at times 100 and 200. -/
def unlistableTemplatesTwice : Option GoError × Node :=
  exampleRun.2.1.recordTemplate 200 (exampleRun.2.1.recordTemplate 100 unlistableTemplatesDisk).2

/-- Two `Record` calls of the store of the worked examples on
`unlistableTemplatesDisk`. -/
def unlistableRecordTwice : Outcome Unit × RecordStore × World :=
  exampleStore.Record plainYaml .responseRequestTemplate laterClock
    (exampleStore.Record plainYaml .templateRequestResponse exampleClock
      ⟨unlistableTemplatesDisk, 0⟩).2.2

/-- A sequence of `recordResponse` calls of one process, each given by its
store value, the clock reading of its ID and the time of its write, run one
after the other on the world the call before left: the `ResponseID` each call
leaves in its store value. -/
def recordResponseCalls : List (RecordStore × Instant × Nat) → World → List String
  | [], _ => []
  | call :: rest, w =>
    (call.1.recordResponse call.2.1 call.2.2 w).2.1.ResponseID
      :: recordResponseCalls rest (call.1.recordResponse call.2.1 call.2.2 w).2.2

/-- The store of the worked examples recorded 10001 times at one and the same
clock reading. -/
def identicalCalls : List (RecordStore × Instant × Nat) :=
  (exampleRun.2.1, exampleClock.idClock, 102)
    :: List.replicate 10000 (exampleRun.2.1, exampleClock.idClock, 102)

/-! # Theorems -/

/-! ## Directory entries -/

theorem lookupEntry_replaceEntry_same (name : String) (n : Node) (es : Entries)
    (h : (lookupEntry name es).isSome = true) :
    lookupEntry name (replaceEntry name n es) = some n := by
  induction es with
  | nil => simp [lookupEntry] at h
  | cons e rest ih =>
    obtain ⟨k, v⟩ := e
    by_cases hk : k = name
    · simp [replaceEntry, lookupEntry, hk]
    · simp [replaceEntry, lookupEntry, hk] at h ⊢
      exact ih h

theorem lookupEntry_replaceEntry_ne (name k : String) (n : Node) (es : Entries)
    (hne : k ≠ name) :
    lookupEntry k (replaceEntry name n es) = lookupEntry k es := by
  induction es with
  | nil => simp [replaceEntry]
  | cons e rest ih =>
    obtain ⟨k', v⟩ := e
    by_cases hk : k' = name
    · subst hk
      have : ¬ k' = k := fun h => hne h.symm
      simp [replaceEntry, lookupEntry, this]
    · by_cases hk2 : k' = k
      · subst hk2
        simp [replaceEntry, lookupEntry, hk]
      · simp [replaceEntry, lookupEntry, hk, hk2, ih]

theorem lookupEntry_insertEntry_same (name : String) (n : Node) (es : Entries)
    (h : lookupEntry name es = none) :
    lookupEntry name (insertEntry name n es) = some n := by
  induction es with
  | nil => simp [insertEntry, lookupEntry]
  | cons e rest ih =>
    obtain ⟨k, v⟩ := e
    by_cases hk : k = name
    · simp [lookupEntry, hk] at h
    · simp [lookupEntry, hk] at h
      by_cases hlt : nameLt name k = true
      · simp [insertEntry, hlt, lookupEntry]
      · simp [insertEntry, hlt, lookupEntry, hk, ih h]

theorem lookupEntry_insertEntry_ne (name k : String) (n : Node) (es : Entries)
    (hne : k ≠ name) :
    lookupEntry k (insertEntry name n es) = lookupEntry k es := by
  have hne' : ¬ name = k := fun h => hne h.symm
  induction es with
  | nil => simp [insertEntry, lookupEntry, hne']
  | cons e rest ih =>
    obtain ⟨k', v⟩ := e
    by_cases hlt : nameLt name k' = true
    · simp [insertEntry, hlt, lookupEntry, hne']
    · by_cases hk2 : k' = k
      · subst hk2
        simp [insertEntry, hlt, lookupEntry]
      · simp [insertEntry, hlt, lookupEntry, hk2, ih]

/-! ## Files are kept by the operations that do not target them -/

theorem find_file_nonempty (perm : Perm) (t : Nat) (c : Bytes) (k : String) (q : Path) :
    (Node.file perm t c).find (k :: q) = none := by
  simp [Node.find]

theorem find_dir_cons (perm : Perm) (es : Entries) (k : String) (q : Path) :
    (Node.dir perm es).find (k :: q) =
      match lookupEntry k es with
      | some c => c.find q
      | none => none := by
  cases h : lookupEntry k es <;> simp [Node.find, h]

theorem updateDir_find_iff (name : String) (f : Perm → Entries → Except Errno Entries)
    (hloc : LocalTo name f) (hbefore : NoDirBefore name f) (hafter : NoDirAfter name f)
    (parent : Path) :
    ∀ (fs fs' : Node), updateDir f fs parent = .ok fs' →
    ∀ (q : Path) (perm : Perm) (t : Nat) (c : Bytes), q ≠ parent ++ [name] →
      (fs'.find q = some (.file perm t c) ↔ fs.find q = some (.file perm t c)) := by
  induction parent with
  | nil =>
    intro fs fs' h q perm t c hq
    cases fs with
    | file p t0 c0 => simp [updateDir] at h
    | dir p es =>
      simp only [updateDir] at h
      cases hf : f p es with
      | error e => simp [hf] at h
      | ok es' =>
        simp [hf] at h
        subst h
        cases q with
        | nil => simp [Node.find]
        | cons k q' =>
          by_cases hk : k = name
          · subst hk
            have hq' : q' ≠ [] := by
              intro h0; subst h0; simp at hq
            rw [find_dir_cons, find_dir_cons]
            constructor
            · intro h1
              cases hl : lookupEntry k es' with
              | none => simp [hl] at h1
              | some c' =>
                simp only [hl] at h1
                rw [hafter p es es' hf c' q' hl hq'] at h1
                simp at h1
            · intro h1
              cases hl : lookupEntry k es with
              | none => simp [hl] at h1
              | some c' =>
                simp only [hl] at h1
                cases c' with
                | file p1 t1 c1 =>
                  cases q' with
                  | nil => exact absurd rfl hq'
                  | cons a b => simp [Node.find] at h1
                | dir pd ents => exact absurd hl (hbefore p es es' hf pd ents)
          · rw [find_dir_cons, find_dir_cons, hloc p es es' hf k hk]
  | cons n rest ih =>
    intro fs fs' h q perm t c hq
    cases fs with
    | file p t0 c0 => simp [updateDir] at h
    | dir p es =>
      simp only [updateDir] at h
      by_cases hx : p.x = true
      · simp only [hx, if_true] at h
        cases hl : lookupEntry n es with
        | none => simp [hl] at h
        | some child =>
          simp only [hl] at h
          cases hu : updateDir f child rest with
          | error e => simp [hu] at h
          | ok child' =>
            simp [hu] at h
            subst h
            cases q with
            | nil => simp [Node.find]
            | cons k q' =>
              by_cases hk : k = n
              · subst hk
                have hq' : q' ≠ rest ++ [name] := by
                  intro h0; subst h0; simp at hq
                rw [find_dir_cons, find_dir_cons,
                  lookupEntry_replaceEntry_same k child' es (by simp [hl]), hl]
                exact ih child child' hu q' perm t c hq'
              · rw [find_dir_cons, find_dir_cons, lookupEntry_replaceEntry_ne n k child' es hk]
      · simp [hx] at h

theorem find_append (p q : Path) : ∀ (fs : Node),
    fs.find (p ++ q) = (fs.find p).bind (fun n => n.find q) := by
  induction p with
  | nil => intro fs; simp [Node.find]
  | cons k rest ih =>
    intro fs
    cases fs with
    | file pm t c => simp [Node.find]
    | dir pm es =>
      rw [List.cons_append, find_dir_cons, find_dir_cons]
      cases lookupEntry k es with
      | none => simp
      | some c => simpa using ih c

theorem updateDir_find_parent (f : Perm → Entries → Except Errno Entries) (parent : Path) :
    ∀ (fs fs' : Node), updateDir f fs parent = .ok fs' →
      ∃ p es es', f p es = .ok es' ∧ fs.find parent = some (.dir p es)
        ∧ fs'.find parent = some (.dir p es') := by
  induction parent with
  | nil =>
    intro fs fs' h
    cases fs with
    | file p t0 c0 => simp [updateDir] at h
    | dir p es =>
      simp only [updateDir] at h
      cases hf : f p es with
      | error e => simp [hf] at h
      | ok es' =>
        simp [hf] at h
        subst h
        exact ⟨p, es, es', hf, by simp [Node.find], by simp [Node.find]⟩
  | cons n rest ih =>
    intro fs fs' h
    cases fs with
    | file p t0 c0 => simp [updateDir] at h
    | dir p es =>
      simp only [updateDir] at h
      by_cases hx : p.x = true
      · simp only [hx, if_true] at h
        cases hl : lookupEntry n es with
        | none => simp [hl] at h
        | some child =>
          simp only [hl] at h
          cases hu : updateDir f child rest with
          | error e => simp [hu] at h
          | ok child' =>
            simp [hu] at h
            subst h
            obtain ⟨p1, es1, es1', hf, h1, h2⟩ := ih child child' hu
            refine ⟨p1, es1, es1', hf, ?_, ?_⟩
            · rw [find_dir_cons, hl]; exact h1
            · rw [find_dir_cons, lookupEntry_replaceEntry_same n child' es (by simp [hl])]
              exact h2
      · simp [hx] at h

theorem writeEntry_localTo (name : String) (data : Bytes) (now : Nat) :
    LocalTo name (writeEntry name data now) := by
  intro perm es es' h k hk
  unfold writeEntry at h
  by_cases hx : perm.x = true
  · simp only [hx, if_true] at h
    cases hl : lookupEntry name es with
    | none =>
      simp only [hl] at h
      by_cases hw : perm.w = true
      · simp [hw] at h; subst h
        exact lookupEntry_insertEntry_ne name k _ es hk
      · simp [hw] at h
    | some c =>
      cases c with
      | file fp t0 c0 =>
        simp only [hl] at h
        by_cases hw : fp.w = true
        · simp [hw] at h; subst h
          exact lookupEntry_replaceEntry_ne name k _ es hk
        · simp [hw] at h
      | dir pd ents => simp [hl] at h
  · simp [hx] at h

theorem writeEntry_target (name : String) (data : Bytes) (now : Nat) (perm : Perm)
    (es es' : Entries) (h : writeEntry name data now perm es = .ok es') :
    (∃ fp, lookupEntry name es' = some (.file fp now data))
      ∧ ∀ pd ents, lookupEntry name es ≠ some (.dir pd ents) := by
  unfold writeEntry at h
  by_cases hx : perm.x = true
  · simp only [hx, if_true] at h
    cases hl : lookupEntry name es with
    | none =>
      simp only [hl] at h
      by_cases hw : perm.w = true
      · simp [hw] at h; subst h
        exact ⟨⟨filePerm, lookupEntry_insertEntry_same name _ es hl⟩, by simp⟩
      · simp [hw] at h
    | some c =>
      cases c with
      | file fp t0 c0 =>
        simp only [hl] at h
        by_cases hw : fp.w = true
        · simp [hw] at h; subst h
          exact ⟨⟨fp, lookupEntry_replaceEntry_same name _ es (by simp [hl])⟩, by simp⟩
        · simp [hw] at h
      | dir pd ents => simp [hl] at h
  · simp [hx] at h

theorem writeEntry_noDirBefore (name : String) (data : Bytes) (now : Nat) :
    NoDirBefore name (writeEntry name data now) := by
  intro perm es es' h
  exact (writeEntry_target name data now perm es es' h).2

theorem writeEntry_noDirAfter (name : String) (data : Bytes) (now : Nat) :
    NoDirAfter name (writeEntry name data now) := by
  intro perm es es' h c q hl hq
  obtain ⟨fp, hfp⟩ := (writeEntry_target name data now perm es es' h).1
  rw [hfp] at hl
  cases hl
  cases q with
  | nil => exact absurd rfl hq
  | cons a b => simp [Node.find]

theorem mkdirEntry_target (name : String) (perm : Perm) (es es' : Entries)
    (h : mkdirEntry name perm es = .ok es') :
    lookupEntry name es' = some (.dir dirPerm []) ∧ lookupEntry name es = none := by
  unfold mkdirEntry at h
  by_cases hx : perm.x = true
  · simp only [hx, if_true] at h
    cases hl : lookupEntry name es with
    | none =>
      simp only [hl] at h
      by_cases hw : perm.w = true
      · simp [hw] at h; subst h
        exact ⟨lookupEntry_insertEntry_same name _ es hl, rfl⟩
      · simp [hw] at h
    | some c => simp [hl] at h
  · simp [hx] at h

theorem mkdirEntry_localTo (name : String) : LocalTo name (mkdirEntry name) := by
  intro perm es es' h k hk
  unfold mkdirEntry at h
  by_cases hx : perm.x = true
  · simp only [hx, if_true] at h
    cases hl : lookupEntry name es with
    | none =>
      simp only [hl] at h
      by_cases hw : perm.w = true
      · simp [hw] at h; subst h
        exact lookupEntry_insertEntry_ne name k _ es hk
      · simp [hw] at h
    | some c => simp [hl] at h
  · simp [hx] at h

theorem mkdirEntry_noDirBefore (name : String) : NoDirBefore name (mkdirEntry name) := by
  intro perm es es' h pd ents
  rw [(mkdirEntry_target name perm es es' h).2]
  simp

theorem mkdirEntry_noDirAfter (name : String) : NoDirAfter name (mkdirEntry name) := by
  intro perm es es' h c q hl hq
  rw [(mkdirEntry_target name perm es es' h).1] at hl
  cases hl
  cases q with
  | nil => exact absurd rfl hq
  | cons a b => simp [Node.find, lookupEntry]

/-- A successful `WriteFile` leaves the file, with the bytes and the time of the write. -/
theorem WriteFile_target (fs fs' : Node) (parent : Path) (name : String) (data : Bytes)
    (now : Nat) (h : WriteFile fs parent name data now = .ok fs') :
    ∃ fp, FileAt fs' (parent ++ [name]) fp now data := by
  obtain ⟨p, es, es', hf, _, h2⟩ := updateDir_find_parent _ parent fs fs' h
  obtain ⟨fp, hfp⟩ := (writeEntry_target name data now p es es' hf).1
  refine ⟨fp, ?_⟩
  unfold FileAt
  rw [find_append, h2]
  simp [Node.find, hfp]

/-- A successful `WriteFile` neither adds, removes nor changes any other file. -/
theorem WriteFile_frame (fs fs' : Node) (parent : Path) (name : String) (data : Bytes)
    (now : Nat) (h : WriteFile fs parent name data now = .ok fs')
    (q : Path) (perm : Perm) (t : Nat) (c : Bytes) (hq : q ≠ parent ++ [name]) :
    FileAt fs' q perm t c ↔ FileAt fs q perm t c :=
  updateDir_find_iff name _ (writeEntry_localTo name data now)
    (writeEntry_noDirBefore name data now) (writeEntry_noDirAfter name data now)
    parent fs fs' h q perm t c hq

/-- A successful `Mkdir` neither adds, removes nor changes any file. -/
theorem Mkdir_frame (fs fs' : Node) (parent : Path) (name : String)
    (h : Mkdir fs parent name = .ok fs') (q : Path) (perm : Perm) (t : Nat) (c : Bytes) :
    FileAt fs' q perm t c ↔ FileAt fs q perm t c := by
  by_cases hq : q = parent ++ [name]
  · subst hq
    obtain ⟨p, es, es', hf, h1, h2⟩ := updateDir_find_parent _ parent fs fs' h
    obtain ⟨ha, hb⟩ := mkdirEntry_target name p es es' hf
    unfold FileAt
    rw [find_append, find_append, h1, h2]
    simp [Node.find, ha, hb]
  · exact updateDir_find_iff name _ (mkdirEntry_localTo name) (mkdirEntry_noDirBefore name)
      (mkdirEntry_noDirAfter name) parent fs fs' h q perm t c hq

/-- `MkdirAll`, whether it succeeds or fails, neither adds, removes nor changes any file. -/
theorem MkdirAllRev_frame (rev : List String) : ∀ (fs : Node) (q : Path) (perm : Perm) (t : Nat)
    (c : Bytes), FileAt (MkdirAllRev fs rev).2 q perm t c ↔ FileAt fs q perm t c := by
  induction rev with
  | nil =>
    intro fs q perm t c
    unfold MkdirAllRev
    split <;> rfl
  | cons name parentRev ih =>
    intro fs q perm t c
    rw [MkdirAllRev]
    split
    · split <;> rfl
    · have ih' := ih fs q perm t c
      split
      · rename_i e fs1 heq
        rw [heq] at ih'
        exact ih'
      · rename_i fs1 heq
        rw [heq] at ih'
        split
        · rename_i fs2 hmk
          exact (Mkdir_frame fs1 fs2 _ name hmk q perm t c).trans ih'
        · split
          · split <;> exact ih'
          · exact ih'

theorem EnsureDir_frame (fs : Node) (p : Path) (q : Path) (perm : Perm) (t : Nat) (c : Bytes) :
    FileAt (EnsureDir fs p).2 q perm t c ↔ FileAt fs q perm t c := by
  have h := MkdirAllRev_frame p.reverse fs q perm t c
  unfold EnsureDir MkdirAll
  split
  · rename_i fs1 heq; rw [heq] at h; exact h
  · rename_i e fs1 heq; rw [heq] at h; exact h


/-! ## The write path -/

theorem recordTemplate_frame (r : RecordStore) (now : Nat) (fs : Node) (q : Path) (perm : Perm)
    (t : Nat) (c : Bytes) (hq : q ≠ r.templatePath) :
    FileAt (r.recordTemplate now fs).2 q perm t c ↔ FileAt fs q perm t c := by
  have he := EnsureDir_frame fs (r.RecordStorePath ++ ["templates"]) q perm t c
  unfold RecordStore.recordTemplate
  simp only
  split
  · rename_i err fs1 heq; rw [heq] at he; exact he
  · rename_i fs1 heq
    rw [heq] at he
    split
    · exact he
    · rename_i fs2 hw
      exact (WriteFile_frame fs1 fs2 _ _ _ _ hw q perm t c hq).trans he

theorem recordTemplate_target (r : RecordStore) (now : Nat) (fs : Node)
    (h : (r.recordTemplate now fs).1 = none) :
    ∃ fp, FileAt (r.recordTemplate now fs).2 r.templatePath fp now r.TemplateYaml := by
  unfold RecordStore.recordTemplate at h ⊢
  simp only at h ⊢
  split at h
  · simp at h
  · rename_i fs1 heq
    split at h
    · simp at h
    · rename_i fs2 hw
      exact WriteFile_target fs1 fs2 _ _ _ _ hw

theorem recordRequest_frame (r : RecordStore) (now : Nat) (fs : Node) (q : Path) (perm : Perm)
    (t : Nat) (c : Bytes) (hq : q ≠ r.requestPath) :
    FileAt (r.recordRequest now fs).2 q perm t c ↔ FileAt fs q perm t c := by
  have he := EnsureDir_frame fs (r.RecordStorePath ++ ["requests", r.TemplateHash]) q perm t c
  unfold RecordStore.recordRequest
  simp only
  split
  · rename_i err fs1 heq; rw [heq] at he; exact he
  · rename_i fs1 heq
    rw [heq] at he
    split
    · exact he
    · rename_i fs2 hw
      exact (WriteFile_frame fs1 fs2 _ _ _ _ hw q perm t c hq).trans he

theorem recordRequest_target (r : RecordStore) (now : Nat) (fs : Node)
    (h : (r.recordRequest now fs).1 = none) :
    ∃ fp, FileAt (r.recordRequest now fs).2 r.requestPath fp now r.RequestYaml := by
  unfold RecordStore.recordRequest at h ⊢
  simp only at h ⊢
  split at h
  · simp at h
  · rename_i fs1 heq
    split at h
    · simp at h
    · rename_i fs2 hw
      exact WriteFile_target fs1 fs2 _ _ _ _ hw

theorem recordResponse_store (r : RecordStore) (clock : Instant) (now : Nat) (w : World) :
    (r.recordResponse clock now w).2.1
      = { r with ResponseID := (r.recordResponse clock now w).2.1.ResponseID } := by
  unfold RecordStore.recordResponse
  simp only
  split
  · rfl
  · split <;> rfl

theorem recordResponse_frame (r : RecordStore) (clock : Instant) (now : Nat) (w : World)
    (q : Path) (perm : Perm) (t : Nat) (c : Bytes)
    (hq : q ≠ (r.recordResponse clock now w).2.1.responsePath) :
    FileAt (r.recordResponse clock now w).2.2.fs q perm t c ↔ FileAt w.fs q perm t c := by
  have he := EnsureDir_frame w.fs (r.RecordStorePath ++ ["responses", r.RequestHash]) q perm t c
  unfold RecordStore.recordResponse at hq ⊢
  simp only at hq ⊢
  split
  · rename_i err fs1 heq; rw [heq] at he; exact he
  · rename_i fs1 heq
    rw [heq] at he hq
    simp only at hq
    split
    · exact he
    · rename_i fs2 hw
      rw [hw] at hq
      exact (WriteFile_frame fs1 fs2 _ _ _ _ hw q perm t c hq).trans he

theorem recordResponse_target (r : RecordStore) (clock : Instant) (now : Nat) (w : World)
    (h : (r.recordResponse clock now w).1 = none) :
    (∃ fp, FileAt (r.recordResponse clock now w).2.2.fs
        (r.recordResponse clock now w).2.1.responsePath fp now r.ResponseYaml)
      ∧ (r.recordResponse clock now w).2.1.ResponseID
          = (generateResponseID clock w.globalExecutionCounter).1
      ∧ (r.recordResponse clock now w).2.2.globalExecutionCounter
          = (generateResponseID clock w.globalExecutionCounter).2 := by
  unfold RecordStore.recordResponse at h ⊢
  simp only at h ⊢
  split at h
  · simp at h
  · rename_i fs1 heq
    split at h
    · simp at h
    · rename_i fs2 hw
      exact ⟨WriteFile_target fs1 fs2 _ _ _ _ hw, rfl, rfl⟩

theorem runTask_store_of_ne (clk : RecordClock) (st : TaskState) (t : Task)
    (ht : t ≠ .response) : (runTask clk st t).store = st.store := by
  cases t with
  | template => unfold runTask; simp only; split <;> rfl
  | request => unfold runTask; simp only; split <;> rfl
  | response => exact absurd rfl ht

theorem runTask_store (clk : RecordClock) (st : TaskState) (t : Task) :
    (runTask clk st t).store
      = { st.store with ResponseID := (runTask clk st t).store.ResponseID } := by
  cases t with
  | template => rw [runTask_store_of_ne clk st .template (by decide)]
  | request => rw [runTask_store_of_ne clk st .request (by decide)]
  | response =>
    have h := recordResponse_store st.store clk.idClock clk.responseTime st.world
    unfold runTask
    simp only
    split
    · rename_i err r1 w1 heq; rw [heq] at h; exact h
    · rename_i r1 w1 heq; rw [heq] at h; exact h

theorem runTask_errChan_nil (clk : RecordClock) (st : TaskState) (t : Task)
    (h : (runTask clk st t).errChan = []) : st.errChan = [] := by
  cases t <;> (unfold runTask at h; simp only at h; split at h <;> simp_all)

theorem runTask_target (clk : RecordClock) (st : TaskState) (t : Task)
    (h : (runTask clk st t).errChan = []) :
    ∃ fp, FileAt (runTask clk st t).world.fs (taskPath (runTask clk st t).store t) fp
      (taskTime clk t) (taskBytes st.store t) := by
  cases t with
  | template =>
    have ht := recordTemplate_target st.store clk.templateTime st.world.fs
    unfold runTask at h ⊢
    simp only at h ⊢
    split at h
    · simp at h
    · rename_i fs1 heq
      rw [heq] at ht
      exact ht rfl
  | request =>
    have ht := recordRequest_target st.store clk.requestTime st.world.fs
    unfold runTask at h ⊢
    simp only at h ⊢
    split at h
    · simp at h
    · rename_i fs1 heq
      rw [heq] at ht
      exact ht rfl
  | response =>
    have ht := recordResponse_target st.store clk.idClock clk.responseTime st.world
    unfold runTask at h ⊢
    simp only at h ⊢
    split at h
    · simp at h
    · rename_i r1 w1 heq
      rw [heq] at ht
      exact (ht rfl).1

theorem runTask_frame (clk : RecordClock) (st : TaskState) (t : Task) (q : Path) (perm : Perm)
    (tm : Nat) (c : Bytes) (hq : q ≠ taskPath (runTask clk st t).store t) :
    FileAt (runTask clk st t).world.fs q perm tm c ↔ FileAt st.world.fs q perm tm c := by
  cases t with
  | template =>
    rw [runTask_store_of_ne clk st .template (by decide)] at hq
    have hf := recordTemplate_frame st.store clk.templateTime st.world.fs q perm tm c hq
    unfold runTask
    simp only
    split
    · rename_i err fs1 heq; rw [heq] at hf; exact hf
    · rename_i fs1 heq; rw [heq] at hf; exact hf
  | request =>
    rw [runTask_store_of_ne clk st .request (by decide)] at hq
    have hf := recordRequest_frame st.store clk.requestTime st.world.fs q perm tm c hq
    unfold runTask
    simp only
    split
    · rename_i err fs1 heq; rw [heq] at hf; exact hf
    · rename_i fs1 heq; rw [heq] at hf; exact hf
  | response =>
    have hf := recordResponse_frame st.store clk.idClock clk.responseTime st.world q perm tm c
    unfold runTask at hq ⊢
    simp only at hq ⊢
    split
    · rename_i err r1 w1 heq
      rw [heq] at hf hq
      exact hf hq
    · rename_i r1 w1 heq
      rw [heq] at hf hq
      exact hf hq

theorem taskPath_ne (r r' : RecordStore) (hroot : r.RecordStorePath = r'.RecordStorePath)
    (t t' : Task) (ht : t ≠ t') : taskPath r t ≠ taskPath r' t' := by
  cases t <;> cases t' <;>
    first
    | exact absurd rfl ht
    | (simp only [taskPath, RecordStore.templatePath, RecordStore.requestPath,
        RecordStore.responsePath, hroot, List.append_assoc]
       intro h
       have h2 := List.append_cancel_left h
       simp at h2)

theorem taskPath_responseID (r : RecordStore) (id : String) (t : Task) (ht : t ≠ .response) :
    taskPath { r with ResponseID := id } t = taskPath r t := by
  cases t with
  | template => rfl
  | request => rfl
  | response => exact absurd rfl ht

theorem foldTasks_spec (clk : RecordClock) : ∀ (ts : List Task) (st : TaskState), ts.Nodup →
    (ts.foldl (runTask clk) st).errChan = [] →
    st.errChan = []
    ∧ (∀ t ∈ ts, ∃ fp, FileAt (ts.foldl (runTask clk) st).world.fs
          (taskPath (ts.foldl (runTask clk) st).store t) fp (taskTime clk t)
          (taskBytes st.store t))
    ∧ (∀ q perm tm c, (∀ t ∈ ts, q ≠ taskPath (ts.foldl (runTask clk) st).store t) →
          (FileAt (ts.foldl (runTask clk) st).world.fs q perm tm c
            ↔ FileAt st.world.fs q perm tm c))
    ∧ (ts.foldl (runTask clk) st).store
        = { st.store with ResponseID := (ts.foldl (runTask clk) st).store.ResponseID }
    ∧ (Task.response ∉ ts → (ts.foldl (runTask clk) st).store = st.store) := by
  intro ts
  induction ts with
  | nil =>
    intro st _ h
    exact ⟨h, by simp, by simp, rfl, fun _ => rfl⟩
  | cons t ts ih =>
    intro st hnd h
    rw [List.foldl_cons] at h ⊢
    obtain ⟨hnot, hnd'⟩ := List.nodup_cons.mp hnd
    obtain ⟨h1, h2, h3, h4, h5⟩ := ih (runTask clk st t) hnd' h
    have hstore1 := runTask_store clk st t
    have hroot : (List.foldl (runTask clk) (runTask clk st t) ts).store.RecordStorePath
        = (runTask clk st t).store.RecordStorePath := by rw [h4]
    have hpath : taskPath (List.foldl (runTask clk) (runTask clk st t) ts).store t
        = taskPath (runTask clk st t).store t := by
      by_cases ht : t = .response
      · subst ht; rw [h5 hnot]
      · rw [h4, taskPath_responseID _ _ t ht]
    refine ⟨runTask_errChan_nil clk st t h1, ?_, ?_, ?_, ?_⟩
    · intro t' ht'
      rcases List.mem_cons.mp ht' with heq | hmem
      · subst heq
        obtain ⟨fp, hfp⟩ := runTask_target clk st t' h1
        refine ⟨fp, ?_⟩
        rw [hpath]
        refine (h3 _ fp _ _ ?_).mpr hfp
        intro t'' ht''
        have hne : t' ≠ t'' := fun e => hnot (e ▸ ht'')
        exact taskPath_ne _ _ hroot.symm t' t'' hne
      · obtain ⟨fp, hfp⟩ := h2 t' hmem
        refine ⟨fp, ?_⟩
        have hb : taskBytes (runTask clk st t).store t' = taskBytes st.store t' := by
          rw [hstore1]; cases t' <;> rfl
        rw [← hb]; exact hfp
    · intro q perm tm c hq
      have hq1 : ∀ t' ∈ ts, q ≠ taskPath (List.foldl (runTask clk) (runTask clk st t) ts).store t' :=
        fun t' ht' => hq t' (List.mem_cons_of_mem _ ht')
      have hq2 : q ≠ taskPath (runTask clk st t).store t := by
        rw [← hpath]; exact hq t (List.mem_cons_self _ _)
      exact (h3 q perm tm c hq1).trans (runTask_frame clk st t q perm tm c hq2)
    · rw [h4, hstore1]
    · intro hr
      have hr1 : Task.response ∉ ts := fun hm => hr (List.mem_cons_of_mem _ hm)
      have hr2 : t ≠ .response := fun e => hr (e ▸ List.mem_cons_self _ _)
      rw [h5 hr1, runTask_store_of_ne clk st t hr2]

theorem Schedule.order_nodup (s : Schedule) : s.order.Nodup := by
  cases s <;> decide

theorem Schedule.mem_order (s : Schedule) (t : Task) : t ∈ s.order := by
  cases s <;> cases t <;> decide

/-- What a `Record` call that returns nil has gone through. -/
theorem Record_ok_shape (Y : YamlLib) (sched : Schedule) (clk : RecordClock) (r r' : RecordStore)
    (w w' : World) (h : r.Record Y sched clk w = (.ok (), r', w')) :
    ∃ req res requestYaml responseYaml,
      r.Request = some req ∧ r.Response = some res
      ∧ ConvertToYAML Y.marshalRequest
          { req with TemplateHash := CalculateMD5Hash r.TemplateYaml } = .ok requestYaml
      ∧ ConvertToYAML Y.marshalResponse
          { res with TemplateHash := CalculateMD5Hash r.TemplateYaml,
                     RequestHash := CalculateMD5Hash requestYaml } = .ok responseYaml
      ∧ (sched.order.foldl (runTask clk)
          ⟨[], stampedStore r req res requestYaml responseYaml, w⟩).errChan = []
      ∧ r' = (sched.order.foldl (runTask clk)
          ⟨[], stampedStore r req res requestYaml responseYaml, w⟩).store
      ∧ w' = (sched.order.foldl (runTask clk)
          ⟨[], stampedStore r req res requestYaml responseYaml, w⟩).world := by
  unfold RecordStore.Record at h
  simp only at h
  cases hreq : r.Request with
  | none => simp [hreq] at h
  | some req =>
    simp only [hreq] at h
    cases hq : ConvertToYAML Y.marshalRequest
        { req with TemplateHash := CalculateMD5Hash r.TemplateYaml } with
    | error e => simp [hq] at h
    | ok requestYaml =>
      simp only [hq] at h
      cases hres : r.Response with
      | none => simp [hres] at h
      | some res =>
        simp only [hres] at h
        cases hs : ConvertToYAML Y.marshalResponse
            { res with TemplateHash := CalculateMD5Hash r.TemplateYaml,
                       RequestHash := CalculateMD5Hash requestYaml } with
        | error e => simp [hs] at h
        | ok responseYaml =>
          simp only [hs] at h
          refine ⟨req, res, requestYaml, responseYaml, rfl, rfl, hq, hs, ?_⟩
          split at h
          · simp at h
          · rename_i hnil
            simp only [Prod.mk.injEq, true_and] at h
            exact ⟨hnil, h.1.symm, h.2.symm⟩

/-! ## Stamping and persistence (C1, C2, C3, C8) -/

theorem Outcome.eq_ok_of_isOk (o : Outcome Unit) (h : o.isOk = true) : o = .ok () := by
  cases o with
  | ok v => rfl
  | error e => simp [Outcome.isOk] at h
  | panicked m => simp [Outcome.isOk] at h

set_option maxRecDepth 1000000 in
theorem exampleRun_ok : exampleStore.Record plainYaml .templateRequestResponse exampleClock
    freshWorld = (.ok (), exampleRun.2.1, exampleRun.2.2) := by
  have h : exampleRun.1.isOk = true := by decide
  have h2 := Outcome.eq_ok_of_isOk _ h
  show exampleRun = _
  rw [← h2]

theorem Record_ok_stamps (Y : YamlLib) (sched : Schedule) (clk : RecordClock)
    (r r' : RecordStore) (w w' : World) (h : r.Record Y sched clk w = (.ok (), r', w')) :
    ∃ req res req' res',
      r.Request = some req ∧ r.Response = some res
      ∧ r'.TemplateYaml = r.TemplateYaml
      ∧ r'.TemplateHash = CalculateMD5Hash r'.TemplateYaml
      ∧ r'.Request = some req' ∧ req' = { req with TemplateHash := r'.TemplateHash }
      ∧ ConvertToYAML Y.marshalRequest req' = .ok r'.RequestYaml
      ∧ r'.RequestHash = CalculateMD5Hash r'.RequestYaml
      ∧ r'.Response = some res'
      ∧ res' = { res with TemplateHash := r'.TemplateHash, RequestHash := r'.RequestHash }
      ∧ ConvertToYAML Y.marshalResponse res' = .ok r'.ResponseYaml := by
  obtain ⟨req, res, requestYaml, responseYaml, hreq, hres, hq, hs, herr, hr', _⟩ :=
    Record_ok_shape Y sched clk r r' w w' h
  obtain ⟨_, _, _, hstore, _⟩ := foldTasks_spec clk sched.order _ sched.order_nodup herr
  rw [← hr'] at hstore
  refine ⟨req, res, _, _, hreq, hres, ?_, ?_, ?_, rfl, ?_, ?_, ?_, rfl, ?_⟩
  · rw [hstore]; rfl
  · rw [hstore]; rfl
  · rw [hstore]; rfl
  · rw [hstore]; exact hq
  · rw [hstore]; rfl
  · rw [hstore]; rfl
  · rw [hstore]; exact hs

/-- C1: after a `Record` that returns nil, the store carries the MD5 of the
template bytes as `TemplateHash`, the request is the caller's request stamped
with that hash, `RequestYaml` is its serialization, `RequestHash` the MD5 of
`RequestYaml`, and the response is stamped with both hashes. -/
theorem Record_stamps_hashes (Y : YamlLib) (sched : Schedule) (clk : RecordClock)
    (r r' : RecordStore) (w w' : World) (h : r.Record Y sched clk w = (.ok (), r', w')) :
    ∃ req res req' res',
      r.Request = some req ∧ r.Response = some res
      ∧ r'.TemplateYaml = r.TemplateYaml
      ∧ r'.TemplateHash = CalculateMD5Hash r'.TemplateYaml
      ∧ r'.Request = some req' ∧ req' = { req with TemplateHash := r'.TemplateHash }
      ∧ ConvertToYAML Y.marshalRequest req' = .ok r'.RequestYaml
      ∧ r'.RequestHash = CalculateMD5Hash r'.RequestYaml
      ∧ r'.Response = some res'
      ∧ res' = { res with TemplateHash := r'.TemplateHash, RequestHash := r'.RequestHash }
      ∧ ConvertToYAML Y.marshalResponse res' = .ok r'.ResponseYaml := by
  obtain ⟨req, res, requestYaml, responseYaml, hreq, hres, hq, hs, herr, hr', _⟩ :=
    Record_ok_shape Y sched clk r r' w w' h
  obtain ⟨_, _, _, hstore, _⟩ := foldTasks_spec clk sched.order _ sched.order_nodup herr
  rw [← hr'] at hstore
  refine ⟨req, res, _, _, hreq, hres, ?_, ?_, ?_, rfl, ?_, ?_, ?_, rfl, ?_⟩
  · rw [hstore]; rfl
  · rw [hstore]; rfl
  · rw [hstore]; rfl
  · rw [hstore]; exact hq
  · rw [hstore]; rfl
  · rw [hstore]; rfl
  · rw [hstore]; exact hs

set_option maxRecDepth 1000000 in
/-- Witness of C1 on the first worked example. -/
theorem Record_stamps_hashes_witness :
    exampleStore.Record plainYaml .templateRequestResponse exampleClock freshWorld
        = (.ok (), exampleRun.2.1, exampleRun.2.2)
    ∧ ∃ req res req' res',
      exampleStore.Request = some req ∧ exampleStore.Response = some res
      ∧ exampleRun.2.1.TemplateYaml = exampleStore.TemplateYaml
      ∧ exampleRun.2.1.TemplateHash = CalculateMD5Hash exampleRun.2.1.TemplateYaml
      ∧ exampleRun.2.1.Request = some req'
      ∧ req' = { req with TemplateHash := exampleRun.2.1.TemplateHash }
      ∧ ConvertToYAML plainYaml.marshalRequest req' = .ok exampleRun.2.1.RequestYaml
      ∧ exampleRun.2.1.RequestHash = CalculateMD5Hash exampleRun.2.1.RequestYaml
      ∧ exampleRun.2.1.Response = some res'
      ∧ res' = { res with TemplateHash := exampleRun.2.1.TemplateHash,
                          RequestHash := exampleRun.2.1.RequestHash }
      ∧ ConvertToYAML plainYaml.marshalResponse res' = .ok exampleRun.2.1.ResponseYaml :=
  ⟨exampleRun_ok, Record_stamps_hashes plainYaml _ _ _ _ _ _ exampleRun_ok⟩

theorem Record_ok_files (Y : YamlLib) (sched : Schedule) (clk : RecordClock)
    (r r' : RecordStore) (w w' : World) (h : r.Record Y sched clk w = (.ok (), r', w')) :
    (∃ fp, FileAt w'.fs (r'.RecordStorePath ++ ["templates", r'.TemplateHash ++ ".yaml"])
        fp clk.templateTime r'.TemplateYaml)
    ∧ (∃ fp, FileAt w'.fs
        (r'.RecordStorePath ++ ["requests", r'.TemplateHash, r'.RequestHash ++ ".yaml"])
        fp clk.requestTime r'.RequestYaml)
    ∧ (∃ fp, FileAt w'.fs
        (r'.RecordStorePath ++ ["responses", r'.RequestHash, r'.ResponseID ++ ".yaml"])
        fp clk.responseTime r'.ResponseYaml) := by
  obtain ⟨req, res, requestYaml, responseYaml, _, _, _, _, herr, hr', hw'⟩ :=
    Record_ok_shape Y sched clk r r' w w' h
  obtain ⟨_, htargets, _, hstore, _⟩ :=
    foldTasks_spec clk sched.order _ sched.order_nodup herr
  rw [← hr', ← hw'] at htargets
  rw [← hr'] at hstore
  have hT := htargets .template (sched.mem_order _)
  have hQ := htargets .request (sched.mem_order _)
  have hR := htargets .response (sched.mem_order _)
  have e1 : r'.TemplateYaml = r.TemplateYaml := by rw [hstore]; rfl
  have e2 : r'.RequestYaml = requestYaml := by rw [hstore]; rfl
  have e3 : r'.ResponseYaml = responseYaml := by rw [hstore]; rfl
  simp only [taskPath, taskTime, taskBytes, stampedStore, RecordStore.templatePath,
    RecordStore.requestPath, RecordStore.responsePath, List.append_assoc,
    List.cons_append, List.nil_append] at hT hQ hR
  rw [e1, e2, e3]
  exact ⟨hT, hQ, hR⟩

/-- C2: after a `Record` that returns nil the store holds
`templates/<TemplateHash>.yaml` with exactly `TemplateYaml`,
`requests/<TemplateHash>/<RequestHash>.yaml` with exactly `RequestYaml` and
`responses/<RequestHash>/<ResponseID>.yaml` with exactly `ResponseYaml`, the
identifiers being those left on the `RecordStore`. -/
theorem Record_persists_artifacts (Y : YamlLib) (sched : Schedule) (clk : RecordClock)
    (r r' : RecordStore) (w w' : World) (h : r.Record Y sched clk w = (.ok (), r', w')) :
    (∃ fp, FileAt w'.fs (r'.RecordStorePath ++ ["templates", r'.TemplateHash ++ ".yaml"])
        fp clk.templateTime r'.TemplateYaml)
    ∧ (∃ fp, FileAt w'.fs
        (r'.RecordStorePath ++ ["requests", r'.TemplateHash, r'.RequestHash ++ ".yaml"])
        fp clk.requestTime r'.RequestYaml)
    ∧ (∃ fp, FileAt w'.fs
        (r'.RecordStorePath ++ ["responses", r'.RequestHash, r'.ResponseID ++ ".yaml"])
        fp clk.responseTime r'.ResponseYaml) := by
  obtain ⟨req, res, requestYaml, responseYaml, _, _, _, _, herr, hr', hw'⟩ :=
    Record_ok_shape Y sched clk r r' w w' h
  obtain ⟨_, htargets, _, hstore, _⟩ :=
    foldTasks_spec clk sched.order _ sched.order_nodup herr
  rw [← hr', ← hw'] at htargets
  rw [← hr'] at hstore
  have hT := htargets .template (sched.mem_order _)
  have hQ := htargets .request (sched.mem_order _)
  have hR := htargets .response (sched.mem_order _)
  have e1 : r'.TemplateYaml = r.TemplateYaml := by rw [hstore]; rfl
  have e2 : r'.RequestYaml = requestYaml := by rw [hstore]; rfl
  have e3 : r'.ResponseYaml = responseYaml := by rw [hstore]; rfl
  simp only [taskPath, taskTime, taskBytes, stampedStore, RecordStore.templatePath,
    RecordStore.requestPath, RecordStore.responsePath, List.append_assoc,
    List.cons_append, List.nil_append] at hT hQ hR
  rw [e1, e2, e3]
  exact ⟨hT, hQ, hR⟩

/-- Witness of C2 on the first worked example. -/
theorem Record_persists_artifacts_witness :
    exampleStore.Record plainYaml .templateRequestResponse exampleClock freshWorld
        = (.ok (), exampleRun.2.1, exampleRun.2.2)
    ∧ (∃ fp, FileAt exampleRun.2.2.fs
        (exampleRun.2.1.RecordStorePath ++ ["templates", exampleRun.2.1.TemplateHash ++ ".yaml"])
        fp exampleClock.templateTime exampleRun.2.1.TemplateYaml)
    ∧ (∃ fp, FileAt exampleRun.2.2.fs
        (exampleRun.2.1.RecordStorePath
          ++ ["requests", exampleRun.2.1.TemplateHash, exampleRun.2.1.RequestHash ++ ".yaml"])
        fp exampleClock.requestTime exampleRun.2.1.RequestYaml)
    ∧ (∃ fp, FileAt exampleRun.2.2.fs
        (exampleRun.2.1.RecordStorePath
          ++ ["responses", exampleRun.2.1.RequestHash, exampleRun.2.1.ResponseID ++ ".yaml"])
        fp exampleClock.responseTime exampleRun.2.1.ResponseYaml) :=
  ⟨exampleRun_ok, Record_persists_artifacts plainYaml _ _ _ _ _ _ exampleRun_ok⟩

set_option maxRecDepth 1000000 in
theorem exampleRerun_ok : exampleStore.Record plainYaml .responseRequestTemplate laterClock
    exampleRun.2.2 = (.ok (), exampleRerun.2.1, exampleRerun.2.2) := by
  have h : exampleRerun.1.isOk = true := by decide
  have h2 := Outcome.eq_ok_of_isOk _ h
  show exampleRerun = _
  rw [← h2]

set_option maxRecDepth 1000000 in
theorem staleHashRun_ok : staleHashStore.Record plainYaml .requestTemplateResponse laterClock
    freshWorld = (.ok (), staleHashRun.2.1, staleHashRun.2.2) := by
  have h : staleHashRun.1.isOk = true := by decide
  have h2 := Outcome.eq_ok_of_isOk _ h
  show staleHashRun = _
  rw [← h2]

/-- C3: two `Record` calls that return nil on byte-identical `TemplateYaml`
and equal `Request` objects compute the same `TemplateHash` and the same
`RequestHash`, and each leaves its response file in the directory
`responses/<RequestHash>` of that one hash. -/
theorem Record_hashes_deterministic (Y : YamlLib) (s1 s2 : Schedule) (clk1 clk2 : RecordClock)
    (r1 r2 r1' r2' : RecordStore) (w1 w2 w1' w2' : World)
    (hT : r1.TemplateYaml = r2.TemplateYaml) (hQ : r1.Request = r2.Request)
    (h1 : r1.Record Y s1 clk1 w1 = (.ok (), r1', w1'))
    (h2 : r2.Record Y s2 clk2 w2 = (.ok (), r2', w2')) :
    r1'.TemplateHash = r2'.TemplateHash ∧ r1'.RequestHash = r2'.RequestHash
    ∧ (∃ fp, FileAt w1'.fs
        (r1'.RecordStorePath ++ ["responses", r1'.RequestHash, r1'.ResponseID ++ ".yaml"])
        fp clk1.responseTime r1'.ResponseYaml)
    ∧ (∃ fp, FileAt w2'.fs
        (r2'.RecordStorePath ++ ["responses", r1'.RequestHash, r2'.ResponseID ++ ".yaml"])
        fp clk2.responseTime r2'.ResponseYaml) := by
  obtain ⟨q1, _, q1', _, hq1, _, ht1, hth1, _, hq1', hy1, hrh1, _⟩ :=
    Record_ok_stamps Y s1 clk1 r1 r1' w1 w1' h1
  obtain ⟨q2, _, q2', _, hq2, _, ht2, hth2, _, hq2', hy2, hrh2, _⟩ :=
    Record_ok_stamps Y s2 clk2 r2 r2' w2 w2' h2
  have hth : r1'.TemplateHash = r2'.TemplateHash := by rw [hth1, hth2, ht1, ht2, hT]
  have hq : q1 = q2 := by
    rw [hq1, hq2] at hQ; exact Option.some.inj hQ
  have hyaml : r1'.RequestYaml = r2'.RequestYaml := by
    rw [hq1', hq, hth, ← hq2', hy2] at hy1
    exact (Except.ok.inj hy1).symm
  have hrh : r1'.RequestHash = r2'.RequestHash := by rw [hrh1, hrh2, hyaml]
  refine ⟨hth, hrh, (Record_ok_files Y s1 clk1 r1 r1' w1 w1' h1).2.2, ?_⟩
  rw [hrh]
  exact (Record_ok_files Y s2 clk2 r2 r2' w2 w2' h2).2.2

/-- Witness of C3: the worked example recorded twice. -/
theorem Record_hashes_deterministic_witness :
    exampleStore.Record plainYaml .templateRequestResponse exampleClock freshWorld
        = (.ok (), exampleRun.2.1, exampleRun.2.2)
    ∧ exampleStore.Record plainYaml .responseRequestTemplate laterClock exampleRun.2.2
        = (.ok (), exampleRerun.2.1, exampleRerun.2.2)
    ∧ exampleRun.2.1.TemplateHash = exampleRerun.2.1.TemplateHash
    ∧ exampleRun.2.1.RequestHash = exampleRerun.2.1.RequestHash
    ∧ (∃ fp, FileAt exampleRun.2.2.fs
        (exampleRun.2.1.RecordStorePath
          ++ ["responses", exampleRun.2.1.RequestHash, exampleRun.2.1.ResponseID ++ ".yaml"])
        fp exampleClock.responseTime exampleRun.2.1.ResponseYaml)
    ∧ (∃ fp, FileAt exampleRerun.2.2.fs
        (exampleRerun.2.1.RecordStorePath
          ++ ["responses", exampleRun.2.1.RequestHash, exampleRerun.2.1.ResponseID ++ ".yaml"])
        fp laterClock.responseTime exampleRerun.2.1.ResponseYaml) :=
  ⟨exampleRun_ok, exampleRerun_ok,
    Record_hashes_deterministic plainYaml _ _ _ _ _ _ _ _ _ _ _ _ rfl rfl
      exampleRun_ok exampleRerun_ok⟩

set_option maxRecDepth 1000000 in
/-- Counterexample to C8: the same request recorded under two templates whose
bytes differ gets two different request hashes. -/
theorem requestHash_differs_across_templates :
    exampleStore.Request = otherTemplateStore.Request
    ∧ exampleStore.TemplateYaml ≠ otherTemplateStore.TemplateYaml
    ∧ exampleRun.1.isOk = true ∧ otherTemplateRun.1.isOk = true
    ∧ exampleRun.2.1.RequestHash = "c4dfc5b6f9f8c883a99185a7d76cda36"
    ∧ exampleRun.2.1.RequestHash ≠ otherTemplateRun.2.1.RequestHash := by
  decide

/-- C8, amended: two `Record` calls that return nil on requests equal in
every field the caller supplies compute the same `RequestYaml` and the same
`RequestHash` whenever their `TemplateHash` values are equal: the request is
serialized after `TemplateHash` has been stamped on it, so `RequestHash`
depends on the template through `TemplateHash` and on nothing else of it. -/
theorem requestHash_determined_by_templateHash (Y : YamlLib) (s1 s2 : Schedule)
    (clk1 clk2 : RecordClock) (r1 r2 r1' r2' : RecordStore) (w1 w2 w1' w2' : World)
    (q1 q2 : RequestObject) (hq1 : r1.Request = some q1) (hq2 : r2.Request = some q2)
    (hfields : { q1 with TemplateHash := "" } = { q2 with TemplateHash := "" })
    (hth : CalculateMD5Hash r1.TemplateYaml = CalculateMD5Hash r2.TemplateYaml)
    (h1 : r1.Record Y s1 clk1 w1 = (.ok (), r1', w1'))
    (h2 : r2.Record Y s2 clk2 w2 = (.ok (), r2', w2')) :
    r1'.RequestYaml = r2'.RequestYaml ∧ r1'.RequestHash = r2'.RequestHash := by
  obtain ⟨p1, _, p1', _, hp1, _, ht1, hth1, _, hp1', hy1, hrh1, _⟩ :=
    Record_ok_stamps Y s1 clk1 r1 r1' w1 w1' h1
  obtain ⟨p2, _, p2', _, hp2, _, ht2, hth2, _, hp2', hy2, hrh2, _⟩ :=
    Record_ok_stamps Y s2 clk2 r2 r2' w2 w2' h2
  have e1 : p1 = q1 := by rw [hq1] at hp1; exact (Option.some.inj hp1).symm
  have e2 : p2 = q2 := by rw [hq2] at hp2; exact (Option.some.inj hp2).symm
  have hhash : r1'.TemplateHash = r2'.TemplateHash := by rw [hth1, hth2, ht1, ht2, hth]
  have hreq : p1' = p2' := by
    rw [hp1', hp2', e1, e2, hhash]
    have := congrArg (fun q : RequestObject => { q with TemplateHash := r2'.TemplateHash }) hfields
    simpa using this
  have hyaml : r1'.RequestYaml = r2'.RequestYaml := by
    rw [hreq, hy2] at hy1
    exact (Except.ok.inj hy1).symm
  exact ⟨hyaml, by rw [hrh1, hrh2, hyaml]⟩

set_option maxRecDepth 1000000 in
/-- Witness of the amended C8: the worked example and the store whose request
carried a stale template hash. -/
theorem requestHash_determined_by_templateHash_witness :
    exampleStore.Record plainYaml .templateRequestResponse exampleClock freshWorld
        = (.ok (), exampleRun.2.1, exampleRun.2.2)
    ∧ staleHashStore.Record plainYaml .requestTemplateResponse laterClock freshWorld
        = (.ok (), staleHashRun.2.1, staleHashRun.2.2)
    ∧ exampleRun.2.1.RequestYaml = staleHashRun.2.1.RequestYaml
    ∧ exampleRun.2.1.RequestHash = staleHashRun.2.1.RequestHash :=
  ⟨exampleRun_ok, staleHashRun_ok,
    requestHash_determined_by_templateHash plainYaml _ _ _ _ exampleStore staleHashStore
      _ _ _ _ _ _
      { URL := "https://example1.com", Method := "GET" }
      { URL := "https://example1.com", Method := "GET", TemplateHash := "stale" }
      rfl rfl rfl rfl exampleRun_ok staleHashRun_ok⟩

/-! ## Response identifiers (C5, C6, C7) -/

theorem padDigits_length (w x : Nat) : (padDigits w x).length = w := by
  induction w generalizing x with
  | zero => rfl
  | succ w ih => simp [padDigits, ih]

theorem digitChar_lt : ∀ a b : Fin 10, a < b →
    Char.ofNat (48 + a.val) < Char.ofNat (48 + b.val) := by
  decide

theorem digitChar_inj : ∀ a b : Fin 10,
    Char.ofNat (48 + a.val) = Char.ofNat (48 + b.val) → a = b := by
  decide

theorem digitChar_lt_of_mod_lt (x y : Nat) (h : x % 10 < y % 10) :
    digitChar x < digitChar y :=
  digitChar_lt ⟨x % 10, Nat.mod_lt _ (by decide)⟩ ⟨y % 10, Nat.mod_lt _ (by decide)⟩ h

theorem mod_eq_of_digitChar_eq (x y : Nat) (h : digitChar x = digitChar y) :
    x % 10 = y % 10 := by
  have := digitChar_inj ⟨x % 10, Nat.mod_lt _ (by decide)⟩ ⟨y % 10, Nat.mod_lt _ (by decide)⟩ h
  exact congrArg Fin.val this

theorem padDigits_inj (w : Nat) : ∀ x y : Nat, padDigits w x = padDigits w y →
    x % 10 ^ w = y % 10 ^ w := by
  induction w with
  | zero => intro x y _; simp [Nat.mod_one]
  | succ w ih =>
    intro x y h
    simp only [padDigits] at h
    obtain ⟨h1, h2⟩ := List.append_inj' h rfl
    have h3 := ih _ _ h1
    have h4 := mod_eq_of_digitChar_eq x y (List.cons.inj h2).1
    rw [pow_succ', Nat.mod_mul, Nat.mod_mul, h3, h4]

theorem appendInt_eq_padDigits (x w : Nat) (hw : 0 < w) (hx : x < 10 ^ w) :
    appendInt x w = padDigits w x := by
  simp [appendInt, hw, hx]

theorem list_lt_append_left (l s t : List Char) (h : s < t) : l ++ s < l ++ t := by
  exact List.Lex.append_left _ h l

theorem padDigits_append_lt (w : Nat) : ∀ (x y : Nat) (s t : List Char), x < y → y < 10 ^ w →
    padDigits w x ++ s < padDigits w y ++ t := by
  induction w with
  | zero => intro x y s t hxy hy; simp at hy; omega
  | succ w ih =>
    intro x y s t hxy hy
    simp only [padDigits, List.append_assoc]
    have hy' : y / 10 < 10 ^ w := by
      rw [Nat.div_lt_iff_lt_mul (by decide)]; rw [pow_succ] at hy; exact hy
    rcases Nat.lt_or_ge (x / 10) (y / 10) with hlt | hge
    · exact ih _ _ _ _ hlt hy'
    · have heq : x / 10 = y / 10 := by omega
      rw [heq]
      apply list_lt_append_left
      exact List.Lex.rel (digitChar_lt_of_mod_lt x y (by omega))

theorem Format_responseIDLayout (t : Instant) :
    (Format t responseIDLayout).data
      = appendInt t.year 4 ++ (appendInt t.month 2 ++ (appendInt t.day 2 ++ ('_' ::
          (appendInt t.hour 2 ++ (appendInt t.minute 2 ++ (appendInt t.second 2
            ++ ['_', '0', '0', '0'])))))) := by
  simp [Format, responseIDLayout, formatAux, nextStdChunk, stdChunkAt, std0x, formatChunk]

theorem generateResponseID_data (t : Instant) (c : Nat) :
    (generateResponseID t c).1.data
      = (Format t responseIDLayout).data
          ++ ('_' :: padDigits 4 (((c + 1) % 18446744073709551616) % 10000)) := by
  have h : ((c + 1) % 18446744073709551616) % 10000 < 10 ^ 4 := by
    have := Nat.mod_lt ((c + 1) % 18446744073709551616) (show 0 < 10000 by decide)
    simpa using this
  simp only [generateResponseID, String.data_append, List.append_assoc]
  rw [appendInt_eq_padDigits _ 4 (by decide) h]
  rfl

theorem padDigits_step (w x y : Nat) (s t : List Char) (hy : y < 10 ^ w) (hle : x ≤ y)
    (hrest : x = y → s < t) : padDigits w x ++ s < padDigits w y ++ t := by
  rcases Nat.lt_or_ge x y with hlt | hge
  · exact padDigits_append_lt w x y s t hlt hy
  · have heq : x = y := Nat.le_antisymm hle hge
    rw [heq]
    exact list_lt_append_left _ _ _ (hrest heq)

theorem responseID_data_valid (t : Instant) (c : Nat) (hv : t.valid) :
    (generateResponseID t c).1.data
      = padDigits 4 t.year ++ (padDigits 2 t.month ++ (padDigits 2 t.day ++ ('_' ::
          (padDigits 2 t.hour ++ (padDigits 2 t.minute ++ (padDigits 2 t.second
            ++ ('_' :: '0' :: '0' :: '0' :: '_'
              :: padDigits 4 (((c + 1) % 18446744073709551616) % 10000)))))))) := by
  obtain ⟨h1, h2, h3, h4, h5, h6, h7, h8, h9⟩ := hv
  rw [generateResponseID_data, Format_responseIDLayout,
    appendInt_eq_padDigits t.year 4 (by decide) (by norm_num; omega),
    appendInt_eq_padDigits t.month 2 (by decide) (by norm_num; omega),
    appendInt_eq_padDigits t.day 2 (by decide) (by norm_num; omega),
    appendInt_eq_padDigits t.hour 2 (by decide) (by norm_num; omega),
    appendInt_eq_padDigits t.minute 2 (by decide) (by norm_num; omega),
    appendInt_eq_padDigits t.second 2 (by decide) (by norm_num; omega)]
  simp only [List.append_assoc, List.cons_append, List.nil_append]

theorem generateResponseID_ne (ta tb : Instant) (ca cb : Nat)
    (h : ((ca + 1) % 18446744073709551616) % 10000 ≠ ((cb + 1) % 18446744073709551616) % 10000) :
    (generateResponseID ta ca).1 ≠ (generateResponseID tb cb).1 := by
  intro heq
  have hd := congrArg String.data heq
  rw [generateResponseID_data, generateResponseID_data] at hd
  have hlen : ('_' :: padDigits 4 (((ca + 1) % 18446744073709551616) % 10000)).length
      = ('_' :: padDigits 4 (((cb + 1) % 18446744073709551616) % 10000)).length := by
    simp [padDigits_length]
  obtain ⟨_, h2⟩ := List.append_inj' hd hlen
  have h3 := padDigits_inj 4 _ _ (List.cons.inj h2).2
  have e : (10 : Nat) ^ 4 = 10000 := by norm_num
  rw [e, Nat.mod_mod, Nat.mod_mod] at h3
  exact h h3

theorem responseIDs_getElem? : ∀ (clocks : List Instant) (c i : Nat),
    c + clocks.length < 18446744073709551616 →
    (responseIDs clocks c)[i]? = (clocks[i]?).map (fun t => (generateResponseID t (c + i)).1) := by
  intro clocks
  induction clocks with
  | nil => intro c i _; simp [responseIDs]
  | cons t ts ih =>
    intro c i hc
    simp only [List.length_cons] at hc
    cases i with
    | zero => simp [responseIDs]
    | succ i =>
      have hnext : (generateResponseID t c).2 = c + 1 := by
        simp only [generateResponseID]
        exact Nat.mod_eq_of_lt (by omega)
      simp only [responseIDs, List.getElem?_cons_succ]
      rw [hnext, ih (c + 1) i (by omega)]
      have : c + 1 + i = c + (i + 1) := by omega
      rw [this]

/-- In a sequence of 10001 ID generations that all read the same clock value,
starting from the counter 0, the first and the last generation give the same
ID. -/
theorem responseID_repeats_after_10000_calls :
    ¬ (responseIDs (List.replicate 10001 exampleClock.idClock) 0).Nodup := by
  intro hnd
  have h := (List.nodup_iff_getElem?_ne_getElem?.mp hnd) 0 10000 (by decide)
    (by
      have e : ∀ (l : List Instant) (c : Nat), (responseIDs l c).length = l.length := by
        intro l
        induction l with
        | nil => intro c; rfl
        | cons t ts ih => intro c; simp [responseIDs, ih]
      rw [e, List.length_replicate]; decide)
  rw [responseIDs_getElem? _ 0 0 (by rw [List.length_replicate]; decide),
    responseIDs_getElem? _ 0 10000 (by rw [List.length_replicate]; decide)] at h
  apply h
  simp only [List.getElem?_replicate]
  simp only [generateResponseID]
  decide

/-- In every sequence of ID generations (the 64-bit counter not wrapping),
whatever the clock readings, each ID differs from the ID of every earlier
generation fewer than 10000 generations before it. -/
theorem responseID_fresh_within_10000_calls (clocks : List Instant) (c i j : Nat)
    (hc : c + clocks.length < 18446744073709551616)
    (hij : i < j) (hj : j < clocks.length) (hwindow : j < i + 10000) :
    (responseIDs clocks c)[i]? ≠ (responseIDs clocks c)[j]? := by
  rw [responseIDs_getElem? clocks c i hc, responseIDs_getElem? clocks c j hc]
  have hi : i < clocks.length := by omega
  rw [List.getElem?_eq_getElem hi, List.getElem?_eq_getElem hj]
  simp only [Option.map_some', ne_eq, Option.some.injEq]
  apply generateResponseID_ne
  rw [Nat.mod_eq_of_lt (show c + i + 1 < 18446744073709551616 by omega),
    Nat.mod_eq_of_lt (show c + j + 1 < 18446744073709551616 by omega)]
  omega

/-- Three generations at one and the same clock reading give three IDs. -/
theorem responseID_fresh_within_10000_calls_witness :
    (responseIDs [exampleClock.idClock, exampleClock.idClock, exampleClock.idClock] 0)[0]?
      ≠ (responseIDs [exampleClock.idClock, exampleClock.idClock, exampleClock.idClock] 0)[2]? :=
  responseID_fresh_within_10000_calls _ 0 0 2 (by decide) (by decide) (by decide) (by decide)

/-- Counterexample to C6: at one clock reading, the ID generated when the
counter reaches 9999 is not below the ID generated next, when it reaches
10000; it is above it. -/
theorem responseID_order_breaks_at_wrap :
    (generateResponseID exampleClock.idClock 9998).2 = 9999
    ∧ (generateResponseID exampleClock.idClock 9999).2 = 10000
    ∧ ¬ ((generateResponseID exampleClock.idClock 9998).1
          < (generateResponseID exampleClock.idClock 9999).1)
    ∧ (generateResponseID exampleClock.idClock 9999).1
          < (generateResponseID exampleClock.idClock 9998).1 := by
  refine ⟨by decide, by decide, ?_, ?_⟩
  · rw [String.lt_iff_toList_lt]; decide
  · rw [String.lt_iff_toList_lt]; decide

/-- C6, amended: for two IDs generated at clock readings `ta` and then `tb`
with fields in range, years up to 9999 and the clock not going backwards,
the first ID is strictly smaller than the second in lexicographic order
whenever their timestamp parts differ or the counter suffix of the first
is the smaller one (no wrap past a multiple of 10000 in between). -/
theorem responseID_lt_of_later (ta tb : Instant) (ca cb : Nat) (hva : ta.valid) (hvb : tb.valid)
    (hclock : ta.ordinal ≤ tb.ordinal)
    (hsuffix : Format ta responseIDLayout ≠ Format tb responseIDLayout
      ∨ ((ca + 1) % 18446744073709551616) % 10000 < ((cb + 1) % 18446744073709551616) % 10000) :
    (generateResponseID ta ca).1 < (generateResponseID tb cb).1 := by
  rw [String.lt_iff_toList_lt]
  show (generateResponseID ta ca).1.data < (generateResponseID tb cb).1.data
  rw [responseID_data_valid ta ca hva, responseID_data_valid tb cb hvb]
  have hva' := hva
  have hvb' := hvb
  obtain ⟨a1, a2, a3, a4, a5, a6, a7, a8, a9⟩ := hva'
  obtain ⟨b1, b2, b3, b4, b5, b6, b7, b8, b9⟩ := hvb'
  simp only [Instant.ordinal] at hclock
  apply padDigits_step 4 _ _ _ _ (by norm_num; omega) (by omega)
  intro e1
  apply padDigits_step 2 _ _ _ _ (by norm_num; omega) (by omega)
  intro e2
  apply padDigits_step 2 _ _ _ _ (by norm_num; omega) (by omega)
  intro e3
  apply List.Lex.cons
  apply padDigits_step 2 _ _ _ _ (by norm_num; omega) (by omega)
  intro e4
  apply padDigits_step 2 _ _ _ _ (by norm_num; omega) (by omega)
  intro e5
  apply padDigits_step 2 _ _ _ _ (by norm_num; omega) (by omega)
  intro e6
  have hfmt : Format ta responseIDLayout = Format tb responseIDLayout := by
    apply String.ext
    rw [Format_responseIDLayout, Format_responseIDLayout, e1, e2, e3, e4, e5, e6]
  have hlt : ((ca + 1) % 18446744073709551616) % 10000
      < ((cb + 1) % 18446744073709551616) % 10000 := by
    rcases hsuffix with h | h
    · exact absurd hfmt h
    · exact h
  apply List.Lex.cons
  apply List.Lex.cons
  apply List.Lex.cons
  apply List.Lex.cons
  apply List.Lex.cons
  have := padDigits_append_lt 4 _ _ [] [] hlt
    (by have := Nat.mod_lt ((cb + 1) % 18446744073709551616) (show 0 < 10000 by decide)
        norm_num; omega)
  simpa using this

/-- Witness of the amended C6: two generations half a second apart in the
same second, the counter going from 1 to 2. -/
theorem responseID_lt_of_later_witness :
    (generateResponseID ⟨2024, 1, 15, 10, 30, 45, 123000000⟩ 0).1
      < (generateResponseID ⟨2024, 1, 15, 10, 30, 45, 623000000⟩ 1).1 :=
  responseID_lt_of_later _ _ 0 1 (by unfold Instant.valid; decide)
    (by unfold Instant.valid; decide) (by decide) (Or.inr (by decide))

/-- C7, the code at the failing input: at 10:30:45.123 and at 10:30:45.987
UTC of 2024-01-15 the ID is the same `20240115_103045_000_0001`; the three
characters after the second are the literal `000` of the layout, not the
milliseconds, whatever the nanoseconds of the clock reading. -/
theorem generateResponseID_drops_milliseconds :
    generateResponseID ⟨2024, 1, 15, 10, 30, 45, 123000000⟩ 0
        = ("20240115_103045_000_0001", 1)
    ∧ generateResponseID ⟨2024, 1, 15, 10, 30, 45, 987000000⟩ 0
        = ("20240115_103045_000_0001", 1)
    ∧ nextStdChunk "_000".data = ("_000".data, none, [])
    ∧ ∀ (t : Instant) (ns c : Nat),
        generateResponseID { t with nanosecond := ns } c = generateResponseID t c := by
  refine ⟨by decide, by decide, by decide, ?_⟩
  intro t ns c
  have h : Format { t with nanosecond := ns } responseIDLayout = Format t responseIDLayout := by
    apply String.ext
    rw [Format_responseIDLayout, Format_responseIDLayout]
  simp only [generateResponseID, h]

/-! ## Enumeration order (C9) -/

theorem except_ok_of_toOption {ε α : Type} (e : Except ε α) (v : α)
    (h : e.toOption = some v) : e = .ok v := by
  cases e with
  | error err => simp [Except.toOption] at h
  | ok a => simp [Except.toOption] at h; rw [h]

theorem sortInsert_perm {α : Type} (less : α → α → Bool) (x : α) (l : List α) :
    (sortInsert less x l).Perm (x :: l) := by
  induction l with
  | nil => exact List.Perm.refl _
  | cons y ys ih =>
    simp only [sortInsert]
    split
    · exact (List.Perm.cons y ih).trans (List.Perm.swap x y ys)
    · exact List.Perm.refl _

theorem foldl_sortInsert_perm {α : Type} (less : α → α → Bool) (xs : List α) :
    ∀ acc : List α, (xs.foldl (fun acc x => sortInsert less x acc) acc).Perm (xs.reverse ++ acc) := by
  induction xs with
  | nil => intro acc; simp
  | cons x xs ih =>
    intro acc
    simp only [List.foldl_cons, List.reverse_cons, List.append_assoc, List.singleton_append]
    exact (ih _).trans (List.Perm.append_left _ (sortInsert_perm less x acc))

/-- `sort.Slice` rearranges, it neither drops nor adds an element. -/
theorem sortSlice_perm {α : Type} (less : α → α → Bool) (xs : List α) :
    (sortSlice less xs).Perm xs := by
  unfold sortSlice
  have h := foldl_sortInsert_perm less xs []
  simp only [List.append_nil] at h
  exact (List.reverse_perm _).trans (h.trans (List.reverse_perm _))

theorem sortInsert_chain {α : Type} (less : α → α → Bool)
    (hasymm : ∀ a b, less a b = true → less b a = false) (x : α) (l : List α)
    (h : List.Chain' (fun a b => less a b = false) l) :
    List.Chain' (fun a b => less a b = false) (sortInsert less x l) := by
  induction l with
  | nil => simp [sortInsert]
  | cons y ys ih =>
    simp only [sortInsert]
    by_cases hxy : less x y = true
    · simp only [hxy, if_true]
      have ih' := ih (List.Chain'.tail h)
      cases ys with
      | nil =>
        simp only [sortInsert]
        exact List.Chain'.cons (hasymm x y hxy) (List.chain'_singleton x)
      | cons z zs =>
        simp only [sortInsert] at ih' ⊢
        by_cases hxz : less x z = true
        · simp only [hxz, if_true] at ih' ⊢
          exact List.Chain'.cons (List.chain'_cons.mp h).1 ih'
        · simp only [hxz] at ih' ⊢
          exact List.Chain'.cons (hasymm x y hxy) ih'
    · simp only [hxy]
      exact List.Chain'.cons (by simpa using hxy) h

theorem foldl_sortInsert_chain {α : Type} (less : α → α → Bool)
    (hasymm : ∀ a b, less a b = true → less b a = false) (xs : List α) :
    ∀ acc : List α, List.Chain' (fun a b => less a b = false) acc →
      List.Chain' (fun a b => less a b = false)
        (xs.foldl (fun acc x => sortInsert less x acc) acc) := by
  induction xs with
  | nil => intro acc h; exact h
  | cons x xs ih =>
    intro acc h
    exact ih _ (sortInsert_chain less hasymm x acc h)

/-- After `sort.Slice` no element is `less` than its left neighbour. -/
theorem sortSlice_chain {α : Type} (less : α → α → Bool)
    (hasymm : ∀ a b, less a b = true → less b a = false) (xs : List α) :
    List.Chain' (fun a b => less b a = false) (sortSlice less xs) := by
  unfold sortSlice
  rw [List.chain'_reverse]
  exact foldl_sortInsert_chain less hasymm xs [] List.chain'_nil

theorem modTimeAfter_asymm (a b : FileInfo) (h : modTimeAfter a b = true) :
    modTimeAfter b a = false := by
  simp only [modTimeAfter, decide_eq_true_eq, decide_eq_false_iff_not] at h ⊢
  omega

theorem sortFilesByTimeInPlace_adjacent (xs : List FileInfo) (i : Nat)
    (h : i + 1 < (sortFilesByTimeInPlace xs).length) :
    ¬ ((sortFilesByTimeInPlace xs)[i].ModTime < (sortFilesByTimeInPlace xs)[i + 1].ModTime) := by
  have hc := sortSlice_chain modTimeAfter modTimeAfter_asymm xs
  have := (List.chain'_iff_get.mp hc) i (by unfold sortFilesByTimeInPlace at h; omega)
  simp only [modTimeAfter, decide_eq_false_iff_not, List.get_eq_getElem] at this
  exact this

theorem GetSortedResponses_sorted (r : RecordStore) (fs : Node) (files : List FileInfo)
    (h : r.GetSortedResponses fs = .ok files) : ∃ xs, files = sortFilesByTimeInPlace xs := by
  unfold RecordStore.GetSortedResponses at h
  simp only at h
  split at h
  · simp at h
  · split at h
    · simp at h
    · rename_i allFiles _
      exact ⟨allFiles, (Except.ok.inj h).symm⟩

theorem GetSortedRequests_sorted (r : RecordStore) (fs : Node) (files : List FileInfo)
    (h : r.GetSortedRequests fs = .ok files) : ∃ xs, files = sortFilesByTimeInPlace xs := by
  unfold RecordStore.GetSortedRequests at h
  simp only at h
  split at h
  · simp at h
  · split at h
    · simp at h
    · rename_i allFiles _
      exact ⟨allFiles, (Except.ok.inj h).symm⟩

theorem GetSortedTemplates_sorted (r : RecordStore) (fs : Node) (files : List FileInfo)
    (h : r.GetSortedTemplates fs = .ok files) : ∃ xs, files = sortFilesByTimeInPlace xs := by
  unfold RecordStore.GetSortedTemplates at h
  simp only at h
  split at h
  · simp at h
  · split at h
    · simp at h
    · rename_i allFiles _
      exact ⟨allFiles, (Except.ok.inj h).symm⟩

theorem GetSortedResponsesByRequestHash_sorted (r : RecordStore) (fs : Node)
    (files : List FileInfo) (h : r.GetSortedResponsesByRequestHash fs = .ok files) :
    ∃ xs, files = sortFilesByTimeInPlace xs := by
  unfold RecordStore.GetSortedResponsesByRequestHash at h
  simp only at h
  split at h
  · simp at h
  · split at h
    · split at h
      · simp at h
      · split at h
        · simp at h
        · rename_i allFiles _
          exact ⟨allFiles, (Except.ok.inj h).symm⟩
    · simp at h

theorem GetSortedResponsesByTemplateHash_sorted (r : RecordStore) (fs : Node)
    (files : List FileInfo) (h : r.GetSortedResponsesByTemplateHash fs = .ok files) :
    ∃ xs, files = sortFilesByTimeInPlace xs := by
  unfold RecordStore.GetSortedResponsesByTemplateHash at h
  simp only at h
  split at h
  · simp at h
  · split at h
    · split at h
      · simp at h
      · split at h
        · simp at h
        · rename_i allFiles _
          exact ⟨allFiles, (Except.ok.inj h).symm⟩
    · simp at h

/-- C9: whenever one of the five enumerations of the record store succeeds,
no entry of the list it returns has a modification time strictly after that
of the entry before it; this is what `sortFilesByTimeInPlace` leaves for
every adjacent pair of every list. -/
theorem enumerations_descending_modTime (r : RecordStore) (fs : Node) (files : List FileInfo)
    (h : r.GetSortedResponses fs = .ok files ∨ r.GetSortedRequests fs = .ok files
      ∨ r.GetSortedTemplates fs = .ok files
      ∨ r.GetSortedResponsesByRequestHash fs = .ok files
      ∨ r.GetSortedResponsesByTemplateHash fs = .ok files)
    (i : Nat) (hi : i + 1 < files.length) :
    ¬ (files[i].ModTime < files[i + 1].ModTime)
    ∧ ∀ (xs : List FileInfo) (j : Nat) (hj : j + 1 < (sortFilesByTimeInPlace xs).length),
        ¬ ((sortFilesByTimeInPlace xs)[j].ModTime
            < (sortFilesByTimeInPlace xs)[j + 1].ModTime) := by
  have hsorted : ∃ xs, files = sortFilesByTimeInPlace xs := by
    rcases h with h | h | h | h | h
    · exact GetSortedResponses_sorted r fs files h
    · exact GetSortedRequests_sorted r fs files h
    · exact GetSortedTemplates_sorted r fs files h
    · exact GetSortedResponsesByRequestHash_sorted r fs files h
    · exact GetSortedResponsesByTemplateHash_sorted r fs files h
  obtain ⟨xs, hxs⟩ := hsorted
  subst hxs
  exact ⟨sortFilesByTimeInPlace_adjacent xs i hi,
    fun ys j hj => sortFilesByTimeInPlace_adjacent ys j hj⟩

set_option maxRecDepth 1000000 in
theorem exampleResponses_ok :
    exampleStore.GetSortedResponses exampleRerun.2.2.fs = .ok exampleResponses ∧
    exampleResponses.length = 2 := by
  constructor
  · apply except_ok_of_toOption
    decide
  · decide

set_option maxRecDepth 1000000 in
/-- Witness of C9: the two responses of the worked examples, listed. -/
theorem enumerations_descending_modTime_witness :
    exampleStore.GetSortedResponses exampleRerun.2.2.fs = .ok exampleResponses
    ∧ ∃ (hi : 0 + 1 < exampleResponses.length),
      ¬ (exampleResponses[0].ModTime < exampleResponses[0 + 1].ModTime) :=
  ⟨exampleResponses_ok.1, by rw [exampleResponses_ok.2]; decide,
    (enumerations_descending_modTime exampleStore exampleRerun.2.2.fs exampleResponses
      (Or.inl exampleResponses_ok.1) 0 (by rw [exampleResponses_ok.2]; decide)).1⟩

/-! ## Limits of the history listing (C10) -/

theorem intOfUint64_neg (limit : Nat) (h1 : 9223372036854775808 ≤ limit)
    (h2 : limit < 18446744073709551616) : intOfUint64 limit < 0 := by
  unfold intOfUint64
  rw [Nat.mod_eq_of_lt h2]
  have : ¬ limit < 9223372036854775808 := by omega
  simp only [this, if_false]
  omega

/-- A limit of 2^63 or more makes the slice bound negative: the slice panics. -/
theorem applyLimit_huge {α : Type} (xs : List α) (limit : Nat)
    (h1 : 9223372036854775808 ≤ limit) (h2 : limit < 18446744073709551616) :
    applyLimit xs limit = none := by
  have hneg := intOfUint64_neg limit h1 h2
  unfold applyLimit
  have hpos : 0 < limit := by omega
  simp only [hpos, if_true]
  have : min (xs.length : Int) (intOfUint64 limit) < 0 := by
    exact lt_of_le_of_lt (min_le_right _ _) hneg
  simp [this]

/-- A limit below 2^63 keeps the first `min limit (len xs)` entries, and 0 keeps all. -/
theorem applyLimit_small {α : Type} (xs : List α) (limit : Nat)
    (h : limit < 9223372036854775808) :
    applyLimit xs limit = some (if limit = 0 then xs else xs.take (min limit xs.length)) := by
  unfold applyLimit intOfUint64
  rw [Nat.mod_eq_of_lt (by omega)]
  by_cases h0 : limit = 0
  · simp [h0]
  · have hpos : 0 < limit := by omega
    simp only [hpos, if_true, h, h0, if_false]
    have hmin : min (xs.length : Int) (limit : Int) = ((min limit xs.length : Nat) : Int) := by
      rw [min_comm]; exact (Nat.cast_min limit xs.length).symm
    rw [hmin]
    have hnn : ¬ (((min limit xs.length : Nat) : Int) < 0) := by omega
    simp only [hnn, if_false, Int.toNat_ofNat]

set_option maxRecDepth 1000000 in
/-- C10, the code at the failing input: on the store of the worked examples,
which holds two responses, the listing returns both rows for limit 0 and the
first one for limit 1, but for the limit 9223372036854775808 (2^63) it
panics instead of returning the two rows; and so does each of the five
listings, for every limit from 2^63 on, whenever its enumeration has not
already returned an error. -/
theorem GetAllResponsesSorted_panics_on_huge_limit :
    ((exampleHistory.GetAllResponsesSorted plainYaml exampleRerun.2.2.fs 0).value?.map
        List.length) = some 2
    ∧ ((exampleHistory.GetAllResponsesSorted plainYaml exampleRerun.2.2.fs 1).value?.map
        (List.map ResponseRow.ResponseID)) = some ["20240115_103047_000_0002"]
    ∧ (exampleHistory.GetAllResponsesSorted plainYaml exampleRerun.2.2.fs
        9223372036854775808).hasPanicked = true
    ∧ (∀ (Y : YamlLib) (h : HistoryStore) (fs : Node) (hash : String) (limit : Nat)
        (files : List FileInfo),
        9223372036854775808 ≤ limit → limit < 18446744073709551616 →
        (RecordStore.GetSortedResponses { RecordStorePath := h.RecordStorePath } fs = .ok files →
          (h.GetAllResponsesSorted Y fs limit).hasPanicked = true)
        ∧ (RecordStore.GetSortedResponsesByRequestHash
              { RecordStorePath := h.RecordStorePath, RequestHash := hash } fs = .ok files →
            (h.GetSortedResponsesByRequestHash Y fs hash limit).hasPanicked = true)
        ∧ (RecordStore.GetSortedResponsesByTemplateHash
              { RecordStorePath := h.RecordStorePath, TemplateHash := hash } fs = .ok files →
            (h.GetSortedResponsesByTemplateHash Y fs hash limit).hasPanicked = true)
        ∧ (h.GetAllRequestsSorted Y fs limit).hasPanicked = true
        ∧ (h.GetAllTemplatesSorted fs limit).hasPanicked = true) := by
  refine ⟨by decide, by decide, by decide, ?_⟩
  intro Y h fs hash limit files h1 h2
  refine ⟨?_, ?_, ?_, ?_, ?_⟩
  · intro hfiles
    unfold HistoryStore.GetAllResponsesSorted
    simp only [hfiles, applyLimit_huge _ limit h1 h2, Outcome.hasPanicked]
  · intro hfiles
    unfold HistoryStore.GetSortedResponsesByRequestHash
    simp only [hfiles, applyLimit_huge _ limit h1 h2, Outcome.hasPanicked]
  · intro hfiles
    unfold HistoryStore.GetSortedResponsesByTemplateHash
    simp only [hfiles, applyLimit_huge _ limit h1 h2, Outcome.hasPanicked]
  · unfold HistoryStore.GetAllRequestsSorted
    simp only [applyLimit_huge _ limit h1 h2, Outcome.hasPanicked]
  · unfold HistoryStore.GetAllTemplatesSorted
    simp only [applyLimit_huge _ limit h1 h2, Outcome.hasPanicked]

theorem responseRows_ids (Y : YamlLib) (fs : Node) (style : TimestampStyle) :
    ∀ (files : List FileInfo) (rs : RecordStore) (rows : List ResponseRow),
      responseRows Y fs style rs files = .ok rows →
      rows.map ResponseRow.ResponseID = files.map FileInfo.ResponseID := by
  intro files
  induction files with
  | nil =>
    intro rs rows h
    simp only [responseRows] at h
    cases h
    rfl
  | cons f rest ih =>
    intro rs rows h
    simp only [responseRows] at h
    split at h
    · simp at h
    · rename_i rs1 hget
      have hid : rs1.ResponseID = f.ResponseID := by
        unfold RecordStore.GetResponse at hget
        simp only at hget
        split at hget
        · simp at hget
        · simp only [Prod.mk.injEq, true_and] at hget
          rw [← hget]
      split at h
      · simp at h
      · split at h
        · simp at h
        · split at h
          · simp at h
          · split at h
            · rename_i more hmore
              cases h
              simp only [List.map_cons, hid, ih _ _ hmore]
            · simp at h
            · simp at h

/-- With a limit below 2^63 the listing renders the first `min limit total`
entries of the sorted enumeration, in order (all of them for limit 0). -/
theorem GetAllResponsesSorted_rows (Y : YamlLib) (h : HistoryStore) (fs : Node) (limit : Nat)
    (files : List FileInfo) (rows : List ResponseRow) (hl : limit < 9223372036854775808)
    (hfiles : RecordStore.GetSortedResponses { RecordStorePath := h.RecordStorePath } fs
      = .ok files)
    (hrows : h.GetAllResponsesSorted Y fs limit = .ok rows) :
    rows.map ResponseRow.ResponseID
      = (if limit = 0 then files else files.take (min limit files.length)).map
          FileInfo.ResponseID := by
  unfold HistoryStore.GetAllResponsesSorted at hrows
  simp only [hfiles, applyLimit_small files limit hl] at hrows
  exact responseRows_ids Y fs _ _ _ _ hrows

/-! ## Directories stay duplicate-free -/

theorem lookupEntry_eq_none_iff (name : String) (es : Entries) :
    lookupEntry name es = none ↔ name ∉ es.map Prod.fst := by
  induction es with
  | nil => simp [lookupEntry]
  | cons e rest ih =>
    obtain ⟨k, v⟩ := e
    by_cases hk : k = name
    · simp [lookupEntry, hk]
    · have hk' : ¬ name = k := fun h => hk h.symm
      simp [lookupEntry, hk, hk', ih]

theorem replaceEntry_names (name : String) (n : Node) (es : Entries) :
    (replaceEntry name n es).map Prod.fst = es.map Prod.fst := by
  induction es with
  | nil => rfl
  | cons e rest ih =>
    obtain ⟨k, v⟩ := e
    by_cases hk : k = name
    · simp [replaceEntry, hk]
    · simp [replaceEntry, hk, ih]

theorem insertEntry_names_perm (name : String) (n : Node) (es : Entries) :
    ((insertEntry name n es).map Prod.fst).Perm (name :: es.map Prod.fst) := by
  induction es with
  | nil => simp [insertEntry]
  | cons e rest ih =>
    obtain ⟨k, v⟩ := e
    by_cases hlt : nameLt name k = true
    · simp [insertEntry, hlt]
    · simp only [insertEntry, hlt, List.map_cons]
      exact (List.Perm.cons k ih).trans (List.Perm.swap name k _)

theorem WF_dir_iff (perm : Perm) (es : Entries) :
    (Node.dir perm es).WF ↔
      (es.map Prod.fst).Nodup ∧ ∀ k c, lookupEntry k es = some c → c.WF := by
  constructor
  · intro h
    refine ⟨h [] perm es (by simp [Node.find]), ?_⟩
    intro k c hl d p ents hd
    exact h (k :: d) p ents (by rw [find_dir_cons, hl]; exact hd)
  · rintro ⟨hnd, hch⟩ d p ents hd
    cases d with
    | nil =>
      simp only [Node.find, Option.some.injEq, Node.dir.injEq] at hd
      rw [← hd.2]; exact hnd
    | cons k d' =>
      rw [find_dir_cons] at hd
      cases hl : lookupEntry k es with
      | none => simp [hl] at hd
      | some c =>
        simp only [hl] at hd
        exact hch k c hl d' p ents hd

theorem WF_file (perm : Perm) (t : Nat) (c : Bytes) : (Node.file perm t c).WF := by
  intro d p ents hd
  cases d with
  | nil => simp [Node.find] at hd
  | cons k d' => simp [Node.find] at hd

theorem WF_emptyDir (perm : Perm) : (Node.dir perm []).WF := by
  rw [WF_dir_iff]
  exact ⟨by simp, by intro k c h; simp [lookupEntry] at h⟩

theorem updateDir_WF (f : Perm → Entries → Except Errno Entries) (hf : KeepsWF f)
    (parent : Path) : ∀ (fs fs' : Node), updateDir f fs parent = .ok fs' → fs.WF → fs'.WF := by
  induction parent with
  | nil =>
    intro fs fs' h hwf
    cases fs with
    | file p t0 c0 => simp [updateDir] at h
    | dir p es =>
      simp only [updateDir] at h
      cases hfe : f p es with
      | error e => simp [hfe] at h
      | ok es' =>
        simp [hfe] at h
        subst h
        exact hf p es es' hfe hwf
  | cons n rest ih =>
    intro fs fs' h hwf
    cases fs with
    | file p t0 c0 => simp [updateDir] at h
    | dir p es =>
      simp only [updateDir] at h
      by_cases hx : p.x = true
      · simp only [hx, if_true] at h
        cases hl : lookupEntry n es with
        | none => simp [hl] at h
        | some child =>
          simp only [hl] at h
          cases hu : updateDir f child rest with
          | error e => simp [hu] at h
          | ok child' =>
            simp [hu] at h
            subst h
            rw [WF_dir_iff] at hwf ⊢
            refine ⟨by rw [replaceEntry_names]; exact hwf.1, ?_⟩
            intro k c hk
            by_cases hkn : k = n
            · subst hkn
              rw [lookupEntry_replaceEntry_same k child' es (by simp [hl])] at hk
              cases hk
              exact ih child _ hu (hwf.2 k child hl)
            · rw [lookupEntry_replaceEntry_ne n k child' es hkn] at hk
              exact hwf.2 k c hk
      · simp [hx] at h

theorem WF_replaceEntry (perm : Perm) (es : Entries) (name : String) (n : Node)
    (hwf : (Node.dir perm es).WF) (hn : n.WF) :
    (Node.dir perm (replaceEntry name n es)).WF := by
  rw [WF_dir_iff] at hwf ⊢
  refine ⟨by rw [replaceEntry_names]; exact hwf.1, ?_⟩
  intro k c hk
  by_cases hkn : k = name
  · subst hkn
    cases hl : lookupEntry k es with
    | none =>
      have : replaceEntry k n es = es := by
        clear hk hwf
        induction es with
        | nil => rfl
        | cons e rest ih =>
          obtain ⟨k', v⟩ := e
          by_cases hk' : k' = k
          · simp [lookupEntry, hk'] at hl
          · simp only [lookupEntry, hk', if_false] at hl
            simp [replaceEntry, hk', ih hl]
      rw [this, hl] at hk
      cases hk
    | some c0 =>
      rw [lookupEntry_replaceEntry_same k n es (by simp [hl])] at hk
      cases hk
      exact hn
  · rw [lookupEntry_replaceEntry_ne name k n es hkn] at hk
    exact hwf.2 k c hk

theorem WF_insertEntry (perm : Perm) (es : Entries) (name : String) (n : Node)
    (hwf : (Node.dir perm es).WF) (hn : n.WF) (hfresh : lookupEntry name es = none) :
    (Node.dir perm (insertEntry name n es)).WF := by
  rw [WF_dir_iff] at hwf ⊢
  constructor
  · rw [(insertEntry_names_perm name n es).nodup_iff, List.nodup_cons]
    exact ⟨(lookupEntry_eq_none_iff name es).mp hfresh, hwf.1⟩
  · intro k c hk
    by_cases hkn : k = name
    · subst hkn
      rw [lookupEntry_insertEntry_same k n es hfresh] at hk
      cases hk
      exact hn
    · rw [lookupEntry_insertEntry_ne name k n es hkn] at hk
      exact hwf.2 k c hk

theorem writeEntry_keepsWF (name : String) (data : Bytes) (now : Nat) :
    KeepsWF (writeEntry name data now) := by
  intro perm es es' h hwf
  unfold writeEntry at h
  by_cases hx : perm.x = true
  · simp only [hx, if_true] at h
    cases hl : lookupEntry name es with
    | none =>
      simp only [hl] at h
      by_cases hw : perm.w = true
      · simp [hw] at h; subst h
        exact WF_insertEntry perm es name _ hwf (WF_file _ _ _) hl
      · simp [hw] at h
    | some c =>
      cases c with
      | file fp t0 c0 =>
        simp only [hl] at h
        by_cases hw : fp.w = true
        · simp [hw] at h; subst h
          exact WF_replaceEntry perm es name _ hwf (WF_file _ _ _)
        · simp [hw] at h
      | dir pd ents => simp [hl] at h
  · simp [hx] at h

theorem mkdirEntry_keepsWF (name : String) : KeepsWF (mkdirEntry name) := by
  intro perm es es' h hwf
  unfold mkdirEntry at h
  by_cases hx : perm.x = true
  · simp only [hx, if_true] at h
    cases hl : lookupEntry name es with
    | none =>
      simp only [hl] at h
      by_cases hw : perm.w = true
      · simp [hw] at h; subst h
        exact WF_insertEntry perm es name _ hwf (WF_emptyDir _) hl
      · simp [hw] at h
    | some c => simp [hl] at h
  · simp [hx] at h

theorem MkdirAllRev_WF (rev : List String) : ∀ (fs : Node), fs.WF → (MkdirAllRev fs rev).2.WF := by
  induction rev with
  | nil =>
    intro fs hwf
    unfold MkdirAllRev
    split <;> exact hwf
  | cons name parentRev ih =>
    intro fs hwf
    rw [MkdirAllRev]
    split
    · split <;> exact hwf
    · have ih' := ih fs hwf
      split
      · rename_i e fs1 heq
        rw [heq] at ih'
        exact ih'
      · rename_i fs1 heq
        rw [heq] at ih'
        split
        · rename_i fs2 hmk
          exact updateDir_WF _ (mkdirEntry_keepsWF name) _ fs1 fs2 hmk ih'
        · split
          · split <;> exact ih'
          · exact ih'

theorem EnsureDir_WF (fs : Node) (p : Path) (hwf : fs.WF) : (EnsureDir fs p).2.WF := by
  have h := MkdirAllRev_WF p.reverse fs hwf
  unfold EnsureDir MkdirAll
  split
  · rename_i fs1 heq; rw [heq] at h; exact h
  · rename_i e fs1 heq; rw [heq] at h; exact h

theorem recordTemplate_WF (r : RecordStore) (now : Nat) (fs : Node) (hwf : fs.WF) :
    (r.recordTemplate now fs).2.WF := by
  have he := EnsureDir_WF fs (r.RecordStorePath ++ ["templates"]) hwf
  unfold RecordStore.recordTemplate
  simp only
  split
  · rename_i err fs1 heq; rw [heq] at he; exact he
  · rename_i fs1 heq
    rw [heq] at he
    split
    · exact he
    · rename_i fs2 hw
      exact updateDir_WF _ (writeEntry_keepsWF _ _ _) _ fs1 fs2 hw he

theorem recordRequest_WF (r : RecordStore) (now : Nat) (fs : Node) (hwf : fs.WF) :
    (r.recordRequest now fs).2.WF := by
  have he := EnsureDir_WF fs (r.RecordStorePath ++ ["requests", r.TemplateHash]) hwf
  unfold RecordStore.recordRequest
  simp only
  split
  · rename_i err fs1 heq; rw [heq] at he; exact he
  · rename_i fs1 heq
    rw [heq] at he
    split
    · exact he
    · rename_i fs2 hw
      exact updateDir_WF _ (writeEntry_keepsWF _ _ _) _ fs1 fs2 hw he

theorem recordResponse_WF (r : RecordStore) (clock : Instant) (now : Nat) (w : World)
    (hwf : w.fs.WF) : (r.recordResponse clock now w).2.2.fs.WF := by
  have he := EnsureDir_WF w.fs (r.RecordStorePath ++ ["responses", r.RequestHash]) hwf
  unfold RecordStore.recordResponse
  simp only
  split
  · rename_i err fs1 heq; rw [heq] at he; exact he
  · rename_i fs1 heq
    rw [heq] at he
    split
    · exact he
    · rename_i fs2 hw
      exact updateDir_WF _ (writeEntry_keepsWF _ _ _) _ fs1 fs2 hw he

theorem runTask_WF (clk : RecordClock) (st : TaskState) (t : Task) (hwf : st.world.fs.WF) :
    (runTask clk st t).world.fs.WF := by
  cases t with
  | template =>
    have h := recordTemplate_WF st.store clk.templateTime st.world.fs hwf
    unfold runTask
    simp only
    split
    · rename_i err fs1 heq; rw [heq] at h; exact h
    · rename_i fs1 heq; rw [heq] at h; exact h
  | request =>
    have h := recordRequest_WF st.store clk.requestTime st.world.fs hwf
    unfold runTask
    simp only
    split
    · rename_i err fs1 heq; rw [heq] at h; exact h
    · rename_i fs1 heq; rw [heq] at h; exact h
  | response =>
    have h := recordResponse_WF st.store clk.idClock clk.responseTime st.world hwf
    unfold runTask
    simp only
    split
    · rename_i err r1 w1 heq; rw [heq] at h; exact h
    · rename_i r1 w1 heq; rw [heq] at h; exact h

theorem foldTasks_WF (clk : RecordClock) : ∀ (ts : List Task) (st : TaskState),
    st.world.fs.WF → (ts.foldl (runTask clk) st).world.fs.WF := by
  intro ts
  induction ts with
  | nil => intro st h; exact h
  | cons t ts ih => intro st h; exact ih _ (runTask_WF clk st t h)

/-- Whatever it returns, `Record` keeps every directory duplicate-free. -/
theorem Record_WF (Y : YamlLib) (sched : Schedule) (clk : RecordClock) (r : RecordStore)
    (w : World) (hwf : w.fs.WF) : (r.Record Y sched clk w).2.2.fs.WF := by
  unfold RecordStore.Record
  simp only
  split
  · exact hwf
  · split
    · exact hwf
    · split
      · exact hwf
      · split
        · exact hwf
        · split
          · exact foldTasks_WF clk _ _ hwf
          · exact foldTasks_WF clk _ _ hwf

/-! ## Listing a template once -/

theorem resolve_find (p : Path) : ∀ (fs n : Node), resolve fs p = .ok n → fs.find p = some n := by
  induction p with
  | nil => intro fs n h; simp only [resolve, Except.ok.injEq] at h; simp [Node.find, h]
  | cons k rest ih =>
    intro fs n h
    cases fs with
    | file pm t c => simp [resolve] at h
    | dir pm es =>
      simp only [resolve] at h
      by_cases hx : pm.x = true
      · simp only [hx, if_true] at h
        rw [find_dir_cons]
        cases hl : lookupEntry k es with
        | none => simp [hl] at h
        | some c =>
          simp only [hl] at h ⊢
          exact ih c n h
      · simp [hx] at h

theorem ReadDir_find (fs : Node) (p : Path) (items : List DirEntry)
    (h : ReadDir fs p = .ok items) :
    ∃ perm es, fs.find p = some (.dir perm es)
      ∧ items = es.map (fun e => (⟨e.1, e.2.isDir⟩ : DirEntry)) := by
  unfold ReadDir at h
  split at h
  · rename_i perm es hr
    split at h
    · exact ⟨perm, es, resolve_find p fs _ hr, (Except.ok.inj h).symm⟩
    · simp at h
  · simp at h
  · simp at h

theorem hasSuffix_trimSuffix_iff (n suffix h : String) :
    (HasSuffix n suffix = true ∧ TrimSuffix n suffix = h) ↔ n = h ++ suffix := by
  constructor
  · rintro ⟨hs, ht⟩
    have hs' : suffix.data <:+ n.data := by
      simpa [HasSuffix] using hs
    obtain ⟨t, ht'⟩ := hs'
    simp only [TrimSuffix, hs, if_true] at ht
    apply String.ext
    rw [String.data_append, ← ht, ← ht']
    simp
  · intro hn
    subst hn
    have hs : HasSuffix (h ++ suffix) suffix = true := by
      simp [HasSuffix, String.data_append]
    refine ⟨hs, ?_⟩
    simp only [TrimSuffix, hs, if_true]
    apply String.ext
    simp [String.data_append]

theorem collectYaml_countP (fs : Node) (dir : Path) (mk : String → Path → Nat → FileInfo)
    (key : FileInfo → String) (hmk : ∀ hash path t, key (mk hash path t) = hash) (h : String) :
    ∀ (es : Entries) (allFiles : List FileInfo),
      collectYaml fs dir mk (es.map (fun e => (⟨e.1, e.2.isDir⟩ : DirEntry))) = .ok allFiles →
      allFiles.countP (fun f => decide (key f = h))
        = es.countP (fun e => !e.2.isDir && decide (e.1 = h ++ ".yaml")) := by
  intro es
  induction es with
  | nil =>
    intro allFiles hc
    simp only [List.map_nil, collectYaml, Except.ok.injEq] at hc
    subst hc
    rfl
  | cons e rest ih =>
    intro allFiles hc
    simp only [List.map_cons, collectYaml] at hc
    by_cases hcond : (!e.2.isDir && HasSuffix e.1 ".yaml") = true
    · simp only [hcond, if_true] at hc
      split at hc
      · simp at hc
      · rename_i info _
        split at hc
        · rename_i more hmore
          cases hc
          rw [List.countP_cons, List.countP_cons, ih more hmore, hmk]
          congr 1
          simp only [Bool.and_eq_true, Bool.not_eq_true'] at hcond
          by_cases hname : e.1 = h ++ ".yaml"
          · have := (hasSuffix_trimSuffix_iff e.1 ".yaml" h).mpr hname
            rw [this.2, hcond.1]
            simp [hname]
          · have hne : ¬ TrimSuffix e.1 ".yaml" = h := by
              intro ht
              exact hname ((hasSuffix_trimSuffix_iff e.1 ".yaml" h).mp ⟨hcond.2, ht⟩)
            simp [hne, hname]
        · simp at hc
    · simp only [hcond] at hc
      rw [List.countP_cons, ih allFiles hc]
      have hfalse : (!e.2.isDir && decide (e.1 = h ++ ".yaml")) = false := by
        by_cases hname : e.1 = h ++ ".yaml"
        · have := (hasSuffix_trimSuffix_iff e.1 ".yaml" h).mpr hname
          simp only [this.1, Bool.and_true] at hcond
          simp [hcond]
        · simp [hname]
      simp [hfalse]

theorem countP_name_of_lookup (n : String) : ∀ (es : Entries) (c : Node),
    (es.map Prod.fst).Nodup → lookupEntry n es = some c →
    es.countP (fun e => !e.2.isDir && decide (e.1 = n)) = if c.isDir = true then 0 else 1 := by
  intro es
  induction es with
  | nil => intro c _ h; simp [lookupEntry] at h
  | cons e rest ih =>
    intro c hnd hl
    obtain ⟨k, v⟩ := e
    simp only [List.map_cons, List.nodup_cons] at hnd
    by_cases hk : k = n
    · subst hk
      simp only [lookupEntry, if_true, Option.some.injEq] at hl
      subst hl
      have hrest : rest.countP (fun e => !e.2.isDir && decide (e.1 = k)) = 0 := by
        rw [List.countP_eq_zero]
        intro e he
        have : e.1 ≠ k := by
          intro heq
          exact hnd.1 (heq ▸ List.mem_map_of_mem Prod.fst he)
        simp [this]
      rw [List.countP_cons, hrest]
      cases hv : v.isDir <;> simp [hv]
    · simp only [lookupEntry, hk, if_false] at hl
      rw [List.countP_cons, ih c hnd.2 hl]
      simp [hk]

/-- In a filesystem whose directories are duplicate-free and where
`templates/<hash>.yaml` is a regular file, a successful `GetSortedTemplates`
returns exactly one entry for that hash. -/
theorem GetSortedTemplates_one_entry (r : RecordStore) (fs : Node) (hash : String)
    (fp : Perm) (t : Nat) (c : Bytes) (files : List FileInfo) (hwf : fs.WF)
    (hfile : FileAt fs (r.RecordStorePath ++ ["templates"] ++ [hash ++ ".yaml"]) fp t c)
    (hlist : r.GetSortedTemplates fs = .ok files) :
    files.countP (fun f => decide (f.TemplateHash = hash)) = 1 := by
  unfold RecordStore.GetSortedTemplates at hlist
  simp only at hlist
  split at hlist
  · simp at hlist
  · rename_i items hread
    split at hlist
    · simp at hlist
    · rename_i allFiles hcollect
      cases hlist
      obtain ⟨perm, es, hfind, hitems⟩ := ReadDir_find fs _ items hread
      subst hitems
      have hperm : (sortFilesByTimeInPlace allFiles).Perm allFiles := sortSlice_perm _ _
      rw [hperm.countP_eq,
        collectYaml_countP fs _ _ FileInfo.TemplateHash (fun _ _ _ => rfl) hash es allFiles hcollect]
      unfold FileAt at hfile
      rw [find_append, hfind] at hfile
      simp only [Option.bind_eq_bind, Option.some_bind, find_dir_cons] at hfile
      cases hl : lookupEntry (hash ++ ".yaml") es with
      | none => simp [hl] at hfile
      | some node =>
        simp only [hl, Node.find, Option.some.injEq] at hfile
        subst hfile
        rw [countP_name_of_lookup _ es _ (hwf _ perm es hfind) hl]
        simp [Node.isDir]

/-- A `Record` that returns nil adds, removes or changes no file besides the
three it writes. -/
theorem Record_ok_frame (Y : YamlLib) (sched : Schedule) (clk : RecordClock)
    (r r' : RecordStore) (w w' : World) (h : r.Record Y sched clk w = (.ok (), r', w'))
    (q : Path) (perm : Perm) (tm : Nat) (c : Bytes)
    (hq : ∀ t : Task, q ≠ taskPath r' t) :
    FileAt w'.fs q perm tm c ↔ FileAt w.fs q perm tm c := by
  obtain ⟨req, res, requestYaml, responseYaml, _, _, _, _, herr, hr', hw'⟩ :=
    Record_ok_shape Y sched clk r r' w w' h
  obtain ⟨_, _, hframe, _, _⟩ := foldTasks_spec clk sched.order _ sched.order_nodup herr
  rw [← hr', ← hw'] at hframe
  exact hframe q perm tm c (fun t _ => hq t)

/-! ## Listings of a store with a missing or failing root (C11, C12, C13, C14) -/

theorem resolve_error_of_find_none (fs : Node) (p : Path) (h : fs.find p = none) :
    ∃ e, resolve fs p = .error e := by
  cases hr : resolve fs p with
  | error e => exact ⟨e, rfl⟩
  | ok n => rw [resolve_find p fs n hr] at h; simp at h

theorem ReadDir_error_of_find_none (fs : Node) (p : Path) (h : fs.find p = none) :
    ∃ e, ReadDir fs p = .error e := by
  obtain ⟨e, he⟩ := resolve_error_of_find_none fs p h
  exact ⟨e, by simp [ReadDir, he]⟩

theorem Stat_error_of_find_none (fs : Node) (p : Path) (h : fs.find p = none) :
    ∃ e, Stat fs p = .error e := by
  obtain ⟨e, he⟩ := resolve_error_of_find_none fs p h
  exact ⟨e, by simp [Stat, he]⟩

/-- C13: when `responses/` does not exist below the store root,
`RecordStore.GetSortedResponses` returns an error that `errors.Is`
`ErrorFailedToReadDirectory`, and `HistoryStore.GetAllResponsesSorted` on the
same root returns that very error, whatever the limit and the YAML library. -/
theorem GetSortedResponses_absent_root_error (Y : YamlLib) (r : RecordStore) (fs : Node)
    (limit : Nat) (habsent : fs.find (r.RecordStorePath ++ ["responses"]) = none) :
    ∃ err, r.GetSortedResponses fs = .error err
      ∧ err.Is .ErrorFailedToReadDirectory = true
      ∧ HistoryStore.GetAllResponsesSorted Y { RecordStorePath := r.RecordStorePath } fs limit
          = .error err := by
  obtain ⟨e, he⟩ := ReadDir_error_of_find_none fs _ habsent
  refine ⟨.wrapf (.sentinel .ErrorFailedToReadDirectory) (some (.pathError e)), ?_, ?_, ?_⟩
  · simp [RecordStore.GetSortedResponses, he]
  · simp [GoError.Is]
  · simp [HistoryStore.GetAllResponsesSorted, RecordStore.GetSortedResponses, he]

theorem GetSortedResponses_absent_root_error_witness :
    freshStoreDisk.find (exampleStore.RecordStorePath ++ ["responses"]) = none
    ∧ ∃ err, exampleStore.GetSortedResponses freshStoreDisk = .error err
      ∧ err.Is .ErrorFailedToReadDirectory = true
      ∧ HistoryStore.GetAllResponsesSorted plainYaml
          { RecordStorePath := exampleStore.RecordStorePath } freshStoreDisk 10 = .error err :=
  ⟨by rfl, GetSortedResponses_absent_root_error plainYaml exampleStore freshStoreDisk 10 (by rfl)⟩

/-- When `responses/` was never created below the store root,
`GetAllResponsesSorted` returns, for every limit, no collection and a non-nil
error that `errors.Is` `ErrorFailedToReadDirectory`; it does not panic. -/
theorem GetAllResponsesSorted_absent_root_fails (Y : YamlLib) (h : HistoryStore) (fs : Node)
    (limit : Nat) (habsent : fs.find (h.RecordStorePath ++ ["responses"]) = none) :
    (h.GetAllResponsesSorted Y fs limit).value? = none
    ∧ (h.GetAllResponsesSorted Y fs limit).hasPanicked = false
    ∧ ∃ err, (h.GetAllResponsesSorted Y fs limit).error? = some err
        ∧ err.Is .ErrorFailedToReadDirectory = true := by
  obtain ⟨e, he⟩ := ReadDir_error_of_find_none fs _ habsent
  have hrun : h.GetAllResponsesSorted Y fs limit
      = .error (.wrapf (.sentinel .ErrorFailedToReadDirectory) (some (.pathError e))) := by
    simp [HistoryStore.GetAllResponsesSorted, RecordStore.GetSortedResponses, he]
  rw [hrun]
  exact ⟨rfl, rfl, _, rfl, by simp [GoError.Is]⟩

theorem GetAllResponsesSorted_absent_root_fails_witness :
    freshStoreDisk.find (exampleHistory.RecordStorePath ++ ["responses"]) = none
    ∧ (exampleHistory.GetAllResponsesSorted plainYaml freshStoreDisk 5).value? = none
    ∧ (exampleHistory.GetAllResponsesSorted plainYaml freshStoreDisk 5).hasPanicked = false
    ∧ ∃ err, (exampleHistory.GetAllResponsesSorted plainYaml freshStoreDisk 5).error? = some err
        ∧ err.Is .ErrorFailedToReadDirectory = true :=
  ⟨by rfl, GetAllResponsesSorted_absent_root_fails plainYaml exampleHistory freshStoreDisk 5
    (by rfl)⟩

/-- C12, the code at the failing input: on a store root where none of
`templates/`, `requests/` and `responses/` was ever created,
`GetAllResponsesSorted` with limit 0 returns no collection: it returns an
error, one that `errors.Is` `ErrorFailedToReadDirectory`, while
`GetAllRequestsSorted` and `GetAllTemplatesSorted` return the empty
collection and a nil error on the same store. `GetAllResponsesSorted` does so
for every store in which `responses/` is absent, every limit and every YAML
library. -/
theorem GetAllResponsesSorted_absent_root_not_empty :
    ((exampleHistory.GetAllResponsesSorted plainYaml freshStoreDisk 0).value? = none
      ∧ (exampleHistory.GetAllResponsesSorted plainYaml freshStoreDisk 0).isOk = false
      ∧ ((exampleHistory.GetAllResponsesSorted plainYaml freshStoreDisk 0).error?.map
          (fun e => e.Is .ErrorFailedToReadDirectory)) = some true)
    ∧ (((exampleHistory.GetAllRequestsSorted plainYaml freshStoreDisk 0).value?.map
          List.length) = some 0
      ∧ ((exampleHistory.GetAllTemplatesSorted freshStoreDisk 0).value?.map List.length)
          = some 0)
    ∧ (∀ (Y : YamlLib) (h : HistoryStore) (fs : Node) (limit : Nat),
        fs.find (h.RecordStorePath ++ ["responses"]) = none →
        (h.GetAllResponsesSorted Y fs limit).value? = none
        ∧ (h.GetAllResponsesSorted Y fs limit).hasPanicked = false
        ∧ ∃ err, (h.GetAllResponsesSorted Y fs limit).error? = some err
            ∧ err.Is .ErrorFailedToReadDirectory = true) := by
  refine ⟨⟨by decide, by decide, by decide⟩, ⟨by decide, by decide⟩, ?_⟩
  intro Y h fs limit habsent
  exact GetAllResponsesSorted_absent_root_fails Y h fs limit habsent

theorem GetSortedRequests_absent_root (r : RecordStore) (fs : Node)
    (habsent : fs.find (r.RecordStorePath ++ ["requests"]) = none) :
    ∃ err, r.GetSortedRequests fs = .error err := by
  obtain ⟨e, he⟩ := ReadDir_error_of_find_none fs _ habsent
  exact ⟨.wrapf (.sentinel .ErrorFailedToReadDirectory) (some (.pathError e)),
    by simp [RecordStore.GetSortedRequests, he]⟩

theorem GetSortedTemplates_absent_root (r : RecordStore) (fs : Node)
    (habsent : fs.find (r.RecordStorePath ++ ["templates"]) = none) :
    ∃ err, r.GetSortedTemplates fs = .error err := by
  obtain ⟨e, he⟩ := ReadDir_error_of_find_none fs _ habsent
  exact ⟨.wrapf (.sentinel .ErrorFailedToReadDirectory) (some (.pathError e)),
    by simp [RecordStore.GetSortedTemplates, he]⟩

/-- A failed enumeration leaves `GetAllRequestsSorted` with the nil slice: below
2^63 the listing is empty with a nil error, from 2^63 on the slice expression
panics. -/
theorem GetAllRequestsSorted_of_enumeration_error (Y : YamlLib) (h : HistoryStore) (fs : Node)
    (limit : Nat) (err : GoError)
    (herr : RecordStore.GetSortedRequests { RecordStorePath := h.RecordStorePath } fs
      = .error err) :
    (limit < 9223372036854775808 → h.GetAllRequestsSorted Y fs limit = .ok [])
    ∧ (9223372036854775808 ≤ limit → limit < 18446744073709551616 →
        (h.GetAllRequestsSorted Y fs limit).hasPanicked = true) := by
  constructor
  · intro hl
    unfold HistoryStore.GetAllRequestsSorted
    simp only [herr, applyLimit_small _ limit hl]
    by_cases h0 : limit = 0 <;> simp [h0, requestRows]
  · intro h1 h2
    unfold HistoryStore.GetAllRequestsSorted
    simp only [applyLimit_huge _ limit h1 h2, Outcome.hasPanicked]

/-- The same for `GetAllTemplatesSorted`. -/
theorem GetAllTemplatesSorted_of_enumeration_error (h : HistoryStore) (fs : Node)
    (limit : Nat) (err : GoError)
    (herr : RecordStore.GetSortedTemplates { RecordStorePath := h.RecordStorePath } fs
      = .error err) :
    (limit < 9223372036854775808 → h.GetAllTemplatesSorted fs limit = .ok [])
    ∧ (9223372036854775808 ≤ limit → limit < 18446744073709551616 →
        (h.GetAllTemplatesSorted fs limit).hasPanicked = true) := by
  constructor
  · intro hl
    unfold HistoryStore.GetAllTemplatesSorted
    simp only [herr, applyLimit_small _ limit hl]
    by_cases h0 : limit = 0 <;> simp [h0]
  · intro h1 h2
    unfold HistoryStore.GetAllTemplatesSorted
    simp only [applyLimit_huge _ limit h1 h2, Outcome.hasPanicked]

/-- C11, the code at the failing input: on a store root where neither
`requests/` nor `templates/` was ever created, both listings return the empty
collection and a nil error for the limits 0 and 10, and so they do for every
limit below 2^63; but for the limit 9223372036854775808 (2^63), and for every
limit from there on, both panic on the slice expression. -/
theorem listings_of_absent_root :
    (exampleHistory.GetAllRequestsSorted plainYaml freshStoreDisk 0).value? = some []
    ∧ (exampleHistory.GetAllTemplatesSorted freshStoreDisk 10).value? = some []
    ∧ (exampleHistory.GetAllRequestsSorted plainYaml freshStoreDisk
        9223372036854775808).hasPanicked = true
    ∧ (exampleHistory.GetAllTemplatesSorted freshStoreDisk
        9223372036854775808).hasPanicked = true
    ∧ (∀ (Y : YamlLib) (h : HistoryStore) (fs : Node) (limit : Nat),
        fs.find (h.RecordStorePath ++ ["requests"]) = none →
        (limit < 9223372036854775808 → h.GetAllRequestsSorted Y fs limit = .ok [])
        ∧ (9223372036854775808 ≤ limit → limit < 18446744073709551616 →
            (h.GetAllRequestsSorted Y fs limit).hasPanicked = true))
    ∧ (∀ (h : HistoryStore) (fs : Node) (limit : Nat),
        fs.find (h.RecordStorePath ++ ["templates"]) = none →
        (limit < 9223372036854775808 → h.GetAllTemplatesSorted fs limit = .ok [])
        ∧ (9223372036854775808 ≤ limit → limit < 18446744073709551616 →
            (h.GetAllTemplatesSorted fs limit).hasPanicked = true)) := by
  refine ⟨by decide, by decide, by decide, by decide, ?_, ?_⟩
  · intro Y h fs limit habsent
    obtain ⟨err, herr⟩ :=
      GetSortedRequests_absent_root { RecordStorePath := h.RecordStorePath } fs habsent
    exact GetAllRequestsSorted_of_enumeration_error Y h fs limit err herr
  · intro h fs limit habsent
    obtain ⟨err, herr⟩ :=
      GetSortedTemplates_absent_root { RecordStorePath := h.RecordStorePath } fs habsent
    exact GetAllTemplatesSorted_of_enumeration_error h fs limit err herr

/-- C14, the code at the failing inputs: with `templates/` present but
unreadable, the enumeration fails with `ErrorFailedToReadDirectory` and
`GetAllTemplatesSorted` still returns the empty collection and a nil error;
likewise when an entry of `templates/` cannot be stat-ed
(`ErrorFailedToStatPath`), and for `GetAllRequestsSorted` when a template
sub-directory of `requests/` is unreadable. In general, whatever error the
enumeration returns, both listings return the empty collection and nil for
every limit below 2^63. -/
theorem listings_swallow_enumeration_errors :
    (unreadableTemplatesDisk.find ["store", "templates"]).isSome = true
    ∧ failsWith (RecordStore.GetSortedTemplates { RecordStorePath := ["store"] }
        unreadableTemplatesDisk) .ErrorFailedToReadDirectory = true
    ∧ (exampleHistory.GetAllTemplatesSorted unreadableTemplatesDisk 0).value? = some []
    ∧ failsWith (RecordStore.GetSortedTemplates { RecordStorePath := ["store"] }
        unsearchableTemplatesDisk) .ErrorFailedToStatPath = true
    ∧ (exampleHistory.GetAllTemplatesSorted unsearchableTemplatesDisk 0).value? = some []
    ∧ (unreadableRequestSubdirDisk.find ["store", "requests"]).isSome = true
    ∧ failsWith (RecordStore.GetSortedRequests { RecordStorePath := ["store"] }
        unreadableRequestSubdirDisk) .ErrorFailedToReadDirectory = true
    ∧ (exampleHistory.GetAllRequestsSorted plainYaml unreadableRequestSubdirDisk 0).value?
        = some []
    ∧ (∀ (Y : YamlLib) (h : HistoryStore) (fs : Node) (limit : Nat) (err : GoError),
        limit < 9223372036854775808 →
        (RecordStore.GetSortedTemplates { RecordStorePath := h.RecordStorePath } fs
            = .error err → h.GetAllTemplatesSorted fs limit = .ok [])
        ∧ (RecordStore.GetSortedRequests { RecordStorePath := h.RecordStorePath } fs
            = .error err → h.GetAllRequestsSorted Y fs limit = .ok [])) := by
  refine ⟨by decide, by decide, by decide, by decide, by decide, by decide, by decide,
    by decide, ?_⟩
  intro Y h fs limit err hl
  exact ⟨fun herr => (GetAllTemplatesSorted_of_enumeration_error h fs limit err herr).1 hl,
    fun herr => (GetAllRequestsSorted_of_enumeration_error Y h fs limit err herr).1 hl⟩

/-! ## Looking up a template by its hash (C15) -/

theorem resolve_append (p : Path) : ∀ (fs : Node) (q : Path) (n : Node),
    resolve fs (p ++ q) = .ok n → ∃ m, resolve fs p = .ok m ∧ resolve m q = .ok n := by
  induction p with
  | nil => intro fs q n h; exact ⟨fs, by simp [resolve], by simpa using h⟩
  | cons k rest ih =>
    intro fs q n h
    cases fs with
    | file pm t c => simp [resolve] at h
    | dir pm es =>
      simp only [List.cons_append, resolve] at h ⊢
      by_cases hx : pm.x = true
      · simp only [hx, if_true] at h ⊢
        cases hl : lookupEntry k es with
        | none => simp [hl] at h
        | some c =>
          simp only [hl] at h ⊢
          exact ih c q n h
      · simp [hx] at h

theorem resolve_parent_isDir (fs : Node) (p : Path) (k : String) (n : Node)
    (h : resolve fs (p ++ [k]) = .ok n) :
    ∃ perm es, resolve fs p = .ok (.dir perm es) := by
  obtain ⟨m, hm, hk⟩ := resolve_append p fs [k] n h
  cases m with
  | file pm t c => simp [resolve] at hk
  | dir pm es => exact ⟨pm, es, hm⟩

/-- C15: the four outcomes of `GetTemplateByHash`. When `templates/` cannot be
stat-ed the error `errors.Is` `ErrorFailedToStatPath`; when it is there but is
not a directory the error is `ErrorPathIsNotDirectory`; when it is a directory
and `templates/<h>.yaml` is absent the error is `ErrorFailedToGetTemplate` and
is not `ErrorFailedToStatPath`; and when `templates/<h>.yaml` is a regular
file that can be reached and read, the call returns nil and `TemplateYaml` is
exactly the content of that file. -/
theorem GetTemplateByHash_outcomes (r : RecordStore) (fs : Node) :
    (∀ e, Stat fs (r.RecordStorePath ++ ["templates"]) = .error e →
      ∃ err, (r.GetTemplateByHash fs).1 = some err ∧ err.Is .ErrorFailedToStatPath = true)
    ∧ (∀ info, Stat fs (r.RecordStorePath ++ ["templates"]) = .ok info → info.IsDir = false →
      ∃ err, (r.GetTemplateByHash fs).1 = some err ∧ err.Is .ErrorPathIsNotDirectory = true)
    ∧ (∀ info, Stat fs (r.RecordStorePath ++ ["templates"]) = .ok info → info.IsDir = true →
      fs.find (r.RecordStorePath ++ ["templates"] ++ [r.TemplateHash ++ ".yaml"]) = none →
      ∃ err, (r.GetTemplateByHash fs).1 = some err
        ∧ err.Is .ErrorFailedToGetTemplate = true ∧ err.Is .ErrorFailedToStatPath = false)
    ∧ (∀ perm t content,
      resolve fs (r.RecordStorePath ++ ["templates"] ++ [r.TemplateHash ++ ".yaml"])
        = .ok (.file perm t content) → perm.r = true →
      (r.GetTemplateByHash fs).1 = none
        ∧ (r.GetTemplateByHash fs).2 = { r with TemplateYaml := content }) := by
  refine ⟨?_, ?_, ?_, ?_⟩
  · intro e he
    refine ⟨.wrapf (.sentinel .ErrorFailedToStatPath) (some (.pathError e)), ?_, ?_⟩
    · simp [RecordStore.GetTemplateByHash, he]
    · simp [GoError.Is]
  · intro info hinfo hdir
    refine ⟨.wrapf (.sentinel .ErrorPathIsNotDirectory) none, ?_, ?_⟩
    · simp [RecordStore.GetTemplateByHash, hinfo, hdir]
    · simp [GoError.Is]
  · intro info hinfo hdir habsent
    obtain ⟨e, he⟩ := Stat_error_of_find_none fs _ habsent
    simp only [List.append_assoc, List.cons_append, List.nil_append] at he
    refine ⟨.wrapf (.sentinel .ErrorFailedToGetTemplate) none, ?_, ?_, ?_⟩
    · simp [RecordStore.GetTemplateByHash, hinfo, hdir, he]
    · simp [GoError.Is]
    · simp [GoError.Is]
  · intro perm t content hres hr
    obtain ⟨dperm, des, hparent⟩ := resolve_parent_isDir fs _ _ _ hres
    simp only [List.append_assoc, List.cons_append, List.nil_append] at hres
    simp [RecordStore.GetTemplateByHash, Stat, hparent, Node.info, hres, ReadFile, osReadFile, hr]

set_option maxRecDepth 1000000 in
theorem GetTemplateByHash_outcomes_witness :
    ((RecordStore.GetTemplateByHash { RecordStorePath := ["store"], TemplateHash := "abc" }
        freshStoreDisk).1.map (fun e => e.Is .ErrorFailedToStatPath)) = some true
    ∧ ((RecordStore.GetTemplateByHash { RecordStorePath := ["store"], TemplateHash := "abc" }
        templatesIsFileDisk).1.map (fun e => e.Is .ErrorPathIsNotDirectory)) = some true
    ∧ ((RecordStore.GetTemplateByHash
          { RecordStorePath := ["store"], TemplateHash := "doesnotexist" }
        initialisedStoreDisk).1.map
          (fun e => (e.Is .ErrorFailedToGetTemplate, e.Is .ErrorFailedToStatPath)))
        = some (true, false)
    ∧ ((RecordStore.GetTemplateByHash
          { RecordStorePath := ["store"], TemplateHash := exampleRun.2.1.TemplateHash }
        exampleRun.2.2.fs).1.isNone = true
      ∧ (RecordStore.GetTemplateByHash
          { RecordStorePath := ["store"], TemplateHash := exampleRun.2.1.TemplateHash }
        exampleRun.2.2.fs).2.TemplateYaml = asciiBytes "key: value") := by
  refine ⟨?_, ?_, ?_, ?_⟩
  · obtain ⟨err, h1, h2⟩ := (GetTemplateByHash_outcomes
      { RecordStorePath := ["store"], TemplateHash := "abc" } freshStoreDisk).1
      .ENOENT (by rfl)
    rw [h1]; simp [h2]
  · obtain ⟨err, h1, h2⟩ := (GetTemplateByHash_outcomes
      { RecordStorePath := ["store"], TemplateHash := "abc" } templatesIsFileDisk).2.1
      ⟨false, 100⟩ (by rfl) rfl
    rw [h1]; simp [h2]
  · obtain ⟨err, h1, h2, h3⟩ := (GetTemplateByHash_outcomes
      { RecordStorePath := ["store"], TemplateHash := "doesnotexist" }
      initialisedStoreDisk).2.2.1 ⟨true, 0⟩ (by rfl) rfl (by rfl)
    rw [h1]; simp [h2, h3]
  · have h := (GetTemplateByHash_outcomes
      { RecordStorePath := ["store"], TemplateHash := exampleRun.2.1.TemplateHash }
      exampleRun.2.2.fs).2.2.2 filePerm 100 (asciiBytes "key: value") (by rfl) rfl
    rw [h.1, h.2]
    exact ⟨rfl, rfl⟩

/-! ## Looking up a request or a response across sub-directories (C16, C17) -/

theorem ReadDir_ok_Stat (fs : Node) (p : Path) (items : List DirEntry)
    (h : ReadDir fs p = .ok items) : Stat fs p = .ok ⟨true, 0⟩ := by
  unfold ReadDir at h
  unfold Stat
  split at h
  · rename_i perm es hr
    simp [hr, Node.info]
  · simp at h
  · simp at h

theorem osReadFile_ok_Stat (fs : Node) (p : Path) (content : Bytes)
    (h : osReadFile fs p = .ok content) : ∃ info, Stat fs p = .ok info := by
  unfold osReadFile at h
  unfold Stat
  split at h
  · rename_i perm t c hr
    exact ⟨(Node.file perm t c).info, by simp [hr]⟩
  · simp at h
  · simp at h

theorem findRequestByHash_first (Y : YamlLib) (fs : Node) (root : Path) (r : RecordStore)
    (T : String) (post : List DirEntry) (content : Bytes) (req : RequestObject)
    (hread : osReadFile fs (filepath.Join root [T, r.RequestHash ++ ".yaml"]) = .ok content)
    (hparse : Y.unmarshalRequest content = .ok req) :
    ∀ pre : List DirEntry,
      (∀ d ∈ pre, d.IsDir = true →
        ∃ e, Stat fs (filepath.Join root [d.Name, r.RequestHash ++ ".yaml"]) = .error e) →
      ∃ yaml, findRequestByHash Y fs root r (pre ++ ⟨T, true⟩ :: post)
          = (none, { r with Request := some req, TemplateHash := req.TemplateHash,
                            RequestYaml := yaml })
        ∧ (∀ b, ConvertToYAML Y.marshalRequest req = .ok b → yaml = b)
        ∧ (∀ e, ConvertToYAML Y.marshalRequest req = .error e → yaml = []) := by
  intro pre
  induction pre with
  | nil =>
    intro _
    obtain ⟨info, hinfo⟩ := osReadFile_ok_Stat fs _ content hread
    simp only [List.nil_append, findRequestByHash, if_true, hinfo, ReadYAMLFile, hread, hparse]
    refine ⟨_, rfl, ?_, ?_⟩
    · intro b hb; simp only [hb]
    · intro e he; simp only [he]
  | cons d pre ih =>
    intro hpre
    have ih2 := ih (fun d2 hd2 => hpre d2 (List.mem_cons_of_mem _ hd2))
    simp only [List.cons_append, findRequestByHash]
    by_cases hd : d.IsDir = true
    · obtain ⟨e, he⟩ := hpre d (List.mem_cons_self _ _) hd
      simp only [hd, if_true, he]
      exact ih2
    · simp only [hd]
      exact ih2

theorem findResponseByID_first (Y : YamlLib) (fs : Node) (root : Path) (r : RecordStore)
    (T : String) (post : List DirEntry) (content : Bytes) (res : ResponseObject)
    (hread : osReadFile fs (filepath.Join root [T, r.ResponseID ++ ".yaml"]) = .ok content)
    (hparse : Y.unmarshalResponse content = .ok res) :
    ∀ pre : List DirEntry,
      (∀ d ∈ pre, d.IsDir = true →
        ∃ e, Stat fs (filepath.Join root [d.Name, r.ResponseID ++ ".yaml"]) = .error e) →
      ∃ yaml, findResponseByID Y fs root r (pre ++ ⟨T, true⟩ :: post)
          = (none, { r with Response := some res, RequestHash := res.RequestHash,
                            TemplateHash := res.TemplateHash, ResponseYaml := yaml })
        ∧ (∀ b, ConvertToYAML Y.marshalResponse res = .ok b → yaml = b)
        ∧ (∀ e, ConvertToYAML Y.marshalResponse res = .error e → yaml = []) := by
  intro pre
  induction pre with
  | nil =>
    intro _
    obtain ⟨info, hinfo⟩ := osReadFile_ok_Stat fs _ content hread
    simp only [List.nil_append, findResponseByID, if_true, hinfo, ReadYAMLFile, hread, hparse]
    refine ⟨_, rfl, ?_, ?_⟩
    · intro b hb; simp only [hb]
    · intro e he; simp only [he]
  | cons d pre ih =>
    intro hpre
    have ih2 := ih (fun d2 hd2 => hpre d2 (List.mem_cons_of_mem _ hd2))
    simp only [List.cons_append, findResponseByID]
    by_cases hd : d.IsDir = true
    · obtain ⟨e, he⟩ := hpre d (List.mem_cons_self _ _) hd
      simp only [hd, if_true, he]
      exact ih2
    · simp only [hd]
      exact ih2

theorem findRequestByHash_none (Y : YamlLib) (fs : Node) (root : Path) (r : RecordStore) :
    ∀ items : List DirEntry,
      (∀ d ∈ items, d.IsDir = true →
        ∃ e, Stat fs (filepath.Join root [d.Name, r.RequestHash ++ ".yaml"]) = .error e) →
      findRequestByHash Y fs root r items
        = (some (.wrapf (.sentinel .ErrorFailedToGetRequest) none), r) := by
  intro items
  induction items with
  | nil => intro _; simp [findRequestByHash]
  | cons d rest ih =>
    intro hall
    have ih2 := ih (fun d2 hd2 => hall d2 (List.mem_cons_of_mem _ hd2))
    simp only [findRequestByHash]
    by_cases hd : d.IsDir = true
    · obtain ⟨e, he⟩ := hall d (List.mem_cons_self _ _) hd
      simp only [hd, if_true, he]
      exact ih2
    · simp only [hd]
      exact ih2

theorem findResponseByID_none (Y : YamlLib) (fs : Node) (root : Path) (r : RecordStore) :
    ∀ items : List DirEntry,
      (∀ d ∈ items, d.IsDir = true →
        ∃ e, Stat fs (filepath.Join root [d.Name, r.ResponseID ++ ".yaml"]) = .error e) →
      findResponseByID Y fs root r items
        = (some (.wrapf (.sentinel .ErrorFailedToGetResponse) none), r) := by
  intro items
  induction items with
  | nil => intro _; simp [findResponseByID]
  | cons d rest ih =>
    intro hall
    have ih2 := ih (fun d2 hd2 => hall d2 (List.mem_cons_of_mem _ hd2))
    simp only [findResponseByID]
    by_cases hd : d.IsDir = true
    · obtain ⟨e, he⟩ := hall d (List.mem_cons_self _ _) hd
      simp only [hd, if_true, he]
      exact ih2
    · simp only [hd]
      exact ih2

theorem GetRequestByHash_of_ReadDir (Y : YamlLib) (r : RecordStore) (fs : Node)
    (items : List DirEntry) (h : ReadDir fs (r.RecordStorePath ++ ["requests"]) = .ok items) :
    r.GetRequestByHash Y fs = findRequestByHash Y fs (r.RecordStorePath ++ ["requests"]) r items := by
  simp [RecordStore.GetRequestByHash, ReadDir_ok_Stat fs _ items h, h]

theorem GetResponseByID_of_ReadDir (Y : YamlLib) (r : RecordStore) (fs : Node)
    (items : List DirEntry) (h : ReadDir fs (r.RecordStorePath ++ ["responses"]) = .ok items) :
    r.GetResponseByID Y fs
      = findResponseByID Y fs (r.RecordStorePath ++ ["responses"]) r items := by
  simp [RecordStore.GetResponseByID, ReadDir_ok_Stat fs _ items h, h]

/-- C16, the counterexample: `requests/` is a readable directory and the
template sub-directory `bbb` holds a readable, well-formed `h1.yaml`, yet
`GetRequestByHash` with `RequestHash = h1` returns an error and leaves
`Request` nil, because the sub-directory `aaa`, listed first, holds an
`h1.yaml` that is not a YAML document. The same happens to `GetResponseByID`
with `id1.yaml` under `responses/`. -/
theorem lookup_stops_at_first_holder :
    (ReadDir shadowedLookupDisk ["store", "requests"]).toOption.isSome = true
    ∧ (ReadYAMLFile plainYaml.unmarshalRequest shadowedLookupDisk
        ["store", "requests", "bbb", "h1.yaml"]).toOption = some lookedUpRequest
    ∧ ((RecordStore.GetRequestByHash plainYaml
          { RecordStorePath := ["store"], RequestHash := "h1" } shadowedLookupDisk).1.map
        (fun e => e.Is .ErrorFailedToGetRequest)) = some true
    ∧ (RecordStore.GetRequestByHash plainYaml
          { RecordStorePath := ["store"], RequestHash := "h1" } shadowedLookupDisk).2.Request
        = none
    ∧ (ReadDir shadowedLookupDisk ["store", "responses"]).toOption.isSome = true
    ∧ (ReadYAMLFile plainYaml.unmarshalResponse shadowedLookupDisk
        ["store", "responses", "h1", "id1.yaml"]).toOption = some lookedUpResponse
    ∧ ((RecordStore.GetResponseByID plainYaml
          { RecordStorePath := ["store"], ResponseID := "id1" } shadowedLookupDisk).1.map
        (fun e => e.Is .ErrorFailedToGetResponse)) = some true
    ∧ (RecordStore.GetResponseByID plainYaml
          { RecordStorePath := ["store"], ResponseID := "id1" } shadowedLookupDisk).2.Response
        = none := by
  refine ⟨by decide, by decide, by decide, by decide, by decide, by decide, by decide, by decide⟩

/-- C16, amended: when `requests/` is a readable directory whose listing has
the sub-directory `T`, `T` holds a readable, well-formed `<h>.yaml`, and no
sub-directory listed before `T` holds an `<h>.yaml` that can be stat-ed (the
file of a sub-directory being the one at `filepath.Join` of `requests/`, the
sub-directory and `<h>.yaml`), then
`GetRequestByHash` with `RequestHash = h` returns nil, sets `Request` to the
deserialized file and `TemplateHash` to its `template_hash`, and keeps
`RequestHash`; symmetrically `GetResponseByID` returns nil and sets
`Response`, `RequestHash` and `TemplateHash` from the content of the file,
whichever sub-directory `T` is. -/
theorem lookup_finds_first_holder (Y : YamlLib) (r : RecordStore) (fs : Node)
    (pre post : List DirEntry) (T : String) (content : Bytes) :
    (∀ req : RequestObject,
      ReadDir fs (r.RecordStorePath ++ ["requests"]) = .ok (pre ++ ⟨T, true⟩ :: post) →
      (∀ d ∈ pre, d.IsDir = true → ∃ e,
        Stat fs (filepath.Join (r.RecordStorePath ++ ["requests"])
            [d.Name, r.RequestHash ++ ".yaml"])
          = .error e) →
      osReadFile fs (filepath.Join (r.RecordStorePath ++ ["requests"])
          [T, r.RequestHash ++ ".yaml"])
        = .ok content →
      Y.unmarshalRequest content = .ok req →
      (r.GetRequestByHash Y fs).1 = none
        ∧ (r.GetRequestByHash Y fs).2.Request = some req
        ∧ (r.GetRequestByHash Y fs).2.TemplateHash = req.TemplateHash
        ∧ (r.GetRequestByHash Y fs).2.RequestHash = r.RequestHash)
    ∧ (∀ res : ResponseObject,
      ReadDir fs (r.RecordStorePath ++ ["responses"]) = .ok (pre ++ ⟨T, true⟩ :: post) →
      (∀ d ∈ pre, d.IsDir = true → ∃ e,
        Stat fs (filepath.Join (r.RecordStorePath ++ ["responses"])
            [d.Name, r.ResponseID ++ ".yaml"])
          = .error e) →
      osReadFile fs (filepath.Join (r.RecordStorePath ++ ["responses"])
          [T, r.ResponseID ++ ".yaml"])
        = .ok content →
      Y.unmarshalResponse content = .ok res →
      (r.GetResponseByID Y fs).1 = none
        ∧ (r.GetResponseByID Y fs).2.Response = some res
        ∧ (r.GetResponseByID Y fs).2.RequestHash = res.RequestHash
        ∧ (r.GetResponseByID Y fs).2.TemplateHash = res.TemplateHash
        ∧ (r.GetResponseByID Y fs).2.ResponseID = r.ResponseID) := by
  constructor
  · intro req hdir hpre hread hparse
    obtain ⟨yaml, hrun, -, -⟩ :=
      findRequestByHash_first Y fs _ r T post content req hread hparse pre hpre
    rw [GetRequestByHash_of_ReadDir Y r fs _ hdir, hrun]
    exact ⟨rfl, rfl, rfl, rfl⟩
  · intro res hdir hpre hread hparse
    obtain ⟨yaml, hrun, -, -⟩ :=
      findResponseByID_first Y fs _ r T post content res hread hparse pre hpre
    rw [GetResponseByID_of_ReadDir Y r fs _ hdir, hrun]
    exact ⟨rfl, rfl, rfl, rfl, rfl⟩

theorem lookup_finds_first_holder_witness :
    ((RecordStore.GetRequestByHash plainYaml
          { RecordStorePath := ["store"], RequestHash := "h1", ResponseID := "id1" }
          lastSubdirLookupDisk).1 = none
      ∧ (RecordStore.GetRequestByHash plainYaml
          { RecordStorePath := ["store"], RequestHash := "h1", ResponseID := "id1" }
          lastSubdirLookupDisk).2.Request = some lookedUpRequest
      ∧ (RecordStore.GetRequestByHash plainYaml
          { RecordStorePath := ["store"], RequestHash := "h1", ResponseID := "id1" }
          lastSubdirLookupDisk).2.TemplateHash = lookedUpRequest.TemplateHash
      ∧ (RecordStore.GetRequestByHash plainYaml
          { RecordStorePath := ["store"], RequestHash := "h1", ResponseID := "id1" }
          lastSubdirLookupDisk).2.RequestHash = "h1")
    ∧ ((RecordStore.GetResponseByID plainYaml
          { RecordStorePath := ["store"], RequestHash := "h1", ResponseID := "id1" }
          lastSubdirLookupDisk).1 = none
      ∧ (RecordStore.GetResponseByID plainYaml
          { RecordStorePath := ["store"], RequestHash := "h1", ResponseID := "id1" }
          lastSubdirLookupDisk).2.Response = some lookedUpResponse
      ∧ (RecordStore.GetResponseByID plainYaml
          { RecordStorePath := ["store"], RequestHash := "h1", ResponseID := "id1" }
          lastSubdirLookupDisk).2.RequestHash = lookedUpResponse.RequestHash
      ∧ (RecordStore.GetResponseByID plainYaml
          { RecordStorePath := ["store"], RequestHash := "h1", ResponseID := "id1" }
          lastSubdirLookupDisk).2.TemplateHash = lookedUpResponse.TemplateHash
      ∧ (RecordStore.GetResponseByID plainYaml
          { RecordStorePath := ["store"], RequestHash := "h1", ResponseID := "id1" }
          lastSubdirLookupDisk).2.ResponseID = "id1") :=
  ⟨(lookup_finds_first_holder plainYaml
      { RecordStorePath := ["store"], RequestHash := "h1", ResponseID := "id1" }
      lastSubdirLookupDisk [⟨"aaa", true⟩] [] "bbb"
      (asciiBytes "template_hash: bbb\nurl: https://example1.com\nmethod: GET\n")).1
      lookedUpRequest (by rfl)
      (by intro d hd _; rw [List.mem_singleton.mp hd]; exact ⟨.ENOENT, by rfl⟩)
      (by rfl) (by rfl),
   (lookup_finds_first_holder plainYaml
      { RecordStorePath := ["store"], RequestHash := "h1", ResponseID := "id1" }
      lastSubdirLookupDisk [⟨"h0", true⟩] [] "h1"
      (asciiBytes "request_hash: h1\ntemplate_hash: bbb\nstatus_code: 200\nbody: \n")).2
      lookedUpResponse (by rfl)
      (by intro d hd _; rw [List.mem_singleton.mp hd]; exact ⟨.ENOENT, by rfl⟩)
      (by rfl) (by rfl)⟩

theorem splitSlash_of_no_slash : ∀ l : List Char, '/' ∉ l → splitSlash l = [l] := by
  intro l
  induction l with
  | nil => intro _; rfl
  | cons c cs ih =>
    intro h
    have hc : c ≠ '/' := fun e => h (by rw [e]; exact List.mem_cons_self _ _)
    have hcs : '/' ∉ cs := fun hm => h (List.mem_cons_of_mem _ hm)
    simp [splitSlash, ih hcs, hc]

theorem splitSlash_plain (s : String) (h : PlainName s) :
    (splitSlash s.data).map String.mk = [s] := by
  rw [splitSlash_of_no_slash s.data h.2.2.2]
  rfl

theorem cleanRev_plain (acc : List String) (s : String) (h : PlainName s) (rest : List String) :
    cleanRev acc (s :: rest) = cleanRev (s :: acc) rest := by
  obtain ⟨h1, h2, h3, _⟩ := h
  simp [cleanRev, h1, h2, h3]

/-- On plain names `filepath.Join` appends the components. -/
theorem filepath_Join_plain (dir : Path) (a b : String) (ha : PlainName a) (hb : PlainName b) :
    filepath.Join dir [a, b] = dir ++ [a, b] := by
  unfold filepath.Join
  simp only [List.flatMap_cons, List.flatMap_nil, List.append_nil, splitSlash_plain a ha,
    splitSlash_plain b hb, List.singleton_append]
  rw [cleanRev_plain _ a ha, cleanRev_plain _ b hb]
  simp [cleanRev]

/-- The file name of a hash without a slash is a plain name. -/
theorem plainName_yaml (h : String) (hs : '/' ∉ h.data) : PlainName (h ++ ".yaml") := by
  have hlen : 5 ≤ (h ++ ".yaml").data.length := by
    rw [String.data_append, List.length_append]
    show 5 ≤ h.data.length + 5
    omega
  refine ⟨?_, ?_, ?_, ?_⟩
  · intro e; rw [e] at hlen; simp at hlen
  · intro e; rw [e] at hlen; revert hlen; decide
  · intro e; rw [e] at hlen; revert hlen; decide
  · rw [String.data_append]
    intro hm
    rcases List.mem_append.mp hm with hm | hm
    · exact hs hm
    · revert hm; decide

set_option maxRecDepth 1000000 in
/-- C17, the code at the failing input: in the store of `traversalDisk`
`requests/` is a readable directory and no sub-directory of it contains a
file for the hash `../../templates/tpl`, yet `GetRequestByHash` with that
`RequestHash` returns nil and sets `Request` to the content of
`templates/tpl.yaml`: `filepath.Join` cleans the joined path, and
`requests/aaa/../../templates/tpl.yaml` is `templates/tpl.yaml`. In the same
way `GetResponseByID` with the `ResponseID` `../h1/id1` returns nil with the
response of `responses/h1/id1.yaml`, reached from the sub-directory `h0`. The
claim holds when no joined path can be stat-ed, in particular for names
without a slash: then the lookup returns an error that `errors.Is`
`ErrorFailedToGetRequest` (`ErrorFailedToGetResponse`) and none of
`ErrorFailedToStatPath`, `ErrorPathIsNotDirectory`,
`ErrorFailedToReadDirectory`, and leaves the `RecordStore` as it was. -/
theorem lookup_escapes_sub_directories :
    ((ReadDir traversalDisk ["store", "requests"]).toOption.isSome = true
      ∧ (∀ T : String,
          traversalDisk.find (["store", "requests"] ++ [T] ++ ["../../templates/tpl" ++ ".yaml"])
            = none)
      ∧ (RecordStore.GetRequestByHash plainYaml
          { RecordStorePath := ["store"], RequestHash := "../../templates/tpl" }
          traversalDisk).1.isNone = true
      ∧ (RecordStore.GetRequestByHash plainYaml
          { RecordStorePath := ["store"], RequestHash := "../../templates/tpl" }
          traversalDisk).2.Request = some templateReadAsRequest
      ∧ filepath.Join ["store", "requests"] ["aaa", "../../templates/tpl" ++ ".yaml"]
          = ["store", "templates", "tpl.yaml"])
    ∧ ((ReadDir traversalDisk ["store", "responses"]).toOption.isSome = true
      ∧ (∀ T : String,
          traversalDisk.find (["store", "responses"] ++ [T] ++ ["../h1/id1" ++ ".yaml"]) = none)
      ∧ (RecordStore.GetResponseByID plainYaml
          { RecordStorePath := ["store"], ResponseID := "../h1/id1" }
          traversalDisk).1.isNone = true
      ∧ (RecordStore.GetResponseByID plainYaml
          { RecordStorePath := ["store"], ResponseID := "../h1/id1" }
          traversalDisk).2.Response = some lookedUpResponse
      ∧ filepath.Join ["store", "responses"] ["h0", "../h1/id1" ++ ".yaml"]
          = ["store", "responses", "h1", "id1.yaml"])
    ∧ (∀ (Y : YamlLib) (r : RecordStore) (fs : Node) (items : List DirEntry),
        (ReadDir fs (r.RecordStorePath ++ ["requests"]) = .ok items →
          (∀ d ∈ items, d.IsDir = true → ∃ e,
            Stat fs (filepath.Join (r.RecordStorePath ++ ["requests"])
                [d.Name, r.RequestHash ++ ".yaml"]) = .error e) →
          ∃ err, r.GetRequestByHash Y fs = (some err, r)
            ∧ err.Is .ErrorFailedToGetRequest = true
            ∧ err.Is .ErrorFailedToStatPath = false
            ∧ err.Is .ErrorPathIsNotDirectory = false
            ∧ err.Is .ErrorFailedToReadDirectory = false)
        ∧ (ReadDir fs (r.RecordStorePath ++ ["responses"]) = .ok items →
          (∀ d ∈ items, d.IsDir = true → ∃ e,
            Stat fs (filepath.Join (r.RecordStorePath ++ ["responses"])
                [d.Name, r.ResponseID ++ ".yaml"]) = .error e) →
          ∃ err, r.GetResponseByID Y fs = (some err, r)
            ∧ err.Is .ErrorFailedToGetResponse = true
            ∧ err.Is .ErrorFailedToStatPath = false
            ∧ err.Is .ErrorPathIsNotDirectory = false
            ∧ err.Is .ErrorFailedToReadDirectory = false))
    ∧ (∀ (Y : YamlLib) (r : RecordStore) (fs : Node) (items : List DirEntry),
        (∀ d ∈ items, PlainName d.Name) →
        (ReadDir fs (r.RecordStorePath ++ ["requests"]) = .ok items →
          '/' ∉ r.RequestHash.data →
          (∀ T : String,
            fs.find (r.RecordStorePath ++ ["requests"] ++ [T] ++ [r.RequestHash ++ ".yaml"])
              = none) →
          ∃ err, r.GetRequestByHash Y fs = (some err, r)
            ∧ err.Is .ErrorFailedToGetRequest = true
            ∧ err.Is .ErrorFailedToStatPath = false
            ∧ err.Is .ErrorPathIsNotDirectory = false
            ∧ err.Is .ErrorFailedToReadDirectory = false)
        ∧ (ReadDir fs (r.RecordStorePath ++ ["responses"]) = .ok items →
          '/' ∉ r.ResponseID.data →
          (∀ T : String,
            fs.find (r.RecordStorePath ++ ["responses"] ++ [T] ++ [r.ResponseID ++ ".yaml"])
              = none) →
          ∃ err, r.GetResponseByID Y fs = (some err, r)
            ∧ err.Is .ErrorFailedToGetResponse = true
            ∧ err.Is .ErrorFailedToStatPath = false
            ∧ err.Is .ErrorPathIsNotDirectory = false
            ∧ err.Is .ErrorFailedToReadDirectory = false)) := by
  have hgen : ∀ (Y : YamlLib) (r : RecordStore) (fs : Node) (items : List DirEntry),
      (ReadDir fs (r.RecordStorePath ++ ["requests"]) = .ok items →
        (∀ d ∈ items, d.IsDir = true → ∃ e,
          Stat fs (filepath.Join (r.RecordStorePath ++ ["requests"])
              [d.Name, r.RequestHash ++ ".yaml"]) = .error e) →
        ∃ err, r.GetRequestByHash Y fs = (some err, r)
          ∧ err.Is .ErrorFailedToGetRequest = true
          ∧ err.Is .ErrorFailedToStatPath = false
          ∧ err.Is .ErrorPathIsNotDirectory = false
          ∧ err.Is .ErrorFailedToReadDirectory = false)
      ∧ (ReadDir fs (r.RecordStorePath ++ ["responses"]) = .ok items →
        (∀ d ∈ items, d.IsDir = true → ∃ e,
          Stat fs (filepath.Join (r.RecordStorePath ++ ["responses"])
              [d.Name, r.ResponseID ++ ".yaml"]) = .error e) →
        ∃ err, r.GetResponseByID Y fs = (some err, r)
          ∧ err.Is .ErrorFailedToGetResponse = true
          ∧ err.Is .ErrorFailedToStatPath = false
          ∧ err.Is .ErrorPathIsNotDirectory = false
          ∧ err.Is .ErrorFailedToReadDirectory = false) := by
    intro Y r fs items
    constructor
    · intro hdir habsent
      refine ⟨.wrapf (.sentinel .ErrorFailedToGetRequest) none, ?_, ?_, ?_, ?_, ?_⟩
      · rw [GetRequestByHash_of_ReadDir Y r fs _ hdir]
        exact findRequestByHash_none Y fs _ r items habsent
      all_goals simp [GoError.Is]
    · intro hdir habsent
      refine ⟨.wrapf (.sentinel .ErrorFailedToGetResponse) none, ?_, ?_, ?_, ?_, ?_⟩
      · rw [GetResponseByID_of_ReadDir Y r fs _ hdir]
        exact findResponseByID_none Y fs _ r items habsent
      all_goals simp [GoError.Is]
  refine ⟨⟨by decide, ?_, by decide, by decide, by decide⟩,
    ⟨by decide, ?_, by decide, by decide, by decide⟩, hgen, ?_⟩
  · intro T
    by_cases h1 : "aaa" = T
    · subst h1; rfl
    · simp [traversalDisk, Node.find, lookupEntry, h1]
  · intro T
    by_cases h1 : "h0" = T
    · subst h1; rfl
    · by_cases h2 : "h1" = T
      · subst h2; rfl
      · simp [traversalDisk, Node.find, lookupEntry, h1, h2]
  · intro Y r fs items hplain
    constructor
    · intro hdir hs habsent
      refine (hgen Y r fs items).1 hdir ?_
      intro d hd _
      rw [filepath_Join_plain _ _ _ (hplain d hd) (plainName_yaml _ hs)]
      have := Stat_error_of_find_none fs _ (habsent d.Name)
      simpa only [List.append_assoc, List.cons_append, List.nil_append] using this
    · intro hdir hs habsent
      refine (hgen Y r fs items).2 hdir ?_
      intro d hd _
      rw [filepath_Join_plain _ _ _ (hplain d hd) (plainName_yaml _ hs)]
      have := Stat_error_of_find_none fs _ (habsent d.Name)
      simpa only [List.append_assoc, List.cons_append, List.nil_append] using this

/-! ## Reading a recorded response back -/

theorem resolve_dir_cons (perm : Perm) (es : Entries) (k : String) (q : Path) :
    resolve (.dir perm es) (k :: q) =
      if perm.x then
        match lookupEntry k es with
        | some c => resolve c q
        | none => .error .ENOENT
      else .error .EACCES := by
  cases h : lookupEntry k es <;> simp [resolve, h]

theorem resolve_file_cons (perm : Perm) (t : Nat) (c : Bytes) (k : String) (q : Path) :
    resolve (.file perm t c) (k :: q) = .error .ENOTDIR := by
  simp [resolve]

theorem resolve_append_of_ok (p q : Path) : ∀ (fs m : Node), resolve fs p = .ok m →
    resolve fs (p ++ q) = resolve m q := by
  induction p with
  | nil => intro fs m h; simp only [resolve, Except.ok.injEq] at h; simp [h]
  | cons k rest ih =>
    intro fs m h
    cases fs with
    | file pm t c => simp [resolve] at h
    | dir pm es =>
      rw [List.cons_append, resolve_dir_cons]
      rw [resolve_dir_cons] at h
      by_cases hx : pm.x = true
      · simp only [hx, if_true] at h ⊢
        cases hl : lookupEntry k es with
        | none => simp [hl] at h
        | some c =>
          simp only [hl] at h ⊢
          exact ih c m h
      · simp [hx] at h

theorem updateDir_resolve_keep (name : String) (f : Perm → Entries → Except Errno Entries)
    (hloc : LocalTo name f) (hbefore : NoDirBefore name f) (parent : Path) :
    ∀ (fs fs' : Node), updateDir f fs parent = .ok fs' →
    ∀ (q : Path) (perm : Perm) (t : Nat) (c : Bytes), q ≠ parent ++ [name] →
      resolve fs q = .ok (.file perm t c) → resolve fs' q = .ok (.file perm t c) := by
  induction parent with
  | nil =>
    intro fs fs' h q perm t c hq hres
    cases fs with
    | file p t0 c0 => simp [updateDir] at h
    | dir p es =>
      simp only [updateDir] at h
      cases hf : f p es with
      | error e => simp [hf] at h
      | ok es' =>
        simp [hf] at h
        subst h
        cases q with
        | nil => simp [resolve] at hres
        | cons k q' =>
          rw [resolve_dir_cons] at hres ⊢
          by_cases hx : p.x = true
          · simp only [hx, if_true] at hres ⊢
            by_cases hk : k = name
            · subst hk
              have hq' : q' ≠ [] := by
                intro h0; subst h0; simp at hq
              cases hl : lookupEntry k es with
              | none => simp [hl] at hres
              | some c' =>
                simp only [hl] at hres
                cases c' with
                | file p1 t1 c1 =>
                  cases q' with
                  | nil => exact absurd rfl hq'
                  | cons a b => simp [resolve] at hres
                | dir pd ents => exact absurd hl (hbefore p es es' hf pd ents)
            · rw [hloc p es es' hf k hk]; exact hres
          · simp [hx] at hres
  | cons n rest ih =>
    intro fs fs' h q perm t c hq hres
    cases fs with
    | file p t0 c0 => simp [updateDir] at h
    | dir p es =>
      simp only [updateDir] at h
      by_cases hx : p.x = true
      · simp only [hx, if_true] at h
        cases hl : lookupEntry n es with
        | none => simp [hl] at h
        | some child =>
          simp only [hl] at h
          cases hu : updateDir f child rest with
          | error e => simp [hu] at h
          | ok child' =>
            simp [hu] at h
            subst h
            cases q with
            | nil => simp [resolve] at hres
            | cons k q' =>
              rw [resolve_dir_cons] at hres ⊢
              simp only [hx, if_true] at hres ⊢
              by_cases hk : k = n
              · subst hk
                have hq' : q' ≠ rest ++ [name] := by
                  intro h0; subst h0; simp at hq
                rw [lookupEntry_replaceEntry_same k child' es (by simp [hl])]
                rw [hl] at hres
                exact ih child child' hu q' perm t c hq' hres
              · rw [lookupEntry_replaceEntry_ne n k child' es hk]; exact hres
      · simp [hx] at h

theorem updateDir_resolve_parent (f : Perm → Entries → Except Errno Entries) (parent : Path) :
    ∀ (fs fs' : Node), updateDir f fs parent = .ok fs' →
      ∃ p es es', f p es = .ok es' ∧ fs.find parent = some (.dir p es)
        ∧ resolve fs' parent = .ok (.dir p es') := by
  induction parent with
  | nil =>
    intro fs fs' h
    cases fs with
    | file p t0 c0 => simp [updateDir] at h
    | dir p es =>
      simp only [updateDir] at h
      cases hf : f p es with
      | error e => simp [hf] at h
      | ok es' =>
        simp [hf] at h
        subst h
        exact ⟨p, es, es', hf, by simp [Node.find], by simp [resolve]⟩
  | cons n rest ih =>
    intro fs fs' h
    cases fs with
    | file p t0 c0 => simp [updateDir] at h
    | dir p es =>
      simp only [updateDir] at h
      by_cases hx : p.x = true
      · simp only [hx, if_true] at h
        cases hl : lookupEntry n es with
        | none => simp [hl] at h
        | some child =>
          simp only [hl] at h
          cases hu : updateDir f child rest with
          | error e => simp [hu] at h
          | ok child' =>
            simp [hu] at h
            subst h
            obtain ⟨p1, es1, es1', hf, h1, h2⟩ := ih child child' hu
            refine ⟨p1, es1, es1', hf, ?_, ?_⟩
            · rw [find_dir_cons, hl]; exact h1
            · rw [resolve_dir_cons, lookupEntry_replaceEntry_same n child' es (by simp [hl])]
              simp only [hx, if_true]
              exact h2
      · simp [hx] at h

/-- What `writeEntry` leaves at `name`: the new content under the permission
bits of the file that was there, or of a new file. -/
theorem writeEntry_perm (name : String) (data : Bytes) (now : Nat) (perm : Perm)
    (es es' : Entries) (h : writeEntry name data now perm es = .ok es') :
    perm.x = true ∧ ∃ fp, lookupEntry name es' = some (.file fp now data)
      ∧ (fp = filePerm ∨ ∃ t c, lookupEntry name es = some (.file fp t c)) := by
  unfold writeEntry at h
  by_cases hx : perm.x = true
  · refine ⟨hx, ?_⟩
    simp only [hx, if_true] at h
    cases hl : lookupEntry name es with
    | none =>
      simp only [hl] at h
      by_cases hw : perm.w = true
      · simp [hw] at h; subst h
        exact ⟨filePerm, lookupEntry_insertEntry_same name _ es hl, Or.inl rfl⟩
      · simp [hw] at h
    | some c =>
      cases c with
      | file fp t0 c0 =>
        simp only [hl] at h
        by_cases hw : fp.w = true
        · simp [hw] at h; subst h
          exact ⟨fp, lookupEntry_replaceEntry_same name _ es (by simp [hl]),
            Or.inr ⟨t0, c0, rfl⟩⟩
        · simp [hw] at h
      | dir pd ents => simp [hl] at h
  · simp [hx] at h

/-- After a successful `WriteFile` the file can be reached, and it carries the
permission bits of a new file or of the file it replaced. -/
theorem WriteFile_resolve_target (fs fs' : Node) (parent : Path) (name : String) (data : Bytes)
    (now : Nat) (h : WriteFile fs parent name data now = .ok fs') :
    ∃ fp, resolve fs' (parent ++ [name]) = .ok (.file fp now data)
      ∧ (fp = filePerm ∨ ∃ t c, FileAt fs (parent ++ [name]) fp t c) := by
  obtain ⟨p, es, es', hf, h1, h2⟩ := updateDir_resolve_parent _ parent fs fs' h
  obtain ⟨hx, fp, hfp, hor⟩ := writeEntry_perm name data now p es es' hf
  refine ⟨fp, ?_, ?_⟩
  · rw [resolve_append_of_ok parent [name] fs' _ h2, resolve_dir_cons]
    simp [hx, hfp, resolve]
  · rcases hor with h0 | ⟨t, c, h0⟩
    · exact Or.inl h0
    · refine Or.inr ⟨t, c, ?_⟩
      unfold FileAt
      rw [find_append, h1]
      simp [Node.find, h0]

theorem WriteFile_resolve_keep (fs fs' : Node) (parent : Path) (name : String) (data : Bytes)
    (now : Nat) (h : WriteFile fs parent name data now = .ok fs')
    (q : Path) (perm : Perm) (t : Nat) (c : Bytes) (hq : q ≠ parent ++ [name])
    (hres : resolve fs q = .ok (.file perm t c)) : resolve fs' q = .ok (.file perm t c) :=
  updateDir_resolve_keep name _ (writeEntry_localTo name data now)
    (writeEntry_noDirBefore name data now) parent fs fs' h q perm t c hq hres

theorem Mkdir_resolve_keep (fs fs' : Node) (parent : Path) (name : String)
    (h : Mkdir fs parent name = .ok fs') (q : Path) (perm : Perm) (t : Nat) (c : Bytes)
    (hres : resolve fs q = .ok (.file perm t c)) : resolve fs' q = .ok (.file perm t c) := by
  by_cases hq : q = parent ++ [name]
  · subst hq
    obtain ⟨p, es, es', hf, h1, _⟩ := updateDir_find_parent _ parent fs fs' h
    obtain ⟨_, hb⟩ := mkdirEntry_target name p es es' hf
    have hfind := resolve_find _ fs _ hres
    rw [find_append, h1] at hfind
    simp [Node.find, hb] at hfind
  · exact updateDir_resolve_keep name _ (mkdirEntry_localTo name) (mkdirEntry_noDirBefore name)
      parent fs fs' h q perm t c hq hres

theorem MkdirAllRev_resolve_keep (rev : List String) : ∀ (fs : Node) (q : Path) (perm : Perm)
    (t : Nat) (c : Bytes), resolve fs q = .ok (.file perm t c) →
      resolve (MkdirAllRev fs rev).2 q = .ok (.file perm t c) := by
  induction rev with
  | nil =>
    intro fs q perm t c hres
    unfold MkdirAllRev
    split <;> exact hres
  | cons name parentRev ih =>
    intro fs q perm t c hres
    rw [MkdirAllRev]
    split
    · split <;> exact hres
    · have ih' := ih fs q perm t c hres
      split
      · rename_i e fs1 heq
        rw [heq] at ih'
        exact ih'
      · rename_i fs1 heq
        rw [heq] at ih'
        split
        · rename_i fs2 hmk
          exact Mkdir_resolve_keep fs1 fs2 _ name hmk q perm t c ih'
        · split
          · split <;> exact ih'
          · exact ih'

theorem EnsureDir_resolve_keep (fs : Node) (p : Path) (q : Path) (perm : Perm) (t : Nat)
    (c : Bytes) (hres : resolve fs q = .ok (.file perm t c)) :
    resolve (EnsureDir fs p).2 q = .ok (.file perm t c) := by
  have h := MkdirAllRev_resolve_keep p.reverse fs q perm t c hres
  unfold EnsureDir MkdirAll
  split
  · rename_i fs1 heq; rw [heq] at h; exact h
  · rename_i e fs1 heq; rw [heq] at h; exact h

theorem recordTemplate_resolve_keep (r : RecordStore) (now : Nat) (fs : Node) (q : Path)
    (perm : Perm) (t : Nat) (c : Bytes) (hq : q ≠ r.templatePath)
    (hres : resolve fs q = .ok (.file perm t c)) :
    resolve (r.recordTemplate now fs).2 q = .ok (.file perm t c) := by
  have he := EnsureDir_resolve_keep fs (r.RecordStorePath ++ ["templates"]) q perm t c hres
  unfold RecordStore.recordTemplate
  simp only
  split
  · rename_i err fs1 heq; rw [heq] at he; exact he
  · rename_i fs1 heq
    rw [heq] at he
    split
    · exact he
    · rename_i fs2 hw
      exact WriteFile_resolve_keep fs1 fs2 _ _ _ _ hw q perm t c hq he

theorem recordRequest_resolve_keep (r : RecordStore) (now : Nat) (fs : Node) (q : Path)
    (perm : Perm) (t : Nat) (c : Bytes) (hq : q ≠ r.requestPath)
    (hres : resolve fs q = .ok (.file perm t c)) :
    resolve (r.recordRequest now fs).2 q = .ok (.file perm t c) := by
  have he := EnsureDir_resolve_keep fs (r.RecordStorePath ++ ["requests", r.TemplateHash])
    q perm t c hres
  unfold RecordStore.recordRequest
  simp only
  split
  · rename_i err fs1 heq; rw [heq] at he; exact he
  · rename_i fs1 heq
    rw [heq] at he
    split
    · exact he
    · rename_i fs2 hw
      exact WriteFile_resolve_keep fs1 fs2 _ _ _ _ hw q perm t c hq he

theorem recordResponse_resolve_keep (r : RecordStore) (clock : Instant) (now : Nat) (w : World)
    (q : Path) (perm : Perm) (t : Nat) (c : Bytes)
    (hq : q ≠ (r.recordResponse clock now w).2.1.responsePath)
    (hres : resolve w.fs q = .ok (.file perm t c)) :
    resolve (r.recordResponse clock now w).2.2.fs q = .ok (.file perm t c) := by
  have he := EnsureDir_resolve_keep w.fs (r.RecordStorePath ++ ["responses", r.RequestHash])
    q perm t c hres
  unfold RecordStore.recordResponse at hq ⊢
  simp only at hq ⊢
  split
  · rename_i err fs1 heq; rw [heq] at he; exact he
  · rename_i fs1 heq
    rw [heq] at he hq
    simp only at hq
    split
    · exact he
    · rename_i fs2 hw
      rw [hw] at hq
      exact WriteFile_resolve_keep fs1 fs2 _ _ _ _ hw q perm t c hq he

theorem recordTemplate_resolve_target (r : RecordStore) (now : Nat) (fs : Node)
    (h : (r.recordTemplate now fs).1 = none) :
    ∃ fp, resolve (r.recordTemplate now fs).2 r.templatePath
      = .ok (.file fp now r.TemplateYaml) := by
  unfold RecordStore.recordTemplate at h ⊢
  simp only at h ⊢
  split at h
  · simp at h
  · rename_i fs1 heq
    split at h
    · simp at h
    · rename_i fs2 hw
      obtain ⟨fp, hfp, _⟩ := WriteFile_resolve_target fs1 fs2 _ _ _ _ hw
      exact ⟨fp, hfp⟩

theorem recordRequest_resolve_target (r : RecordStore) (now : Nat) (fs : Node)
    (h : (r.recordRequest now fs).1 = none) :
    ∃ fp, resolve (r.recordRequest now fs).2 r.requestPath
      = .ok (.file fp now r.RequestYaml) := by
  unfold RecordStore.recordRequest at h ⊢
  simp only at h ⊢
  split at h
  · simp at h
  · rename_i fs1 heq
    split at h
    · simp at h
    · rename_i fs2 hw
      obtain ⟨fp, hfp, _⟩ := WriteFile_resolve_target fs1 fs2 _ _ _ _ hw
      exact ⟨fp, hfp⟩

theorem recordResponse_resolve_target (r : RecordStore) (clock : Instant) (now : Nat)
    (w : World) (h : (r.recordResponse clock now w).1 = none) :
    ∃ fp, resolve (r.recordResponse clock now w).2.2.fs
        (r.recordResponse clock now w).2.1.responsePath = .ok (.file fp now r.ResponseYaml) := by
  unfold RecordStore.recordResponse at h ⊢
  simp only at h ⊢
  split at h
  · simp at h
  · rename_i fs1 heq
    split at h
    · simp at h
    · rename_i fs2 hw
      obtain ⟨fp, hfp, _⟩ := WriteFile_resolve_target fs1 fs2 _ _ _ _ hw
      exact ⟨fp, hfp⟩

theorem runTask_resolve_target (clk : RecordClock) (st : TaskState) (t : Task)
    (h : (runTask clk st t).errChan = []) :
    ∃ fp, resolve (runTask clk st t).world.fs (taskPath (runTask clk st t).store t)
      = .ok (.file fp (taskTime clk t) (taskBytes st.store t)) := by
  cases t with
  | template =>
    have ht := recordTemplate_resolve_target st.store clk.templateTime st.world.fs
    unfold runTask at h ⊢
    simp only at h ⊢
    split at h
    · simp at h
    · rename_i fs1 heq
      rw [heq] at ht
      exact ht rfl
  | request =>
    have ht := recordRequest_resolve_target st.store clk.requestTime st.world.fs
    unfold runTask at h ⊢
    simp only at h ⊢
    split at h
    · simp at h
    · rename_i fs1 heq
      rw [heq] at ht
      exact ht rfl
  | response =>
    have ht := recordResponse_resolve_target st.store clk.idClock clk.responseTime st.world
    unfold runTask at h ⊢
    simp only at h ⊢
    split at h
    · simp at h
    · rename_i r1 w1 heq
      rw [heq] at ht
      exact ht rfl

theorem runTask_resolve_keep (clk : RecordClock) (st : TaskState) (t : Task) (q : Path)
    (perm : Perm) (tm : Nat) (c : Bytes) (hq : q ≠ taskPath (runTask clk st t).store t)
    (hres : resolve st.world.fs q = .ok (.file perm tm c)) :
    resolve (runTask clk st t).world.fs q = .ok (.file perm tm c) := by
  cases t with
  | template =>
    rw [runTask_store_of_ne clk st .template (by decide)] at hq
    have hf := recordTemplate_resolve_keep st.store clk.templateTime st.world.fs q perm tm c
      hq hres
    unfold runTask
    simp only
    split
    · rename_i err fs1 heq; rw [heq] at hf; exact hf
    · rename_i fs1 heq; rw [heq] at hf; exact hf
  | request =>
    rw [runTask_store_of_ne clk st .request (by decide)] at hq
    have hf := recordRequest_resolve_keep st.store clk.requestTime st.world.fs q perm tm c
      hq hres
    unfold runTask
    simp only
    split
    · rename_i err fs1 heq; rw [heq] at hf; exact hf
    · rename_i fs1 heq; rw [heq] at hf; exact hf
  | response =>
    have hf := recordResponse_resolve_keep st.store clk.idClock clk.responseTime st.world
      q perm tm c
    unfold runTask at hq ⊢
    simp only at hq ⊢
    split
    · rename_i err r1 w1 heq
      rw [heq] at hf hq
      exact hf hq hres
    · rename_i r1 w1 heq
      rw [heq] at hf hq
      exact hf hq hres

/-- After the tasks of a `Record` that sent no error, each of the three files
can be reached by its path. -/
theorem foldTasks_resolve (clk : RecordClock) : ∀ (ts : List Task) (st : TaskState), ts.Nodup →
    (ts.foldl (runTask clk) st).errChan = [] →
    (∀ t ∈ ts, ∃ fp, resolve (ts.foldl (runTask clk) st).world.fs
          (taskPath (ts.foldl (runTask clk) st).store t)
          = .ok (.file fp (taskTime clk t) (taskBytes st.store t)))
    ∧ (∀ q perm tm c, (∀ t ∈ ts, q ≠ taskPath (ts.foldl (runTask clk) st).store t) →
          resolve st.world.fs q = .ok (.file perm tm c) →
          resolve (ts.foldl (runTask clk) st).world.fs q = .ok (.file perm tm c)) := by
  intro ts
  induction ts with
  | nil =>
    intro st _ h
    exact ⟨by simp, fun q perm tm c _ hres => hres⟩
  | cons t ts ih =>
    intro st hnd h
    rw [List.foldl_cons] at h ⊢
    obtain ⟨hnot, hnd'⟩ := List.nodup_cons.mp hnd
    obtain ⟨h2, h3⟩ := ih (runTask clk st t) hnd' h
    obtain ⟨h1, _, _, h4, h5⟩ := foldTasks_spec clk ts (runTask clk st t) hnd' h
    have hstore1 := runTask_store clk st t
    have hroot : (List.foldl (runTask clk) (runTask clk st t) ts).store.RecordStorePath
        = (runTask clk st t).store.RecordStorePath := by rw [h4]
    have hpath : taskPath (List.foldl (runTask clk) (runTask clk st t) ts).store t
        = taskPath (runTask clk st t).store t := by
      by_cases ht : t = .response
      · subst ht; rw [h5 hnot]
      · rw [h4, taskPath_responseID _ _ t ht]
    refine ⟨?_, ?_⟩
    · intro t' ht'
      rcases List.mem_cons.mp ht' with heq | hmem
      · subst heq
        obtain ⟨fp, hfp⟩ := runTask_resolve_target clk st t' h1
        refine ⟨fp, ?_⟩
        rw [hpath]
        refine h3 _ fp _ _ ?_ hfp
        intro t'' ht''
        have hne : t' ≠ t'' := fun e => hnot (e ▸ ht'')
        exact taskPath_ne _ _ hroot.symm t' t'' hne
      · obtain ⟨fp, hfp⟩ := h2 t' hmem
        refine ⟨fp, ?_⟩
        have hb : taskBytes (runTask clk st t).store t' = taskBytes st.store t' := by
          rw [hstore1]; cases t' <;> rfl
        rw [← hb]; exact hfp
    · intro q perm tm c hq hres
      have hq1 : ∀ t' ∈ ts, q ≠ taskPath (List.foldl (runTask clk) (runTask clk st t) ts).store t' :=
        fun t' ht' => hq t' (List.mem_cons_of_mem _ ht')
      have hq2 : q ≠ taskPath (runTask clk st t).store t := by
        rw [← hpath]; exact hq t (List.mem_cons_self _ _)
      exact h3 q perm tm c hq1 (runTask_resolve_keep clk st t q perm tm c hq2 hres)

theorem WriteFile_allReadable (fs fs' : Node) (parent : Path) (name : String) (data : Bytes)
    (now : Nat) (h : WriteFile fs parent name data now = .ok fs') (hall : AllReadable fs) :
    AllReadable fs' := by
  intro q perm t c hq
  by_cases hqt : q = parent ++ [name]
  · subst hqt
    obtain ⟨fp, hres, hor⟩ := WriteFile_resolve_target fs fs' parent name data now h
    have hfind := resolve_find _ fs' _ hres
    unfold FileAt at hq
    rw [hfind] at hq
    simp only [Option.some.injEq, Node.file.injEq] at hq
    rcases hor with h0 | ⟨t0, c0, h0⟩
    · rw [← hq.1, h0]; rfl
    · rw [← hq.1]; exact hall _ fp t0 c0 h0
  · exact hall q perm t c ((WriteFile_frame fs fs' parent name data now h q perm t c hqt).mp hq)

theorem EnsureDir_allReadable (fs : Node) (p : Path) (hall : AllReadable fs) :
    AllReadable (EnsureDir fs p).2 :=
  fun q perm t c hq => hall q perm t c ((EnsureDir_frame fs p q perm t c).mp hq)

theorem recordTemplate_allReadable (r : RecordStore) (now : Nat) (fs : Node)
    (hall : AllReadable fs) : AllReadable (r.recordTemplate now fs).2 := by
  have he := EnsureDir_allReadable fs (r.RecordStorePath ++ ["templates"]) hall
  unfold RecordStore.recordTemplate
  simp only
  split
  · rename_i err fs1 heq; rw [heq] at he; exact he
  · rename_i fs1 heq
    rw [heq] at he
    split
    · exact he
    · rename_i fs2 hw
      exact WriteFile_allReadable fs1 fs2 _ _ _ _ hw he

theorem recordRequest_allReadable (r : RecordStore) (now : Nat) (fs : Node)
    (hall : AllReadable fs) : AllReadable (r.recordRequest now fs).2 := by
  have he := EnsureDir_allReadable fs (r.RecordStorePath ++ ["requests", r.TemplateHash]) hall
  unfold RecordStore.recordRequest
  simp only
  split
  · rename_i err fs1 heq; rw [heq] at he; exact he
  · rename_i fs1 heq
    rw [heq] at he
    split
    · exact he
    · rename_i fs2 hw
      exact WriteFile_allReadable fs1 fs2 _ _ _ _ hw he

theorem recordResponse_allReadable (r : RecordStore) (clock : Instant) (now : Nat) (w : World)
    (hall : AllReadable w.fs) : AllReadable (r.recordResponse clock now w).2.2.fs := by
  have he := EnsureDir_allReadable w.fs (r.RecordStorePath ++ ["responses", r.RequestHash]) hall
  unfold RecordStore.recordResponse
  simp only
  split
  · rename_i err fs1 heq; rw [heq] at he; exact he
  · rename_i fs1 heq
    rw [heq] at he
    split
    · exact he
    · rename_i fs2 hw
      exact WriteFile_allReadable fs1 fs2 _ _ _ _ hw he

theorem runTask_allReadable (clk : RecordClock) (st : TaskState) (t : Task)
    (hall : AllReadable st.world.fs) : AllReadable (runTask clk st t).world.fs := by
  cases t with
  | template =>
    have hf := recordTemplate_allReadable st.store clk.templateTime st.world.fs hall
    unfold runTask
    simp only
    split
    · rename_i err fs1 heq; rw [heq] at hf; exact hf
    · rename_i fs1 heq; rw [heq] at hf; exact hf
  | request =>
    have hf := recordRequest_allReadable st.store clk.requestTime st.world.fs hall
    unfold runTask
    simp only
    split
    · rename_i err fs1 heq; rw [heq] at hf; exact hf
    · rename_i fs1 heq; rw [heq] at hf; exact hf
  | response =>
    have hf := recordResponse_allReadable st.store clk.idClock clk.responseTime st.world hall
    unfold runTask
    simp only
    split
    · rename_i err r1 w1 heq; rw [heq] at hf; exact hf
    · rename_i r1 w1 heq; rw [heq] at hf; exact hf

theorem foldTasks_allReadable (clk : RecordClock) : ∀ (ts : List Task) (st : TaskState),
    AllReadable st.world.fs → AllReadable (ts.foldl (runTask clk) st).world.fs := by
  intro ts
  induction ts with
  | nil => intro st h; exact h
  | cons t ts ih =>
    intro st h
    rw [List.foldl_cons]
    exact ih _ (runTask_allReadable clk st t h)

theorem ConvertToYAML_ok_iff {α : Type} (marshal : α → Except GoError Bytes) (x : α)
    (b : Bytes) : ConvertToYAML marshal x = .ok b ↔ marshal x = .ok b := by
  unfold ConvertToYAML
  cases marshal x <;> simp

theorem emptyDisk_allReadable : AllReadable emptyDisk := by
  intro q perm t c hq
  cases q with
  | nil => simp [FileAt, emptyDisk, Node.find] at hq
  | cons k rest => simp [FileAt, emptyDisk, Node.find, lookupEntry] at hq

/-- What the repository adds to the round trip of a response through the
store: after a successful `Record` on a store whose files are readable,
`GetResponse` called with the same root and the resulting `RequestHash` and
`ResponseID` reads back exactly the recorded `ResponseYaml`. Whether the
`Response` it sets re-serializes to those bytes is then a matter of the YAML
library alone: it does when the library round-trips the recorded response
`x`, which is assumed here and is not a fact of the repository. -/
theorem GetResponse_round_trip (Y : YamlLib) (sched : Schedule) (clk : RecordClock)
    (r r' g : RecordStore) (w w' : World)
    (hrec : r.Record Y sched clk w = (.ok (), r', w'))
    (hall : AllReadable w.fs)
    (hlaw : ∀ x, r'.Response = some x → RoundTripsResponse Y x)
    (hroot : g.RecordStorePath = r'.RecordStorePath)
    (hhash : g.RequestHash = r'.RequestHash) (hid : g.ResponseID = r'.ResponseID) :
    ∃ x y, r'.Response = some x
      ∧ ConvertToYAML Y.marshalResponse x = .ok r'.ResponseYaml
      ∧ ReadFile w'.fs (r'.RecordStorePath ++ ["responses", r'.RequestHash]
          ++ [r'.ResponseID ++ ".yaml"]) = .ok r'.ResponseYaml
      ∧ g.GetResponse Y w'.fs = (none, { g with Response := some y })
      ∧ ConvertToYAML Y.marshalResponse y = .ok r'.ResponseYaml := by
  obtain ⟨req, res, requestYaml, responseYaml, _, _, _, hcs, herr, hr', hw'⟩ :=
    Record_ok_shape Y sched clk r r' w w' hrec
  obtain ⟨_, _, _, hstore, _⟩ := foldTasks_spec clk sched.order _ sched.order_nodup herr
  obtain ⟨htargets, _⟩ := foldTasks_resolve clk sched.order _ sched.order_nodup herr
  have hall' := foldTasks_allReadable clk sched.order
    ⟨[], stampedStore r req res requestYaml responseYaml, w⟩ hall
  rw [← hr', ← hw'] at htargets
  rw [← hw'] at hall'
  rw [← hr'] at hstore
  obtain ⟨fp, hR⟩ := htargets .response (sched.mem_order _)
  have e1 : r'.Response = some { res with TemplateHash := CalculateMD5Hash r.TemplateYaml,
                                          RequestHash := CalculateMD5Hash requestYaml } := by
    rw [hstore]; rfl
  have e3 : r'.ResponseYaml = responseYaml := by rw [hstore]; rfl
  simp only [taskPath, taskTime, taskBytes, stampedStore, RecordStore.responsePath,
    List.append_assoc, List.cons_append, List.nil_append] at hR
  have hr : fp.r = true := hall' _ fp _ _ (resolve_find _ _ _ hR)
  obtain ⟨y, hy1, hy2⟩ := hlaw _ e1 responseYaml ((ConvertToYAML_ok_iff _ _ _).mp hcs)
  refine ⟨_, y, e1, ?_, ?_, ?_, ?_⟩
  · rw [e3]; exact hcs
  · rw [e3]
    simp only [ReadFile, osReadFile, List.append_assoc, List.cons_append, List.nil_append,
      hR, hr, if_true]
  · simp only [RecordStore.GetResponse, ReadYAMLFile, osReadFile, hroot, hhash, hid,
      List.append_assoc, List.cons_append, List.nil_append, hR, hr, if_true, hy1]
  · rw [e3]; exact (ConvertToYAML_ok_iff _ _ _).mpr hy2

set_option maxRecDepth 1000000 in
theorem plainYaml_roundTrips_example (x : ResponseObject)
    (hx : exampleRun.2.1.Response = some x) : RoundTripsResponse plainYaml x := by
  have h0 : exampleRun.2.1.Response = some exampleRecordedResponse := by decide
  rw [h0] at hx
  cases hx
  intro b hb
  have h1 : plainYaml.marshalResponse exampleRecordedResponse = .ok exampleRun.2.1.ResponseYaml :=
    except_ok_of_toOption _ _ (by decide)
  have h2 : plainYaml.unmarshalResponse exampleRun.2.1.ResponseYaml
      = .ok exampleRecordedResponse := except_ok_of_toOption _ _ (by decide)
  rw [h1] at hb
  cases hb
  exact ⟨exampleRecordedResponse, h2, h1⟩

set_option maxRecDepth 1000000 in
/-- The round trip of the first worked example, with the example library. -/
theorem GetResponse_round_trip_witness :
    exampleStore.Record plainYaml .templateRequestResponse exampleClock freshWorld
        = (.ok (), exampleRun.2.1, exampleRun.2.2)
    ∧ AllReadable freshWorld.fs
    ∧ (∀ x, exampleRun.2.1.Response = some x → RoundTripsResponse plainYaml x)
    ∧ ∃ x y, exampleRun.2.1.Response = some x
      ∧ ConvertToYAML plainYaml.marshalResponse x = .ok exampleRun.2.1.ResponseYaml
      ∧ ReadFile exampleRun.2.2.fs
          (exampleRun.2.1.RecordStorePath ++ ["responses", exampleRun.2.1.RequestHash]
            ++ [exampleRun.2.1.ResponseID ++ ".yaml"]) = .ok exampleRun.2.1.ResponseYaml
      ∧ RecordStore.GetResponse plainYaml
          { RecordStorePath := exampleRun.2.1.RecordStorePath,
            RequestHash := exampleRun.2.1.RequestHash,
            ResponseID := exampleRun.2.1.ResponseID } exampleRun.2.2.fs
        = (none, { RecordStorePath := exampleRun.2.1.RecordStorePath,
                   RequestHash := exampleRun.2.1.RequestHash,
                   ResponseID := exampleRun.2.1.ResponseID, Response := some y })
      ∧ ConvertToYAML plainYaml.marshalResponse y = .ok exampleRun.2.1.ResponseYaml :=
  ⟨exampleRun_ok, emptyDisk_allReadable, plainYaml_roundTrips_example,
    GetResponse_round_trip plainYaml .templateRequestResponse exampleClock exampleStore
      exampleRun.2.1
      { RecordStorePath := exampleRun.2.1.RecordStorePath,
        RequestHash := exampleRun.2.1.RequestHash,
        ResponseID := exampleRun.2.1.ResponseID }
      freshWorld exampleRun.2.2 exampleRun_ok emptyDisk_allReadable
      plainYaml_roundTrips_example rfl rfl rfl⟩

/-! ## Partial failure of the three writes (C19) -/

theorem runTask_errChan (clk : RecordClock) (st : TaskState) (t : Task) :
    (runTask clk st t).errChan = st.errChan ++ (taskError clk st t).toList := by
  cases t <;>
    (unfold runTask taskError
     simp only
     split <;> (rename_i heq; simp [heq]))

theorem foldTasks_errChan (clk : RecordClock) : ∀ (ts : List Task) (st : TaskState),
    (ts.foldl (runTask clk) st).errChan
      = st.errChan ++ (taskOutcomes clk ts st).filterMap Prod.snd := by
  intro ts
  induction ts with
  | nil => intro st; simp [taskOutcomes]
  | cons t ts ih =>
    intro st
    rw [List.foldl_cons, ih, runTask_errChan, taskOutcomes]
    cases h : taskError clk st t <;> simp [h]

theorem taskOutcomes_tasks (clk : RecordClock) : ∀ (ts : List Task) (st : TaskState),
    (taskOutcomes clk ts st).map Prod.fst = ts := by
  intro ts
  induction ts with
  | nil => intro st; rfl
  | cons t ts ih => intro st; simp [taskOutcomes, ih]

theorem taskError_is (clk : RecordClock) (st : TaskState) (t : Task) (e : GoError)
    (h : taskError clk st t = some e) : e.Is .ErrorFailedToRecord = true := by
  cases t with
  | template =>
    unfold taskError RecordStore.recordTemplate at h
    simp only at h
    split at h
    · simp only [Option.some.injEq] at h; subst h; simp [GoError.Is]
    · split at h
      · simp only [Option.some.injEq] at h; subst h; simp [GoError.Is]
      · simp at h
  | request =>
    unfold taskError RecordStore.recordRequest at h
    simp only at h
    split at h
    · simp only [Option.some.injEq] at h; subst h; simp [GoError.Is]
    · split at h
      · simp only [Option.some.injEq] at h; subst h; simp [GoError.Is]
      · simp at h
  | response =>
    unfold taskError RecordStore.recordResponse at h
    simp only at h
    split at h
    · simp only [Option.some.injEq] at h; subst h; simp [GoError.Is]
    · split at h
      · simp only [Option.some.injEq] at h; subst h; simp [GoError.Is]
      · simp at h

theorem runTask_target_of_taskError (clk : RecordClock) (st : TaskState) (t : Task)
    (h : taskError clk st t = none) :
    ∃ fp, FileAt (runTask clk st t).world.fs (taskPath (runTask clk st t).store t) fp
      (taskTime clk t) (taskBytes st.store t) := by
  cases t with
  | template =>
    have ht := recordTemplate_target st.store clk.templateTime st.world.fs h
    unfold taskError at h
    unfold runTask
    simp only
    split
    · rename_i err fs1 heq; rw [heq] at h; simp at h
    · rename_i fs1 heq
      rw [heq] at ht
      exact ht
  | request =>
    have ht := recordRequest_target st.store clk.requestTime st.world.fs h
    unfold taskError at h
    unfold runTask
    simp only
    split
    · rename_i err fs1 heq; rw [heq] at h; simp at h
    · rename_i fs1 heq
      rw [heq] at ht
      exact ht
  | response =>
    have ht := (recordResponse_target st.store clk.idClock clk.responseTime st.world h).1
    unfold taskError at h
    unfold runTask
    simp only
    split
    · rename_i err r1 w1 heq; rw [heq] at h; simp at h
    · rename_i r1 w1 heq
      rw [heq] at ht
      exact ht

/-- Whether they fail or not, the tasks of `Record` leave in place the file
of every task whose write succeeded, keep every file but the ones they write,
and change nothing of the store value but `ResponseID`. -/
theorem foldTasks_outcomes (clk : RecordClock) : ∀ (ts : List Task) (st : TaskState), ts.Nodup →
    (∀ t, (t, none) ∈ taskOutcomes clk ts st →
        ∃ fp, FileAt (ts.foldl (runTask clk) st).world.fs
          (taskPath (ts.foldl (runTask clk) st).store t) fp (taskTime clk t)
          (taskBytes st.store t))
    ∧ (∀ q perm tm c, (∀ t ∈ ts, q ≠ taskPath (ts.foldl (runTask clk) st).store t) →
          (FileAt (ts.foldl (runTask clk) st).world.fs q perm tm c
            ↔ FileAt st.world.fs q perm tm c))
    ∧ (ts.foldl (runTask clk) st).store
        = { st.store with ResponseID := (ts.foldl (runTask clk) st).store.ResponseID }
    ∧ (Task.response ∉ ts → (ts.foldl (runTask clk) st).store = st.store) := by
  intro ts
  induction ts with
  | nil =>
    intro st _
    exact ⟨by simp [taskOutcomes], by simp, rfl, fun _ => rfl⟩
  | cons t ts ih =>
    intro st hnd
    rw [List.foldl_cons]
    obtain ⟨hnot, hnd'⟩ := List.nodup_cons.mp hnd
    obtain ⟨h2, h3, h4, h5⟩ := ih (runTask clk st t) hnd'
    have hstore1 := runTask_store clk st t
    have hroot : (List.foldl (runTask clk) (runTask clk st t) ts).store.RecordStorePath
        = (runTask clk st t).store.RecordStorePath := by rw [h4]
    have hpath : taskPath (List.foldl (runTask clk) (runTask clk st t) ts).store t
        = taskPath (runTask clk st t).store t := by
      by_cases ht : t = .response
      · subst ht; rw [h5 hnot]
      · rw [h4, taskPath_responseID _ _ t ht]
    refine ⟨?_, ?_, ?_, ?_⟩
    · intro t' ht'
      rw [taskOutcomes] at ht'
      rcases List.mem_cons.mp ht' with heq | hmem
      · simp only [Prod.mk.injEq] at heq
        obtain ⟨heq1, heq2⟩ := heq
        subst heq1
        obtain ⟨fp, hfp⟩ := runTask_target_of_taskError clk st t' heq2.symm
        refine ⟨fp, ?_⟩
        rw [hpath]
        refine (h3 _ fp _ _ ?_).mpr hfp
        intro t'' ht''
        have hne : t' ≠ t'' := fun e => hnot (e ▸ ht'')
        exact taskPath_ne _ _ hroot.symm t' t'' hne
      · obtain ⟨fp, hfp⟩ := h2 t' hmem
        refine ⟨fp, ?_⟩
        have hb : taskBytes (runTask clk st t).store t' = taskBytes st.store t' := by
          rw [hstore1]; cases t' <;> rfl
        rw [← hb]; exact hfp
    · intro q perm tm c hq
      have hq1 : ∀ t' ∈ ts, q ≠ taskPath (List.foldl (runTask clk) (runTask clk st t) ts).store t' :=
        fun t' ht' => hq t' (List.mem_cons_of_mem _ ht')
      have hq2 : q ≠ taskPath (runTask clk st t).store t := by
        rw [← hpath]; exact hq t (List.mem_cons_self _ _)
      exact (h3 q perm tm c hq1).trans (runTask_frame clk st t q perm tm c hq2)
    · rw [h4, hstore1]
    · intro hr
      have hr1 : Task.response ∉ ts := fun hm => hr (List.mem_cons_of_mem _ hm)
      have hr2 : t ≠ .response := fun e => hr (e ▸ List.mem_cons_self _ _)
      rw [h5 hr1, runTask_store_of_ne clk st t hr2]

/-- `Record` once both serializations have succeeded: it returns the first
error on `errChan`, or nil when there is none. -/
theorem Record_after_serialization (Y : YamlLib) (sched : Schedule) (clk : RecordClock)
    (r : RecordStore) (w : World) (req : RequestObject) (res : ResponseObject)
    (requestYaml responseYaml : Bytes)
    (hreq : r.Request = some req) (hres : r.Response = some res)
    (hq : ConvertToYAML Y.marshalRequest
        { req with TemplateHash := CalculateMD5Hash r.TemplateYaml } = .ok requestYaml)
    (hs : ConvertToYAML Y.marshalResponse
        { res with TemplateHash := CalculateMD5Hash r.TemplateYaml,
                   RequestHash := CalculateMD5Hash requestYaml } = .ok responseYaml) :
    (r.Record Y sched clk w).2.1 = (sched.order.foldl (runTask clk)
        ⟨[], stampedStore r req res requestYaml responseYaml, w⟩).store
    ∧ (r.Record Y sched clk w).2.2 = (sched.order.foldl (runTask clk)
        ⟨[], stampedStore r req res requestYaml responseYaml, w⟩).world
    ∧ ((sched.order.foldl (runTask clk)
        ⟨[], stampedStore r req res requestYaml responseYaml, w⟩).errChan = [] →
        (r.Record Y sched clk w).1 = .ok ())
    ∧ (∀ e rest, (sched.order.foldl (runTask clk)
        ⟨[], stampedStore r req res requestYaml responseYaml, w⟩).errChan = e :: rest →
        (r.Record Y sched clk w).1 = .error e) := by
  unfold RecordStore.Record
  simp only [hreq, hq, hres, hs]
  refine ⟨?_, ?_, ?_, ?_⟩
  · split <;> rfl
  · split <;> rfl
  · intro h
    split
    · rename_i err rest hcons
      rw [stampedStore] at h
      rw [h] at hcons
      simp at hcons
    · rfl
  · intro e rest h
    split
    · rename_i err rest' hcons
      rw [stampedStore] at h
      rw [h] at hcons
      simp only [List.cons.injEq] at hcons
      rw [hcons.1]
    · rename_i hnil
      rw [stampedStore] at h
      rw [h] at hnil
      simp at hnil

theorem taskOutcomes_is (clk : RecordClock) : ∀ (ts : List Task) (st : TaskState) (t : Task)
    (e : GoError), (t, some e) ∈ taskOutcomes clk ts st → e.Is .ErrorFailedToRecord = true := by
  intro ts
  induction ts with
  | nil => intro st t e h; simp [taskOutcomes] at h
  | cons t0 ts ih =>
    intro st t e h
    rw [taskOutcomes] at h
    rcases List.mem_cons.mp h with heq | hmem
    · simp only [Prod.mk.injEq] at heq
      exact taskError_is clk st t0 e heq.2.symm
    · exact ih _ t e hmem

theorem filterMap_snd_eq_nil {α β : Type} (l : List (α × Option β)) :
    l.filterMap Prod.snd = [] ↔ ∀ o ∈ l, o.2 = none := by
  induction l with
  | nil => simp
  | cons o rest ih =>
    cases h : o.2 with
    | none => simp [List.filterMap_cons, h, ih]
    | some b => simp [List.filterMap_cons, h]

/-- C19: `Record`, once both serializations have succeeded, with `outcomes`
what the three writes returned in the order they ran. It returns nil exactly
when all three writes succeeded. When at least one failed it returns an
error, the first one sent on `errChan`: the error of one of the failed writes,
and one that `errors.Is` `ErrorFailedToRecord`. Either way the file of every
write that succeeded stands in the store that `Record` leaves. -/
theorem Record_write_failures (Y : YamlLib) (sched : Schedule) (clk : RecordClock)
    (r : RecordStore) (w : World) (req : RequestObject) (res : ResponseObject)
    (requestYaml responseYaml : Bytes) (outcomes : List (Task × Option GoError))
    (hreq : r.Request = some req) (hres : r.Response = some res)
    (hq : ConvertToYAML Y.marshalRequest
        { req with TemplateHash := CalculateMD5Hash r.TemplateYaml } = .ok requestYaml)
    (hs : ConvertToYAML Y.marshalResponse
        { res with TemplateHash := CalculateMD5Hash r.TemplateYaml,
                   RequestHash := CalculateMD5Hash requestYaml } = .ok responseYaml)
    (hout : outcomes = taskOutcomes clk sched.order
        ⟨[], stampedStore r req res requestYaml responseYaml, w⟩) :
    outcomes.map Prod.fst = sched.order
    ∧ ((r.Record Y sched clk w).1 = .ok () ↔ ∀ o ∈ outcomes, o.2 = none)
    ∧ ((∃ o ∈ outcomes, o.2 ≠ none) →
        ∃ e, (r.Record Y sched clk w).1 = .error e
          ∧ (outcomes.filterMap Prod.snd).head? = some e
          ∧ (∃ t, (t, some e) ∈ outcomes)
          ∧ e.Is .ErrorFailedToRecord = true)
    ∧ (∀ t, (t, none) ∈ outcomes →
        ∃ fp, FileAt (r.Record Y sched clk w).2.2.fs (taskPath (r.Record Y sched clk w).2.1 t)
          fp (taskTime clk t)
          (taskBytes (stampedStore r req res requestYaml responseYaml) t)) := by
  obtain ⟨hstore, hworld, hnil, hcons⟩ :=
    Record_after_serialization Y sched clk r w req res requestYaml responseYaml hreq hres hq hs
  have herr := foldTasks_errChan clk sched.order
    ⟨[], stampedStore r req res requestYaml responseYaml, w⟩
  simp only [List.nil_append] at herr
  rw [← hout] at herr
  have hfirst : ∀ e rest, outcomes.filterMap Prod.snd = e :: rest →
      (∃ t, (t, some e) ∈ outcomes) ∧ e.Is .ErrorFailedToRecord = true := by
    intro e rest hfm
    have hmem : e ∈ outcomes.filterMap Prod.snd := by rw [hfm]; exact List.mem_cons_self _ _
    obtain ⟨o, ho, hoe⟩ := List.mem_filterMap.mp hmem
    have hin : (o.1, some e) ∈ outcomes := by rw [← hoe]; exact ho
    refine ⟨⟨o.1, hin⟩, ?_⟩
    rw [hout] at hin
    exact taskOutcomes_is clk _ _ o.1 e hin
  refine ⟨?_, ?_, ?_, ?_⟩
  · rw [hout]; exact taskOutcomes_tasks clk _ _
  · constructor
    · intro hok
      cases hfm : outcomes.filterMap Prod.snd with
      | nil => exact (filterMap_snd_eq_nil outcomes).mp hfm
      | cons e rest =>
        rw [hfm] at herr
        rw [hcons e rest herr] at hok
        cases hok
    · intro hall
      rw [(filterMap_snd_eq_nil outcomes).mpr hall] at herr
      exact hnil herr
  · rintro ⟨o, ho, hne⟩
    cases hfm : outcomes.filterMap Prod.snd with
    | nil => exact absurd ((filterMap_snd_eq_nil outcomes).mp hfm o ho) hne
    | cons e rest =>
      obtain ⟨ht, his⟩ := hfirst e rest hfm
      rw [hfm] at herr
      exact ⟨e, hcons e rest herr, rfl, ht, his⟩
  · intro t ht
    rw [hout] at ht
    obtain ⟨htargets, _, _, _⟩ := foldTasks_outcomes clk sched.order
      ⟨[], stampedStore r req res requestYaml responseYaml, w⟩ sched.order_nodup
    rw [hstore, hworld]
    exact htargets t ht

set_option maxRecDepth 1000000 in
/-- Witness of C19 where the template cannot be written: `Record` returns the
error of the template write, and the request and the response are stored. -/
theorem Record_write_failures_witness :
    ((taskOutcomes exampleClock Schedule.templateRequestResponse.order
        ⟨[], stampedStore exampleStore { URL := "https://example1.com", Method := "GET" }
          { StatusCode := 200 } exampleRun.2.1.RequestYaml exampleRun.2.1.ResponseYaml,
          ⟨readOnlyTemplatesDisk, 0⟩⟩).map (fun o => (o.1, o.2.isSome))
      = [(.template, true), (.request, false), (.response, false)])
    ∧ readOnlyTemplatesRun.1.isOk = false
    ∧ (∃ e, readOnlyTemplatesRun.1 = .error e
        ∧ (∃ t, (t, some e) ∈ taskOutcomes exampleClock Schedule.templateRequestResponse.order
            ⟨[], stampedStore exampleStore { URL := "https://example1.com", Method := "GET" }
              { StatusCode := 200 } exampleRun.2.1.RequestYaml exampleRun.2.1.ResponseYaml,
              ⟨readOnlyTemplatesDisk, 0⟩⟩)
        ∧ e.Is .ErrorFailedToRecord = true)
    ∧ (∃ fp, FileAt readOnlyTemplatesRun.2.2.fs (taskPath readOnlyTemplatesRun.2.1 .request) fp
        exampleClock.requestTime exampleRun.2.1.RequestYaml)
    ∧ (∃ fp, FileAt readOnlyTemplatesRun.2.2.fs (taskPath readOnlyTemplatesRun.2.1 .response) fp
        exampleClock.responseTime exampleRun.2.1.ResponseYaml) := by
  have hthm := Record_write_failures plainYaml .templateRequestResponse exampleClock
    exampleStore ⟨readOnlyTemplatesDisk, 0⟩ { URL := "https://example1.com", Method := "GET" }
    { StatusCode := 200 } exampleRun.2.1.RequestYaml exampleRun.2.1.ResponseYaml _ rfl rfl
    (except_ok_of_toOption _ _ (by decide)) (except_ok_of_toOption _ _ (by decide)) rfl
  obtain ⟨_, _, hfail, hkept⟩ := hthm
  have hshape : (taskOutcomes exampleClock Schedule.templateRequestResponse.order
        ⟨[], stampedStore exampleStore { URL := "https://example1.com", Method := "GET" }
          { StatusCode := 200 } exampleRun.2.1.RequestYaml exampleRun.2.1.ResponseYaml,
          ⟨readOnlyTemplatesDisk, 0⟩⟩).map (fun o => (o.1, o.2.isSome))
      = [(.template, true), (.request, false), (.response, false)] := by decide
  refine ⟨hshape, by decide, ?_, ?_, ?_⟩
  · obtain ⟨e, he, _, ht, his⟩ := hfail ⟨_, List.mem_cons_self _ _, by
      simp only [taskOutcomes, Schedule.order]
      exact Option.isSome_iff_ne_none.mp (by decide)⟩
    exact ⟨e, he, ht, his⟩
  · refine hkept .request ?_
    have hnone : taskError exampleClock (runTask exampleClock
        ⟨[], stampedStore exampleStore { URL := "https://example1.com", Method := "GET" }
          { StatusCode := 200 } exampleRun.2.1.RequestYaml exampleRun.2.1.ResponseYaml,
          ⟨readOnlyTemplatesDisk, 0⟩⟩ .template) .request = none :=
      Option.isNone_iff_eq_none.mp (by decide)
    simp only [taskOutcomes, Schedule.order, hnone]
    simp
  · refine hkept .response ?_
    have hnone : taskError exampleClock (runTask exampleClock (runTask exampleClock
        ⟨[], stampedStore exampleStore { URL := "https://example1.com", Method := "GET" }
          { StatusCode := 200 } exampleRun.2.1.RequestYaml exampleRun.2.1.ResponseYaml,
          ⟨readOnlyTemplatesDisk, 0⟩⟩ .template) .request) .response = none :=
      Option.isNone_iff_eq_none.mp (by decide)
    simp only [taskOutcomes, Schedule.order, hnone]
    simp

/-! ## Serialization failures on the write and the read path -/

/-- What the code does with the error of `ConvertToYAML`, for every YAML
library. `Record` returns the error of either serialization, joined with
`ErrorFailedToConvertRequest` or `ErrorFailedToConvertResponse`. The lookups
do not look at it: whenever `GetRequestByHash` or `GetResponseByID` finds its
file and the serialization that follows fails, the lookup returns nil and
leaves the YAML field empty. The evaluations use a library that reads as the
example library does and refuses to write; whether the library the
repository links can fail on an object it has just read is not a fact of
the repository. -/
theorem lookups_discard_serialization_error :
    ((ConvertToYAML refusingYaml.marshalRequest lookedUpRequest).toOption = none
      ∧ (RecordStore.GetRequestByHash refusingYaml
          { RecordStorePath := ["store"], RequestHash := "h1" } lastSubdirLookupDisk).1.isNone
          = true
      ∧ (RecordStore.GetRequestByHash refusingYaml
          { RecordStorePath := ["store"], RequestHash := "h1" } lastSubdirLookupDisk).2.Request
          = some lookedUpRequest
      ∧ (RecordStore.GetRequestByHash refusingYaml
          { RecordStorePath := ["store"], RequestHash := "h1" } lastSubdirLookupDisk).2.RequestYaml
          = [])
    ∧ ((ConvertToYAML refusingYaml.marshalResponse lookedUpResponse).toOption = none
      ∧ (RecordStore.GetResponseByID refusingYaml
          { RecordStorePath := ["store"], ResponseID := "id1" } lastSubdirLookupDisk).1.isNone
          = true
      ∧ (RecordStore.GetResponseByID refusingYaml
          { RecordStorePath := ["store"], ResponseID := "id1" } lastSubdirLookupDisk).2.Response
          = some lookedUpResponse
      ∧ (RecordStore.GetResponseByID refusingYaml
          { RecordStorePath := ["store"], ResponseID := "id1" } lastSubdirLookupDisk).2.ResponseYaml
          = [])
    ∧ ((exampleStore.Record refusingYaml .templateRequestResponse exampleClock
          freshWorld).1.error?.map (fun e => e.Is .ErrorFailedToConvertRequest)) = some true
    ∧ (∀ (Y : YamlLib) (sched : Schedule) (clk : RecordClock) (r : RecordStore) (w : World)
        (req : RequestObject) (e : GoError), r.Request = some req →
        ConvertToYAML Y.marshalRequest
          { req with TemplateHash := CalculateMD5Hash r.TemplateYaml } = .error e →
        (r.Record Y sched clk w).1 = .error (.join (.sentinel .ErrorFailedToConvertRequest) e))
    ∧ (∀ (Y : YamlLib) (sched : Schedule) (clk : RecordClock) (r : RecordStore) (w : World)
        (req : RequestObject) (res : ResponseObject) (requestYaml : Bytes) (e : GoError),
        r.Request = some req → r.Response = some res →
        ConvertToYAML Y.marshalRequest
          { req with TemplateHash := CalculateMD5Hash r.TemplateYaml } = .ok requestYaml →
        ConvertToYAML Y.marshalResponse
          { res with TemplateHash := CalculateMD5Hash r.TemplateYaml,
                     RequestHash := CalculateMD5Hash requestYaml } = .error e →
        (r.Record Y sched clk w).1 = .error (.join (.sentinel .ErrorFailedToConvertResponse) e))
    ∧ (∀ (Y : YamlLib) (r : RecordStore) (fs : Node) (pre post : List DirEntry) (T : String)
        (content : Bytes) (req : RequestObject) (e : GoError),
        ReadDir fs (r.RecordStorePath ++ ["requests"]) = .ok (pre ++ ⟨T, true⟩ :: post) →
        (∀ d ∈ pre, d.IsDir = true → ∃ e,
          Stat fs (filepath.Join (r.RecordStorePath ++ ["requests"])
              [d.Name, r.RequestHash ++ ".yaml"])
            = .error e) →
        osReadFile fs (filepath.Join (r.RecordStorePath ++ ["requests"])
            [T, r.RequestHash ++ ".yaml"])
          = .ok content →
        Y.unmarshalRequest content = .ok req →
        ConvertToYAML Y.marshalRequest req = .error e →
        (r.GetRequestByHash Y fs).1 = none ∧ (r.GetRequestByHash Y fs).2.RequestYaml = [])
    ∧ (∀ (Y : YamlLib) (r : RecordStore) (fs : Node) (pre post : List DirEntry) (T : String)
        (content : Bytes) (res : ResponseObject) (e : GoError),
        ReadDir fs (r.RecordStorePath ++ ["responses"]) = .ok (pre ++ ⟨T, true⟩ :: post) →
        (∀ d ∈ pre, d.IsDir = true → ∃ e,
          Stat fs (filepath.Join (r.RecordStorePath ++ ["responses"])
              [d.Name, r.ResponseID ++ ".yaml"])
            = .error e) →
        osReadFile fs (filepath.Join (r.RecordStorePath ++ ["responses"])
            [T, r.ResponseID ++ ".yaml"])
          = .ok content →
        Y.unmarshalResponse content = .ok res →
        ConvertToYAML Y.marshalResponse res = .error e →
        (r.GetResponseByID Y fs).1 = none ∧ (r.GetResponseByID Y fs).2.ResponseYaml = []) := by
  refine ⟨⟨by decide, by decide, by decide, by decide⟩,
    ⟨by decide, by decide, by decide, by decide⟩, by decide, ?_, ?_, ?_, ?_⟩
  · intro Y sched clk r w req e hreq hq
    unfold RecordStore.Record
    simp only [hreq, hq]
  · intro Y sched clk r w req res requestYaml e hreq hres hq hs
    unfold RecordStore.Record
    simp only [hreq, hq, hres, hs]
  · intro Y r fs pre post T content req e hdir hpre hread hparse hfail
    obtain ⟨yaml, hrun, _, hempty⟩ :=
      findRequestByHash_first Y fs _ r T post content req hread hparse pre hpre
    rw [GetRequestByHash_of_ReadDir Y r fs _ hdir, hrun]
    exact ⟨rfl, hempty e hfail⟩
  · intro Y r fs pre post T content res e hdir hpre hread hparse hfail
    obtain ⟨yaml, hrun, _, hempty⟩ :=
      findResponseByID_first Y fs _ r T post content res hread hparse pre hpre
    rw [GetResponseByID_of_ReadDir Y r fs _ hdir, hrun]
    exact ⟨rfl, hempty e hfail⟩

/-! ## Responses of a template: all or nothing (C23) -/

theorem collectYaml_error_is (fs : Node) (dir : Path) (mk : String → Path → Nat → FileInfo) :
    ∀ (files : List DirEntry) (e : GoError), collectYaml fs dir mk files = .error e →
      e.Is .ErrorFailedToStatPath = true := by
  intro files
  induction files with
  | nil => intro e h; simp [collectYaml] at h
  | cons f rest ih =>
    intro e h
    simp only [collectYaml] at h
    split at h
    · split at h
      · simp only [Except.error.injEq] at h
        subst h
        simp [GoError.Is]
      · split at h
        · simp at h
        · rename_i e' he'
          simp only [Except.error.injEq] at h
          subst h
          exact ih _ he'
    · exact ih e h

theorem collectYaml_complete (fs : Node) (dir : Path) (mk : String → Path → Nat → FileInfo) :
    ∀ (files : List DirEntry) (l : List FileInfo), collectYaml fs dir mk files = .ok l →
      ∀ f ∈ files, f.IsDir = false → HasSuffix f.Name ".yaml" = true →
        ∃ info, Stat fs (dir ++ [f.Name]) = .ok info
          ∧ mk (TrimSuffix f.Name ".yaml") (dir ++ [f.Name]) info.ModTime ∈ l := by
  intro files
  induction files with
  | nil => intro l _ f hf; simp at hf
  | cons f0 rest ih =>
    intro l h f hf hd hs
    simp only [collectYaml] at h
    split at h
    · rename_i hcond
      split at h
      · simp at h
      · rename_i info hinfo
        split at h
        · rename_i more hmore
          simp only [Except.ok.injEq] at h
          subst h
          rcases List.mem_cons.mp hf with heq | hmem
          · subst heq
            exact ⟨info, hinfo, List.mem_cons_self _ _⟩
          · obtain ⟨info', h1, h2⟩ := ih more hmore f hmem hd hs
            exact ⟨info', h1, List.mem_cons_of_mem _ h2⟩
        · simp at h
    · rename_i hcond
      rcases List.mem_cons.mp hf with heq | hmem
      · subst heq
        simp [hd, hs] at hcond
      · exact ih l h f hmem hd hs

theorem collectByTemplate_error_is (fs : Node) (r : RecordStore) :
    ∀ (requests : List DirEntry) (e : GoError), collectByTemplate fs r requests = .error e →
      e.Is .ErrorFailedToStatPath = true ∨ e.Is .ErrorPathIsNotDirectory = true
        ∨ e.Is .ErrorFailedToReadDirectory = true := by
  intro requests
  induction requests with
  | nil => intro e h; simp [collectByTemplate] at h
  | cons q rest ih =>
    intro e h
    simp only [collectByTemplate] at h
    split at h
    · split at h
      · simp only [Except.error.injEq] at h
        subst h
        exact Or.inl (by simp [GoError.Is])
      · split at h
        · split at h
          · simp only [Except.error.injEq] at h
            subst h
            exact Or.inr (Or.inr (by simp [GoError.Is]))
          · split at h
            · rename_i e' he'
              simp only [Except.error.injEq] at h
              subst h
              exact Or.inl (collectYaml_error_is _ _ _ _ _ he')
            · split at h
              · simp at h
              · rename_i e' he'
                simp only [Except.error.injEq] at h
                subst h
                exact ih _ he'
        · simp only [Except.error.injEq] at h
          subst h
          exact Or.inr (Or.inl (by simp [GoError.Is]))
    · exact ih e h

theorem collectByTemplate_fails (fs : Node) (r : RecordStore) (R : String)
    (hbad : ResponsesDirFails fs r.RecordStorePath R) :
    ∀ (requests : List DirEntry), (⟨R ++ ".yaml", false⟩ : DirEntry) ∈ requests →
      ∃ err, collectByTemplate fs r requests = .error err := by
  intro requests
  induction requests with
  | nil => intro h; simp at h
  | cons q rest ih =>
    intro hmem
    simp only [collectByTemplate]
    rcases List.mem_cons.mp hmem with heq | hrest
    · subst heq
      have hsuf := (hasSuffix_trimSuffix_iff (R ++ ".yaml") ".yaml" R).mpr rfl
      simp only [hsuf.1, hsuf.2, Bool.not_false, Bool.and_self, if_true]
      rcases hbad with ⟨e, he⟩ | ⟨info, hinfo, hnd⟩ | ⟨e, he⟩
      · simp only [he]; exact ⟨_, rfl⟩
      · simp only [hinfo, hnd]; exact ⟨_, rfl⟩
      · cases hst : Stat fs (r.RecordStorePath ++ ["responses", R]) with
        | error e' => exact ⟨_, rfl⟩
        | ok info =>
          simp only
          by_cases hd : info.IsDir = true
          · simp only [hd, if_true, he]; exact ⟨_, rfl⟩
          · simp only [hd]; exact ⟨_, rfl⟩
    · obtain ⟨err, herr⟩ := ih hrest
      split
      · split
        · exact ⟨_, rfl⟩
        · split
          · split
            · exact ⟨_, rfl⟩
            · split
              · exact ⟨_, rfl⟩
              · simp only [herr]; exact ⟨_, rfl⟩
          · exact ⟨_, rfl⟩
      · exact ⟨err, herr⟩

theorem collectByTemplate_complete (fs : Node) (r : RecordStore) :
    ∀ (requests : List DirEntry) (all : List FileInfo),
      collectByTemplate fs r requests = .ok all →
      ∀ (R : String), (⟨R ++ ".yaml", false⟩ : DirEntry) ∈ requests →
      ∃ items, ReadDir fs (r.RecordStorePath ++ ["responses", R]) = .ok items
        ∧ ∀ id : String, (⟨id ++ ".yaml", false⟩ : DirEntry) ∈ items →
          ∃ fi ∈ all, fi.RequestHash = R ∧ fi.TemplateHash = r.TemplateHash
            ∧ fi.ResponseID = id
            ∧ fi.FilePath = r.RecordStorePath ++ ["responses", R] ++ [id ++ ".yaml"] := by
  intro requests
  induction requests with
  | nil => intro all _ R h; simp at h
  | cons q rest ih =>
    intro all h R hmem
    simp only [collectByTemplate] at h
    split at h
    · rename_i hcond
      split at h
      · simp at h
      · rename_i info hinfo
        split at h
        · split at h
          · simp at h
          · rename_i items hitems
            split at h
            · simp at h
            · rename_i here hhere
              split at h
              · rename_i more hmore
                simp only [Except.ok.injEq] at h
                subst h
                rcases List.mem_cons.mp hmem with heq | hrest
                · subst heq
                  have hsuf := (hasSuffix_trimSuffix_iff (R ++ ".yaml") ".yaml" R).mpr rfl
                  simp only [hsuf.2] at hitems hhere
                  refine ⟨items, hitems, ?_⟩
                  intro id hid
                  have hsufid := (hasSuffix_trimSuffix_iff (id ++ ".yaml") ".yaml" id).mpr rfl
                  obtain ⟨info', _, hin⟩ := collectYaml_complete _ _ _ _ _ hhere _ hid rfl
                    hsufid.1
                  simp only [hsufid.2] at hin
                  exact ⟨_, List.mem_append_left _ hin, rfl, rfl, rfl, rfl⟩
                · obtain ⟨items', h1, h2⟩ := ih more hmore R hrest
                  refine ⟨items', h1, ?_⟩
                  intro id hid
                  obtain ⟨fi, hfi, h3⟩ := h2 id hid
                  exact ⟨fi, List.mem_append_right _ hfi, h3⟩
              · simp at h
        · simp at h
    · rename_i hcond
      rcases List.mem_cons.mp hmem with heq | hrest
      · subst heq
        have hsuf := (hasSuffix_trimSuffix_iff (R ++ ".yaml") ".yaml" R).mpr rfl
        simp [hsuf.1] at hcond
      · exact ih all h R hrest

theorem GetSortedResponsesByTemplateHash_of_ReadDir (r : RecordStore) (fs : Node)
    (requests : List DirEntry)
    (hdir : ReadDir fs (r.RecordStorePath ++ ["requests", r.TemplateHash]) = .ok requests) :
    (∀ e, collectByTemplate fs r requests = .error e →
        r.GetSortedResponsesByTemplateHash fs = .error e)
    ∧ (∀ all, collectByTemplate fs r requests = .ok all →
        r.GetSortedResponsesByTemplateHash fs = .ok (sortFilesByTimeInPlace all)) := by
  have hst := ReadDir_ok_Stat fs _ requests hdir
  constructor
  · intro e he
    simp [RecordStore.GetSortedResponsesByTemplateHash, hst, hdir, he]
  · intro all hall
    simp [RecordStore.GetSortedResponsesByTemplateHash, hst, hdir, hall]

theorem GetSortedResponsesByTemplateHash_error_is (r : RecordStore) (fs : Node) (err : GoError)
    (h : r.GetSortedResponsesByTemplateHash fs = .error err) :
    err.Is .ErrorFailedToStatPath = true ∨ err.Is .ErrorPathIsNotDirectory = true
      ∨ err.Is .ErrorFailedToReadDirectory = true := by
  unfold RecordStore.GetSortedResponsesByTemplateHash at h
  simp only at h
  split at h
  · simp only [Except.error.injEq] at h
    subst h
    exact Or.inl (by simp [GoError.Is])
  · split at h
    · split at h
      · simp only [Except.error.injEq] at h
        subst h
        exact Or.inr (Or.inr (by simp [GoError.Is]))
      · split at h
        · rename_i e he
          simp only [Except.error.injEq] at h
          subst h
          exact collectByTemplate_error_is _ _ _ _ he
        · simp at h
    · simp only [Except.error.injEq] at h
      subst h
      exact Or.inr (Or.inl (by simp [GoError.Is]))

/-- C23: `GetSortedResponsesByTemplateHash` for the template hash `T` below the
store root `root`. Every error it returns `errors.Is` one of
`ErrorFailedToStatPath`, `ErrorPathIsNotDirectory`, `ErrorFailedToReadDirectory`
and comes with no list, and the history listing returns that same error. If
for some request file `<R>.yaml` listed under `requests/<T>/` the directory
`responses/<R>` is missing, is not a directory or cannot be read, the call
returns an error. And when it returns a list, the list holds the entry of
every `<id>.yaml` of `responses/<R>`, for every request file `<R>.yaml`
under `requests/<T>/`. -/
theorem GetSortedResponsesByTemplateHash_all_or_nothing (Y : YamlLib) (root : Path) (T : String)
    (fs : Node) (limit : Nat) :
    (∀ err, RecordStore.GetSortedResponsesByTemplateHash
          { RecordStorePath := root, TemplateHash := T } fs = .error err →
        (err.Is .ErrorFailedToStatPath = true ∨ err.Is .ErrorPathIsNotDirectory = true
          ∨ err.Is .ErrorFailedToReadDirectory = true)
        ∧ HistoryStore.GetSortedResponsesByTemplateHash Y { RecordStorePath := root } fs T limit
            = .error err)
    ∧ (∀ (requests : List DirEntry) (R : String),
        ReadDir fs (root ++ ["requests", T]) = .ok requests →
        (⟨R ++ ".yaml", false⟩ : DirEntry) ∈ requests →
        ResponsesDirFails fs root R →
        ∃ err, RecordStore.GetSortedResponsesByTemplateHash
          { RecordStorePath := root, TemplateHash := T } fs = .error err)
    ∧ (∀ (files : List FileInfo) (requests : List DirEntry),
        RecordStore.GetSortedResponsesByTemplateHash
          { RecordStorePath := root, TemplateHash := T } fs = .ok files →
        ReadDir fs (root ++ ["requests", T]) = .ok requests →
        (∀ R : String, (⟨R ++ ".yaml", false⟩ : DirEntry) ∈ requests →
          ∃ items, ReadDir fs (root ++ ["responses", R]) = .ok items
            ∧ ∀ id : String, (⟨id ++ ".yaml", false⟩ : DirEntry) ∈ items →
              ∃ fi ∈ files, fi.RequestHash = R ∧ fi.TemplateHash = T ∧ fi.ResponseID = id
                ∧ fi.FilePath = root ++ ["responses", R] ++ [id ++ ".yaml"])) := by
  refine ⟨?_, ?_, ?_⟩
  · intro err herr
    refine ⟨GetSortedResponsesByTemplateHash_error_is _ fs err herr, ?_⟩
    unfold HistoryStore.GetSortedResponsesByTemplateHash
    simp only [herr]
  · intro requests R hdir hmem hbad
    obtain ⟨err, herr⟩ := collectByTemplate_fails fs
      { RecordStorePath := root, TemplateHash := T } R hbad requests hmem
    exact ⟨err, (GetSortedResponsesByTemplateHash_of_ReadDir
      { RecordStorePath := root, TemplateHash := T } fs requests hdir).1 err herr⟩
  · intro files requests hok hdir R hmem
    cases hc : collectByTemplate fs { RecordStorePath := root, TemplateHash := T } requests with
    | error e =>
      rw [(GetSortedResponsesByTemplateHash_of_ReadDir
        { RecordStorePath := root, TemplateHash := T } fs requests hdir).1 e hc] at hok
      cases hok
    | ok all =>
      rw [(GetSortedResponsesByTemplateHash_of_ReadDir
        { RecordStorePath := root, TemplateHash := T } fs requests hdir).2 all hc] at hok
      simp only [Except.ok.injEq] at hok
      obtain ⟨items, h1, h2⟩ := collectByTemplate_complete fs
        { RecordStorePath := root, TemplateHash := T } requests all hc R hmem
      refine ⟨items, h1, ?_⟩
      intro id hid
      obtain ⟨fi, hfi, h3⟩ := h2 id hid
      refine ⟨fi, ?_, h3⟩
      rw [← hok]
      exact (sortSlice_perm modTimeAfter all).mem_iff.mpr hfi

/-- Witness of C23: with `responses/h2` missing the listing of template `tpl`
fails with `ErrorFailedToStatPath` although the responses of `h1` are there;
once `responses/h2` exists the listing holds the responses of both requests. -/
theorem GetSortedResponsesByTemplateHash_all_or_nothing_witness :
    (∃ err, RecordStore.GetSortedResponsesByTemplateHash
          { RecordStorePath := ["store"], TemplateHash := "tpl" } missingResponsesDirDisk
          = .error err)
    ∧ failsWith (RecordStore.GetSortedResponsesByTemplateHash
          { RecordStorePath := ["store"], TemplateHash := "tpl" } missingResponsesDirDisk)
        .ErrorFailedToStatPath = true
    ∧ ((RecordStore.GetSortedResponsesByTemplateHash
          { RecordStorePath := ["store"], TemplateHash := "tpl" } twoRequestsDisk).toOption.map
        (List.map (fun fi => (fi.RequestHash, fi.ResponseID))))
        = some [("h2", "20240115_103047_000_0002"), ("h1", "20240115_103045_000_0001")] :=
  ⟨(GetSortedResponsesByTemplateHash_all_or_nothing plainYaml ["store"] "tpl"
      missingResponsesDirDisk 0).2.1
      [⟨"h1.yaml", false⟩, ⟨"h2.yaml", false⟩] "h2" (by rfl) (by simp)
      (Or.inl ⟨.ENOENT, by rfl⟩),
    by decide, by decide⟩

/-! ## Rows of the response listings (C21, C22) -/

theorem GetResponse_of_read_error (Y : YamlLib) (rs : RecordStore) (fs : Node) (f : FileInfo)
    (e : GoError)
    (h : ReadYAMLFile Y.unmarshalResponse fs (f.responseFile rs.RecordStorePath) = .error e) :
    RecordStore.GetResponse Y
        { rs with RequestHash := f.RequestHash, ResponseID := f.ResponseID } fs
      = (some (.wrapf (.join (.sentinel .ErrorFailedToGetResponse) e) none),
          { rs with RequestHash := f.RequestHash, ResponseID := f.ResponseID }) := by
  unfold FileInfo.responseFile at h
  simp only [RecordStore.GetResponse, h]

theorem GetResponse_of_read_ok (Y : YamlLib) (rs : RecordStore) (fs : Node) (f : FileInfo)
    (res : ResponseObject)
    (h : ReadYAMLFile Y.unmarshalResponse fs (f.responseFile rs.RecordStorePath) = .ok res) :
    RecordStore.GetResponse Y
        { rs with RequestHash := f.RequestHash, ResponseID := f.ResponseID } fs
      = (none, { rs with RequestHash := f.RequestHash, ResponseID := f.ResponseID,
                         Response := some res }) := by
  unfold FileInfo.responseFile at h
  simp only [RecordStore.GetResponse, h]

/-- The row loop reads nothing of the store value but its root. -/
theorem responseRows_congr (Y : YamlLib) (fs : Node) (style : TimestampStyle) :
    ∀ (files : List FileInfo) (rs rs' : RecordStore),
      rs.RecordStorePath = rs'.RecordStorePath →
      responseRows Y fs style rs files = responseRows Y fs style rs' files := by
  intro files
  induction files with
  | nil => intro rs rs' _; simp [responseRows]
  | cons f rest ih =>
    intro rs rs' hroot
    cases hread : ReadYAMLFile Y.unmarshalResponse fs (f.responseFile rs.RecordStorePath) with
    | error e =>
      have h1 := GetResponse_of_read_error Y rs fs f e hread
      rw [hroot] at hread
      have h2 := GetResponse_of_read_error Y rs' fs f e hread
      simp only [responseRows, h1, h2]
    | ok res =>
      have h1 := GetResponse_of_read_ok Y rs fs f res hread
      rw [hroot] at hread
      have h2 := GetResponse_of_read_ok Y rs' fs f res hread
      simp only [responseRows, h1, h2]
      rw [ih { rs with RequestHash := f.RequestHash, ResponseID := f.ResponseID,
                       Response := some res }
        { rs' with RequestHash := f.RequestHash, ResponseID := f.ResponseID,
                   Response := some res } hroot]

/-- One turn of the row loop, case by case. -/
theorem responseRows_cons (Y : YamlLib) (fs : Node) (style : TimestampStyle) (rs : RecordStore)
    (f : FileInfo) (rest : List FileInfo) :
    (∀ e, ReadYAMLFile Y.unmarshalResponse fs (f.responseFile rs.RecordStorePath) = .error e →
      responseRows Y fs style rs (f :: rest)
        = .error (.wrapf (.join (.sentinel .ErrorFailedToGetResponse) e) none))
    ∧ (∀ res, ReadYAMLFile Y.unmarshalResponse fs (f.responseFile rs.RecordStorePath) = .ok res →
      (f.ResponseID.utf8ByteSize < 19 →
        responseRows Y fs style rs (f :: rest) = .panicked "slice bounds out of range")
      ∧ (19 ≤ f.ResponseID.utf8ByteSize →
          (Parse responseIDLayout ⟨f.ResponseID.data.take 19⟩ = none →
            responseRows Y fs style rs (f :: rest)
              = .error (.wrapf (.sentinel .ErrorFailedToParseTimestamp) none))
          ∧ (∀ t, Parse responseIDLayout ⟨f.ResponseID.data.take 19⟩ = some t →
            (∀ more, responseRows Y fs style rs rest = .ok more →
              responseRows Y fs style rs (f :: rest)
                = .ok (⟨f.ResponseID, statusColumn res.StatusCode, res.Timing.Total,
                        timestampColumn style t⟩ :: more))
            ∧ (∀ e, responseRows Y fs style rs rest = .error e →
              responseRows Y fs style rs (f :: rest) = .error e)
            ∧ (∀ m, responseRows Y fs style rs rest = .panicked m →
              responseRows Y fs style rs (f :: rest) = .panicked m)))) := by
  constructor
  · intro e hread
    simp only [responseRows, GetResponse_of_read_error Y rs fs f e hread]
  · intro res hread
    have hget := GetResponse_of_read_ok Y rs fs f res hread
    have hcongr := responseRows_congr Y fs style rest
      { rs with RequestHash := f.RequestHash, ResponseID := f.ResponseID, Response := some res }
      rs rfl
    constructor
    · intro hshort
      simp only [responseRows, hget, hshort, if_true]
    · intro hlong
      have hnot : ¬ f.ResponseID.utf8ByteSize < 19 := Nat.not_lt.mpr hlong
      constructor
      · intro hparse
        simp only [responseRows, hget, hnot, if_false, hparse]
      · intro t hparse
        refine ⟨?_, ?_, ?_⟩
        · intro more hmore
          simp only [responseRows, hget, hnot, if_false, hparse, hcongr, hmore]
        · intro e he
          simp only [responseRows, hget, hnot, if_false, hparse, hcongr, he]
        · intro m hm
          simp only [responseRows, hget, hnot, if_false, hparse, hcongr, hm]

/-- The rows of a row loop that returned normally: one per entry, in order. -/
theorem responseRows_rows (Y : YamlLib) (fs : Node) (style : TimestampStyle) (rs : RecordStore) :
    ∀ (files : List FileInfo) (rows : List ResponseRow),
      responseRows Y fs style rs files = .ok rows →
      List.Forall₂ (RowOf Y fs style rs.RecordStorePath) files rows := by
  intro files
  induction files with
  | nil =>
    intro rows h
    simp only [responseRows, Outcome.ok.injEq] at h
    subst h
    exact List.Forall₂.nil
  | cons f rest ih =>
    intro rows h
    obtain ⟨hE, hO⟩ := responseRows_cons Y fs style rs f rest
    cases hread : ReadYAMLFile Y.unmarshalResponse fs (f.responseFile rs.RecordStorePath) with
    | error e => rw [hE e hread] at h; cases h
    | ok res =>
      obtain ⟨hshort, hlong⟩ := hO res hread
      by_cases hsz : f.ResponseID.utf8ByteSize < 19
      · rw [hshort hsz] at h; cases h
      · obtain ⟨hnone, hsome⟩ := hlong (Nat.not_lt.mp hsz)
        cases hparse : Parse responseIDLayout ⟨f.ResponseID.data.take 19⟩ with
        | none => rw [hnone hparse] at h; cases h
        | some t =>
          obtain ⟨hok, herr, hpanic⟩ := hsome t hparse
          cases hrest : responseRows Y fs style rs rest with
          | error e => rw [herr e hrest] at h; cases h
          | panicked m => rw [hpanic m hrest] at h; cases h
          | ok more =>
            rw [hok more hrest] at h
            simp only [Outcome.ok.injEq] at h
            subst h
            exact List.Forall₂.cons ⟨res, t, hread, Nat.not_lt.mp hsz, hparse, rfl⟩
              (ih more hrest)

/-- The row loop at the first entry whose ID is not a timestamp: when the
entries before it have rows and its response can be read, the loop panics on
an ID shorter than 19 bytes and returns `ErrorFailedToParseTimestamp` on a
longer one. -/
theorem responseRows_first_bad (Y : YamlLib) (fs : Node) (style : TimestampStyle)
    (rs : RecordStore) (f : FileInfo) (post : List FileInfo) (res : ResponseObject)
    (hread : ReadYAMLFile Y.unmarshalResponse fs (f.responseFile rs.RecordStorePath) = .ok res) :
    ∀ pre : List FileInfo, (∀ g ∈ pre, ∃ row, RowOf Y fs style rs.RecordStorePath g row) →
      (f.ResponseID.utf8ByteSize < 19 →
        responseRows Y fs style rs (pre ++ f :: post) = .panicked "slice bounds out of range")
      ∧ (19 ≤ f.ResponseID.utf8ByteSize →
          Parse responseIDLayout ⟨f.ResponseID.data.take 19⟩ = none →
          responseRows Y fs style rs (pre ++ f :: post)
            = .error (.wrapf (.sentinel .ErrorFailedToParseTimestamp) none)) := by
  intro pre
  induction pre with
  | nil =>
    intro _
    obtain ⟨_, hO⟩ := responseRows_cons Y fs style rs f post
    obtain ⟨hshort, hlong⟩ := hO res hread
    exact ⟨hshort, fun h1 h2 => (hlong h1).1 h2⟩
  | cons g pre ih =>
    intro hpre
    obtain ⟨ih1, ih2⟩ := ih (fun g' hg' => hpre g' (List.mem_cons_of_mem _ hg'))
    obtain ⟨row, resg, t, hreadg, hsz, hparse, _⟩ := hpre g (List.mem_cons_self _ _)
    obtain ⟨_, hO⟩ := responseRows_cons Y fs style rs g (pre ++ f :: post)
    obtain ⟨_, herr, hpanic⟩ := ((hO resg hreadg).2 hsz).2 t hparse
    constructor
    · intro hshort
      rw [List.cons_append]
      exact hpanic _ (ih1 hshort)
    · intro hlong hnone
      rw [List.cons_append]
      exact herr _ (ih2 hlong hnone)

theorem forall2_exists_left {α β : Type} {R : α → β → Prop} {l1 : List α} {l2 : List β}
    (h : List.Forall₂ R l1 l2) : ∀ b ∈ l2, ∃ a ∈ l1, R a b := by
  induction h with
  | nil => intro b hb; simp at hb
  | cons hab _ ih =>
    intro b hb
    rcases List.mem_cons.mp hb with heq | hmem
    · subst heq
      exact ⟨_, List.mem_cons_self _ _, hab⟩
    · obtain ⟨a, ha, hr⟩ := ih b hmem
      exact ⟨a, List.mem_cons_of_mem _ ha, hr⟩

theorem Outcome.eq_ok_of_value? {α : Type} (o : Outcome α) (v : α) (h : o.value? = some v) :
    o = .ok v := by
  cases o with
  | ok a => simp only [Outcome.value?, Option.some.injEq] at h; rw [h]
  | error e => simp [Outcome.value?] at h
  | panicked m => simp [Outcome.value?] at h

/-- Each of the three response listings that returns rows has run the row
loop on a list of entries. -/
theorem listings_run_responseRows (Y : YamlLib) (h : HistoryStore) (fs : Node) (hash : String)
    (limit : Nat) (rows : List ResponseRow)
    (hrows : h.GetAllResponsesSorted Y fs limit = .ok rows
      ∨ h.GetSortedResponsesByRequestHash Y fs hash limit = .ok rows
      ∨ h.GetSortedResponsesByTemplateHash Y fs hash limit = .ok rows) :
    ∃ (style : TimestampStyle) (rs : RecordStore) (files : List FileInfo),
      rs.RecordStorePath = h.RecordStorePath ∧ responseRows Y fs style rs files = .ok rows := by
  rcases hrows with h1 | h1 | h1
  · unfold HistoryStore.GetAllResponsesSorted at h1
    simp only at h1
    split at h1
    · cases h1
    · split at h1
      · cases h1
      · rename_i limited _
        exact ⟨.formatUTC, _, limited, rfl, h1⟩
  · unfold HistoryStore.GetSortedResponsesByRequestHash at h1
    simp only at h1
    split at h1
    · cases h1
    · split at h1
      · cases h1
      · rename_i limited _
        exact ⟨.timeString, _, limited, rfl, h1⟩
  · unfold HistoryStore.GetSortedResponsesByTemplateHash at h1
    simp only at h1
    split at h1
    · cases h1
    · split at h1
      · cases h1
      · rename_i limited _
        exact ⟨.timeString, _, limited, rfl, h1⟩

set_option maxRecDepth 1000000 in
/-- C21, the code at the failing inputs. With a response stored under the ID
`short`, the three listings panic on `ResponseID[:19]` instead of returning
`ErrorFailedToParseTimestamp`. With an ID of 19 bytes or more that is not a
timestamp (`2024011X_103045_000_0001`) they return that error and no rows, as
the claim says; they return it as well for `20240115_103045_123_0001`, whose
milliseconds are not `000` (the layout reads `_000` as literal text). For
`20240115_103045_000_0001` the fourth column is the timestamp of the first
19 characters. In general, at the first listed entry that has no row, the row
loop panics when the ID is shorter than 19 bytes and returns
`ErrorFailedToParseTimestamp` when it is longer and does not parse; and every
row returned carries the timestamp parsed from the first 19 characters. -/
theorem listings_on_malformed_ResponseID :
    ((exampleHistory.GetAllResponsesSorted plainYaml (oneResponseDisk "short") 0).hasPanicked
        = true
      ∧ (exampleHistory.GetSortedResponsesByRequestHash plainYaml (oneResponseDisk "short")
          "h1" 0).hasPanicked = true
      ∧ (exampleHistory.GetSortedResponsesByTemplateHash plainYaml (oneResponseDisk "short")
          "tpl" 0).hasPanicked = true)
    ∧ (((exampleHistory.GetAllResponsesSorted plainYaml
          (oneResponseDisk "2024011X_103045_000_0001") 0).error?.map
            (fun e => e.Is .ErrorFailedToParseTimestamp)) = some true
      ∧ ((exampleHistory.GetSortedResponsesByRequestHash plainYaml
          (oneResponseDisk "2024011X_103045_000_0001") "h1" 0).error?.map
            (fun e => e.Is .ErrorFailedToParseTimestamp)) = some true
      ∧ ((exampleHistory.GetSortedResponsesByTemplateHash plainYaml
          (oneResponseDisk "2024011X_103045_000_0001") "tpl" 0).error?.map
            (fun e => e.Is .ErrorFailedToParseTimestamp)) = some true)
    ∧ ((exampleHistory.GetAllResponsesSorted plainYaml
          (oneResponseDisk "20240115_103045_123_0001") 0).error?.map
            (fun e => e.Is .ErrorFailedToParseTimestamp)) = some true
    ∧ (((exampleHistory.GetAllResponsesSorted plainYaml
          (oneResponseDisk "20240115_103045_000_0001") 0).value?.map
            (List.map ResponseRow.Timestamp)) = some ["2024-01-15 10:30:45 +0000 UTC"]
      ∧ ((exampleHistory.GetSortedResponsesByRequestHash plainYaml
          (oneResponseDisk "20240115_103045_000_0001") "h1" 0).value?.map
            (List.map ResponseRow.Timestamp)) = some ["2024-01-15 10:30:45 +0000 UTC"]
      ∧ ((exampleHistory.GetSortedResponsesByTemplateHash plainYaml
          (oneResponseDisk "20240115_103045_000_0001") "tpl" 0).value?.map
            (List.map ResponseRow.Timestamp)) = some ["2024-01-15 10:30:45 +0000 UTC"])
    ∧ (∀ (Y : YamlLib) (fs : Node) (style : TimestampStyle) (rs : RecordStore)
        (pre post : List FileInfo) (f : FileInfo) (res : ResponseObject),
        ReadYAMLFile Y.unmarshalResponse fs (f.responseFile rs.RecordStorePath) = .ok res →
        (∀ g ∈ pre, ∃ row, RowOf Y fs style rs.RecordStorePath g row) →
        (f.ResponseID.utf8ByteSize < 19 →
          responseRows Y fs style rs (pre ++ f :: post) = .panicked "slice bounds out of range")
        ∧ (19 ≤ f.ResponseID.utf8ByteSize →
            Parse responseIDLayout ⟨f.ResponseID.data.take 19⟩ = none →
            ∃ err, responseRows Y fs style rs (pre ++ f :: post) = .error err
              ∧ err.Is .ErrorFailedToParseTimestamp = true))
    ∧ (∀ (Y : YamlLib) (h : HistoryStore) (fs : Node) (hash : String) (limit : Nat)
        (rows : List ResponseRow),
        (h.GetAllResponsesSorted Y fs limit = .ok rows
          ∨ h.GetSortedResponsesByRequestHash Y fs hash limit = .ok rows
          ∨ h.GetSortedResponsesByTemplateHash Y fs hash limit = .ok rows) →
        ∀ row ∈ rows, ∃ (style : TimestampStyle) (t : Instant),
          19 ≤ row.ResponseID.utf8ByteSize
          ∧ Parse responseIDLayout ⟨row.ResponseID.data.take 19⟩ = some t
          ∧ row.Timestamp = timestampColumn style t) := by
  refine ⟨⟨by decide, by decide, by decide⟩, ⟨by decide, by decide, by decide⟩, by decide,
    ⟨by decide, by decide, by decide⟩, ?_, ?_⟩
  · intro Y fs style rs pre post f res hread hpre
    obtain ⟨h1, h2⟩ := responseRows_first_bad Y fs style rs f post res hread pre hpre
    refine ⟨h1, ?_⟩
    intro hlong hnone
    exact ⟨_, h2 hlong hnone, by simp [GoError.Is]⟩
  · intro Y h fs hash limit rows hrows row hrow
    obtain ⟨style, rs, files, _, hrun⟩ := listings_run_responseRows Y h fs hash limit rows hrows
    have hall := responseRows_rows Y fs style rs files rows hrun
    obtain ⟨f, _, res, t, _, hsz, hparse, heq⟩ := forall2_exists_left hall row hrow
    subst heq
    exact ⟨style, t, hsz, hparse, rfl⟩

/-- C22: whichever of the three response listings returned the rows, each row
stands for a listed response file, and its second column is `statusColumn s`
for the status code `s` stored in that file: the decimal rendering of `s`
followed by " ❌" when `s >= 400` and by " ✅" otherwise, a function of `s`
alone (400 gives "400 ❌", 200 gives "200 ✅"). -/
theorem listings_status_column (Y : YamlLib) (h : HistoryStore) (fs : Node) (hash : String)
    (limit : Nat) (rows : List ResponseRow)
    (hrows : h.GetAllResponsesSorted Y fs limit = .ok rows
      ∨ h.GetSortedResponsesByRequestHash Y fs hash limit = .ok rows
      ∨ h.GetSortedResponsesByTemplateHash Y fs hash limit = .ok rows) :
    (∃ files : List FileInfo, List.Forall₂ (fun f row =>
        ∃ res, ReadYAMLFile Y.unmarshalResponse fs (f.responseFile h.RecordStorePath) = .ok res
          ∧ row.ResponseID = f.ResponseID
          ∧ row.Status = statusColumn res.StatusCode) files rows)
    ∧ (∀ s : Int, statusColumn s = Itoa s ++ (if 400 ≤ s then " ❌" else " ✅"))
    ∧ statusColumn 400 = "400 ❌" ∧ statusColumn 200 = "200 ✅"
    ∧ statusColumn 399 = "399 ✅" ∧ statusColumn 1000 = "1000 ❌" := by
  refine ⟨?_, fun s => rfl, by decide, by decide, by decide, by decide⟩
  obtain ⟨style, rs, files, hroot, hrun⟩ := listings_run_responseRows Y h fs hash limit rows hrows
  have hall := responseRows_rows Y fs style rs files rows hrun
  rw [hroot] at hall
  refine ⟨files, hall.imp ?_⟩
  rintro f row ⟨res, t, hread, _, _, heq⟩
  subst heq
  exact ⟨res, hread, rfl, rfl⟩

set_option maxRecDepth 1000000 in
/-- Witness of C22: the listing of template `tpl` on a store holding a
response with status 404 and one with status 200. -/
theorem listings_status_column_witness :
    exampleHistory.GetSortedResponsesByTemplateHash plainYaml twoRequestsDisk "tpl" 0
        = .ok twoRequestsRows
    ∧ ∃ files : List FileInfo, List.Forall₂ (fun (f : FileInfo) (row : ResponseRow) =>
        ∃ res, ReadYAMLFile plainYaml.unmarshalResponse twoRequestsDisk
            (f.responseFile exampleHistory.RecordStorePath) = .ok res
          ∧ row.ResponseID = f.ResponseID
          ∧ row.Status = statusColumn res.StatusCode) files twoRequestsRows :=
  ⟨Outcome.eq_ok_of_value? _ _ (by decide),
    (listings_status_column plainYaml exampleHistory twoRequestsDisk "tpl" 0 twoRequestsRows
      (Or.inr (Or.inr (Outcome.eq_ok_of_value? _ _ (by decide))))).1⟩

/-! ## Preparing a request (C24, C25, C26, C27, C30) -/

theorem wrapInt64_of_range (n : Int) (h1 : -9223372036854775808 ≤ n)
    (h2 : n < 9223372036854775808) : wrapInt64 n = n := by
  unfold wrapInt64
  omega

theorem int64OfFloat_of_nonneg (x : ℚ) (h0 : 0 ≤ x) (h : Rat.floor x < 9223372036854775808) :
    int64OfFloat x = Rat.floor x := by
  have hfl : (0 : Int) ≤ Rat.floor x := by
    have : (0 : Int) ≤ ⌊x⌋ := Int.floor_nonneg.mpr h0
    exact this
  unfold int64OfFloat
  simp only [h0, if_true]
  have hr : -9223372036854775808 ≤ Rat.floor x := by omega
  simp [hr, h]

/-- What a successful `processBasics` leaves. -/
theorem processBasics_ok (L : GoLib) (r : RequestObject) (host : String)
    (hurl : L.ParseRequestURI r.URL = .ok host)
    (hmethod : TrimSpace (ToUpper L r.Method) ∈ validMethods) :
    r.processBasics L = (none,
      { r with
        Method := TrimSpace (ToUpper L r.Method)
        TimeoutSeconds := if (0 : ℚ) < r.TimeoutSeconds then r.TimeoutSeconds else 30
        Timeout :=
          if (0 : ℚ) < r.TimeoutSeconds then wrapInt64 (int64OfFloat r.TimeoutSeconds * Second)
          else wrapInt64 (30 * Second)
        UserAgent := if r.UserAgent = "" then "ReqCorder" else r.UserAgent
        SSLVerify := if r.SSLVerify = none then some true else r.SSLVerify }) := by
  unfold RequestObject.processBasics
  simp only [hurl, hmethod, if_true]
  by_cases ht : (0 : ℚ) < r.TimeoutSeconds <;> by_cases hu : r.UserAgent = "" <;>
    by_cases hs : r.SSLVerify = none <;> simp [ht, hu, hs]

/-- A `processBasics` that returns nil has accepted the URL and the method. -/
theorem processBasics_ok_inv (L : GoLib) (r : RequestObject)
    (h : (r.processBasics L).1 = none) :
    (∃ host, L.ParseRequestURI r.URL = .ok host)
      ∧ TrimSpace (ToUpper L r.Method) ∈ validMethods := by
  unfold RequestObject.processBasics at h
  cases hurl : L.ParseRequestURI r.URL with
  | error e => simp [hurl] at h
  | ok host =>
    refine ⟨⟨host, rfl⟩, ?_⟩
    simp only [hurl] at h
    by_contra hm
    simp [hm] at h

theorem Validate_of_processBasics (L : GoLib) (visit : List (String × String))
    (r : RequestObject) :
    (∀ err r1, r.processBasics L = (some err, r1) → r.Validate L visit = (some err, r1))
    ∧ (∀ r1, r.processBasics L = (none, r1) →
        (r.Validate L visit).1 = none
        ∧ (r.Validate L visit).2.Method = r1.Method
        ∧ (r.Validate L visit).2.Timeout = r1.Timeout
        ∧ (r.Validate L visit).2.TimeoutSeconds = r1.TimeoutSeconds) := by
  constructor
  · intro err r1 h
    simp only [RequestObject.Validate, h]
  · intro r1 h
    simp only [RequestObject.Validate, h, true_and]
    have hc : ∀ x : RequestObject, (x.processCookies L).2 = x := by
      intro x
      unfold RequestObject.processCookies
      split
      · rfl
      · split <;> rfl
    have ha : ∀ x : RequestObject, (x.processAuth L).Method = x.Method
        ∧ (x.processAuth L).Timeout = x.Timeout
        ∧ (x.processAuth L).TimeoutSeconds = x.TimeoutSeconds := by
      intro x
      unfold RequestObject.processAuth
      split
      · exact ⟨rfl, rfl, rfl⟩
      · simp only
        split <;> split <;> exact ⟨rfl, rfl, rfl⟩
    have hb : (r1.processBodyVars visit).Method = r1.Method
        ∧ (r1.processBodyVars visit).Timeout = r1.Timeout
        ∧ (r1.processBodyVars visit).TimeoutSeconds = r1.TimeoutSeconds := by
      unfold RequestObject.processBodyVars
      split <;> exact ⟨rfl, rfl, rfl⟩
    rw [hc]
    obtain ⟨a1, a2, a3⟩ := ha ((r1.processBodyVars visit).processEnvVars L)
    rw [a1, a2, a3]
    exact ⟨hb.1, hb.2.1, hb.2.2⟩

/-- C24: `processBasics`, and `Validate` with it, returns an error that
`errors.Is` `ErrorInvalidURL` when `url.ParseRequestURI` rejects the URL;
otherwise an error that `errors.Is` `ErrorInvalidMethod` (and not
`ErrorInvalidURL`) when the upper-cased, space-trimmed method is none of GET,
POST, PUT, DELETE, PATCH, HEAD, OPTIONS; in both cases the request is left
as it was. Otherwise both return nil and `Method` is the upper-cased, trimmed
value. -/
theorem processBasics_validation (L : GoLib) (visit : List (String × String))
    (r : RequestObject) :
    (∀ e, L.ParseRequestURI r.URL = .error e →
      ∃ err, r.processBasics L = (some err, r) ∧ r.Validate L visit = (some err, r)
        ∧ err.Is .ErrorInvalidURL = true)
    ∧ (∀ host, L.ParseRequestURI r.URL = .ok host →
      TrimSpace (ToUpper L r.Method) ∉ validMethods →
      ∃ err, r.processBasics L = (some err, r) ∧ r.Validate L visit = (some err, r)
        ∧ err.Is .ErrorInvalidMethod = true ∧ err.Is .ErrorInvalidURL = false)
    ∧ (∀ host, L.ParseRequestURI r.URL = .ok host →
      TrimSpace (ToUpper L r.Method) ∈ validMethods →
      (r.processBasics L).1 = none
        ∧ (r.processBasics L).2.Method = TrimSpace (ToUpper L r.Method)
        ∧ (r.Validate L visit).1 = none
        ∧ (r.Validate L visit).2.Method = TrimSpace (ToUpper L r.Method)) := by
  refine ⟨?_, ?_, ?_⟩
  · intro e he
    have hrun : r.processBasics L = (some (.join (.sentinel .ErrorInvalidURL) e), r) := by
      simp only [RequestObject.processBasics, he]
    exact ⟨_, hrun, (Validate_of_processBasics L visit r).1 _ _ hrun, by simp [GoError.Is]⟩
  · intro host hurl hm
    have hrun : r.processBasics L = (some (.wrapf (.sentinel .ErrorInvalidMethod) none), r) := by
      simp only [RequestObject.processBasics, hurl, hm, if_false]
    exact ⟨_, hrun, (Validate_of_processBasics L visit r).1 _ _ hrun, by simp [GoError.Is],
      by simp [GoError.Is]⟩
  · intro host hurl hm
    have hrun := processBasics_ok L r host hurl hm
    obtain ⟨v1, v2, _, _⟩ := (Validate_of_processBasics L visit r).2 _ hrun
    rw [hrun]
    exact ⟨rfl, rfl, v1, v2⟩

/-- Witness of C24 on the cases of the repository's test table. -/
theorem processBasics_validation_witness :
    (∃ err, RequestObject.processBasics asciiLib { Method := "GET", URL := "invalid-url" }
          = (some err, { Method := "GET", URL := "invalid-url" })
        ∧ RequestObject.Validate asciiLib [] { Method := "GET", URL := "invalid-url" }
          = (some err, { Method := "GET", URL := "invalid-url" })
        ∧ err.Is .ErrorInvalidURL = true)
    ∧ (∃ err, RequestObject.processBasics asciiLib { Method := "WOW", URL := "https://example.com" }
          = (some err, { Method := "WOW", URL := "https://example.com" })
        ∧ RequestObject.Validate asciiLib [] { Method := "WOW", URL := "https://example.com" }
          = (some err, { Method := "WOW", URL := "https://example.com" })
        ∧ err.Is .ErrorInvalidMethod = true ∧ err.Is .ErrorInvalidURL = false)
    ∧ ((RequestObject.processBasics asciiLib
          { Method := " get ", URL := "https://example.com" }).1 = none
      ∧ (RequestObject.processBasics asciiLib
          { Method := " get ", URL := "https://example.com" }).2.Method = "GET"
      ∧ (RequestObject.Validate asciiLib []
          { Method := " get ", URL := "https://example.com" }).1 = none
      ∧ (RequestObject.Validate asciiLib []
          { Method := " get ", URL := "https://example.com" }).2.Method = "GET") :=
  ⟨(processBasics_validation asciiLib [] { Method := "GET", URL := "invalid-url" }).1
      (.library "invalid URI for request") (by rfl),
   (processBasics_validation asciiLib [] { Method := "WOW", URL := "https://example.com" }).2.1
      "example.com" (by rfl) (by decide),
   (processBasics_validation asciiLib [] { Method := " get ", URL := "https://example.com" }).2.2
      "example.com" (by rfl) (by decide)⟩

theorem processBasics_timeout (L : GoLib) (r : RequestObject)
    (h : (r.processBasics L).1 = none) :
    (r.processBasics L).2.TimeoutSeconds
        = (if (0 : ℚ) < r.TimeoutSeconds then r.TimeoutSeconds else 30)
    ∧ (r.processBasics L).2.Timeout
        = (if (0 : ℚ) < r.TimeoutSeconds then wrapInt64 (int64OfFloat r.TimeoutSeconds * Second)
           else wrapInt64 (30 * Second))
    ∧ (r.processBasics L).2.UserAgent = (if r.UserAgent = "" then "ReqCorder" else r.UserAgent)
    ∧ (r.processBasics L).2.SSLVerify
        = (if r.SSLVerify = none then some true else r.SSLVerify) := by
  obtain ⟨⟨host, hurl⟩, hm⟩ := processBasics_ok_inv L r h
  rw [processBasics_ok L r host hurl hm]
  exact ⟨rfl, rfl, rfl, rfl⟩

theorem rat_floor_eq_zero (x : ℚ) (h0 : 0 < x) (h1 : x < 1) : Rat.floor x = 0 := by
  have : ⌊x⌋ = 0 := Int.floor_eq_zero_iff.mpr ⟨le_of_lt h0, h1⟩
  exact this

theorem rat_floor_bounds (x : ℚ) (b : Int) (h1 : 1 ≤ x) (h2 : x < b) :
    1 ≤ Rat.floor x ∧ Rat.floor x < b := by
  have ha : (1 : Int) ≤ ⌊x⌋ := Int.le_floor.mpr (by simpa using h1)
  have hb : ⌊x⌋ < b := Int.floor_lt.mpr h2
  exact ⟨ha, hb⟩

/-- C25, the code at the failing input: for a template with `timeout: 0.5`
`processBasics` and `Validate` return nil and leave `Timeout` at 0, which is
the "no timeout" of the HTTP client that `InitiateRequest` builds with it.
The same holds for every `TimeoutSeconds` strictly between 0 and 1: the
fraction is dropped before the multiplication by `time.Second`. From 1
second up to 9223372036 seconds the timeout is strictly positive, and so is
the default of 30 seconds taken for zero and negative values. -/
theorem processBasics_subsecond_timeout :
    ((RequestObject.processBasics asciiLib (requestWithTimeout (1 / 2))).1 = none
      ∧ (RequestObject.processBasics asciiLib (requestWithTimeout (1 / 2))).2.Timeout = 0
      ∧ (RequestObject.Validate asciiLib [] (requestWithTimeout (1 / 2))).1 = none
      ∧ (RequestObject.Validate asciiLib [] (requestWithTimeout (1 / 2))).2.Timeout = 0)
    ∧ (∀ (L : GoLib) (visit : List (String × String)) (r : RequestObject),
        (r.processBasics L).1 = none → 0 < r.TimeoutSeconds → r.TimeoutSeconds < 1 →
        (r.processBasics L).2.Timeout = 0 ∧ (r.Validate L visit).2.Timeout = 0)
    ∧ (∀ (L : GoLib) (visit : List (String × String)) (r : RequestObject),
        (r.processBasics L).1 = none → 1 ≤ r.TimeoutSeconds →
        r.TimeoutSeconds < 9223372037 →
        0 < (r.processBasics L).2.Timeout ∧ 0 < (r.Validate L visit).2.Timeout)
    ∧ (∀ (L : GoLib) (visit : List (String × String)) (r : RequestObject),
        (r.processBasics L).1 = none → r.TimeoutSeconds ≤ 0 →
        (r.processBasics L).2.Timeout = 30 * Second
          ∧ (r.Validate L visit).2.Timeout = 30 * Second) := by
  have hval : ∀ (L : GoLib) (visit : List (String × String)) (r : RequestObject),
      (r.processBasics L).1 = none →
      (r.Validate L visit).2.Timeout = (r.processBasics L).2.Timeout := by
    intro L visit r h
    have hpair : r.processBasics L = (none, (r.processBasics L).2) := by
      rw [← h]
    exact ((Validate_of_processBasics L visit r).2 _ hpair).2.2.1
  refine ⟨?_, ?_, ?_, ?_⟩
  · have h1 : (RequestObject.processBasics asciiLib (requestWithTimeout (1 / 2))).1 = none := by
      rw [processBasics_ok asciiLib (requestWithTimeout (1 / 2)) "example.com" (by rfl)
        (by decide)]
    have h2 := (processBasics_timeout asciiLib (requestWithTimeout (1 / 2)) h1).2.1
    have hts : (requestWithTimeout (1 / 2)).TimeoutSeconds = 1 / 2 := rfl
    have h3 : (RequestObject.processBasics asciiLib (requestWithTimeout (1 / 2))).2.Timeout
        = 0 := by
      rw [h2, hts]
      have hpos : (0 : ℚ) < 1 / 2 := by norm_num
      simp only [hpos, if_true]
      rw [int64OfFloat_of_nonneg (1 / 2) (by norm_num)
        (by rw [rat_floor_eq_zero (1 / 2) (by norm_num) (by norm_num)]; norm_num),
        rat_floor_eq_zero (1 / 2) (by norm_num) (by norm_num)]
      rfl
    have hpair : RequestObject.processBasics asciiLib (requestWithTimeout (1 / 2))
        = (none, (RequestObject.processBasics asciiLib (requestWithTimeout (1 / 2))).2) := by
      rw [← h1]
    refine ⟨h1, h3, ((Validate_of_processBasics asciiLib [] _).2 _ hpair).1, ?_⟩
    rw [hval asciiLib [] _ h1, h3]
  · intro L visit r h h0 h1
    have ht := (processBasics_timeout L r h).2.1
    have hz : (r.processBasics L).2.Timeout = 0 := by
      rw [ht]
      simp only [h0, if_true]
      rw [int64OfFloat_of_nonneg _ (le_of_lt h0)
        (by rw [rat_floor_eq_zero _ h0 h1]; norm_num), rat_floor_eq_zero _ h0 h1]
      rfl
    exact ⟨hz, by rw [hval L visit r h, hz]⟩
  · intro L visit r h h1 h2
    have ht := (processBasics_timeout L r h).2.1
    have h0 : (0 : ℚ) < r.TimeoutSeconds := lt_of_lt_of_le (by norm_num) h1
    obtain ⟨hf1, hf2⟩ := rat_floor_bounds r.TimeoutSeconds 9223372037 h1 (by exact_mod_cast h2)
    have hpos : 0 < (r.processBasics L).2.Timeout := by
      rw [ht]
      simp only [h0, if_true]
      rw [int64OfFloat_of_nonneg _ (le_of_lt h0) (by omega)]
      unfold Second
      rw [wrapInt64_of_range _ (by omega) (by omega)]
      omega
    exact ⟨hpos, by rw [hval L visit r h]; exact hpos⟩
  · intro L visit r h h0
    have ht := (processBasics_timeout L r h).2.1
    have hnot : ¬ (0 : ℚ) < r.TimeoutSeconds := not_lt.mpr h0
    have hd : (r.processBasics L).2.Timeout = 30 * Second := by
      rw [ht]
      simp only [hnot, if_false]
      unfold Second
      rw [wrapInt64_of_range _ (by norm_num) (by norm_num)]
    exact ⟨hd, by rw [hval L visit r h, hd]⟩

theorem rat_floor_natCast (n : Nat) : Rat.floor (n : ℚ) = n := by
  have : ⌊(n : ℚ)⌋ = (n : Int) := Int.floor_natCast n
  exact this

/-- C26, the code at the failing input: for a template with
`timeout: 10000000000` `processBasics` returns nil, keeps `TimeoutSeconds` and
leaves `Timeout` at -8446744073709551616 nanoseconds, not at 10000000000
seconds: the `int64` product with `time.Second` wraps around. For 66.6 the
timeout is 66 seconds. In general, when `processBasics` returns nil: a
positive `TimeoutSeconds` whose whole part is below 9223372037 is kept and
`Timeout` is that whole part times one second; zero and negative values give
30 and 30 seconds; `UserAgent` is `ReqCorder` when it was empty and is kept
otherwise; `SSLVerify` is true when it was unset and is kept otherwise. -/
theorem processBasics_timeout_overflow :
    ((RequestObject.processBasics asciiLib (requestWithTimeout 10000000000)).1 = none
      ∧ (RequestObject.processBasics asciiLib (requestWithTimeout 10000000000)).2.TimeoutSeconds
          = 10000000000
      ∧ (RequestObject.processBasics asciiLib (requestWithTimeout 10000000000)).2.Timeout
          = -8446744073709551616)
    ∧ ((RequestObject.processBasics asciiLib (requestWithTimeout (333 / 5))).2.TimeoutSeconds
          = 333 / 5
      ∧ (RequestObject.processBasics asciiLib (requestWithTimeout (333 / 5))).2.Timeout
          = 66 * Second)
    ∧ (∀ (L : GoLib) (r : RequestObject), (r.processBasics L).1 = none →
        (0 < r.TimeoutSeconds → Rat.floor r.TimeoutSeconds < 9223372037 →
          (r.processBasics L).2.TimeoutSeconds = r.TimeoutSeconds
          ∧ (r.processBasics L).2.Timeout = Rat.floor r.TimeoutSeconds * Second)
        ∧ (r.TimeoutSeconds ≤ 0 →
          (r.processBasics L).2.TimeoutSeconds = 30
          ∧ (r.processBasics L).2.Timeout = 30 * Second)
        ∧ (r.processBasics L).2.UserAgent
            = (if r.UserAgent = "" then "ReqCorder" else r.UserAgent)
        ∧ (r.processBasics L).2.SSLVerify
            = (if r.SSLVerify = none then some true else r.SSLVerify)) := by
  have hgen : ∀ (L : GoLib) (r : RequestObject), (r.processBasics L).1 = none →
      (0 < r.TimeoutSeconds → Rat.floor r.TimeoutSeconds < 9223372037 →
        (r.processBasics L).2.TimeoutSeconds = r.TimeoutSeconds
        ∧ (r.processBasics L).2.Timeout = Rat.floor r.TimeoutSeconds * Second)
      ∧ (r.TimeoutSeconds ≤ 0 →
        (r.processBasics L).2.TimeoutSeconds = 30
        ∧ (r.processBasics L).2.Timeout = 30 * Second)
      ∧ (r.processBasics L).2.UserAgent
          = (if r.UserAgent = "" then "ReqCorder" else r.UserAgent)
      ∧ (r.processBasics L).2.SSLVerify
          = (if r.SSLVerify = none then some true else r.SSLVerify) := by
    intro L r h
    obtain ⟨t1, t2, t3, t4⟩ := processBasics_timeout L r h
    refine ⟨?_, ?_, t3, t4⟩
    · intro h0 hfl
      have hnn : (0 : Int) ≤ Rat.floor r.TimeoutSeconds := by
        have : (0 : Int) ≤ ⌊r.TimeoutSeconds⌋ := Int.floor_nonneg.mpr (le_of_lt h0)
        exact this
      refine ⟨by rw [t1]; simp [h0], ?_⟩
      rw [t2]
      simp only [h0, if_true]
      rw [int64OfFloat_of_nonneg _ (le_of_lt h0) (by omega)]
      unfold Second
      rw [wrapInt64_of_range _ (by omega) (by omega)]
    · intro h0
      have hnot : ¬ (0 : ℚ) < r.TimeoutSeconds := not_lt.mpr h0
      refine ⟨by rw [t1]; simp [hnot], ?_⟩
      rw [t2]
      simp only [hnot, if_false]
      unfold Second
      rw [wrapInt64_of_range _ (by norm_num) (by norm_num)]
  have hok : ∀ x : ℚ, (RequestObject.processBasics asciiLib (requestWithTimeout x)).1 = none := by
    intro x
    have hm : TrimSpace (ToUpper asciiLib (requestWithTimeout x).Method) ∈ validMethods := by
      show TrimSpace (ToUpper asciiLib "GET") ∈ validMethods
      decide
    rw [processBasics_ok asciiLib (requestWithTimeout x) "example.com" (by rfl) hm]
  refine ⟨?_, ?_, hgen⟩
  · obtain ⟨t1, t2, _, _⟩ := processBasics_timeout asciiLib (requestWithTimeout 10000000000)
      (hok _)
    have hts : (requestWithTimeout 10000000000).TimeoutSeconds = 10000000000 := rfl
    have hpos : (0 : ℚ) < 10000000000 := by norm_num
    have hfl : Rat.floor (10000000000 : ℚ) = 10000000000 := by
      have := rat_floor_natCast 10000000000
      simpa using this
    refine ⟨hok _, by rw [t1, hts]; simp, ?_⟩
    rw [t2, hts]
    simp only [hpos, if_true]
    rw [int64OfFloat_of_nonneg _ (le_of_lt hpos) (by rw [hfl]; norm_num), hfl]
    unfold Second wrapInt64
    norm_num
  · have hpos : (0 : ℚ) < 333 / 5 := by norm_num
    have hfl : Rat.floor (333 / 5 : ℚ) = 66 := by
      have : ⌊(333 / 5 : ℚ)⌋ = 66 := by
        rw [Int.floor_eq_iff]
        constructor <;> norm_num
      exact this
    have hts : (requestWithTimeout (333 / 5)).TimeoutSeconds = 333 / 5 := rfl
    have := (hgen asciiLib (requestWithTimeout (333 / 5)) (hok _)).1
      (by rw [hts]; exact hpos) (by rw [hts, hfl]; norm_num)
    rw [hts, hfl] at this
    exact this

theorem hasPrefix_Bearer (a : String) : HasPrefix ("Bearer " ++ a) "Bearer" = true := by
  unfold HasPrefix
  rw [String.data_append]
  show List.isPrefixOf ['B', 'e', 'a', 'r', 'e', 'r']
    ('B' :: 'e' :: 'a' :: 'r' :: 'e' :: 'r' :: ' ' :: a.data) = true
  simp [List.isPrefixOf]

theorem hasPrefix_Basic (a : String) : HasPrefix ("Basic " ++ a) "Basic" = true := by
  unfold HasPrefix
  rw [String.data_append]
  show List.isPrefixOf ['B', 'a', 's', 'i', 'c']
    ('B' :: 'a' :: 's' :: 'i' :: 'c' :: ' ' :: a.data) = true
  simp [List.isPrefixOf]

theorem append_ne_empty (p a : String) (hp : p.data ≠ []) : p ++ a ≠ "" := by
  intro h
  have := congrArg String.data h
  rw [String.data_append] at this
  simp at this
  exact hp this.1

/-- `processAuth` when the type is bearer: the token gets the prefix unless
it begins with `bearer` or `Bearer`. -/
theorem processAuth_bearer (L : GoLib) (r : RequestObject) (he : r.Auth ≠ "")
    (hb : ToLower L r.AuthType = "bearer") :
    (HasPrefix r.Auth "bearer" = false ∧ HasPrefix r.Auth "Bearer" = false →
      r.processAuth L = { r with Auth := "Bearer " ++ r.Auth })
    ∧ (¬ (HasPrefix r.Auth "bearer" = false ∧ HasPrefix r.Auth "Bearer" = false) →
      r.processAuth L = r) := by
  have hnb : ¬ ToLower L r.AuthType = "basic" := by rw [hb]; decide
  constructor
  · intro hp
    simp [RequestObject.processAuth, he, hb, hp]
  · intro hp
    have hd : ¬ ("bearer" : String) = "basic" := by decide
    unfold RequestObject.processAuth
    simp only [he, if_false, hb, true_and, hp, hd, false_and]

/-- `processAuth` when the type is basic. -/
theorem processAuth_basic (L : GoLib) (r : RequestObject) (he : r.Auth ≠ "")
    (hb : ToLower L r.AuthType = "basic") :
    (HasPrefix r.Auth "basic" = false ∧ HasPrefix r.Auth "Basic" = false →
      r.processAuth L = { r with Auth := "Basic " ++ r.Auth })
    ∧ (¬ (HasPrefix r.Auth "basic" = false ∧ HasPrefix r.Auth "Basic" = false) →
      r.processAuth L = r) := by
  have hnb : ¬ ToLower L r.AuthType = "bearer" := by rw [hb]; decide
  constructor
  · intro hp
    simp [RequestObject.processAuth, he, hb, hp]
  · intro hp
    have hd : ¬ ("basic" : String) = "bearer" := by decide
    unfold RequestObject.processAuth
    simp only [he, if_false, hb, hd, false_and, true_and, hp]

theorem processAuth_other (L : GoLib) (r : RequestObject)
    (h1 : ¬ ToLower L r.AuthType = "bearer") (h2 : ¬ ToLower L r.AuthType = "basic") :
    r.processAuth L = r := by
  unfold RequestObject.processAuth
  by_cases he : r.Auth = ""
  · simp [he]
  · simp only [he, if_false, h1, h2, false_and]

theorem processAuth_idempotent (L : GoLib) (r : RequestObject) :
    (r.processAuth L).processAuth L = r.processAuth L := by
  by_cases he : r.Auth = ""
  · have h1 : r.processAuth L = r := by simp [RequestObject.processAuth, he]
    rw [h1, h1]
  · by_cases hb : ToLower L r.AuthType = "bearer"
    · obtain ⟨ha, hn⟩ := processAuth_bearer L r he hb
      by_cases hp : HasPrefix r.Auth "bearer" = false ∧ HasPrefix r.Auth "Bearer" = false
      · rw [ha hp]
        refine (processAuth_bearer L { r with Auth := "Bearer " ++ r.Auth }
          (append_ne_empty _ _ (by decide)) hb).2 ?_
        simp [hasPrefix_Bearer]
      · rw [hn hp, hn hp]
    · by_cases hc : ToLower L r.AuthType = "basic"
      · obtain ⟨ha, hn⟩ := processAuth_basic L r he hc
        by_cases hp : HasPrefix r.Auth "basic" = false ∧ HasPrefix r.Auth "Basic" = false
        · rw [ha hp]
          refine (processAuth_basic L { r with Auth := "Basic " ++ r.Auth }
            (append_ne_empty _ _ (by decide)) hc).2 ?_
          simp [hasPrefix_Basic]
        · rw [hn hp, hn hp]
      · rw [processAuth_other L r hb hc, processAuth_other L r hb hc]

/-- C27, the code at the failing input: with `AuthType` bearer and the token
`bearertoken`, `processAuth` leaves `Auth` at `bearertoken`, which does not
begin with the scheme word followed by a space; likewise `BasicAbc==` with
`AuthType` basic. The rest of the claim holds: a token that does not begin
with `bearer` or `Bearer` (`basic` or `Basic`) becomes `Bearer ` (`Basic `)
followed by the token, a value that begins with the scheme word is left
unchanged, and `processAuth` is idempotent. -/
theorem processAuth_prefix :
    ((RequestObject.processAuth asciiLib { AuthType := "bearer", Auth := "bearertoken" }).Auth
        = "bearertoken"
      ∧ HasPrefix "bearertoken" "bearer " = false ∧ HasPrefix "bearertoken" "Bearer " = false
      ∧ (RequestObject.processAuth asciiLib { AuthType := "Basic", Auth := "BasicAbc==" }).Auth
        = "BasicAbc==")
    ∧ ((RequestObject.processAuth asciiLib { AuthType := "bEAreR", Auth := "token" }).Auth
        = "Bearer token"
      ∧ (RequestObject.processAuth asciiLib { AuthType := "BaSiC", Auth := "token" }).Auth
        = "Basic token"
      ∧ (RequestObject.processAuth asciiLib { AuthType := "Bearer", Auth := "bearer token" }).Auth
        = "bearer token")
    ∧ (∀ (L : GoLib) (r : RequestObject), r.Auth ≠ "" → ToLower L r.AuthType = "bearer" →
        (HasPrefix r.Auth "bearer" = false ∧ HasPrefix r.Auth "Bearer" = false →
          (r.processAuth L).Auth = "Bearer " ++ r.Auth)
        ∧ (HasPrefix r.Auth "bearer" = true ∨ HasPrefix r.Auth "Bearer" = true →
          r.processAuth L = r))
    ∧ (∀ (L : GoLib) (r : RequestObject), r.Auth ≠ "" → ToLower L r.AuthType = "basic" →
        (HasPrefix r.Auth "basic" = false ∧ HasPrefix r.Auth "Basic" = false →
          (r.processAuth L).Auth = "Basic " ++ r.Auth)
        ∧ (HasPrefix r.Auth "basic" = true ∨ HasPrefix r.Auth "Basic" = true →
          r.processAuth L = r))
    ∧ (∀ (L : GoLib) (r : RequestObject),
        (r.processAuth L).processAuth L = r.processAuth L) := by
  refine ⟨⟨by decide, by decide, by decide, by decide⟩, ⟨by decide, by decide, by decide⟩,
    ?_, ?_, processAuth_idempotent⟩
  · intro L r he hb
    obtain ⟨ha, hn⟩ := processAuth_bearer L r he hb
    refine ⟨fun hp => by rw [ha hp], fun hp => hn ?_⟩
    rintro ⟨h1, h2⟩
    rcases hp with hp | hp
    · rw [h1] at hp; cases hp
    · rw [h2] at hp; cases hp
  · intro L r he hb
    obtain ⟨ha, hn⟩ := processAuth_basic L r he hb
    refine ⟨fun hp => by rw [ha hp], fun hp => hn ?_⟩
    rintro ⟨h1, h2⟩
    rcases hp with hp | hp
    · rw [h1] at hp; cases hp
    · rw [h2] at hp; cases hp

/-- C30, the code at the failing input: with the body `{{a}}` and the
variables `a = {{b}}`, `b = x`, `processBodyVars` gives the body `x` when the
map is visited `a` first and the body `{{b}}` when it is visited `b` first;
both orders are orders of the same map. The bodies agree when the body is
empty or the map has at most one entry, and on the cases of the test table. -/
theorem processBodyVars_depends_on_order :
    List.Perm [("b", "x"), ("a", "\x7b\x7bb\x7d\x7d")] nestedVarsRequest.BodyVars
    ∧ (nestedVarsRequest.processBodyVars nestedVarsRequest.BodyVars).Body = "x"
    ∧ (nestedVarsRequest.processBodyVars [("b", "x"), ("a", "\x7b\x7bb\x7d\x7d")]).Body
        = "\x7b\x7bb\x7d\x7d"
    ∧ (RequestObject.processBodyVars [("name", "Something"), ("firstName", "Wrong")]
          { Body := "\x7b\"name\": \"\x7b\x7bname\x7d\x7d\", \"firstName\": \"\x7b\x7bfirstName\x7d\x7d\"\x7d" }).Body
        = "\x7b\"name\": \"Something\", \"firstName\": \"Wrong\"\x7d"
    ∧ (∀ (visit1 visit2 : List (String × String)) (r : RequestObject), r.Body = "" →
        r.processBodyVars visit1 = r.processBodyVars visit2)
    ∧ (∀ (visit1 visit2 : List (String × String)) (r : RequestObject),
        visit1.Perm r.BodyVars → visit2.Perm r.BodyVars → r.BodyVars.length ≤ 1 →
        r.processBodyVars visit1 = r.processBodyVars visit2) := by
  refine ⟨List.Perm.swap _ _ _, by decide, by decide, by decide, ?_, ?_⟩
  · intro visit1 visit2 r hb
    simp [RequestObject.processBodyVars, hb]
  · intro visit1 visit2 r h1 h2 hlen
    have e1 : visit1 = r.BodyVars := by
      match hv : r.BodyVars, hlen with
      | [], _ => rw [hv] at h1; exact List.Perm.eq_nil h1
      | [x], _ => rw [hv] at h1; exact List.perm_singleton.mp h1
    have e2 : visit2 = r.BodyVars := by
      match hv : r.BodyVars, hlen with
      | [], _ => rw [hv] at h2; exact List.Perm.eq_nil h2
      | [x], _ => rw [hv] at h2; exact List.perm_singleton.mp h2
    rw [e1, e2]

/-! ## Running a request and leaving the process (C28, C29) -/

theorem configureClient_error_is (H : HttpLib) (fs : Node) (r : RequestObject) (verify : Bool)
    (e : GoError) (h : configureClient H fs r verify = .error e) :
    e.Is .ErrorFailedToReadCert = true := by
  unfold configureClient at h
  split at h
  · split at h
    · cases h; rfl
    · split at h
      · cases h
      · cases h; rfl
  · cases h

theorem constructHTTPRequest_error_is (H : HttpLib) (r : RequestObject) (e : GoError)
    (h : constructHTTPRequest H r = .error e) : e.Is .ErrorFailedToBuildRequest = true := by
  unfold constructHTTPRequest at h
  cases hn : H.NewRequest r.Method r.URL (if r.Body = "" then none else some r.Body) with
  | error msg =>
    simp only [hn, Except.error.injEq] at h
    rw [← h]; rfl
  | ok req => simp [hn] at h

/-- Every error of `InitiateRequest` comes with a nil response, except the
failure of `client.Do`. -/
theorem InitiateRequest_error_cases (H : HttpLib) (fs : Node) (r : RequestObject)
    (res : Option ResponseObject) (err : GoError)
    (h : InitiateRequest H fs r = .ok (res, some err)) :
    (res = none ∧ (err.Is .ErrorFailedToReadCert = true
        ∨ err.Is .ErrorFailedToBuildRequest = true
        ∨ err.Is .ErrorFailedToReadResponse = true))
    ∨ (∃ x, res = some x ∧ x.StatusCode = 1000 ∧ err.Is .ErrorRequestFailed = true) := by
  unfold InitiateRequest at h
  split at h
  · cases h
  · split at h
    · rename_i e he
      simp only [Outcome.ok.injEq, Prod.mk.injEq, Option.some.injEq] at h
      obtain ⟨h1, h2⟩ := h
      subst h1 h2
      exact Or.inl ⟨rfl, Or.inl (configureClient_error_is _ _ _ _ _ he)⟩
    · split at h
      · rename_i e he
        simp only [Outcome.ok.injEq, Prod.mk.injEq, Option.some.injEq] at h
        obtain ⟨h1, h2⟩ := h
        subst h1 h2
        exact Or.inl ⟨rfl, Or.inr (Or.inl (constructHTTPRequest_error_is _ _ _ he))⟩
      · split at h
        · simp only [Outcome.ok.injEq, Prod.mk.injEq, Option.some.injEq] at h
          obtain ⟨h1, h2⟩ := h
          subst h1 h2
          exact Or.inr ⟨_, rfl, rfl, rfl⟩
        · split at h
          · simp only [Outcome.ok.injEq, Prod.mk.injEq, Option.some.injEq] at h
            obtain ⟨h1, h2⟩ := h
            subst h1 h2
            exact Or.inl ⟨rfl, Or.inr (Or.inr rfl)⟩
          · simp at h

/-- A certificate file that cannot be read: nil response. -/
theorem InitiateRequest_of_unreadable_cert (H : HttpLib) (fs : Node) (r : RequestObject)
    (e : Errno) (hv : r.SSLVerify = some true) (hc : r.CACertPath ≠ "")
    (hr : osReadFile fs (pathOf r.CACertPath) = .error e) :
    InitiateRequest H fs r = .ok (none, some (.sentinel .ErrorFailedToReadCert)) := by
  unfold InitiateRequest
  rw [hv]
  simp [configureClient, hc, hr]

/-- A request that `http.NewRequest` refuses: nil response. -/
theorem InitiateRequest_of_refused_request (H : HttpLib) (fs : Node) (r : RequestObject)
    (verify : Bool) (client : Client) (msg : String) (hv : r.SSLVerify = some verify)
    (hc : configureClient H fs r verify = .ok client)
    (hn : H.NewRequest r.Method r.URL (if r.Body = "" then none else some r.Body) = .error msg) :
    InitiateRequest H fs r
      = .ok (none, some (.wrapf (.sentinel .ErrorFailedToBuildRequest) (some (.library msg)))) := by
  unfold InitiateRequest
  rw [hv]
  simp [hc, constructHTTPRequest, hn]

/-- A body that `io.ReadAll` fails to read: nil response. -/
theorem InitiateRequest_of_unread_body (H : HttpLib) (fs : Node) (r : RequestObject)
    (verify : Bool) (client : Client) (req : HttpRequest) (timing : ResponseTimes)
    (reply : HttpReply) (msg : String) (hv : r.SSLVerify = some verify)
    (hc : configureClient H fs r verify = .ok client)
    (hn : constructHTTPRequest H r = .ok req)
    (hd : H.Do client req = (timing, .ok reply)) (hb : reply.Body = .error msg) :
    InitiateRequest H fs r
      = .ok (none, some (.wrapf (.sentinel .ErrorFailedToReadResponse) (some (.library msg)))) := by
  unfold InitiateRequest
  rw [hv]
  simp [hc, hn, hd, hb]

/-- `Record` on a store whose `Response` is nil writes nothing and does not
return nil; it panics once the request is serialized. -/
theorem Record_of_nil_response (Y : YamlLib) (sched : Schedule) (clk : RecordClock)
    (r : RecordStore) (w : World) (h : r.Response = none) :
    (r.Record Y sched clk w).1.isOk = false
    ∧ (r.Record Y sched clk w).2.2 = w
    ∧ (∀ req b, r.Request = some req →
        Y.marshalRequest { req with TemplateHash := CalculateMD5Hash r.TemplateYaml } = .ok b →
        (r.Record Y sched clk w).1.hasPanicked = true) := by
  unfold RecordStore.Record
  refine ⟨?_, ?_, ?_⟩
  · cases hq : r.Request with
    | none => simp [Outcome.isOk]
    | some req =>
      simp only []
      cases hm : ConvertToYAML Y.marshalRequest
          { req with TemplateHash := CalculateMD5Hash r.TemplateYaml } with
      | error e => simp [Outcome.isOk]
      | ok b => simp [h, Outcome.isOk]
  · cases hq : r.Request with
    | none => simp
    | some req =>
      simp only []
      cases hm : ConvertToYAML Y.marshalRequest
          { req with TemplateHash := CalculateMD5Hash r.TemplateYaml } with
      | error e => simp
      | ok b => simp [h]
  · intro req b hq hm
    simp [hq, ConvertToYAML, hm, h, Outcome.hasPanicked]

/-- `runExec` when `InitiateRequest` returns an error with a nil response. -/
theorem runExec_of_nil_response (Y : YamlLib) (L : GoLib) (H : HttpLib)
    (visit : List (String × String)) (codes : List (Sentinel × Nat)) (sched : Schedule)
    (clk : RecordClock) (quiet : Bool) (templatePath : String) (recordStorePath : Path)
    (w : World) (req0 req : RequestObject) (templateYaml b : Bytes) (err : GoError)
    (h1 : ReadYAMLFile Y.unmarshalRequest w.fs (pathOf templatePath) = .ok req0)
    (h2 : ReadFile w.fs (pathOf templatePath) = .ok templateYaml)
    (h3 : req0.Validate L visit = (none, req))
    (h4 : InitiateRequest H w.fs req = .ok (none, some err))
    (h5 : Y.marshalRequest { req with TemplateHash := CalculateMD5Hash templateYaml } = .ok b) :
    (runExec Y L H visit codes sched clk quiet templatePath recordStorePath w).status
        = .panicked "nil pointer dereference"
    ∧ (runExec Y L H visit codes sched clk quiet templatePath recordStorePath w).world = w := by
  unfold runExec
  simp only [h1, h2, h3, h4]
  unfold RecordStore.Record
  simp [ConvertToYAML, h5]

/-- The value chosen by the loop over a map does not depend on the order of
the visit when all the keys that the error matches carry one value. -/
theorem firstMatch_of_perm {α : Type} (o1 o2 : List (Sentinel × α)) (err : GoError)
    (hp : o1.Perm o2)
    (hc : ∀ kv1 ∈ o2, ∀ kv2 ∈ o2, err.Is kv1.1 = true → err.Is kv2.1 = true → kv1.2 = kv2.2) :
    firstMatch o1 err = firstMatch o2 err := by
  unfold firstMatch
  cases h1 : o1.find? (fun kv => err.Is kv.1) with
  | none =>
    cases h2 : o2.find? (fun kv => err.Is kv.1) with
    | none => rfl
    | some b =>
      exfalso
      have hb := List.find?_some h2
      have hm := hp.mem_iff.mpr (List.mem_of_find?_eq_some h2)
      have := List.find?_eq_none.mp h1 b hm
      exact this hb
  | some a =>
    have ha := List.find?_some h1
    have hma := hp.mem_iff.mp (List.mem_of_find?_eq_some h1)
    cases h2 : o2.find? (fun kv => err.Is kv.1) with
    | none =>
      exfalso
      exact List.find?_eq_none.mp h2 a hma ha
    | some b =>
      have hb := List.find?_some h2
      have hmb := List.mem_of_find?_eq_some h2
      simp only [Option.map_some']
      rw [hc a hma b hmb ha hb]

theorem errorCodes_keys_unique :
    ∀ kv1 ∈ errorCodes, ∀ kv2 ∈ errorCodes, kv1.1 = kv2.1 → kv1.2 = kv2.2 := by
  decide

/-- C28, the code at the failing input: the template `cert.yaml` names a
certificate file that does not exist, `InitiateRequest` returns the error
`ErrorFailedToReadCert` with a nil response, `runExec` hands that nil
response to `Record`, which dereferences it: the command panics and no store
is written. The same holds for every error of `InitiateRequest` but the
failure of `client.Do`: a certificate that cannot be read or appended, a
request that cannot be built and a body that cannot be read come with a nil
response; only the failure of `client.Do` comes with a response (status 1000),
and then the trace is recorded and the command exits with the code of the
error. -/
theorem runExec_hands_nil_response_to_Record :
    (missingCertRun.status = .panicked "nil pointer dereference"
      ∧ (Stat missingCertRun.world.fs ["store"]).toOption.isNone = true)
    ∧ (refusedConnectionRun.status = .exited 3
      ∧ (ReadDir refusedConnectionRun.world.fs
          (["store", "responses", refusedConnectionRun.store.RequestHash])).toOption.map
            List.length = some 1)
    ∧ (∀ (H : HttpLib) (fs : Node) (r : RequestObject) (res : Option ResponseObject)
        (err : GoError), InitiateRequest H fs r = .ok (res, some err) →
        (res = none ∧ (err.Is .ErrorFailedToReadCert = true
            ∨ err.Is .ErrorFailedToBuildRequest = true
            ∨ err.Is .ErrorFailedToReadResponse = true))
        ∨ (∃ x, res = some x ∧ x.StatusCode = 1000 ∧ err.Is .ErrorRequestFailed = true))
    ∧ (∀ (H : HttpLib) (fs : Node) (r : RequestObject) (e : Errno),
        r.SSLVerify = some true → r.CACertPath ≠ "" →
        osReadFile fs (pathOf r.CACertPath) = .error e →
        InitiateRequest H fs r = .ok (none, some (.sentinel .ErrorFailedToReadCert)))
    ∧ (∀ (H : HttpLib) (fs : Node) (r : RequestObject) (verify : Bool) (client : Client)
        (msg : String), r.SSLVerify = some verify →
        configureClient H fs r verify = .ok client →
        H.NewRequest r.Method r.URL (if r.Body = "" then none else some r.Body) = .error msg →
        InitiateRequest H fs r
          = .ok (none, some (.wrapf (.sentinel .ErrorFailedToBuildRequest)
              (some (.library msg)))))
    ∧ (∀ (H : HttpLib) (fs : Node) (r : RequestObject) (verify : Bool) (client : Client)
        (req : HttpRequest) (timing : ResponseTimes) (reply : HttpReply) (msg : String),
        r.SSLVerify = some verify → configureClient H fs r verify = .ok client →
        constructHTTPRequest H r = .ok req → H.Do client req = (timing, .ok reply) →
        reply.Body = .error msg →
        InitiateRequest H fs r
          = .ok (none, some (.wrapf (.sentinel .ErrorFailedToReadResponse)
              (some (.library msg)))))
    ∧ (∀ (Y : YamlLib) (sched : Schedule) (clk : RecordClock) (r : RecordStore) (w : World),
        r.Response = none →
        (r.Record Y sched clk w).1.isOk = false
        ∧ (r.Record Y sched clk w).2.2 = w
        ∧ (∀ req b, r.Request = some req →
            Y.marshalRequest { req with TemplateHash := CalculateMD5Hash r.TemplateYaml }
              = .ok b →
            (r.Record Y sched clk w).1.hasPanicked = true))
    ∧ (∀ (Y : YamlLib) (L : GoLib) (H : HttpLib) (visit : List (String × String))
        (codes : List (Sentinel × Nat)) (sched : Schedule) (clk : RecordClock) (quiet : Bool)
        (templatePath : String) (recordStorePath : Path) (w : World)
        (req0 req : RequestObject) (templateYaml b : Bytes) (err : GoError),
        ReadYAMLFile Y.unmarshalRequest w.fs (pathOf templatePath) = .ok req0 →
        ReadFile w.fs (pathOf templatePath) = .ok templateYaml →
        req0.Validate L visit = (none, req) →
        InitiateRequest H w.fs req = .ok (none, some err) →
        Y.marshalRequest { req with TemplateHash := CalculateMD5Hash templateYaml } = .ok b →
        (runExec Y L H visit codes sched clk quiet templatePath recordStorePath w).status
            = .panicked "nil pointer dereference"
        ∧ (runExec Y L H visit codes sched clk quiet templatePath recordStorePath w).world
            = w) := by
  refine ⟨⟨?_, ?_⟩, ⟨?_, ?_⟩, InitiateRequest_error_cases, InitiateRequest_of_unreadable_cert,
    InitiateRequest_of_refused_request, InitiateRequest_of_unread_body,
    Record_of_nil_response, runExec_of_nil_response⟩
  · set_option maxRecDepth 1000000 in decide
  · set_option maxRecDepth 1000000 in decide
  · set_option maxRecDepth 1000000 in decide
  · set_option maxRecDepth 1000000 in decide

/-- C29, the code at the failing input: the lookup of a request whose first
file is not a YAML document returns an error that matches both
`ErrorFailedToGetRequest` (exit code 4) and `ErrorFailedToUnmarshalYAML`
(exit code 3); `printErrorAndExit` exits with 3 when the map `errorCodes` is
visited in one order and with 4 when it is visited in the reverse order, and
`formatErrorMessage` gives two different messages. The exit code is the same
for all orders whenever the keys that the error matches carry one code, which
holds for every bare sentinel. -/
theorem printErrorAndExit_depends_on_map_order :
    (errorCodes.reverse.Perm errorCodes ∧ errorMessages.reverse.Perm errorMessages)
    ∧ malformedRequestLookup.map
        (fun e => e.Is .ErrorFailedToGetRequest && e.Is .ErrorFailedToUnmarshalYAML) = some true
    ∧ (malformedRequestLookup.map (printErrorAndExit errorCodes) = some 3
      ∧ malformedRequestLookup.map (printErrorAndExit errorCodes.reverse) = some 4)
    ∧ (malformedRequestLookup.bind
          (fun e => (formatErrorMessage errorMessages e).newText?)
        = some "failed to read file contents"
      ∧ malformedRequestLookup.bind
          (fun e => (formatErrorMessage errorMessages.reverse e).newText?)
        = some "failed to get request details")
    ∧ (∀ (err : GoError) (visit1 visit2 : List (Sentinel × Nat)),
        visit1.Perm errorCodes → visit2.Perm errorCodes →
        (∀ kv1 ∈ errorCodes, ∀ kv2 ∈ errorCodes,
          err.Is kv1.1 = true → err.Is kv2.1 = true → kv1.2 = kv2.2) →
        printErrorAndExit visit1 err = printErrorAndExit visit2 err)
    ∧ (∀ (s : Sentinel) (visit1 visit2 : List (Sentinel × Nat)),
        visit1.Perm errorCodes → visit2.Perm errorCodes →
        printErrorAndExit visit1 (.sentinel s) = printErrorAndExit visit2 (.sentinel s)) := by
  have hgen : ∀ (err : GoError) (visit1 visit2 : List (Sentinel × Nat)),
      visit1.Perm errorCodes → visit2.Perm errorCodes →
      (∀ kv1 ∈ errorCodes, ∀ kv2 ∈ errorCodes,
        err.Is kv1.1 = true → err.Is kv2.1 = true → kv1.2 = kv2.2) →
      printErrorAndExit visit1 err = printErrorAndExit visit2 err := by
    intro err visit1 visit2 h1 h2 hc
    unfold printErrorAndExit
    rw [firstMatch_of_perm visit1 errorCodes err h1 hc,
      firstMatch_of_perm visit2 errorCodes err h2 hc]
  refine ⟨⟨List.reverse_perm _, List.reverse_perm _⟩, ?_, ⟨?_, ?_⟩, ⟨?_, ?_⟩, hgen, ?_⟩
  · set_option maxRecDepth 1000000 in decide
  · set_option maxRecDepth 1000000 in decide
  · set_option maxRecDepth 1000000 in decide
  · set_option maxRecDepth 1000000 in decide
  · set_option maxRecDepth 1000000 in decide
  · intro s visit1 visit2 h1 h2
    refine hgen _ _ _ h1 h2 ?_
    intro kv1 hm1 kv2 hm2 hs1 hs2
    simp only [GoError.Is, decide_eq_true_eq] at hs1 hs2
    exact errorCodes_keys_unique kv1 hm1 kv2 hm2 (hs1.symm.trans hs2)

/-! ## Recording a template twice (C4) -/

theorem collectYaml_ok_of_Stat (fs : Node) (dir : Path) (mk : String → Path → Nat → FileInfo) :
    ∀ items : List DirEntry,
      (∀ f ∈ items, ∃ info, Stat fs (dir ++ [f.Name]) = .ok info) →
      ∃ l, collectYaml fs dir mk items = .ok l := by
  intro items
  induction items with
  | nil => intro _; exact ⟨[], rfl⟩
  | cons f rest ih =>
    intro h
    obtain ⟨more, hmore⟩ := ih (fun g hg => h g (List.mem_cons_of_mem _ hg))
    obtain ⟨info, hinfo⟩ := h f (List.mem_cons_self _ _)
    simp only [collectYaml]
    split
    · simp only [hinfo, hmore]
      exact ⟨_, rfl⟩
    · exact ⟨more, hmore⟩

/-- In a directory that can be listed and below which some path resolves,
every entry can be stat-ed. -/
theorem Stat_entry_of_sibling (fs : Node) (dir : Path) (k : String) (n : Node)
    (items : List DirEntry) (hres : resolve fs (dir ++ [k]) = .ok n)
    (hread : ReadDir fs dir = .ok items) :
    ∀ f ∈ items, ∃ info, Stat fs (dir ++ [f.Name]) = .ok info := by
  obtain ⟨m, hm, hk⟩ := resolve_append dir fs [k] n hres
  unfold ReadDir at hread
  rw [hm] at hread
  cases m with
  | file pm t c => simp at hread
  | dir pm es =>
    simp only at hread
    split at hread
    · have hitems := (Except.ok.inj hread).symm
      subst hitems
      have hx : pm.x = true := by
        rw [resolve_dir_cons] at hk
        by_cases hx : pm.x = true
        · exact hx
        · simp [hx] at hk
      intro f hf
      obtain ⟨e, he, hfe⟩ := List.mem_map.mp hf
      subst hfe
      cases hl : lookupEntry e.1 es with
      | none =>
        exfalso
        exact (lookupEntry_eq_none_iff e.1 es).mp hl (List.mem_map.mpr ⟨e, he, rfl⟩)
      | some c =>
        refine ⟨c.info, ?_⟩
        unfold Stat
        rw [resolve_append_of_ok dir [e.1] fs _ hm, resolve_dir_cons]
        simp [hx, hl, resolve]
    · simp at hread

/-- `GetSortedTemplates` returns a list when `templates/` can be listed and
some path below it resolves, and `ErrorFailedToReadDirectory` when
`templates/` cannot be listed. -/
theorem GetSortedTemplates_of_ReadDir (r : RecordStore) (fs : Node) :
    (∀ (k : String) (n : Node) (items : List DirEntry),
      resolve fs (r.RecordStorePath ++ ["templates"] ++ [k]) = .ok n →
      ReadDir fs (r.RecordStorePath ++ ["templates"]) = .ok items →
      ∃ files, r.GetSortedTemplates fs = .ok files)
    ∧ (∀ e, ReadDir fs (r.RecordStorePath ++ ["templates"]) = .error e →
      failsWith (r.GetSortedTemplates fs) .ErrorFailedToReadDirectory = true) := by
  constructor
  · intro k n items hres hread
    obtain ⟨l, hl⟩ := collectYaml_ok_of_Stat fs (r.RecordStorePath ++ ["templates"])
      (fun hash path t => { TemplateHash := hash, FilePath := path, ModTime := t }) items
      (Stat_entry_of_sibling fs _ k n items hres hread)
    unfold RecordStore.GetSortedTemplates
    simp only [hread, hl]
    exact ⟨_, rfl⟩
  · intro e hread
    unfold RecordStore.GetSortedTemplates
    simp only [hread]
    rfl

set_option maxRecDepth 1000000 in
/-- C4, the counterexample: in a store whose `templates/` can be written and
searched but not listed, `recordTemplate` run twice with the same template
returns nil both times and leaves the template file, and so do two `Record`
calls, yet `GetSortedTemplates` then returns `ErrorFailedToReadDirectory`
and no entry. -/
theorem template_listing_fails_when_unlistable :
    ((exampleRun.2.1.recordTemplate 100 unlistableTemplatesDisk).1.isNone = true
      ∧ unlistableTemplatesTwice.1.isNone = true
      ∧ (unlistableTemplatesTwice.2.find
          (["store", "templates", exampleRun.2.1.TemplateHash ++ ".yaml"])).map Node.isDir
          = some false
      ∧ failsWith (exampleRun.2.1.GetSortedTemplates unlistableTemplatesTwice.2)
          .ErrorFailedToReadDirectory = true
      ∧ (exampleRun.2.1.GetSortedTemplates unlistableTemplatesTwice.2).toOption = none)
    ∧ ((exampleStore.Record plainYaml .templateRequestResponse exampleClock
          ⟨unlistableTemplatesDisk, 0⟩).1.isOk = true
      ∧ unlistableRecordTwice.1.isOk = true
      ∧ (unlistableRecordTwice.2.2.fs.find
          (["store", "templates", unlistableRecordTwice.2.1.TemplateHash ++ ".yaml"])).map
            Node.isDir = some false
      ∧ failsWith (unlistableRecordTwice.2.1.GetSortedTemplates unlistableRecordTwice.2.2.fs)
          .ErrorFailedToReadDirectory = true
      ∧ (unlistableRecordTwice.2.1.GetSortedTemplates unlistableRecordTwice.2.2.fs).toOption
          = none) := by
  refine ⟨⟨by decide, by decide, by decide, by decide, by decide⟩,
    ⟨by decide, by decide, by decide, by decide, by decide⟩⟩

/-- C4, amended: on a filesystem whose directories are duplicate-free, running
`recordTemplate` twice with the same hash and bytes leaves the template file
with the bytes and the time of the second write and leaves the same files as
the first run did; when `templates/` can then be listed, `GetSortedTemplates`
returns a list, with exactly one entry for the hash, and when it cannot be
listed `GetSortedTemplates` returns `ErrorFailedToReadDirectory`. The same
holds after two `Record` calls that return nil on the same template bytes in
the same store. -/
theorem template_recorded_twice (r : RecordStore) (t1 t2 : Nat) (fs : Node) (hwf : fs.WF)
    (h1 : (r.recordTemplate t1 fs).1 = none)
    (h2 : (r.recordTemplate t2 (r.recordTemplate t1 fs).2).1 = none) :
    (∃ fp, FileAt (r.recordTemplate t2 (r.recordTemplate t1 fs).2).2
        (r.RecordStorePath ++ ["templates", r.TemplateHash ++ ".yaml"]) fp t2 r.TemplateYaml)
    ∧ (∀ q, (∃ fp t c, FileAt (r.recordTemplate t2 (r.recordTemplate t1 fs).2).2 q fp t c)
        ↔ (∃ fp t c, FileAt (r.recordTemplate t1 fs).2 q fp t c))
    ∧ (∀ files, r.GetSortedTemplates (r.recordTemplate t2 (r.recordTemplate t1 fs).2).2
          = .ok files →
        files.countP (fun f => decide (f.TemplateHash = r.TemplateHash)) = 1)
    ∧ (∀ items, ReadDir (r.recordTemplate t2 (r.recordTemplate t1 fs).2).2
          (r.RecordStorePath ++ ["templates"]) = .ok items →
        ∃ files, r.GetSortedTemplates (r.recordTemplate t2 (r.recordTemplate t1 fs).2).2
            = .ok files
          ∧ files.countP (fun f => decide (f.TemplateHash = r.TemplateHash)) = 1)
    ∧ (∀ e, ReadDir (r.recordTemplate t2 (r.recordTemplate t1 fs).2).2
          (r.RecordStorePath ++ ["templates"]) = .error e →
        failsWith (r.GetSortedTemplates (r.recordTemplate t2 (r.recordTemplate t1 fs).2).2)
          .ErrorFailedToReadDirectory = true)
    ∧ (∀ (Y : YamlLib) (s1 s2 : Schedule) (clk1 clk2 : RecordClock)
        (ra rb ra' rb' : RecordStore) (w w1 w2 : World),
        w.fs.WF → ra.TemplateYaml = rb.TemplateYaml →
        ra.RecordStorePath = rb.RecordStorePath →
        ra.Record Y s1 clk1 w = (.ok (), ra', w1) →
        rb.Record Y s2 clk2 w1 = (.ok (), rb', w2) →
        ra'.TemplateHash = rb'.TemplateHash
        ∧ (∃ fp, FileAt w2.fs
            (rb'.RecordStorePath ++ ["templates", rb'.TemplateHash ++ ".yaml"]) fp
            clk2.templateTime rb'.TemplateYaml)
        ∧ (∀ rest, (∃ fp t c, FileAt w2.fs (rb'.RecordStorePath ++ "templates" :: rest) fp t c)
            ↔ (∃ fp t c, FileAt w1.fs (rb'.RecordStorePath ++ "templates" :: rest) fp t c))
        ∧ (∀ files, rb'.GetSortedTemplates w2.fs = .ok files →
            files.countP (fun f => decide (f.TemplateHash = rb'.TemplateHash)) = 1)
        ∧ (∀ items, ReadDir w2.fs (rb'.RecordStorePath ++ ["templates"]) = .ok items →
            ∃ files, rb'.GetSortedTemplates w2.fs = .ok files
              ∧ files.countP (fun f => decide (f.TemplateHash = rb'.TemplateHash)) = 1)
        ∧ (∀ e, ReadDir w2.fs (rb'.RecordStorePath ++ ["templates"]) = .error e →
            failsWith (rb'.GetSortedTemplates w2.fs) .ErrorFailedToReadDirectory = true)) := by
  have hpath : r.RecordStorePath ++ ["templates", r.TemplateHash ++ ".yaml"] = r.templatePath := by
    simp [RecordStore.templatePath]
  obtain ⟨fp1, hf1⟩ := recordTemplate_target r t1 fs h1
  obtain ⟨fp2, hf2⟩ := recordTemplate_target r t2 _ h2
  obtain ⟨fpr, hres2⟩ := recordTemplate_resolve_target r t2 _ h2
  have hwf2 := recordTemplate_WF r t2 _ (recordTemplate_WF r t1 fs hwf)
  have hone : ∀ files, r.GetSortedTemplates (r.recordTemplate t2 (r.recordTemplate t1 fs).2).2
        = .ok files →
      files.countP (fun f => decide (f.TemplateHash = r.TemplateHash)) = 1 := by
    intro files hlist
    exact GetSortedTemplates_one_entry r _ r.TemplateHash fp2 t2 _ files hwf2 hf2 hlist
  refine ⟨⟨fp2, by rw [hpath]; exact hf2⟩, ?_, hone, ?_,
    (GetSortedTemplates_of_ReadDir r _).2, ?_⟩
  · intro q
    by_cases hq : q = r.templatePath
    · subst hq
      exact ⟨fun _ => ⟨fp1, t1, _, hf1⟩, fun _ => ⟨fp2, t2, _, hf2⟩⟩
    · constructor
      · rintro ⟨fp, t, c, hfa⟩
        exact ⟨fp, t, c, (recordTemplate_frame r t2 _ q fp t c hq).mp hfa⟩
      · rintro ⟨fp, t, c, hfa⟩
        exact ⟨fp, t, c, (recordTemplate_frame r t2 _ q fp t c hq).mpr hfa⟩
  · intro items hread
    obtain ⟨files, hfiles⟩ := (GetSortedTemplates_of_ReadDir r _).1
      (r.TemplateHash ++ ".yaml") _ items hres2 hread
    exact ⟨files, hfiles, hone files hfiles⟩
  · intro Y s1 s2 clk1 clk2 ra rb ra' rb' w w1 w2 hw hyaml hroot hra hrb
    obtain ⟨_, _, _, _, _, _, hta, hha, _⟩ := Record_ok_stamps Y s1 clk1 ra ra' w w1 hra
    obtain ⟨_, _, _, _, _, _, htb, hhb, _⟩ := Record_ok_stamps Y s2 clk2 rb rb' w1 w2 hrb
    have hhash : ra'.TemplateHash = rb'.TemplateHash := by rw [hha, hhb, hta, htb, hyaml]
    have hroota : ra'.RecordStorePath = ra.RecordStorePath := by
      obtain ⟨_, _, _, _, _, _, _, _, herr, hr', _⟩ := Record_ok_shape Y s1 clk1 ra ra' w w1 hra
      obtain ⟨_, _, _, hstore, _⟩ := foldTasks_spec clk1 s1.order _ s1.order_nodup herr
      rw [← hr'] at hstore
      rw [hstore]; rfl
    have hrootb : rb'.RecordStorePath = rb.RecordStorePath := by
      obtain ⟨_, _, _, _, _, _, _, _, herr, hr', _⟩ := Record_ok_shape Y s2 clk2 rb rb' w1 w2 hrb
      obtain ⟨_, _, _, hstore, _⟩ := foldTasks_spec clk2 s2.order _ s2.order_nodup herr
      rw [← hr'] at hstore
      rw [hstore]; rfl
    have hw1 : w1.fs.WF := by
      have := Record_WF Y s1 clk1 ra w hw
      rw [hra] at this; exact this
    have hw2 : w2.fs.WF := by
      have := Record_WF Y s2 clk2 rb w1 hw1
      rw [hrb] at this; exact this
    obtain ⟨fpa, hfa⟩ := (Record_ok_files Y s1 clk1 ra ra' w w1 hra).1
    obtain ⟨fpb, hfb⟩ := (Record_ok_files Y s2 clk2 rb rb' w1 w2 hrb).1
    have hresb : ∃ n, resolve w2.fs
        (rb'.RecordStorePath ++ ["templates"] ++ [rb'.TemplateHash ++ ".yaml"]) = .ok n := by
      obtain ⟨req, res, requestYaml, responseYaml, _, _, _, _, herr, hr', hw'⟩ :=
        Record_ok_shape Y s2 clk2 rb rb' w1 w2 hrb
      obtain ⟨hall, _⟩ := foldTasks_resolve clk2 s2.order _ s2.order_nodup herr
      obtain ⟨fp, hfp⟩ := hall .template (Schedule.mem_order s2 .template)
      rw [← hr', ← hw'] at hfp
      exact ⟨_, hfp⟩
    have honeb : ∀ files, rb'.GetSortedTemplates w2.fs = .ok files →
        files.countP (fun f => decide (f.TemplateHash = rb'.TemplateHash)) = 1 := by
      intro files hlist
      refine GetSortedTemplates_one_entry rb' w2.fs rb'.TemplateHash fpb clk2.templateTime
        rb'.TemplateYaml files hw2 ?_ hlist
      simpa using hfb
    refine ⟨hhash, ⟨fpb, hfb⟩, ?_, honeb, ?_, (GetSortedTemplates_of_ReadDir rb' _).2⟩
    · intro rest
      by_cases hrest : rest = [rb'.TemplateHash ++ ".yaml"]
      · subst hrest
        have hfa' : FileAt w1.fs
            (rb'.RecordStorePath ++ ["templates", rb'.TemplateHash ++ ".yaml"]) fpa
            clk1.templateTime ra'.TemplateYaml := by
          rw [hroota, hroot, ← hrootb, hhash] at hfa
          exact hfa
        exact ⟨fun _ => ⟨fpa, _, _, hfa'⟩, fun _ => ⟨fpb, _, _, hfb⟩⟩
      · have hq : ∀ t : Task, rb'.RecordStorePath ++ "templates" :: rest ≠ taskPath rb' t := by
          intro t hEq
          cases t with
          | template =>
            simp only [taskPath, RecordStore.templatePath, List.append_assoc] at hEq
            have := List.append_cancel_left hEq
            simp at this
            exact hrest this
          | request =>
            simp only [taskPath, RecordStore.requestPath, List.append_assoc] at hEq
            have := List.append_cancel_left hEq
            simp at this
          | response =>
            simp only [taskPath, RecordStore.responsePath, List.append_assoc] at hEq
            have := List.append_cancel_left hEq
            simp at this
        constructor
        · rintro ⟨fp, t, c, hfile⟩
          exact ⟨fp, t, c, (Record_ok_frame Y s2 clk2 rb rb' w1 w2 hrb _ fp t c hq).mp hfile⟩
        · rintro ⟨fp, t, c, hfile⟩
          exact ⟨fp, t, c, (Record_ok_frame Y s2 clk2 rb rb' w1 w2 hrb _ fp t c hq).mpr hfile⟩
    · intro items hread
      obtain ⟨n, hres⟩ := hresb
      obtain ⟨files, hfiles⟩ := (GetSortedTemplates_of_ReadDir rb' _).1
        (rb'.TemplateHash ++ ".yaml") n items hres hread
      exact ⟨files, hfiles, honeb files hfiles⟩

set_option maxRecDepth 1000000 in
/-- Witness of C4: the template of the worked examples written twice on an
empty disk, at times 100 and 200; `templates/` can be listed and the listing
returns one entry. -/
theorem template_recorded_twice_witness :
    emptyDisk.WF
    ∧ (exampleRun.2.1.recordTemplate 100 emptyDisk).1 = none
    ∧ (exampleRun.2.1.recordTemplate 200 (exampleRun.2.1.recordTemplate 100 emptyDisk).2).1 = none
    ∧ (∃ fp, FileAt
        (exampleRun.2.1.recordTemplate 200 (exampleRun.2.1.recordTemplate 100 emptyDisk).2).2
        (exampleRun.2.1.RecordStorePath ++ ["templates", exampleRun.2.1.TemplateHash ++ ".yaml"])
        fp 200 exampleRun.2.1.TemplateYaml)
    ∧ (ReadDir
        (exampleRun.2.1.recordTemplate 200 (exampleRun.2.1.recordTemplate 100 emptyDisk).2).2
        (exampleRun.2.1.RecordStorePath ++ ["templates"])).toOption.isSome = true
    ∧ ((exampleRun.2.1.GetSortedTemplates
        (exampleRun.2.1.recordTemplate 200
          (exampleRun.2.1.recordTemplate 100 emptyDisk).2).2).toOption.map List.length) = some 1
    ∧ (∀ items, ReadDir
          (exampleRun.2.1.recordTemplate 200 (exampleRun.2.1.recordTemplate 100 emptyDisk).2).2
          (exampleRun.2.1.RecordStorePath ++ ["templates"]) = .ok items →
        ∃ files, exampleRun.2.1.GetSortedTemplates
            (exampleRun.2.1.recordTemplate 200 (exampleRun.2.1.recordTemplate 100 emptyDisk).2).2
            = .ok files
          ∧ files.countP (fun f => decide (f.TemplateHash = exampleRun.2.1.TemplateHash)) = 1) :=
  have h1 : (exampleRun.2.1.recordTemplate 100 emptyDisk).1 = none :=
    Option.isNone_iff_eq_none.mp (by decide)
  have h2 : (exampleRun.2.1.recordTemplate 200
      (exampleRun.2.1.recordTemplate 100 emptyDisk).2).1 = none :=
    Option.isNone_iff_eq_none.mp (by decide)
  have h := template_recorded_twice exampleRun.2.1 100 200 emptyDisk (WF_emptyDir _) h1 h2
  ⟨WF_emptyDir _, h1, h2, h.1, by decide, by decide, h.2.2.2.1⟩

/-! ## Sequences of recordResponse calls (C5) -/

theorem EnsureDir_of_resolve_below (fs : Node) (parent : Path) (name k : String) (n : Node)
    (h : resolve fs (parent ++ [name] ++ [k]) = .ok n) :
    EnsureDir fs (parent ++ [name]) = (none, fs) := by
  obtain ⟨perm, es, hdir⟩ := resolve_parent_isDir fs (parent ++ [name]) k n h
  have hstat : Stat fs (parent ++ [name]) = .ok ⟨true, 0⟩ := by
    simp [Stat, hdir, Node.info]
  unfold EnsureDir MkdirAll
  rw [List.reverse_append, List.reverse_singleton, List.singleton_append, MkdirAllRev,
    List.reverse_reverse, hstat]
  rfl

/-- Once a file stands below `responses/<RequestHash>/`, a `recordResponse`
call generates its ID from the counter, advances the counter, and leaves a
file below that directory, whether its write succeeds or not. -/
theorem recordResponse_generates (r : RecordStore) (clock : Instant) (now : Nat) (w : World)
    (k : String) (n : Node)
    (h : resolve w.fs (r.RecordStorePath ++ ["responses", r.RequestHash] ++ [k]) = .ok n) :
    (r.recordResponse clock now w).2.1.ResponseID
        = (generateResponseID clock w.globalExecutionCounter).1
    ∧ (r.recordResponse clock now w).2.2.globalExecutionCounter
        = (generateResponseID clock w.globalExecutionCounter).2
    ∧ ∃ k2 n2, resolve (r.recordResponse clock now w).2.2.fs
        (r.RecordStorePath ++ ["responses", r.RequestHash] ++ [k2]) = .ok n2 := by
  have he : EnsureDir w.fs (r.RecordStorePath ++ ["responses", r.RequestHash]) = (none, w.fs) := by
    have := EnsureDir_of_resolve_below w.fs (r.RecordStorePath ++ ["responses"]) r.RequestHash
      k n (by simpa only [List.append_assoc, List.cons_append, List.nil_append] using h)
    simpa only [List.append_assoc, List.cons_append, List.nil_append] using this
  unfold RecordStore.recordResponse
  simp only [he]
  split
  · exact ⟨rfl, rfl, k, n, h⟩
  · rename_i fs2 hw
    obtain ⟨fp, hfp, _⟩ := WriteFile_resolve_target _ fs2 _ _ _ _ hw
    exact ⟨rfl, rfl, _, _, hfp⟩

theorem recordResponseCalls_below (root : Path) (hash : String) :
    ∀ (calls : List (RecordStore × Instant × Nat)) (w : World),
      (∀ call ∈ calls, call.1.RecordStorePath = root ∧ call.1.RequestHash = hash) →
      (∃ k n, resolve w.fs (root ++ ["responses", hash] ++ [k]) = .ok n) →
      recordResponseCalls calls w
        = responseIDs (calls.map (fun call => call.2.1)) w.globalExecutionCounter := by
  intro calls
  induction calls with
  | nil => intro w _ _; rfl
  | cons call rest ih =>
    intro w hsame hbelow
    obtain ⟨hroot, hhash⟩ := hsame call (List.mem_cons_self _ _)
    obtain ⟨k, n, hk⟩ := hbelow
    rw [← hroot, ← hhash] at hk
    obtain ⟨hid, hc, k2, n2, hk2⟩ := recordResponse_generates call.1 call.2.1 call.2.2 w k n hk
    rw [hroot, hhash] at hk2
    simp only [recordResponseCalls, List.map_cons, responseIDs]
    rw [ih _ (fun c hc => hsame c (List.mem_cons_of_mem _ hc)) ⟨k2, n2, hk2⟩, hid, hc]

/-- The IDs of a sequence of `recordResponse` calls into one directory, the
first of which returns nil, are the IDs generated from the counter of the
process, call by call. -/
theorem recordResponseCalls_ids (root : Path) (hash : String)
    (call : RecordStore × Instant × Nat) (rest : List (RecordStore × Instant × Nat)) (w : World)
    (hsame : ∀ c ∈ call :: rest, c.1.RecordStorePath = root ∧ c.1.RequestHash = hash)
    (hfirst : (call.1.recordResponse call.2.1 call.2.2 w).1 = none) :
    recordResponseCalls (call :: rest) w
      = responseIDs ((call :: rest).map (fun c => c.2.1)) w.globalExecutionCounter := by
  obtain ⟨hroot, hhash⟩ := hsame call (List.mem_cons_self _ _)
  obtain ⟨_, hid, hc⟩ := recordResponse_target call.1 call.2.1 call.2.2 w hfirst
  obtain ⟨fp, hres⟩ := recordResponse_resolve_target call.1 call.2.1 call.2.2 w hfirst
  have hstore := recordResponse_store call.1 call.2.1 call.2.2 w
  have hbelow : ∃ k n, resolve (call.1.recordResponse call.2.1 call.2.2 w).2.2.fs
      (root ++ ["responses", hash] ++ [k]) = .ok n := by
    refine ⟨(call.1.recordResponse call.2.1 call.2.2 w).2.1.ResponseID ++ ".yaml",
      .file fp call.2.2 call.1.ResponseYaml, ?_⟩
    have hp : (call.1.recordResponse call.2.1 call.2.2 w).2.1.responsePath
        = root ++ ["responses", hash]
          ++ [(call.1.recordResponse call.2.1 call.2.2 w).2.1.ResponseID ++ ".yaml"] := by
      rw [hstore]
      simp only [RecordStore.responsePath, hroot, hhash]
    rw [← hp]
    exact hres
  simp only [recordResponseCalls, List.map_cons, responseIDs]
  rw [recordResponseCalls_below root hash rest _
    (fun c hc => hsame c (List.mem_cons_of_mem _ hc)) hbelow, hid, hc]

theorem generateResponseID_repeat (ta tb : Instant) (c : Nat)
    (hf : Format ta responseIDLayout = Format tb responseIDLayout)
    (hc : c + 10001 < 18446744073709551616) :
    (generateResponseID ta c).1 = (generateResponseID tb (c + 10000)).1 := by
  simp only [generateResponseID, hf]
  rw [Nat.mod_eq_of_lt (show c + 1 < 18446744073709551616 by omega),
    Nat.mod_eq_of_lt (show c + 10000 + 1 < 18446744073709551616 by omega)]
  have : (c + 10000 + 1) % 10000 = (c + 1) % 10000 := by omega
  rw [this]

theorem getElem?_cons_replicate {α : Type} (a : α) (n i : Nat) (h : i ≤ n) :
    (a :: List.replicate n a)[i]? = some a := by
  cases i with
  | zero => simp
  | succ k =>
    rw [List.getElem?_cons_succ, List.getElem?_replicate]
    simp only [ite_eq_left_iff, not_lt]
    intro hk
    omega

theorem responseIDs_length : ∀ (l : List Instant) (c : Nat), (responseIDs l c).length = l.length := by
  intro l
  induction l with
  | nil => intro c; rfl
  | cons t ts ih => intro c; simp [responseIDs, ih]

set_option maxRecDepth 1000000 in
theorem identicalCalls_ids :
    recordResponseCalls identicalCalls freshWorld
      = responseIDs (exampleClock.idClock :: List.replicate 10000 exampleClock.idClock) 0 := by
  have hfirst : (exampleRun.2.1.recordResponse exampleClock.idClock 102 freshWorld).1 = none :=
    Option.isNone_iff_eq_none.mp (by decide)
  unfold identicalCalls
  rw [recordResponseCalls_ids exampleRun.2.1.RecordStorePath exampleRun.2.1.RequestHash
    _ _ freshWorld ?_ hfirst]
  · rw [List.map_cons, List.map_replicate]
    rfl
  · intro c hc
    rcases List.mem_cons.mp hc with hc | hc
    · rw [hc]; exact ⟨rfl, rfl⟩
    · rw [List.eq_of_mem_replicate hc]; exact ⟨rfl, rfl⟩

/-- C5, the code at the failing input: the store of the worked examples is
recorded by 10001 `recordResponse` calls of one process, all at one clock
reading, on a disk that is empty at the start. The first call returns nil, the
counter `globalExecutionCounter` goes from 0 to 10001, and the first and the
last call leave the same `ResponseID`, `20240115_103045_000_0001`: the ID ends
in the counter modulo 10000. A `Record` of a process whose counter stands at
10000 likewise repeats the ID of the first `Record`. In general, in a sequence
of calls into one directory whose first call returns nil (the 64-bit counter
not wrapping), two calls 10000 apart whose clock readings format alike leave
the same ID, the later call then overwrites the file of the earlier one, and
two calls fewer than 10000 apart leave different IDs. -/
theorem recordResponse_repeats_ResponseID :
    ((exampleRun.2.1.recordResponse exampleClock.idClock 102 freshWorld).1.isNone = true
      ∧ (recordResponseCalls identicalCalls freshWorld)[0]? = some "20240115_103045_000_0001"
      ∧ (recordResponseCalls identicalCalls freshWorld)[10000]?
          = some "20240115_103045_000_0001"
      ∧ ¬ (recordResponseCalls identicalCalls freshWorld).Nodup)
    ∧ (exampleRun.1.isOk = true
      ∧ (exampleStore.Record plainYaml .templateRequestResponse exampleClock
          ⟨exampleRun.2.2.fs, 10000⟩).1.isOk = true
      ∧ (exampleStore.Record plainYaml .templateRequestResponse exampleClock
          ⟨exampleRun.2.2.fs, 10000⟩).2.1.ResponseID = exampleRun.2.1.ResponseID)
    ∧ (∀ (root : Path) (hash : String) (call : RecordStore × Instant × Nat)
        (rest : List (RecordStore × Instant × Nat)) (w : World) (i : Nat) (ta tb : Instant),
        (∀ c ∈ call :: rest, c.1.RecordStorePath = root ∧ c.1.RequestHash = hash) →
        (call.1.recordResponse call.2.1 call.2.2 w).1 = none →
        w.globalExecutionCounter + (call :: rest).length < 18446744073709551616 →
        ((call :: rest).map (fun c => c.2.1))[i]? = some ta →
        ((call :: rest).map (fun c => c.2.1))[i + 10000]? = some tb →
        Format ta responseIDLayout = Format tb responseIDLayout →
        (recordResponseCalls (call :: rest) w)[i]?
          = (recordResponseCalls (call :: rest) w)[i + 10000]?)
    ∧ (∀ (r1 r2 : RecordStore) (ta tb : Instant) (now1 now2 : Nat) (w1 w2 : World),
        r1.RecordStorePath = r2.RecordStorePath → r1.RequestHash = r2.RequestHash →
        (r1.recordResponse ta now1 w1).1 = none → (r2.recordResponse tb now2 w2).1 = none →
        Format ta responseIDLayout = Format tb responseIDLayout →
        w2.globalExecutionCounter = w1.globalExecutionCounter + 10000 →
        w1.globalExecutionCounter + 10001 < 18446744073709551616 →
        (r2.recordResponse tb now2 w2).2.1.ResponseID
            = (r1.recordResponse ta now1 w1).2.1.ResponseID
        ∧ ∃ fp, FileAt (r2.recordResponse tb now2 w2).2.2.fs
            (r1.recordResponse ta now1 w1).2.1.responsePath fp now2 r2.ResponseYaml)
    ∧ (∀ (root : Path) (hash : String) (call : RecordStore × Instant × Nat)
        (rest : List (RecordStore × Instant × Nat)) (w : World) (i j : Nat),
        (∀ c ∈ call :: rest, c.1.RecordStorePath = root ∧ c.1.RequestHash = hash) →
        (call.1.recordResponse call.2.1 call.2.2 w).1 = none →
        w.globalExecutionCounter + (call :: rest).length < 18446744073709551616 →
        i < j → j < (call :: rest).length → j < i + 10000 →
        (recordResponseCalls (call :: rest) w)[i]?
          ≠ (recordResponseCalls (call :: rest) w)[j]?) := by
  have hlen : (exampleClock.idClock :: List.replicate 10000 exampleClock.idClock).length
      = 10001 := by
    rw [List.length_cons, List.length_replicate]
  have h0 : (recordResponseCalls identicalCalls freshWorld)[0]?
      = some "20240115_103045_000_0001" := by
    rw [identicalCalls_ids, responseIDs_getElem? _ 0 0 (by rw [hlen]; decide),
      getElem?_cons_replicate _ 10000 0 (by decide)]
    simp only [Option.map_some', generateResponseID]
    set_option maxRecDepth 1000000 in decide
  have h1 : (recordResponseCalls identicalCalls freshWorld)[10000]?
      = some "20240115_103045_000_0001" := by
    rw [identicalCalls_ids, responseIDs_getElem? _ 0 10000 (by rw [hlen]; decide),
      getElem?_cons_replicate _ 10000 10000 (by decide)]
    simp only [Option.map_some', generateResponseID]
    set_option maxRecDepth 1000000 in decide
  refine ⟨⟨?_, h0, h1, ?_⟩, ⟨?_, ?_, ?_⟩, ?_, ?_, ?_⟩
  · set_option maxRecDepth 1000000 in decide
  · intro hnd
    have hl : (recordResponseCalls identicalCalls freshWorld).length = 10001 := by
      rw [identicalCalls_ids, responseIDs_length, hlen]
    have h := (List.nodup_iff_getElem?_ne_getElem?.mp hnd) 0 10000 (by decide)
      (by rw [hl]; decide)
    exact h (h0.trans h1.symm)
  · set_option maxRecDepth 1000000 in decide
  · set_option maxRecDepth 1000000 in decide
  · set_option maxRecDepth 1000000 in decide
  · intro root hash call rest w i ta tb hsame hfirst hwrap hi hj hf
    rw [recordResponseCalls_ids root hash call rest w hsame hfirst]
    have hl : ((call :: rest).map (fun c => c.2.1)).length = (call :: rest).length :=
      List.length_map _ _
    have hjlt : i + 10000 < (call :: rest).length := by
      have := List.getElem?_eq_some_iff.mp hj
      obtain ⟨hlt, _⟩ := this
      rw [hl] at hlt
      exact hlt
    rw [responseIDs_getElem? _ _ i (by rw [hl]; exact hwrap),
      responseIDs_getElem? _ _ (i + 10000) (by rw [hl]; exact hwrap), hi, hj]
    simp only [Option.map_some', Option.some.injEq]
    have hassoc : w.globalExecutionCounter + (i + 10000)
        = w.globalExecutionCounter + i + 10000 := by omega
    rw [hassoc]
    exact generateResponseID_repeat ta tb (w.globalExecutionCounter + i) hf (by omega)
  · intro r1 r2 ta tb now1 now2 w1 w2 hroot hhash hn1 hn2 hf hc hwrap
    obtain ⟨_, hid1, _⟩ := recordResponse_target r1 ta now1 w1 hn1
    obtain ⟨⟨fp, hfile⟩, hid2, _⟩ := recordResponse_target r2 tb now2 w2 hn2
    have hid : (r2.recordResponse tb now2 w2).2.1.ResponseID
        = (r1.recordResponse ta now1 w1).2.1.ResponseID := by
      rw [hid1, hid2, hc]
      exact (generateResponseID_repeat ta tb _ hf hwrap).symm
    refine ⟨hid, fp, ?_⟩
    have hp : (r1.recordResponse ta now1 w1).2.1.responsePath
        = (r2.recordResponse tb now2 w2).2.1.responsePath := by
      rw [recordResponse_store r1 ta now1 w1, recordResponse_store r2 tb now2 w2]
      simp only [RecordStore.responsePath, hroot, hhash, hid]
    rw [hp]
    exact hfile
  · intro root hash call rest w i j hsame hfirst hwrap hij hj hwindow
    rw [recordResponseCalls_ids root hash call rest w hsame hfirst]
    have hl : ((call :: rest).map (fun c => c.2.1)).length = (call :: rest).length :=
      List.length_map _ _
    rw [responseIDs_getElem? _ _ i (by rw [hl]; exact hwrap),
      responseIDs_getElem? _ _ j (by rw [hl]; exact hwrap)]
    have hi' : i < ((call :: rest).map (fun c => c.2.1)).length := by rw [hl]; omega
    have hj' : j < ((call :: rest).map (fun c => c.2.1)).length := by rw [hl]; omega
    rw [List.getElem?_eq_getElem hi', List.getElem?_eq_getElem hj']
    simp only [Option.map_some', ne_eq, Option.some.injEq]
    apply generateResponseID_ne
    rw [Nat.mod_eq_of_lt (show w.globalExecutionCounter + i + 1 < 18446744073709551616 by omega),
      Nat.mod_eq_of_lt (show w.globalExecutionCounter + j + 1 < 18446744073709551616 by omega)]
    omega

end ReqCorder
